import Mathlib

/-!
# Selection-and-fill engine and normalisation pipeline

A shallow embedding of

* the configuration loops of `AliAnalysisTaskStrangenessVsMultiplicityRun2::UserExec`
  (V0 and cascade candidates), and
* `AliBasedNdetaTask::ProjectX`, `Rebin`, `Symmetrice` and `Terminate`.

Conventions of the embedding.

* `Float_t` and `Double_t` values are exact rationals: rounding is not modelled and the
  attributes of a candidate and the thresholds of a configuration are finite numbers.
  Where the source divides, the quotient is an `FVal`, which also has the two infinities
  and NaN, and comparisons follow IEEE (every comparison with NaN is false).  Zero has no
  sign: a positive number divided by zero is `+∞`.
* `Int_t` values are integers.  The event counters of `Terminate` are combined with
  32-bit wrap-around (`wrapInt_t`), which is what the compiled code does where C++ leaves
  signed overflow undefined; bin numbers, loop variables and track counts are
  mathematical integers.
* Functions of `TMath` and enumerators declared in headers outside the sources are the
  fields of `Ext`.
* A ROOT histogram is represented by what its accessors return; a `TH3F` accumulator by
  the sequence of `Fill` calls it has received.
-/

namespace AliPhysics

/-! ## Floating-point quotients -/

/-- Value of a floating-point expression that may leave the finite numbers. -/
inductive FVal where
  | fin (q : ℚ)
  | posInf
  | negInf
  | nan
  deriving DecidableEq, Repr

namespace FVal

/-- IEEE quotient of two finite numbers (unsigned zero). -/
def fdiv (a b : ℚ) : FVal :=
  if b = 0 then
    (if a = 0 then nan else if 0 < a then posInf else negInf)
  else fin (a / b)

/-- Sign of a finite number as an integer in `{-1, 0, 1}`. -/
def sgn (q : ℚ) : Int := if 0 < q then 1 else if q < 0 then -1 else 0

/-- An infinity of the given sign; sign `0` gives NaN (as in `∞ * 0`). -/
def infOfSign (s : Int) : FVal := if 0 < s then posInf else if s < 0 then negInf else nan

/-- IEEE product. -/
def mul : FVal → FVal → FVal
  | nan, _ => nan
  | _, nan => nan
  | fin a, fin b => fin (a * b)
  | fin a, posInf => infOfSign (sgn a)
  | fin a, negInf => infOfSign (- sgn a)
  | posInf, fin b => infOfSign (sgn b)
  | negInf, fin b => infOfSign (- sgn b)
  | posInf, posInf => posInf
  | negInf, negInf => posInf
  | posInf, negInf => negInf
  | negInf, posInf => negInf

/-- IEEE quotient. -/
def div : FVal → FVal → FVal
  | nan, _ => nan
  | _, nan => nan
  | fin a, fin b => fdiv a b
  | fin _, posInf => fin 0
  | fin _, negInf => fin 0
  | posInf, fin b => if 0 ≤ b then posInf else negInf
  | negInf, fin b => if 0 ≤ b then negInf else posInf
  | posInf, posInf => nan
  | negInf, negInf => nan
  | posInf, negInf => nan
  | negInf, posInf => nan

/-- Absolute value, `TMath::Abs`. -/
def abs : FVal → FVal
  | fin q => fin |q|
  | posInf => posInf
  | negInf => posInf
  | nan => nan

/-- IEEE `a < b`. -/
def lt : FVal → FVal → Bool
  | fin a, fin b => decide (a < b)
  | fin _, posInf => true
  | negInf, fin _ => true
  | negInf, posInf => true
  | _, _ => false

/-- The finite value, if there is one. -/
def toRat? : FVal → Option ℚ
  | fin q => some q
  | _ => none

end FVal

/-! ## External collaborators -/

/-- Library functions and enumerators that the sources use but do not define. -/
structure Ext where
  /-- Cosine, `TMath::Cos`. -/
  Cos : ℚ → ℚ
  /-- Exponential, `TMath::Exp`. -/
  Exp : ℚ → ℚ
  /-- Square root, `TMath::Sqrt`. -/
  Sqrt : ℚ → ℚ
  /-- Arc tangent, `TMath::ATan`; its argument in the sources is a quotient. -/
  ATan : FVal → ℚ
  /-- Status bit mask `AliESDtrack::kITSrefit`. -/
  kITSrefit : Nat
  /-- Bin of the trigger histogram, enumerator `AliBasedNdetaTask::kAll`. -/
  kAll : Int
  /-- Bin of the trigger histogram, enumerator `AliBasedNdetaTask::kB`. -/
  kB : Int
  /-- Bin of the trigger histogram, enumerator `AliBasedNdetaTask::kA`. -/
  kA : Int
  /-- Bin of the trigger histogram, enumerator `AliBasedNdetaTask::kC`. -/
  kC : Int
  /-- Bin of the trigger histogram, enumerator `AliBasedNdetaTask::kE`. -/
  kE : Int
  /-- Bin of the trigger histogram, enumerator `AliBasedNdetaTask::kMB`. -/
  kMB : Int
  /-- Bin of the trigger histogram, enumerator `AliBasedNdetaTask::kWithTrigger`. -/
  kWithTrigger : Int
  /-- Bin of the trigger histogram, enumerator `AliBasedNdetaTask::kWithVertex`. -/
  kWithVertex : Int
  /-- Bin of the trigger histogram, enumerator `AliBasedNdetaTask::kAccepted`. -/
  kAccepted : Int
  /-- Default value of the parameter `error` of `AliBasedNdetaTask::ProjectX`, given in
  the class declaration. -/
  projectXError : Bool
  /-- Text for a trigger mask, `AliAODForwardMult::GetTriggerString`. -/
  GetTriggerString : Nat → String

/-- Accumulator `TH3F`: the `Fill (x, y, z)` calls received, oldest first. -/
structure TH3F where
  fills : List (ℚ × ℚ × ℚ)
  deriving DecidableEq, Repr

/-- Method `TH3F::Fill (x, y, z)`. -/
def TH3F.Fill (h : TH3F) (x y z : ℚ) : TH3F := { fills := h.fills ++ [(x, y, z)] }

/-- The loop `for (i = 0; i < n; i++)` over a `TList` whose body acts on the entry
`At (i)` alone: entry `i` is replaced by its state after the body. -/
def forEntries {α : Type} (body : α → α) (n : Nat) (list : List α) : List α :=
  (List.range n).foldl
    (fun lst i =>
      match lst[i]? with
      | some a => lst.set i (body a)
      | none => lst)
    list

/-- The five-parameter curve `p0 * Exp (p1 * pt) + p2 * Exp (p3 * pt) + p4`. -/
def varCurve (E : Ext) (p0 p1 p2 p3 p4 pt : ℚ) : ℚ :=
  p0 * E.Exp (p1 * pt) + p2 * E.Exp (p3 * pt) + p4

/-! ## V0 candidates and configurations -/

namespace V0

/-- Mass hypotheses of `AliV0Result`. -/
inductive EMassHypo where
  | kK0Short
  | kLambda
  | kAntiLambda
  deriving DecidableEq, Repr

/-- Cut values of an `AliV0Result`, named by its getters, and its histogram. -/
structure AliV0Result where
  GetMassHypothesis : EMassHypo
  GetUseOnTheFly : Bool
  GetCutMinEtaTracks : ℚ
  GetCutMaxEtaTracks : ℚ
  GetCutMinRapidity : ℚ
  GetCutMaxRapidity : ℚ
  GetCutV0Radius : ℚ
  GetCutMaxV0Radius : ℚ
  GetCutDCANegToPV : ℚ
  GetCutDCAPosToPV : ℚ
  GetCutDCAV0Daughters : ℚ
  GetCutV0CosPA : ℚ
  GetCutUseVarV0CosPA : Bool
  GetCutVarV0CosPAExp0Const : ℚ
  GetCutVarV0CosPAExp0Slope : ℚ
  GetCutVarV0CosPAExp1Const : ℚ
  GetCutVarV0CosPAExp1Slope : ℚ
  GetCutVarV0CosPAConst : ℚ
  GetCutProperLifetime : ℚ
  GetCutLeastNumberOfCrossedRows : ℚ
  GetCutLeastNumberOfCrossedRowsOverFindable : ℚ
  GetCutMinBaryonMomentum : ℚ
  GetCutTPCdEdx : ℚ
  GetCutArmenteros : Bool
  GetCutArmenterosParameter : ℚ
  GetCutUseITSRefitTracks : Bool
  GetCutMaxChi2PerCluster : ℚ
  GetCutMinTrackLength : ℚ
  GetCut276TeVLikedEdx : Bool
  GetHistogram : TH3F

/-- Attributes of one V0 candidate as `UserExec` holds them when it enters the
configuration loop. -/
structure Candidate where
  fCentrality : ℚ
  lOnFlyStatus : Int
  fTreeVariablePt : ℚ
  fTreeVariableInvMassK0s : ℚ
  fTreeVariableInvMassLambda : ℚ
  fTreeVariableInvMassAntiLambda : ℚ
  fTreeVariableRapK0Short : ℚ
  fTreeVariableRapLambda : ℚ
  fTreeVariableNegEta : ℚ
  fTreeVariablePosEta : ℚ
  fTreeVariableV0Radius : ℚ
  fTreeVariableDcaNegToPrimVertex : ℚ
  fTreeVariableDcaPosToPrimVertex : ℚ
  fTreeVariableDcaV0Daughters : ℚ
  fTreeVariableV0CosineOfPointingAngle : ℚ
  fTreeVariableDistOverTotMom : ℚ
  fTreeVariableLeastNbrCrossedRows : Int
  fTreeVariableLeastRatioCrossedRowsOverFindable : ℚ
  fTreeVariableNSigmasNegPion : ℚ
  fTreeVariableNSigmasPosPion : ℚ
  fTreeVariableNSigmasNegProton : ℚ
  fTreeVariableNSigmasPosProton : ℚ
  fTreeVariablePosInnerP : ℚ
  fTreeVariableNegInnerP : ℚ
  lThisPosInnerPt : ℚ
  lThisNegInnerPt : ℚ
  fTreeVariablePtArmV0 : ℚ
  fTreeVariableAlphaV0 : ℚ
  fTreeVariableNegTrackStatus : Nat
  fTreeVariablePosTrackStatus : Nat
  fTreeVariableMaxChi2PerCluster : ℚ
  fTreeVariableMinTrackLength : ℚ

/-- Local variables of one turn of the configuration loop that depend on the mass
hypothesis. -/
structure Locals where
  lMass : ℚ
  lRap : ℚ
  lPDGMass : ℚ
  lNegdEdx : ℚ
  lPosdEdx : ℚ
  lBaryonMomentum : ℚ
  lBaryonPt : ℚ
  lBaryondEdxFromProton : ℚ

/-- Initial values of the locals (source lines 1580-1587). -/
def initLocals : Locals :=
  { lMass := 0, lRap := 0, lPDGMass := -1, lNegdEdx := 100, lPosdEdx := 100,
    lBaryonMomentum := -1/2, lBaryonPt := -1/2, lBaryondEdxFromProton := 0 }

/-- The three `if ( GetMassHypothesis() == ... )` blocks, in source order. -/
def setLocals (c : Candidate) (r : AliV0Result) : Locals :=
  let l0 := initLocals
  let l1 := if r.GetMassHypothesis = EMassHypo.kK0Short then
      { l0 with lMass := c.fTreeVariableInvMassK0s, lRap := c.fTreeVariableRapK0Short,
                lPDGMass := 497/1000, lNegdEdx := c.fTreeVariableNSigmasNegPion,
                lPosdEdx := c.fTreeVariableNSigmasPosPion }
    else l0
  let l2 := if r.GetMassHypothesis = EMassHypo.kLambda then
      { l1 with lMass := c.fTreeVariableInvMassLambda, lRap := c.fTreeVariableRapLambda,
                lPDGMass := 1115683/1000000, lNegdEdx := c.fTreeVariableNSigmasNegPion,
                lPosdEdx := c.fTreeVariableNSigmasPosProton,
                lBaryonMomentum := c.fTreeVariablePosInnerP,
                lBaryonPt := c.lThisPosInnerPt,
                lBaryondEdxFromProton := c.fTreeVariableNSigmasPosProton }
    else l1
  if r.GetMassHypothesis = EMassHypo.kAntiLambda then
      { l2 with lMass := c.fTreeVariableInvMassAntiLambda, lRap := c.fTreeVariableRapLambda,
                lPDGMass := 1115683/1000000, lNegdEdx := c.fTreeVariableNSigmasNegProton,
                lPosdEdx := c.fTreeVariableNSigmasPosPion,
                lBaryonMomentum := c.fTreeVariableNegInnerP,
                lBaryonPt := c.lThisNegInnerPt,
                lBaryondEdxFromProton := c.fTreeVariableNSigmasNegProton }
    else l2

/-- Parametric V0 cosine of pointing angle `lVarV0CosPA` (source lines 1598-1601). -/
def lVarV0CosPA (E : Ext) (c : Candidate) (r : AliV0Result) : ℚ :=
  E.Cos (varCurve E r.GetCutVarV0CosPAExp0Const r.GetCutVarV0CosPAExp0Slope
    r.GetCutVarV0CosPAExp1Const r.GetCutVarV0CosPAExp1Slope r.GetCutVarV0CosPAConst
    c.fTreeVariablePt)

/-- Effective threshold `lV0CosPACut` after source lines 1591-1605. -/
def lV0CosPACut (E : Ext) (c : Candidate) (r : AliV0Result) : ℚ :=
  let cut := r.GetCutV0CosPA
  if r.GetCutUseVarV0CosPA then
    (if lVarV0CosPA E c r > cut then lVarV0CosPA E c r else cut)
  else cut

/-- Bit test `status & AliESDtrack::kITSrefit`, used as a condition. -/
def hasITSrefit (E : Ext) (status : Nat) : Bool := (status &&& E.kITSrefit) != 0

/-- Check 1: Offline Vertexer. -/
def check1 (c : Candidate) (r : AliV0Result) : Bool :=
  decide (c.lOnFlyStatus = (if r.GetUseOnTheFly then 1 else 0))

/-- Check 2: Basic Acceptance cuts. -/
def check2 (c : Candidate) (r : AliV0Result) (l : Locals) : Bool :=
  decide (r.GetCutMinEtaTracks < c.fTreeVariableNegEta) &&
  decide (c.fTreeVariableNegEta < r.GetCutMaxEtaTracks) &&
  decide (r.GetCutMinEtaTracks < c.fTreeVariablePosEta) &&
  decide (c.fTreeVariablePosEta < r.GetCutMaxEtaTracks) &&
  decide (l.lRap > r.GetCutMinRapidity) &&
  decide (l.lRap < r.GetCutMaxRapidity)

/-- Check 3: Topological Variables; `cosPACut` is the effective `lV0CosPACut`. -/
def check3 (c : Candidate) (r : AliV0Result) (l : Locals) (cosPACut : ℚ) : Bool :=
  decide (c.fTreeVariableV0Radius > r.GetCutV0Radius) &&
  decide (c.fTreeVariableV0Radius < r.GetCutMaxV0Radius) &&
  decide (c.fTreeVariableDcaNegToPrimVertex > r.GetCutDCANegToPV) &&
  decide (c.fTreeVariableDcaPosToPrimVertex > r.GetCutDCAPosToPV) &&
  decide (c.fTreeVariableDcaV0Daughters < r.GetCutDCAV0Daughters) &&
  decide (c.fTreeVariableV0CosineOfPointingAngle > cosPACut) &&
  decide (c.fTreeVariableDistOverTotMom * l.lPDGMass < r.GetCutProperLifetime) &&
  decide ((c.fTreeVariableLeastNbrCrossedRows : ℚ) > r.GetCutLeastNumberOfCrossedRows) &&
  decide (c.fTreeVariableLeastRatioCrossedRowsOverFindable >
    r.GetCutLeastNumberOfCrossedRowsOverFindable)

/-- Check 4: Minimum momentum of baryon daughter. -/
def check4 (r : AliV0Result) (l : Locals) : Bool :=
  decide (r.GetMassHypothesis = EMassHypo.kK0Short) ||
  decide (l.lBaryonMomentum > r.GetCutMinBaryonMomentum)

/-- Check 5: TPC dEdx selections. -/
def check5 (r : AliV0Result) (l : Locals) : Bool :=
  decide (|l.lNegdEdx| < r.GetCutTPCdEdx) && decide (|l.lPosdEdx| < r.GetCutTPCdEdx)

/-- Check 6: Armenteros-Podolanski space cut (for K0Short analysis). -/
def check6 (c : Candidate) (r : AliV0Result) : Bool :=
  ((r.GetCutArmenteros == false) || decide (r.GetMassHypothesis ≠ EMassHypo.kK0Short)) ||
  decide (c.fTreeVariablePtArmV0 > r.GetCutArmenterosParameter * |c.fTreeVariableAlphaV0|)

/-- Check 7: kITSrefit track selection if requested. -/
def check7 (E : Ext) (c : Candidate) (r : AliV0Result) : Bool :=
  (hasITSrefit E c.fTreeVariableNegTrackStatus && hasITSrefit E c.fTreeVariablePosTrackStatus) ||
  !r.GetCutUseITSRefitTracks

/-- Check 8: Max Chi2/Clusters if not absurd. -/
def check8 (c : Candidate) (r : AliV0Result) : Bool :=
  decide (r.GetCutMaxChi2PerCluster > 1000) ||
  decide (c.fTreeVariableMaxChi2PerCluster < r.GetCutMaxChi2PerCluster)

/-- Check 9: Min Track Length if positive. -/
def check9 (c : Candidate) (r : AliV0Result) : Bool :=
  decide (r.GetCutMinTrackLength < 0) ||
  decide (c.fTreeVariableMinTrackLength > r.GetCutMinTrackLength)

/-- Check 10: Special 2.76TeV-like dedx. -/
def check10 (r : AliV0Result) (l : Locals) : Bool :=
  !r.GetCut276TeVLikedEdx ||
  (decide (r.GetMassHypothesis = EMassHypo.kK0Short) ||
    (decide (l.lBaryonPt > 1) || decide (|l.lBaryondEdxFromProton| < 3)))

/-- The condition of the `if` at source lines 1636-1691. -/
def passes (E : Ext) (c : Candidate) (r : AliV0Result) : Bool :=
  let l := setLocals c r
  check1 c r && check2 c r l && check3 c r l (lV0CosPACut E c r) && check4 r l &&
  check5 r l && check6 c r && check7 E c r && check8 c r && check9 c r && check10 r l

/-- One turn of the configuration loop (source lines 1577-1695) for the configuration
`lV0Result`: the configuration afterwards. -/
def loopBody (E : Ext) (c : Candidate) (lV0Result : AliV0Result) : AliV0Result :=
  let histoout := lV0Result.GetHistogram
  if passes E c lV0Result then
    { lV0Result with
      GetHistogram := histoout.Fill c.fCentrality c.fTreeVariablePt (setLocals c lV0Result).lMass }
  else lV0Result

/-- The configuration loop `for(lcfg=0; lcfg<lNumberOfConfigurations; lcfg++)` over
`fListV0` (source lines 1572-1696): the list afterwards. -/
def configurationLoop (E : Ext) (c : Candidate) (fListV0 : List AliV0Result) :
    List AliV0Result :=
  let lNumberOfConfigurations := fListV0.length
  forEntries (fun lV0Result => loopBody E c lV0Result) lNumberOfConfigurations fListV0

/-! ### The selection in the words of the specification -/

namespace Spec

/-- Invariant mass of the candidate under a hypothesis. -/
def mass (c : Candidate) : EMassHypo → ℚ
  | .kK0Short => c.fTreeVariableInvMassK0s
  | .kLambda => c.fTreeVariableInvMassLambda
  | .kAntiLambda => c.fTreeVariableInvMassAntiLambda

/-- Rapidity of the candidate under a hypothesis. -/
def rapidity (c : Candidate) : EMassHypo → ℚ
  | .kK0Short => c.fTreeVariableRapK0Short
  | .kLambda => c.fTreeVariableRapLambda
  | .kAntiLambda => c.fTreeVariableRapLambda

/-- PDG mass of a hypothesis. -/
def pdgMass : EMassHypo → ℚ
  | .kK0Short => 497/1000
  | .kLambda => 1115683/1000000
  | .kAntiLambda => 1115683/1000000

/-- TPC sigma of the negative daughter under the species the hypothesis expects. -/
def negSigma (c : Candidate) : EMassHypo → ℚ
  | .kK0Short => c.fTreeVariableNSigmasNegPion
  | .kLambda => c.fTreeVariableNSigmasNegPion
  | .kAntiLambda => c.fTreeVariableNSigmasNegProton

/-- TPC sigma of the positive daughter under the species the hypothesis expects. -/
def posSigma (c : Candidate) : EMassHypo → ℚ
  | .kK0Short => c.fTreeVariableNSigmasPosPion
  | .kLambda => c.fTreeVariableNSigmasPosProton
  | .kAntiLambda => c.fTreeVariableNSigmasPosPion

/-- Inner momentum, inner transverse momentum and proton sigma of the baryon daughter of
a Lambda (positive daughter) or AntiLambda (negative daughter). -/
def baryon (c : Candidate) (anti : Bool) : ℚ × ℚ × ℚ :=
  if anti then (c.fTreeVariableNegInnerP, c.lThisNegInnerPt, c.fTreeVariableNSigmasNegProton)
  else (c.fTreeVariablePosInnerP, c.lThisPosInnerPt, c.fTreeVariableNSigmasPosProton)

/-- On-the-fly status match. -/
def onTheFlyMatch (c : Candidate) (r : AliV0Result) : Prop :=
  c.lOnFlyStatus = (if r.GetUseOnTheFly then 1 else 0)

/-- Daughter eta window. -/
def etaWindow (c : Candidate) (r : AliV0Result) : Prop :=
  (r.GetCutMinEtaTracks < c.fTreeVariableNegEta ∧ c.fTreeVariableNegEta < r.GetCutMaxEtaTracks) ∧
  (r.GetCutMinEtaTracks < c.fTreeVariablePosEta ∧ c.fTreeVariablePosEta < r.GetCutMaxEtaTracks)

/-- Rapidity window. -/
def rapidityWindow (c : Candidate) (r : AliV0Result) : Prop :=
  r.GetCutMinRapidity < rapidity c r.GetMassHypothesis ∧
  rapidity c r.GetMassHypothesis < r.GetCutMaxRapidity

/-- V0 radius window. -/
def radiusWindow (c : Candidate) (r : AliV0Result) : Prop :=
  r.GetCutV0Radius < c.fTreeVariableV0Radius ∧ c.fTreeVariableV0Radius < r.GetCutMaxV0Radius

/-- Daughter DCAs to the primary vertex. -/
def daughterDCAToPV (c : Candidate) (r : AliV0Result) : Prop :=
  r.GetCutDCANegToPV < c.fTreeVariableDcaNegToPrimVertex ∧
  r.GetCutDCAPosToPV < c.fTreeVariableDcaPosToPrimVertex

/-- Daughter-pair DCA. -/
def daughterPairDCA (c : Candidate) (r : AliV0Result) : Prop :=
  c.fTreeVariableDcaV0Daughters < r.GetCutDCAV0Daughters

/-- Pointing angle against the constant threshold. -/
def pointingAngle (c : Candidate) (r : AliV0Result) : Prop :=
  r.GetCutV0CosPA < c.fTreeVariableV0CosineOfPointingAngle

/-- Proper lifetime times PDG mass. -/
def properLifetime (c : Candidate) (r : AliV0Result) : Prop :=
  c.fTreeVariableDistOverTotMom * pdgMass r.GetMassHypothesis < r.GetCutProperLifetime

/-- Crossed-rows counters. -/
def crossedRows (c : Candidate) (r : AliV0Result) : Prop :=
  r.GetCutLeastNumberOfCrossedRows < (c.fTreeVariableLeastNbrCrossedRows : ℚ) ∧
  r.GetCutLeastNumberOfCrossedRowsOverFindable < c.fTreeVariableLeastRatioCrossedRowsOverFindable

/-- Baryon-daughter momentum (Lambda and AntiLambda only). -/
def baryonMomentum (c : Candidate) (r : AliV0Result) : Prop :=
  match r.GetMassHypothesis with
  | .kK0Short => True
  | .kLambda => r.GetCutMinBaryonMomentum < (baryon c false).1
  | .kAntiLambda => r.GetCutMinBaryonMomentum < (baryon c true).1

/-- TPC dE/dx sigmas of both daughters. -/
def tpcSigmas (c : Candidate) (r : AliV0Result) : Prop :=
  |negSigma c r.GetMassHypothesis| < r.GetCutTPCdEdx ∧
  |posSigma c r.GetMassHypothesis| < r.GetCutTPCdEdx

/-- Armenteros cut (K0Short with the cut switched on only). -/
def armenteros (c : Candidate) (r : AliV0Result) : Prop :=
  (r.GetCutArmenteros = true ∧ r.GetMassHypothesis = .kK0Short) →
    r.GetCutArmenterosParameter * |c.fTreeVariableAlphaV0| < c.fTreeVariablePtArmV0

/-- ITS refit of both daughters, if requested. -/
def itsRefit (E : Ext) (c : Candidate) (r : AliV0Result) : Prop :=
  r.GetCutUseITSRefitTracks = true →
    (c.fTreeVariableNegTrackStatus &&& E.kITSrefit ≠ 0 ∧
     c.fTreeVariablePosTrackStatus &&& E.kITSrefit ≠ 0)

/-- Chi2 per cluster, unless the threshold is above 1000. -/
def chi2PerCluster (c : Candidate) (r : AliV0Result) : Prop :=
  ¬ (1000 < r.GetCutMaxChi2PerCluster) →
    c.fTreeVariableMaxChi2PerCluster < r.GetCutMaxChi2PerCluster

/-- Track length, unless the threshold is negative. -/
def trackLength (c : Candidate) (r : AliV0Result) : Prop :=
  ¬ (r.GetCutMinTrackLength < 0) → r.GetCutMinTrackLength < c.fTreeVariableMinTrackLength

/-- The 2.76 TeV-like dE/dx cut (Lambda and AntiLambda with the cut switched on only). -/
def dEdx276TeV (c : Candidate) (r : AliV0Result) : Prop :=
  r.GetCut276TeVLikedEdx = true →
    match r.GetMassHypothesis with
    | .kK0Short => True
    | .kLambda => 1 < (baryon c false).2.1 ∨ |(baryon c false).2.2| < 3
    | .kAntiLambda => 1 < (baryon c true).2.1 ∨ |(baryon c true).2.2| < 3

/-- Every sub-condition of the V0 selection with constant cuts. -/
def allSubConditions (E : Ext) (c : Candidate) (r : AliV0Result) : Prop :=
  onTheFlyMatch c r ∧ etaWindow c r ∧ rapidityWindow c r ∧ radiusWindow c r ∧
  daughterDCAToPV c r ∧ daughterPairDCA c r ∧ pointingAngle c r ∧ properLifetime c r ∧
  crossedRows c r ∧ baryonMomentum c r ∧ tpcSigmas c r ∧ armenteros c r ∧ itsRefit E c r ∧
  chi2PerCluster c r ∧ trackLength c r ∧ dEdx276TeV c r

end Spec

end V0


/-! ## Cascade candidates and configurations -/

namespace Cascade

/-- Mass hypotheses of `AliCascadeResult`. -/
inductive EMassHypo where
  | kXiMinus
  | kXiPlus
  | kOmegaMinus
  | kOmegaPlus
  deriving DecidableEq, Repr

/-- Cut values of an `AliCascadeResult`, named by its getters, and its histogram. -/
structure AliCascadeResult where
  GetMassHypothesis : EMassHypo
  GetSwapBachelorCharge : Bool
  GetCutMinEtaTracks : ℚ
  GetCutMaxEtaTracks : ℚ
  GetCutMinRapidity : ℚ
  GetCutMaxRapidity : ℚ
  GetCutDCANegToPV : ℚ
  GetCutDCAPosToPV : ℚ
  GetCutDCAV0Daughters : ℚ
  GetCutV0CosPA : ℚ
  GetCutUseVarV0CosPA : Bool
  GetCutVarV0CosPAExp0Const : ℚ
  GetCutVarV0CosPAExp0Slope : ℚ
  GetCutVarV0CosPAExp1Const : ℚ
  GetCutVarV0CosPAExp1Slope : ℚ
  GetCutVarV0CosPAConst : ℚ
  GetCutV0Radius : ℚ
  GetCutDCAV0ToPV : ℚ
  GetCutV0Mass : ℚ
  GetCutV0MassSigma : ℚ
  GetCutDCABachToPV : ℚ
  GetCutDCACascDaughters : ℚ
  GetCutUseVarDCACascDau : Bool
  GetCutVarDCACascDauExp0Const : ℚ
  GetCutVarDCACascDauExp0Slope : ℚ
  GetCutVarDCACascDauExp1Const : ℚ
  GetCutVarDCACascDauExp1Slope : ℚ
  GetCutVarDCACascDauConst : ℚ
  GetCutCascCosPA : ℚ
  GetCutUseVarCascCosPA : Bool
  GetCutVarCascCosPAExp0Const : ℚ
  GetCutVarCascCosPAExp0Slope : ℚ
  GetCutVarCascCosPAExp1Const : ℚ
  GetCutVarCascCosPAExp1Slope : ℚ
  GetCutVarCascCosPAConst : ℚ
  GetCutCascRadius : ℚ
  GetCutProperLifetime : ℚ
  GetCutLeastNumberOfClusters : ℚ
  GetCutTPCdEdx : ℚ
  GetCutUseTOFUnchecked : Bool
  GetCutXiRejection : ℚ
  GetCutDCABachToBaryon : ℚ
  GetCutBachBaryonCosPA : ℚ
  GetCutUseVarBBCosPA : Bool
  GetCutVarBBCosPAExp0Const : ℚ
  GetCutVarBBCosPAExp0Slope : ℚ
  GetCutVarBBCosPAExp1Const : ℚ
  GetCutVarBBCosPAExp1Slope : ℚ
  GetCutVarBBCosPAConst : ℚ
  GetCutMinV0Lifetime : ℚ
  GetCutMaxV0Lifetime : ℚ
  GetCutUseITSRefitTracks : Bool
  GetCutMaxChi2PerCluster : ℚ
  GetCutMinTrackLength : ℚ
  GetCutUse276TeVV0CosPA : Bool
  GetCutDCACascadeToPV : ℚ
  GetCutDCANegToPVWeighted : ℚ
  GetCutDCAPosToPVWeighted : ℚ
  GetCutDCABachToPVWeighted : ℚ
  GetHistogram : TH3F

/-- Attributes of one cascade candidate as `UserExec` holds them when it enters the
configuration loop, with the task members `fLambdaMassMean` and `fLambdaMassSigma`. -/
structure Candidate where
  fCentrality : ℚ
  fLambdaMassMean : Nat → ℚ
  fLambdaMassSigma : Nat → ℚ
  lV0Pt : ℚ
  lV0TotMomentum : ℚ
  fTreeCascVarCharge : Int
  fTreeCascVarPt : ℚ
  fTreeCascVarMassAsXi : ℚ
  fTreeCascVarMassAsOmega : ℚ
  fTreeCascVarV0MassLambda : ℚ
  fTreeCascVarV0MassAntiLambda : ℚ
  fTreeCascVarRapXi : ℚ
  fTreeCascVarRapOmega : ℚ
  fTreeCascVarPosEta : ℚ
  fTreeCascVarNegEta : ℚ
  fTreeCascVarBachEta : ℚ
  fTreeCascVarNegNSigmaPion : ℚ
  fTreeCascVarNegNSigmaProton : ℚ
  fTreeCascVarPosNSigmaPion : ℚ
  fTreeCascVarPosNSigmaProton : ℚ
  fTreeCascVarBachNSigmaPion : ℚ
  fTreeCascVarBachNSigmaKaon : ℚ
  fTreeCascVarNegTOFNSigmaPion : ℚ
  fTreeCascVarNegTOFNSigmaProton : ℚ
  fTreeCascVarPosTOFNSigmaPion : ℚ
  fTreeCascVarPosTOFNSigmaProton : ℚ
  fTreeCascVarBachTOFNSigmaPion : ℚ
  fTreeCascVarBachTOFNSigmaKaon : ℚ
  fTreeCascVarDCANegToPrimVtx : ℚ
  fTreeCascVarDCAPosToPrimVtx : ℚ
  fTreeCascVarDCAV0Daughters : ℚ
  fTreeCascVarV0CosPointingAngle : ℚ
  fTreeCascVarV0Radius : ℚ
  fTreeCascVarDCAV0ToPrimVtx : ℚ
  fTreeCascVarDCABachToPrimVtx : ℚ
  fTreeCascVarDCACascDaughters : ℚ
  fTreeCascVarCascCosPointingAngle : ℚ
  fTreeCascVarCascRadius : ℚ
  fTreeCascVarDistOverTotMom : ℚ
  fTreeCascVarLeastNbrClusters : Int
  fTreeCascVarDCABachToBaryon : ℚ
  fTreeCascVarWrongCosPA : ℚ
  fTreeCascVarV0Lifetime : ℚ
  fTreeCascVarPosTrackStatus : Nat
  fTreeCascVarNegTrackStatus : Nat
  fTreeCascVarBachTrackStatus : Nat
  fTreeCascVarMaxChi2PerCluster : ℚ
  fTreeCascVarMinTrackLength : ℚ
  fTreeCascVarCascDCAtoPVz : ℚ
  fTreeCascVarCascDCAtoPVxy : ℚ
  fTreeCascVarNegDCAPVSigmaX2 : ℚ
  fTreeCascVarNegDCAPVSigmaY2 : ℚ
  fTreeCascVarPosDCAPVSigmaX2 : ℚ
  fTreeCascVarPosDCAPVSigmaY2 : ℚ
  fTreeCascVarBachDCAPVSigmaX2 : ℚ
  fTreeCascVarBachDCAPVSigmaY2 : ℚ

/-- Local variables of one turn of the configuration loop that depend on the mass
hypothesis.  The proton momentum components `lprpx`, `lprpy`, `lprpz` and the pion ones
are assigned in the source but not read by the selection; they are left out. -/
structure Locals where
  lMass : ℚ
  lV0Mass : ℚ
  lRap : ℚ
  lPDGMass : ℚ
  lNegdEdx : ℚ
  lPosdEdx : ℚ
  lBachdEdx : ℚ
  lNegTOFsigma : ℚ
  lPosTOFsigma : ℚ
  lBachTOFsigma : ℚ
  lCharge : Int

/-- Initial values of the locals (source lines 2420-2432). -/
def initLocals : Locals :=
  { lMass := 0, lV0Mass := 0, lRap := 0, lPDGMass := -1, lNegdEdx := 100, lPosdEdx := 100,
    lBachdEdx := 100, lNegTOFsigma := 100, lPosTOFsigma := 100, lBachTOFsigma := 100,
    lCharge := -2 }

/-- The statement `lCharge = q; if ( GetSwapBachelorCharge() ) lCharge *= -1;`. -/
def chargeOf (r : AliCascadeResult) (q : Int) : Int :=
  if r.GetSwapBachelorCharge then q * (-1) else q

/-- The four `if ( GetMassHypothesis() == ... )` blocks and the `GetCutUseTOFUnchecked`
block, in source order (lines 2538-2612). -/
def setLocals (c : Candidate) (r : AliCascadeResult) : Locals :=
  let l0 := initLocals
  let l1 := if r.GetMassHypothesis = EMassHypo.kXiMinus then
      { l0 with lCharge := chargeOf r (-1), lMass := c.fTreeCascVarMassAsXi,
                lV0Mass := c.fTreeCascVarV0MassLambda, lRap := c.fTreeCascVarRapXi,
                lPDGMass := 132171/100000, lNegdEdx := c.fTreeCascVarNegNSigmaPion,
                lPosdEdx := c.fTreeCascVarPosNSigmaProton,
                lBachdEdx := c.fTreeCascVarBachNSigmaPion,
                lNegTOFsigma := c.fTreeCascVarNegTOFNSigmaPion,
                lPosTOFsigma := c.fTreeCascVarPosTOFNSigmaProton,
                lBachTOFsigma := c.fTreeCascVarBachTOFNSigmaPion }
    else l0
  let l2 := if r.GetMassHypothesis = EMassHypo.kXiPlus then
      { l1 with lCharge := chargeOf r 1, lMass := c.fTreeCascVarMassAsXi,
                lV0Mass := c.fTreeCascVarV0MassAntiLambda, lRap := c.fTreeCascVarRapXi,
                lPDGMass := 132171/100000, lNegdEdx := c.fTreeCascVarNegNSigmaProton,
                lPosdEdx := c.fTreeCascVarPosNSigmaPion,
                lBachdEdx := c.fTreeCascVarBachNSigmaPion,
                lNegTOFsigma := c.fTreeCascVarNegTOFNSigmaProton,
                lPosTOFsigma := c.fTreeCascVarPosTOFNSigmaPion,
                lBachTOFsigma := c.fTreeCascVarBachTOFNSigmaPion }
    else l1
  let l3 := if r.GetMassHypothesis = EMassHypo.kOmegaMinus then
      { l2 with lCharge := chargeOf r (-1), lMass := c.fTreeCascVarMassAsOmega,
                lV0Mass := c.fTreeCascVarV0MassLambda, lRap := c.fTreeCascVarRapOmega,
                lPDGMass := 167245/100000, lNegdEdx := c.fTreeCascVarNegNSigmaPion,
                lPosdEdx := c.fTreeCascVarPosNSigmaProton,
                lBachdEdx := c.fTreeCascVarBachNSigmaKaon,
                lNegTOFsigma := c.fTreeCascVarNegTOFNSigmaPion,
                lPosTOFsigma := c.fTreeCascVarPosTOFNSigmaProton,
                lBachTOFsigma := c.fTreeCascVarBachTOFNSigmaKaon }
    else l2
  let l4 := if r.GetMassHypothesis = EMassHypo.kOmegaPlus then
      { l3 with lCharge := chargeOf r 1, lMass := c.fTreeCascVarMassAsOmega,
                lV0Mass := c.fTreeCascVarV0MassAntiLambda, lRap := c.fTreeCascVarRapOmega,
                lPDGMass := 167245/100000, lNegdEdx := c.fTreeCascVarNegNSigmaProton,
                lPosdEdx := c.fTreeCascVarPosNSigmaPion,
                lBachdEdx := c.fTreeCascVarBachNSigmaKaon,
                lNegTOFsigma := c.fTreeCascVarNegTOFNSigmaProton,
                lPosTOFsigma := c.fTreeCascVarPosTOFNSigmaPion,
                lBachTOFsigma := c.fTreeCascVarBachTOFNSigmaKaon }
    else l3
  if r.GetCutUseTOFUnchecked = false then
    { l4 with lNegTOFsigma := 0, lPosTOFsigma := 0, lBachTOFsigma := 0 }
  else l4

/-- Expected V0 mass `lExpV0Mass` (source lines 2439-2442). -/
def lExpV0Mass (E : Ext) (c : Candidate) : ℚ :=
  c.fLambdaMassMean 0 + c.fLambdaMassMean 1 * E.Exp (c.fLambdaMassMean 2 * c.lV0Pt) +
    c.fLambdaMassMean 3 * E.Exp (c.fLambdaMassMean 4 * c.lV0Pt)

/-- Expected V0 mass resolution `lExpV0Sigma` (source lines 2444-2446). -/
def lExpV0Sigma (E : Ext) (c : Candidate) : ℚ :=
  c.fLambdaMassSigma 0 + c.fLambdaMassSigma 1 * c.lV0Pt +
    c.fLambdaMassSigma 2 * E.Exp (c.fLambdaMassSigma 3 * c.lV0Pt)

/-- The 2.76 TeV-like parametric V0 cosine of pointing angle `l276TeVV0CosPA`
(source lines 2450-2460), with `pThr = 1.5`, `bend = 0.03` and `qt = 0.211`. -/
def l276TeVV0CosPA (E : Ext) (c : Candidate) : FVal :=
  let pThr : ℚ := 3/2
  if c.lV0TotMomentum < pThr then
    let bend : ℚ := 3/100
    let qt : ℚ := 211/1000
    let cpaThr : ℚ := E.Cos (E.ATan (FVal.fdiv qt pThr) + bend)
    FVal.mul (FVal.fdiv (998/1000) cpaThr)
      (FVal.fin (E.Cos (E.ATan (FVal.fdiv qt c.lV0TotMomentum) + bend)))
  else FVal.fin (998/1000)

/-- Parametric cascade cosine of pointing angle `lVarCascCosPA`. -/
def lVarCascCosPA (E : Ext) (c : Candidate) (r : AliCascadeResult) : ℚ :=
  E.Cos (varCurve E r.GetCutVarCascCosPAExp0Const r.GetCutVarCascCosPAExp0Slope
    r.GetCutVarCascCosPAExp1Const r.GetCutVarCascCosPAExp1Slope r.GetCutVarCascCosPAConst
    c.fTreeCascVarPt)

/-- Effective threshold `lCascCosPACut` after source lines 2465-2479. -/
def lCascCosPACut (E : Ext) (c : Candidate) (r : AliCascadeResult) : ℚ :=
  let cut := r.GetCutCascCosPA
  if r.GetCutUseVarCascCosPA then
    (if lVarCascCosPA E c r > cut then lVarCascCosPA E c r else cut)
  else cut

/-- Parametric V0 cosine of pointing angle `lVarV0CosPA`. -/
def lVarV0CosPA (E : Ext) (c : Candidate) (r : AliCascadeResult) : ℚ :=
  E.Cos (varCurve E r.GetCutVarV0CosPAExp0Const r.GetCutVarV0CosPAExp0Slope
    r.GetCutVarV0CosPAExp1Const r.GetCutVarV0CosPAExp1Slope r.GetCutVarV0CosPAConst
    c.fTreeCascVarPt)

/-- Effective threshold `lV0CosPACut` after source lines 2484-2498. -/
def lV0CosPACut (E : Ext) (c : Candidate) (r : AliCascadeResult) : ℚ :=
  let cut := r.GetCutV0CosPA
  if r.GetCutUseVarV0CosPA then
    (if lVarV0CosPA E c r > cut then lVarV0CosPA E c r else cut)
  else cut

/-- Parametric bachelor-baryon cosine of pointing angle `lVarBBCosPA`. -/
def lVarBBCosPA (E : Ext) (c : Candidate) (r : AliCascadeResult) : ℚ :=
  E.Cos (varCurve E r.GetCutVarBBCosPAExp0Const r.GetCutVarBBCosPAExp0Slope
    r.GetCutVarBBCosPAExp1Const r.GetCutVarBBCosPAExp1Slope r.GetCutVarBBCosPAConst
    c.fTreeCascVarPt)

/-- Effective threshold `lBBCosPACut` after source lines 2503-2517. -/
def lBBCosPACut (E : Ext) (c : Candidate) (r : AliCascadeResult) : ℚ :=
  let cut := r.GetCutBachBaryonCosPA
  if r.GetCutUseVarBBCosPA then
    (if lVarBBCosPA E c r > cut then lVarBBCosPA E c r else cut)
  else cut

/-- Parametric cascade-daughter DCA `lVarDCACascDau` (no cosine). -/
def lVarDCACascDau (E : Ext) (c : Candidate) (r : AliCascadeResult) : ℚ :=
  varCurve E r.GetCutVarDCACascDauExp0Const r.GetCutVarDCACascDauExp0Slope
    r.GetCutVarDCACascDauExp1Const r.GetCutVarDCACascDauExp1Slope r.GetCutVarDCACascDauConst
    c.fTreeCascVarPt

/-- Effective threshold `lDCACascDauCut` after source lines 2522-2535. -/
def lDCACascDauCut (E : Ext) (c : Candidate) (r : AliCascadeResult) : ℚ :=
  let cut := r.GetCutDCACascDaughters
  if r.GetCutUseVarDCACascDau then
    (if lVarDCACascDau E c r < cut then lVarDCACascDau E c r else cut)
  else cut

/-- Bit test `status & AliESDtrack::kITSrefit`, used as a condition. -/
def hasITSrefit (E : Ext) (status : Nat) : Bool := (status &&& E.kITSrefit) != 0

/-- Check 1: Charge consistent with expectations. -/
def check1 (c : Candidate) (l : Locals) : Bool :=
  decide (c.fTreeCascVarCharge = l.lCharge)

/-- Check 2: Basic Acceptance cuts. -/
def check2 (c : Candidate) (r : AliCascadeResult) (l : Locals) : Bool :=
  decide (r.GetCutMinEtaTracks < c.fTreeCascVarPosEta) &&
  decide (c.fTreeCascVarPosEta < r.GetCutMaxEtaTracks) &&
  decide (r.GetCutMinEtaTracks < c.fTreeCascVarNegEta) &&
  decide (c.fTreeCascVarNegEta < r.GetCutMaxEtaTracks) &&
  decide (r.GetCutMinEtaTracks < c.fTreeCascVarBachEta) &&
  decide (c.fTreeCascVarBachEta < r.GetCutMaxEtaTracks) &&
  decide (l.lRap > r.GetCutMinRapidity) &&
  decide (l.lRap < r.GetCutMaxRapidity)

/-- Check 3, V0 Selections; `v0CosPACut` is the effective `lV0CosPACut`. -/
def check3V0 (c : Candidate) (r : AliCascadeResult) (v0CosPACut : ℚ) : Bool :=
  decide (c.fTreeCascVarDCANegToPrimVtx > r.GetCutDCANegToPV) &&
  decide (c.fTreeCascVarDCAPosToPrimVtx > r.GetCutDCAPosToPV) &&
  decide (c.fTreeCascVarDCAV0Daughters < r.GetCutDCAV0Daughters) &&
  decide (c.fTreeCascVarV0CosPointingAngle > v0CosPACut) &&
  decide (c.fTreeCascVarV0Radius > r.GetCutV0Radius)

/-- Check 3, Cascade Selections; `dcaCascDauCut` and `cascCosPACut` are the effective
`lDCACascDauCut` and `lCascCosPACut`. -/
def check3Casc (c : Candidate) (r : AliCascadeResult) (l : Locals)
    (dcaCascDauCut cascCosPACut : ℚ) : Bool :=
  decide (c.fTreeCascVarDCAV0ToPrimVtx > r.GetCutDCAV0ToPV) &&
  decide (|l.lV0Mass - 1116/1000| < r.GetCutV0Mass) &&
  decide (c.fTreeCascVarDCABachToPrimVtx > r.GetCutDCABachToPV) &&
  decide (c.fTreeCascVarDCACascDaughters < dcaCascDauCut) &&
  decide (c.fTreeCascVarCascCosPointingAngle > cascCosPACut) &&
  decide (c.fTreeCascVarCascRadius > r.GetCutCascRadius)

/-- Check 3, Implementation of a parametric V0 Mass cut if requested. -/
def check3V0MassSigma (E : Ext) (c : Candidate) (r : AliCascadeResult) (l : Locals) : Bool :=
  decide (r.GetCutV0MassSigma > 50) ||
  FVal.lt (FVal.abs (FVal.fdiv (l.lV0Mass - lExpV0Mass E c) (lExpV0Sigma E c)))
    (FVal.fin r.GetCutV0MassSigma)

/-- Check 3, Miscellaneous. -/
def check3Misc (c : Candidate) (r : AliCascadeResult) (l : Locals) : Bool :=
  decide (c.fTreeCascVarDistOverTotMom * l.lPDGMass < r.GetCutProperLifetime) &&
  decide ((c.fTreeCascVarLeastNbrClusters : ℚ) > r.GetCutLeastNumberOfClusters)

/-- Check 4: TPC dEdx selections. -/
def check4 (r : AliCascadeResult) (l : Locals) : Bool :=
  decide (|l.lNegdEdx| < r.GetCutTPCdEdx) && decide (|l.lPosdEdx| < r.GetCutTPCdEdx) &&
  decide (|l.lBachdEdx| < r.GetCutTPCdEdx)

/-- Check 4bis: TOF selections (experimental). -/
def check4bis (l : Locals) : Bool :=
  decide (|l.lNegTOFsigma| < 4) && decide (|l.lPosTOFsigma| < 4) &&
  decide (|l.lBachTOFsigma| < 4)

/-- Check 5: Xi rejection for Omega analysis. -/
def check5 (c : Candidate) (r : AliCascadeResult) : Bool :=
  (decide (r.GetMassHypothesis ≠ EMassHypo.kOmegaMinus) &&
    decide (r.GetMassHypothesis ≠ EMassHypo.kOmegaPlus)) ||
  decide (|c.fTreeCascVarMassAsXi - 132171/100000| > r.GetCutXiRejection)

/-- Check 6: Experimental DCA Bachelor to Baryon cut. -/
def check6 (c : Candidate) (r : AliCascadeResult) : Bool :=
  decide (c.fTreeCascVarDCABachToBaryon > r.GetCutDCABachToBaryon)

/-- Check 7: Experimental Bach Baryon CosPA; `bbCosPACut` is the effective `lBBCosPACut`. -/
def check7 (c : Candidate) (bbCosPACut : ℚ) : Bool :=
  decide (c.fTreeCascVarWrongCosPA < bbCosPACut)

/-- Check 8, first conjunct: minimum V0 lifetime. -/
def check8Min (c : Candidate) (r : AliCascadeResult) : Bool :=
  decide (c.fTreeCascVarV0Lifetime > r.GetCutMinV0Lifetime)

/-- Check 8, second conjunct: maximum V0 lifetime, unless the threshold is above 1e+3. -/
def check8Max (c : Candidate) (r : AliCascadeResult) : Bool :=
  decide (c.fTreeCascVarV0Lifetime < r.GetCutMaxV0Lifetime) ||
  decide (r.GetCutMaxV0Lifetime > 1000)

/-- Check 8: Min/Max V0 Lifetime cut. -/
def check8 (c : Candidate) (r : AliCascadeResult) : Bool :=
  check8Min c r && check8Max c r

/-- Check 9: kITSrefit track selection if requested. -/
def check9 (E : Ext) (c : Candidate) (r : AliCascadeResult) : Bool :=
  (hasITSrefit E c.fTreeCascVarPosTrackStatus && hasITSrefit E c.fTreeCascVarNegTrackStatus &&
    hasITSrefit E c.fTreeCascVarBachTrackStatus) ||
  !r.GetCutUseITSRefitTracks

/-- Check 10: Max Chi2/Clusters if not absurd. -/
def check10 (c : Candidate) (r : AliCascadeResult) : Bool :=
  decide (r.GetCutMaxChi2PerCluster > 1000) ||
  decide (c.fTreeCascVarMaxChi2PerCluster < r.GetCutMaxChi2PerCluster)

/-- Check 11: Min Track Length if positive. -/
def check11 (c : Candidate) (r : AliCascadeResult) : Bool :=
  decide (r.GetCutMinTrackLength < 0) ||
  decide (c.fTreeCascVarMinTrackLength > r.GetCutMinTrackLength)

/-- Check 12: Check if special V0 CosPA cut used. -/
def check12 (E : Ext) (c : Candidate) (r : AliCascadeResult) : Bool :=
  (r.GetCutUse276TeVV0CosPA == false) ||
  FVal.lt (l276TeVV0CosPA E c) (FVal.fin c.fTreeCascVarV0CosPointingAngle)

/-- Check 13: 3D Cascade DCA to PV. -/
def check13 (E : Ext) (c : Candidate) (r : AliCascadeResult) : Bool :=
  decide (r.GetCutDCACascadeToPV > 999) ||
  decide (E.Sqrt (c.fTreeCascVarCascDCAtoPVz * c.fTreeCascVarCascDCAtoPVz +
      c.fTreeCascVarCascDCAtoPVxy * c.fTreeCascVarCascDCAtoPVxy) < r.GetCutDCACascadeToPV)

/-- The comparison `dca / Sqrt (sx2*sx2 + sy2*sy2 + 1e-6) > cut` of check 14. -/
def weightedDCAAbove (E : Ext) (dca sx2 sy2 cut : ℚ) : Bool :=
  FVal.lt (FVal.fin cut) (FVal.fdiv dca (E.Sqrt (sx2 * sx2 + sy2 * sy2 + 1/1000000)))

/-- Check 14a: Negative track DCA to PV, weighted. -/
def check14a (E : Ext) (c : Candidate) (r : AliCascadeResult) : Bool :=
  decide (r.GetCutDCANegToPVWeighted < 0) ||
  weightedDCAAbove E c.fTreeCascVarDCANegToPrimVtx c.fTreeCascVarNegDCAPVSigmaX2
    c.fTreeCascVarNegDCAPVSigmaY2 r.GetCutDCANegToPVWeighted

/-- Check 14, second block: positive track DCA to PV, weighted. -/
def check14b (E : Ext) (c : Candidate) (r : AliCascadeResult) : Bool :=
  decide (r.GetCutDCAPosToPVWeighted < 0) ||
  weightedDCAAbove E c.fTreeCascVarDCAPosToPrimVtx c.fTreeCascVarPosDCAPVSigmaX2
    c.fTreeCascVarPosDCAPVSigmaY2 r.GetCutDCAPosToPVWeighted

/-- Check 14, third block: bachelor track DCA to PV, weighted. -/
def check14c (E : Ext) (c : Candidate) (r : AliCascadeResult) : Bool :=
  decide (r.GetCutDCABachToPVWeighted < 0) ||
  weightedDCAAbove E c.fTreeCascVarDCABachToPrimVtx c.fTreeCascVarBachDCAPVSigmaX2
    c.fTreeCascVarBachDCAPVSigmaY2 r.GetCutDCABachToPVWeighted

/-- The condition of the `if` at source lines 2614-2718. -/
def passes (E : Ext) (c : Candidate) (r : AliCascadeResult) : Bool :=
  let l := setLocals c r
  check1 c l && check2 c r l && check3V0 c r (lV0CosPACut E c r) &&
  check3Casc c r l (lDCACascDauCut E c r) (lCascCosPACut E c r) &&
  check3V0MassSigma E c r l && check3Misc c r l && check4 r l && check4bis l && check5 c r &&
  check6 c r && check7 c (lBBCosPACut E c r) && check8 c r && check9 E c r && check10 c r &&
  check11 c r && check12 E c r && check13 E c r && check14a E c r && check14b E c r &&
  check14c E c r

/-- One turn of the configuration loop (source lines 2417-2722) for the configuration
`lCascadeResult`: the configuration afterwards. -/
def loopBody (E : Ext) (c : Candidate) (lCascadeResult : AliCascadeResult) :
    AliCascadeResult :=
  let histoout := lCascadeResult.GetHistogram
  if passes E c lCascadeResult then
    { lCascadeResult with
      GetHistogram := histoout.Fill c.fCentrality c.fTreeCascVarPt
        (setLocals c lCascadeResult).lMass }
  else lCascadeResult

/-- The configuration loop `for(lcfg=0; lcfg<lNumberOfConfigurationsCascade; lcfg++)` over
`fListCascade` (source lines 2412-2723): the list afterwards. -/
def configurationLoop (E : Ext) (c : Candidate) (fListCascade : List AliCascadeResult) :
    List AliCascadeResult :=
  let lNumberOfConfigurationsCascade := fListCascade.length
  forEntries (fun lCascadeResult => loopBody E c lCascadeResult)
    lNumberOfConfigurationsCascade fListCascade

end Cascade

/-! ## ROOT histograms -/

/-- The integers `lo, lo+1, ..., hi`, the values taken by the variable of a loop
`for (i = lo; i <= hi; i++)`. -/
def intRange (lo hi : Int) : List Int :=
  (List.range (hi + 1 - lo).toNat).map (fun (k : Nat) => lo + (k : Int))

/-- ROOT clamps a bin number to `0 .. nbins+1`. -/
def clampBin (nbins : Nat) (bin : Int) : Int :=
  if bin < 0 then 0 else if bin ≥ (nbins : Int) + 2 then (nbins : Int) + 1 else bin

/-- Conversion `Int_t(x)` of a floating-point value: truncation towards zero. -/
def toInt_t (x : ℚ) : Int := if 0 ≤ x then ⌊x⌋ else ⌈x⌉

/-- The value that the 32-bit `Int_t` holds after an arithmetic operation whose result over
the integers is `z`: the representative of `z` modulo `2^32` in `[-2^31, 2^31 - 1]`
(two's-complement wrap-around). -/
def wrapInt_t (z : Int) : Int := (z + 2147483648) % 4294967296 - 2147483648

/-- Whether an integer is a value of the 32-bit type `Int_t`. -/
def InInt_t (z : Int) : Prop := -2147483648 ≤ z ∧ z ≤ 2147483647

instance (z : Int) : Decidable (InInt_t z) :=
  inferInstanceAs (Decidable (-2147483648 ≤ z ∧ z ≤ 2147483647))

/-- One-dimensional histogram `TH1D` with `fNbins` equal bins on `[fXmin, fXmax]`; bin `0`
is the underflow and bin `fNbins+1` the overflow.  `fSumw2` holds the squared bin errors
once errors are stored. -/
structure TH1D where
  fName : String
  fTitle : String
  fNbins : Nat
  fXmin : ℚ
  fXmax : ℚ
  fArray : Int → ℚ
  fSumw2 : Option (Int → ℚ)

namespace TH1D

/-- Constructor `TH1D (name, title, nbins, xmin, xmax)`: an empty histogram; ROOT takes a
bin count of zero as one. -/
def new (name title : String) (nbins : Nat) (xmin xmax : ℚ) : TH1D :=
  { fName := name, fTitle := title, fNbins := if nbins = 0 then 1 else nbins,
    fXmin := xmin, fXmax := xmax,
    fArray := fun _ => 0, fSumw2 := none }

/-- Accessor `GetBinContent (bin)`. -/
def GetBinContent (h : TH1D) (bin : Int) : ℚ := h.fArray (clampBin h.fNbins bin)

/-- Accessor `GetBinError (bin)`: the root of the stored squared error, or of the
absolute content when no errors are stored. -/
def GetBinError (E : Ext) (h : TH1D) (bin : Int) : ℚ :=
  match h.fSumw2 with
  | some w => E.Sqrt (w (clampBin h.fNbins bin))
  | none => E.Sqrt |h.fArray (clampBin h.fNbins bin)|

/-- Method `SetBinContent (bin, content)`; a bin number outside `0 .. fNbins+1` is
ignored. -/
def SetBinContent (h : TH1D) (bin : Int) (content : ℚ) : TH1D :=
  if bin < 0 ∨ bin ≥ (h.fNbins : Int) + 2 then h
  else { h with fArray := Function.update h.fArray bin content }

/-- Method `Sumw2 ()`: start storing squared errors, initialised with the absolute
contents. -/
def Sumw2 (h : TH1D) : TH1D :=
  match h.fSumw2 with
  | some _ => h
  | none => { h with fSumw2 := some (fun i => |h.fArray i|) }

/-- Method `SetBinError (bin, error)`. -/
def SetBinError (h : TH1D) (bin : Int) (error : ℚ) : TH1D :=
  let h1 := h.Sumw2
  if bin < 0 ∨ bin ≥ (h.fNbins : Int) + 2 then h1
  else { h1 with fSumw2 := (h1.fSumw2).map (fun w => Function.update w bin (error * error)) }

/-- Bin width of the axis, `TAxis::GetBinWidth`. -/
def GetBinWidth (h : TH1D) : ℚ := (h.fXmax - h.fXmin) / (h.fNbins : ℚ)

/-- Bin centre, `TAxis::GetBinCenter (bin)`. -/
def GetBinCenter (h : TH1D) (bin : Int) : ℚ :=
  h.fXmin + ((bin : ℚ) - 1) * h.GetBinWidth + (1/2) * h.GetBinWidth

/-- Bin holding `x`, `TAxis::FindBin (x)`. -/
def FindBin (h : TH1D) (x : ℚ) : Int :=
  if x < h.fXmin then 0
  else if ¬ (x < h.fXmax) then (h.fNbins : Int) + 1
  else 1 + toInt_t ((h.fNbins : ℚ) * (x - h.fXmin) / (h.fXmax - h.fXmin))

/-- Method `Clone (newname)`. -/
def Clone (h : TH1D) (newname : String) : TH1D := { h with fName := newname }

/-- Method `Divide (h1)`: bin-wise quotient over all bins, underflow and overflow
included; a bin whose divisor is zero becomes zero. -/
def Divide (E : Ext) (h h1 : TH1D) : TH1D :=
  let h0 := if h.fSumw2.isNone ∧ h1.fSumw2.isSome then h.Sumw2 else h
  { h0 with
    fArray := fun bin =>
      if bin < 0 ∨ bin ≥ (h0.fNbins : Int) + 2 then h0.fArray bin
      else if h1.GetBinContent bin = 0 then 0
      else h0.GetBinContent bin / h1.GetBinContent bin
    fSumw2 := h0.fSumw2.map (fun w bin =>
      if bin < 0 ∨ bin ≥ (h0.fNbins : Int) + 2 then w bin
      else
        let c0 := h0.GetBinContent bin
        let c1 := h1.GetBinContent bin
        let e0 := GetBinError E h0 bin
        let e1 := GetBinError E h1 bin
        if c1 = 0 then 0
        else (e0 * e0 * c1 * c1 + e1 * e1 * c0 * c0) / ((c1 * c1) * (c1 * c1))) }

/-- Method `Scale (c1)`, and `Scale (c1, "width")` when `width` is set: every bin,
underflow and overflow included, is multiplied by `c1` and, with `width`, divided by the
bin width. -/
def Scale (E : Ext) (h : TH1D) (c1 : ℚ) (width : Bool) : TH1D :=
  let w := if width then h.GetBinWidth else 1
  { h with
    fArray := fun bin =>
      if bin < 0 ∨ bin ≥ (h.fNbins : Int) + 2 then h.fArray bin
      else c1 * h.GetBinContent bin / w
    fSumw2 := h.fSumw2.map (fun s bin =>
      if bin < 0 ∨ bin ≥ (h.fNbins : Int) + 2 then s bin
      else
        let e1 := GetBinError E h bin / w
        c1 * c1 * e1 * e1) }

end TH1D

namespace TH1D

/-- Scaling by a factor that was itself computed by a division: there is no result in the
model when the scaled histogram would hold non-finite numbers, that is when the factor is
not finite or a division by a zero bin width is asked for. -/
def ScaleF (E : Ext) (h : TH1D) (c1 : FVal) (width : Bool) : Option TH1D :=
  match c1.toRat? with
  | none => none
  | some c => if width ∧ h.GetBinWidth = 0 then none else some (h.Scale E c width)

/-- Method `Rebin (ngroup)` of ROOT, in place, for `ngroup` dividing the bin count: every
new bin holds the sum of the contents of its `ngroup` old bins and, when errors are stored,
the root of the sum of their squared errors; underflow and overflow are kept. -/
def RebinROOT (E : Ext) (h : TH1D) (ngroup : Nat) : TH1D :=
  let newbins := h.fNbins / ngroup
  let group (i : Int) : List Int := intRange ((i - 1) * ngroup + 1) (i * ngroup)
  { h with
    fNbins := newbins
    fArray := fun bin =>
      if bin ≤ 0 then h.GetBinContent 0
      else if bin ≥ (newbins : Int) + 1 then h.GetBinContent ((h.fNbins : Int) + 1)
      else ((group bin).map h.GetBinContent).sum
    fSumw2 := h.fSumw2.map (fun _ bin =>
      if bin ≤ 0 then GetBinError E h 0 * GetBinError E h 0
      else if bin ≥ (newbins : Int) + 1 then
        GetBinError E h ((h.fNbins : Int) + 1) * GetBinError E h ((h.fNbins : Int) + 1)
      else
        let binError := E.Sqrt
          (((group bin).map (fun j => GetBinError E h j * GetBinError E h j)).sum)
        binError * binError) }

/-- The calls `Reset ()` and `SetBins (nbins, xmin, xmax)`: contents and stored errors
are zeroed and the axis is replaced. -/
def ResetSetBins (h : TH1D) (nbins : Nat) (xmin xmax : ℚ) : TH1D :=
  { h with fNbins := nbins, fXmin := xmin, fXmax := xmax, fArray := fun _ => 0,
           fSumw2 := h.fSumw2.map (fun _ _ => 0) }

end TH1D

/-- Two-dimensional histogram `TH2D`; cell `(0, _)`, `(fNbinsX+1, _)`, `(_, 0)` and
`(_, fNbinsY+1)` are the underflow and overflow cells. -/
structure TH2D where
  fName : String
  fTitle : String
  fNbinsX : Nat
  fXmin : ℚ
  fXmax : ℚ
  fNbinsY : Nat
  fYmin : ℚ
  fYmax : ℚ
  fArray : Int → Int → ℚ
  fSumw2 : Option (Int → Int → ℚ)

namespace TH2D

/-- Accessor `GetCellContent (binx, biny)`. -/
def GetCellContent (h : TH2D) (binx biny : Int) : ℚ :=
  h.fArray (clampBin h.fNbinsX binx) (clampBin h.fNbinsY biny)

/-- Accessor `GetCellError (binx, biny)`. -/
def GetCellError (E : Ext) (h : TH2D) (binx biny : Int) : ℚ :=
  match h.fSumw2 with
  | some w => E.Sqrt (w (clampBin h.fNbinsX binx) (clampBin h.fNbinsY biny))
  | none => E.Sqrt |h.fArray (clampBin h.fNbinsX binx) (clampBin h.fNbinsY biny)|

end TH2D

/-- Objects kept in a `TList`. -/
inductive TObject where
  | th1 (h : TH1D)
  | th2 (h : TH2D)
  | named (fName fTitle : String) (uniqueID : Nat)
  | axis (fName fTitle : String) (nbins : Nat) (xmin xmax : ℚ)

/-- Accessor `GetName ()`. -/
def TObject.GetName : TObject → String
  | .th1 h => h.fName
  | .th2 h => h.fName
  | .named n _ _ => n
  | .axis n _ _ _ _ => n

/-- A `TList` with its name and its objects in insertion order. -/
structure TList where
  fName : String
  objs : List TObject

namespace TList

/-- Method `Add (obj)`; a null pointer is not added. -/
def Add (l : TList) (obj : Option TObject) : TList :=
  match obj with
  | some o => { l with objs := l.objs ++ [o] }
  | none => l

/-- Method `FindObject (name)`: the first object of that name. -/
def FindObject (l : TList) (name : String) : Option TObject :=
  l.objs.find? (fun o => o.GetName == name)

/-- The cast `static_cast<TH1D*> (FindObject (name))`, for an object that is a `TH1D`. -/
def FindTH1D (l : TList) (name : String) : Option TH1D :=
  match l.FindObject name with
  | some (.th1 h) => some h
  | _ => none

/-- The cast `static_cast<TH2D*> (FindObject (name))`, for an object that is a `TH2D`. -/
def FindTH2D (l : TList) (name : String) : Option TH2D :=
  match l.FindObject name with
  | some (.th2 h) => some h
  | _ => none

end TList

/-! ## The task `AliBasedNdetaTask` -/

namespace BasedNdeta

/-- The threshold `1e-12` below which `ProjectX` takes a content or an error as empty. -/
def tiny : ℚ := 1 / 1000000000000

/-- Running values `content`, `error2` and `nbins` of the loop over y bins in `ProjectX`. -/
structure ProjAcc where
  content : ℚ
  error2 : ℚ
  nbins : Int

/-- One turn of the loop over y bins in `ProjectX` (source lines 302-316). -/
def projectCell (E : Ext) (h : TH2D) (error : Bool) (xbin : Int) (acc : ProjAcc)
    (ybin : Int) : ProjAcc :=
  let c1 := h.GetCellContent xbin ybin
  let e1 := h.GetCellError E xbin ybin
  if c1 < tiny then acc
  else if e1 < tiny ∧ error = true then acc
  else
    let e1 := if e1 < tiny then 1 else e1
    { content := acc.content + c1, error2 := acc.error2 + e1 * e1, nbins := acc.nbins + 1 }

/-- The loop over y bins of `ProjectX` for one x bin. -/
def projectColumn (E : Ext) (h : TH2D) (error : Bool) (first last xbin : Int) : ProjAcc :=
  (intRange first last).foldl (projectCell E h error xbin)
    { content := 0, error2 := 0, nbins := 0 }

/-- One turn of the loop over x bins in `ProjectX` (source lines 296-327). -/
def projectXBin (E : Ext) (h : TH2D) (corr error : Bool) (first last : Int) (ret : TH1D)
    (xbin : Int) : TH1D :=
  let ybins : Int := last - first + 1
  let acc := projectColumn E h error first last xbin
  if acc.content > 0 ∧ acc.nbins > 0 then
    let factor : ℚ := if corr then (ybins : ℚ) / (acc.nbins : ℚ) else 1
    if error then
      (ret.SetBinContent xbin (acc.content * factor)).SetBinError xbin
        (factor * E.Sqrt acc.error2)
    else ret.SetBinContent xbin (factor * acc.content)
  else ret

/-- The clamped first y bin (source lines 281-284). -/
def clampFirst (nbinsY : Nat) (firstbin : Int) : Int :=
  if firstbin < 0 then 0
  else if firstbin ≥ (nbinsY : Int) + 1 then (nbinsY : Int)
  else firstbin

/-- The clamped last y bin (source lines 282-286). -/
def clampLast (nbinsY : Nat) (lastbin : Int) : Int :=
  if lastbin < 0 then (nbinsY : Int)
  else if lastbin > (nbinsY : Int) + 1 then (nbinsY : Int)
  else lastbin

/-- The method `AliBasedNdetaTask::ProjectX`, compiled without `USE_ROOT_PROJECT`; `none`
is the null pointer.  The copy of the drawing attributes and the warning of the empty
range are not modelled. -/
def ProjectX (E : Ext) (h : Option TH2D) (name : String) (firstbin lastbin : Int)
    (corr error : Bool) : Option TH1D :=
  match h with
  | none => none
  | some h =>
    let ret := TH1D.new name h.fTitle h.fNbinsX h.fXmin h.fXmax
    let first := clampFirst h.fNbinsY firstbin
    let last := clampLast h.fNbinsY lastbin
    if last - first < 0 then none
    else
      some ((intRange 0 ((h.fNbinsX : Int) + 1)).foldl
        (projectXBin E h corr error first last) ret)

/-- What ends a run of the model other than a return:
a null pointer is dereferenced, or a histogram would receive a non-finite number. -/
inductive Fault where
  | nullPointer
  | nonFinite
  deriving DecidableEq, Repr

/-- Running values of the loop over the bins of one group in `Rebin`. -/
structure RebinAcc where
  content : ℚ
  sumw : ℚ
  wsum : ℚ
  nbins : Int

/-- One turn of the loop over `j` in `Rebin` (source lines 488-510) for new bin `i`. -/
def rebinStep (E : Ext) (fRebin : Int) (fCutEdges : Bool) (h : TH1D) (i : Int)
    (acc : Except Fault RebinAcc) (j : Int) : Except Fault RebinAcc :=
  match acc with
  | .error f => .error f
  | .ok a =>
    let bin := (i - 1) * fRebin + j
    let c := h.GetBinContent bin
    if c ≤ 0 then .ok a
    else if fCutEdges = true ∧ (h.GetBinContent (bin + 1) ≤ 0 ∨ h.GetBinContent (bin - 1) ≠ 0)
    then .ok a
    else
      let e := TH1D.GetBinError E h bin
      match (FVal.fdiv 1 (e * e)).toRat? with
      | none => .error Fault.nonFinite
      | some w =>
        .ok { content := a.content + c, sumw := a.sumw + w, wsum := a.wsum + w * c,
              nbins := a.nbins + 1 }

/-- One turn of the loop over `i` in `Rebin` (source lines 483-516). -/
def rebinBin (E : Ext) (fRebin : Int) (fCutEdges : Bool) (h : TH1D)
    (tmp : Except Fault TH1D) (i : Int) : Except Fault TH1D :=
  match tmp with
  | .error f => .error f
  | .ok tmp =>
    match (intRange 1 fRebin).foldl (rebinStep E fRebin fCutEdges h i)
        (.ok { content := 0, sumw := 0, wsum := 0, nbins := 0 }) with
    | .error f => .error f
    | .ok a =>
      if a.content > 0 ∧ a.nbins > 0 then
        match (FVal.fdiv a.wsum a.sumw).toRat?, (FVal.fdiv 1 (E.Sqrt a.sumw)).toRat? with
        | some c, some e => .ok ((tmp.SetBinContent i c).SetBinError i e)
        | _, _ => .error Fault.nonFinite
      else .ok tmp

/-- The method `AliBasedNdetaTask::Rebin`; `.ok none` is the null pointer.  Its warnings
are not recorded. -/
def Rebin (E : Ext) (fRebin : Int) (fCutEdges : Bool) (h : TH1D) :
    Except Fault (Option TH1D) :=
  if fRebin ≤ 1 then .ok none
  else
    let nBins : Int := h.fNbins
    if nBins % fRebin ≠ 0 then .ok none
    else
      let tmp := (h.Clone (h.fName ++ "_rebin" ++ (if fRebin < 10 then "0" else "") ++
        toString fRebin)).RebinROOT E fRebin.toNat
      let nBinsNew := nBins / fRebin
      match (intRange 1 nBinsNew).foldl (rebinBin E fRebin fCutEdges h) (.ok tmp) with
      | .error f => .error f
      | .ok r => .ok (some r)

/-- First and last bin with data (source lines 545-551). -/
def firstLast (h : TH1D) : Int × Int :=
  let nBins : Int := h.fNbins
  (intRange 1 nBins).foldl
    (fun fl i => if h.GetBinContent i ≤ 0 then fl else (min fl.1 i, max fl.2 i))
    (nBins + 1, 0)

/-- The method `AliBasedNdetaTask::Symmetrice`, for a non-null argument. -/
def Symmetrice (E : Ext) (h : TH1D) : TH1D :=
  let s := ({ h.Clone (h.fName ++ "_mirror") with fTitle := h.fTitle ++ " (mirrored)" }
    ).ResetSetBins h.fNbins (- h.fXmax) (- h.fXmin)
  let first := (firstLast h).1
  let last := (firstLast h).2
  let xfirst := h.GetBinCenter (first - 1)
  let f1 := h.FindBin (- xfirst)
  let l2 := s.FindBin xfirst
  let s := (intRange f1 last).foldl
    (fun s i =>
      let j := l2 - (i - f1)
      (s.SetBinContent j (h.GetBinContent i)).SetBinError j (TH1D.GetBinError E h i))
    s
  (s.SetBinContent (l2 + 1) (h.GetBinContent first)).SetBinError (l2 + 1)
    (TH1D.GetBinError E h first)

/-- Messages of `AliError`, `AliWarning` and `AliInfo` issued by `Terminate`; none of
them stops the process. -/
inductive Msg where
  | errorNoSums
  | errorNoTriggers
  | errorNoBase
  | errorTriggeredLE0
  | warningGoodLE0 (nGood nB nA nC nE : Int)
  | infoCounts
  deriving DecidableEq, Repr

/-- Members of an `AliBasedNdetaTask` and the state of the framework that it acts on. -/
structure Task where
  /-- Result of `GetName ()`. -/
  fName : String
  fSum : Option TH2D
  fSumMC : Option TH2D
  fSums : Option TList
  fOutput : Option TList
  fTriggers : Option TH1D
  fVtxMin : ℚ
  fVtxMax : ℚ
  fTriggerMask : Nat
  fRebin : Int
  fCutEdges : Bool
  fSymmetrice : Bool
  fCorrEmpty : Bool
  /-- Result of `dynamic_cast<TList*> (GetOutputData (1))`. -/
  outputData1 : Option TList
  /-- The calls `PostData (slot, list)` made so far, oldest first. -/
  posted : List (Nat × TList)
  /-- The messages issued so far, oldest first. -/
  messages : List Msg

/-- Local variables of `Terminate` after source line 384. -/
structure TerminateLocals where
  sums : TList
  sum : TH2D
  triggers : TH1D
  output : TList
  nAll : Int
  nB : Int
  nA : Int
  nC : Int
  nE : Int
  nMB : Int
  nTriggered : Int
  nWithVertex : Int
  nAccepted : Int
  /-- Value of `nGood` after the fall-back of lines 378-382. -/
  nGood : Int
  vtxEff : FVal
  vNorm : FVal

/-- How the first part of `Terminate` ends: with a `return`, or by going on to the
projections with the locals computed so far. -/
inductive TerminateHead where
  | returned (t : Task)
  | goesOn (t : Task) (l : TerminateLocals)

/-- The list `fOutput` that `Terminate` makes when the task has none (lines 345-349). -/
def newOutput (name : String) : TList := { fName := name ++ "_result", objs := [] }

/-- First part of `AliBasedNdetaTask::Terminate` (source lines 339-400): the lists and
histograms are looked up, the counters are read and the normalisation is computed.
The counters are `Int_t`, 32 bits wide: each operation of `nB - nA - nC + 2 * nE`
(line 373) wraps around at 32 bits.  The conversion `Int_t(...)` of a bin content
(lines 364-372) is the truncation, which is what the code does for a content within the
range of `Int_t`; C++ leaves the conversion of a content outside that range undefined. -/
def TerminateCounters (E : Ext) (t : Task) : TerminateHead :=
  match t.outputData1 with
  | none =>
    .returned { t with fSums := none, messages := t.messages ++ [Msg.errorNoSums] }
  | some sums =>
    let output := match t.fOutput with
      | some o => o
      | none => newOutput t.fName
    let fSum := sums.FindTH2D t.fName
    let fSumMC := sums.FindTH2D (t.fName ++ "MC")
    let fTriggers := sums.FindTH1D "triggers"
    let t1 : Task := { t with fSums := some sums, fOutput := some output, fSum := fSum,
                              fSumMC := fSumMC, fTriggers := fTriggers }
    match fTriggers with
    | none => .returned { t1 with messages := t1.messages ++ [Msg.errorNoTriggers] }
    | some triggers =>
      match fSum with
      | none => .returned { t1 with messages := t1.messages ++ [Msg.errorNoBase] }
      | some sum =>
        let nAll := toInt_t (triggers.GetBinContent E.kAll)
        let nB := toInt_t (triggers.GetBinContent E.kB)
        let nA := toInt_t (triggers.GetBinContent E.kA)
        let nC := toInt_t (triggers.GetBinContent E.kC)
        let nE := toInt_t (triggers.GetBinContent E.kE)
        let nMB := toInt_t (triggers.GetBinContent E.kMB)
        let nTriggered := toInt_t (triggers.GetBinContent E.kWithTrigger)
        let nWithVertex := toInt_t (triggers.GetBinContent E.kWithVertex)
        let nAccepted := toInt_t (triggers.GetBinContent E.kAccepted)
        let nGood0 := wrapInt_t (wrapInt_t (wrapInt_t (nB - nA) - nC) + wrapInt_t (2 * nE))
        if nTriggered ≤ 0 then
          .returned { t1 with messages := t1.messages ++ [Msg.errorTriggeredLE0] }
        else
          let warn := if nGood0 ≤ 0 then [Msg.warningGoodLE0 nGood0 nB nA nC nE] else []
          let nGood := if nGood0 ≤ 0 then nMB else nGood0
          let vtxEff := FVal.div
            (FVal.mul (FVal.fdiv nMB nTriggered) (FVal.fin nAccepted)) (FVal.fin nGood)
          let vNorm := FVal.fdiv nAccepted nGood
          .goesOn { t1 with messages := t1.messages ++ warn ++ [Msg.infoCounts] }
            { sums := sums, sum := sum, triggers := triggers, output := output,
              nAll := nAll, nB := nB, nA := nA, nC := nC, nE := nE, nMB := nMB,
              nTriggered := nTriggered, nWithVertex := nWithVertex, nAccepted := nAccepted,
              nGood := nGood, vtxEff := vtxEff, vNorm := vNorm }

/-- The projections, normalisation and exports of `Terminate` for one sum histogram
(source lines 404-423 for the data, 426-446 for the simulation): the objects added to
`fOutput`, in order.  `mc` selects the order of the second block. -/
def terminateYield (E : Ext) (t : Task) (l : TerminateLocals) (sum : TH2D)
    (suffix titleSuffix : String) (mc : Bool) : Except Fault (List TObject) :=
  let name := t.fName
  let norm := ProjectX E (some sum) ("norm" ++ name ++ suffix) 0 1 t.fCorrEmpty false
  let dndeta := ProjectX E (some sum) ("dndeta" ++ name ++ suffix) 1 (l.sum.fNbinsY : Int)
    t.fCorrEmpty E.projectXError
  match dndeta, norm with
  | some dndeta, some norm =>
    let dndeta := dndeta.Divide E norm
    match dndeta.ScaleF E l.vNorm true, norm.ScaleF E (FVal.fdiv 1 l.nAccepted) false with
    | some dndeta, some norm =>
      let dndeta := { dndeta with fTitle := "ALICE " ++ name ++ titleSuffix }
      let norm := { norm with fTitle := "ALICE " ++ name ++ titleSuffix ++ " normalisation" }
      match Rebin E t.fRebin t.fCutEdges dndeta with
      | .error f => .error f
      | .ok rebinned =>
        let sym : List TObject :=
          if t.fSymmetrice then [TObject.th1 (Symmetrice E dndeta)] else []
        let reb : List TObject := match rebinned with
          | some r => [TObject.th1 r]
          | none => []
        let first : List TObject :=
          if mc then [TObject.th1 dndeta] ++ sym else sym ++ [TObject.th1 dndeta]
        if t.fSymmetrice then
          match rebinned with
          | none => .error Fault.nullPointer
          | some r =>
            .ok (first ++ [TObject.th1 norm] ++ reb ++ [TObject.th1 (Symmetrice E r)])
        else .ok (first ++ [TObject.th1 norm] ++ reb)
    | _, _ => .error Fault.nonFinite
  | _, _ => .error Fault.nullPointer

/-- Second part of `AliBasedNdetaTask::Terminate` (source lines 402-459).  The drawing
attributes set by `SetHistogramAttributes` other than the title, and the formatted title
of the vertex axis, are not modelled. -/
def TerminateOutputs (E : Ext) (t : Task) (l : TerminateLocals) : Except Fault Task :=
  match terminateYield E t l l.sum "" "" false with
  | .error f => .error f
  | .ok data =>
    let mcPart : Except Fault (List TObject) := match t.fSumMC with
      | some sumMC => terminateYield E t l sumMC "MC" " (MC)" true
      | none => .ok []
    match mcPart with
    | .error f => .error f
    | .ok mc =>
      let trigString := TObject.named "trigString" (E.GetTriggerString t.fTriggerMask)
        t.fTriggerMask
      let vtxAxis := TObject.axis "vtxAxis" "v_z range" 1 t.fVtxMin t.fVtxMax
      let output : TList :=
        { l.output with
          objs := l.output.objs ++ [TObject.th1 l.triggers] ++ data ++ mc ++
            [trigString, vtxAxis] }
      .ok { t with fOutput := some output, posted := t.posted ++ [(2, output)] }

/-- The method `AliBasedNdetaTask::Terminate`: the task afterwards, or the fault that ends
the run. -/
def Terminate (E : Ext) (t : Task) : Except Fault Task :=
  match TerminateCounters E t with
  | .returned t1 => .ok t1
  | .goesOn t1 l => TerminateOutputs E t1 l

end BasedNdeta

/-! ## Concrete inputs

Data on which the definitions above are evaluated. -/

/-- A collaborator bundle with low-order rational approximations of the `TMath` functions
(exact at `Cos 0`, `Exp 0`, `Sqrt 0`, `Sqrt 1` and `ATan 0`), the status bit `0x4` and the
trigger bins numbered from one. -/
def sampleExt : Ext :=
  { Cos := fun x => 1 - x * x / 2
    Exp := fun x => 1 + x + x * x / 2
    Sqrt := fun x => if x ≤ 0 then 0 else (x + 1) / 2
    ATan := fun v => match v with
      | FVal.fin q => q - q * q * q / 3
      | FVal.posInf => 11 / 7
      | FVal.negInf => - (11 / 7)
      | FVal.nan => 0
    kITSrefit := 4
    kAll := 1, kB := 2, kA := 3, kC := 4, kE := 5, kMB := 6, kWithTrigger := 7,
    kWithVertex := 8, kAccepted := 9
    projectXError := true
    GetTriggerString := fun _ => "INEL" }

namespace V0

/-- A K0Short configuration with constant cuts. -/
def sampleResult : AliV0Result :=
  { GetMassHypothesis := EMassHypo.kK0Short, GetUseOnTheFly := false,
    GetCutMinEtaTracks := -8/10, GetCutMaxEtaTracks := 8/10,
    GetCutMinRapidity := -1/2, GetCutMaxRapidity := 1/2,
    GetCutV0Radius := 1/2, GetCutMaxV0Radius := 200,
    GetCutDCANegToPV := 6/100, GetCutDCAPosToPV := 6/100, GetCutDCAV0Daughters := 1,
    GetCutV0CosPA := 97/100, GetCutUseVarV0CosPA := false,
    GetCutVarV0CosPAExp0Const := 0, GetCutVarV0CosPAExp0Slope := 0,
    GetCutVarV0CosPAExp1Const := 0, GetCutVarV0CosPAExp1Slope := 0,
    GetCutVarV0CosPAConst := 0,
    GetCutProperLifetime := 20, GetCutLeastNumberOfCrossedRows := 70,
    GetCutLeastNumberOfCrossedRowsOverFindable := 8/10, GetCutMinBaryonMomentum := -1,
    GetCutTPCdEdx := 5, GetCutArmenteros := true, GetCutArmenterosParameter := 1/5,
    GetCutUseITSRefitTracks := true, GetCutMaxChi2PerCluster := 4,
    GetCutMinTrackLength := 90, GetCut276TeVLikedEdx := false,
    GetHistogram := { fills := [] } }

/-- A candidate that passes `sampleResult`. -/
def sampleCandidate : Candidate :=
  { fCentrality := 35, lOnFlyStatus := 0, fTreeVariablePt := 2,
    fTreeVariableInvMassK0s := 498/1000, fTreeVariableInvMassLambda := 1300/1000,
    fTreeVariableInvMassAntiLambda := 1400/1000,
    fTreeVariableRapK0Short := 1/10, fTreeVariableRapLambda := 2/10,
    fTreeVariableNegEta := 3/10, fTreeVariablePosEta := -2/10,
    fTreeVariableV0Radius := 5,
    fTreeVariableDcaNegToPrimVertex := 1/10, fTreeVariableDcaPosToPrimVertex := 2/10,
    fTreeVariableDcaV0Daughters := 1/2,
    fTreeVariableV0CosineOfPointingAngle := 999/1000,
    fTreeVariableDistOverTotMom := 4,
    fTreeVariableLeastNbrCrossedRows := 120,
    fTreeVariableLeastRatioCrossedRowsOverFindable := 95/100,
    fTreeVariableNSigmasNegPion := 1, fTreeVariableNSigmasPosPion := -1,
    fTreeVariableNSigmasNegProton := 10, fTreeVariableNSigmasPosProton := 10,
    fTreeVariablePosInnerP := 1, fTreeVariableNegInnerP := 1,
    lThisPosInnerPt := 1, lThisNegInnerPt := 1,
    fTreeVariablePtArmV0 := 1/5, fTreeVariableAlphaV0 := 1/2,
    fTreeVariableNegTrackStatus := 7, fTreeVariablePosTrackStatus := 4,
    fTreeVariableMaxChi2PerCluster := 2, fTreeVariableMinTrackLength := 130 }

end V0

namespace Cascade

/-- The thresholds swept by `AddTopologicalQACascade` (variables 1 to 13 of source lines
3105-3295). -/
inductive SweepVariable where
  | DCANegToPV
  | DCAPosToPV
  | DCAV0Daughters
  | V0CosPA
  | V0Radius
  | DCAV0ToPV
  | DCABachToPV
  | DCACascDaughters
  | CascRadius
  | CascCosPA
  | BBCosPA
  | CascLifetime
  | MaxV0Lifetime
  deriving DecidableEq, Repr

/-- The setter that the sweep of a variable calls on the copy of the central configuration:
`SetCutDCANegToPV`, `SetCutDCAPosToPV`, `SetCutDCAV0Daughters`, `SetCutV0CosPA`,
`SetCutV0Radius`, `SetCutDCAV0ToPV`, `SetCutDCABachToPV`, `SetCutDCACascDaughters`,
`SetCutCascRadius`, `SetCutCascCosPA`, `SetCutBachBaryonCosPA`, `SetCutProperLifetime`,
`SetCutMaxV0Lifetime`. -/
def SweepVariable.set : SweepVariable → ℚ → AliCascadeResult → AliCascadeResult
  | .DCANegToPV, v, r => { r with GetCutDCANegToPV := v }
  | .DCAPosToPV, v, r => { r with GetCutDCAPosToPV := v }
  | .DCAV0Daughters, v, r => { r with GetCutDCAV0Daughters := v }
  | .V0CosPA, v, r => { r with GetCutV0CosPA := v }
  | .V0Radius, v, r => { r with GetCutV0Radius := v }
  | .DCAV0ToPV, v, r => { r with GetCutDCAV0ToPV := v }
  | .DCABachToPV, v, r => { r with GetCutDCABachToPV := v }
  | .DCACascDaughters, v, r => { r with GetCutDCACascDaughters := v }
  | .CascRadius, v, r => { r with GetCutCascRadius := v }
  | .CascCosPA, v, r => { r with GetCutCascCosPA := v }
  | .BBCosPA, v, r => { r with GetCutBachBaryonCosPA := v }
  | .CascLifetime, v, r => { r with GetCutProperLifetime := v }
  | .MaxV0Lifetime, v, r => { r with GetCutMaxV0Lifetime := v }

/-- Whether the threshold bounds the candidate's quantity from below (`quantity > cut`)
rather than from above (`quantity < cut`) in the selection. -/
def SweepVariable.lowerBound : SweepVariable → Bool
  | .DCANegToPV => true
  | .DCAPosToPV => true
  | .DCAV0Daughters => false
  | .V0CosPA => true
  | .V0Radius => true
  | .DCAV0ToPV => true
  | .DCABachToPV => true
  | .DCACascDaughters => false
  | .CascRadius => true
  | .CascCosPA => true
  | .BBCosPA => false
  | .CascLifetime => false
  | .MaxV0Lifetime => false

/-- The value `tight` of a threshold is at least as restrictive as `loose`: larger for a
lower bound, smaller for an upper bound. -/
def SweepVariable.moreRestrictive (d : SweepVariable) (tight loose : ℚ) : Prop :=
  if d.lowerBound then loose ≤ tight else tight ≤ loose

/-- A central XiMinus configuration with the vertexer-level cuts of
`AddTopologicalQACascade`, constant cuts only, the remaining cuts open. -/
def sampleResult : AliCascadeResult :=
  { GetMassHypothesis := EMassHypo.kXiMinus, GetSwapBachelorCharge := false,
    GetCutMinEtaTracks := -8/10, GetCutMaxEtaTracks := 8/10,
    GetCutMinRapidity := -1/2, GetCutMaxRapidity := 1/2,
    GetCutDCANegToPV := 2/10, GetCutDCAPosToPV := 2/10, GetCutDCAV0Daughters := 1,
    GetCutV0CosPA := 95/100, GetCutUseVarV0CosPA := false,
    GetCutVarV0CosPAExp0Const := 0, GetCutVarV0CosPAExp0Slope := 0,
    GetCutVarV0CosPAExp1Const := 0, GetCutVarV0CosPAExp1Slope := 0,
    GetCutVarV0CosPAConst := 0,
    GetCutV0Radius := 3, GetCutDCAV0ToPV := 1/10, GetCutV0Mass := 6/1000,
    GetCutV0MassSigma := 1000, GetCutDCABachToPV := 1/10,
    GetCutDCACascDaughters := 1, GetCutUseVarDCACascDau := false,
    GetCutVarDCACascDauExp0Const := 0, GetCutVarDCACascDauExp0Slope := 0,
    GetCutVarDCACascDauExp1Const := 0, GetCutVarDCACascDauExp1Slope := 0,
    GetCutVarDCACascDauConst := 0,
    GetCutCascCosPA := 95/100, GetCutUseVarCascCosPA := false,
    GetCutVarCascCosPAExp0Const := 0, GetCutVarCascCosPAExp0Slope := 0,
    GetCutVarCascCosPAExp1Const := 0, GetCutVarCascCosPAExp1Slope := 0,
    GetCutVarCascCosPAConst := 0,
    GetCutCascRadius := 12/10, GetCutProperLifetime := 15,
    GetCutLeastNumberOfClusters := 70, GetCutTPCdEdx := 4, GetCutUseTOFUnchecked := false,
    GetCutXiRejection := 8/1000, GetCutDCABachToBaryon := 0,
    GetCutBachBaryonCosPA := 9992/10000, GetCutUseVarBBCosPA := false,
    GetCutVarBBCosPAExp0Const := 0, GetCutVarBBCosPAExp0Slope := 0,
    GetCutVarBBCosPAExp1Const := 0, GetCutVarBBCosPAExp1Slope := 0,
    GetCutVarBBCosPAConst := 0,
    GetCutMinV0Lifetime := -2, GetCutMaxV0Lifetime := 30,
    GetCutUseITSRefitTracks := false, GetCutMaxChi2PerCluster := 10000,
    GetCutMinTrackLength := -1, GetCutUse276TeVV0CosPA := false,
    GetCutDCACascadeToPV := 10000, GetCutDCANegToPVWeighted := -1,
    GetCutDCAPosToPVWeighted := -1, GetCutDCABachToPVWeighted := -1,
    GetHistogram := { fills := [] } }

/-- A negative cascade candidate that passes `sampleResult`. -/
def sampleCandidate : Candidate :=
  { fCentrality := 20,
    fLambdaMassMean := fun i => if i = 0 then 1116/1000 else 0,
    fLambdaMassSigma := fun i => if i = 0 then 2/1000 else 0,
    lV0Pt := 2, lV0TotMomentum := 3,
    fTreeCascVarCharge := -1, fTreeCascVarPt := 3,
    fTreeCascVarMassAsXi := 1322/1000, fTreeCascVarMassAsOmega := 1700/1000,
    fTreeCascVarV0MassLambda := 1117/1000, fTreeCascVarV0MassAntiLambda := 1200/1000,
    fTreeCascVarRapXi := 1/10, fTreeCascVarRapOmega := 2/10,
    fTreeCascVarPosEta := 1/10, fTreeCascVarNegEta := 2/10, fTreeCascVarBachEta := -3/10,
    fTreeCascVarNegNSigmaPion := 1, fTreeCascVarNegNSigmaProton := 9,
    fTreeCascVarPosNSigmaPion := 9, fTreeCascVarPosNSigmaProton := -1,
    fTreeCascVarBachNSigmaPion := 2, fTreeCascVarBachNSigmaKaon := 9,
    fTreeCascVarNegTOFNSigmaPion := 0, fTreeCascVarNegTOFNSigmaProton := 0,
    fTreeCascVarPosTOFNSigmaPion := 0, fTreeCascVarPosTOFNSigmaProton := 0,
    fTreeCascVarBachTOFNSigmaPion := 0, fTreeCascVarBachTOFNSigmaKaon := 0,
    fTreeCascVarDCANegToPrimVtx := 1/2, fTreeCascVarDCAPosToPrimVtx := 1/2,
    fTreeCascVarDCAV0Daughters := 1/2, fTreeCascVarV0CosPointingAngle := 99/100,
    fTreeCascVarV0Radius := 5, fTreeCascVarDCAV0ToPrimVtx := 1/2,
    fTreeCascVarDCABachToPrimVtx := 1/2, fTreeCascVarDCACascDaughters := 1/2,
    fTreeCascVarCascCosPointingAngle := 99/100, fTreeCascVarCascRadius := 2,
    fTreeCascVarDistOverTotMom := 5, fTreeCascVarLeastNbrClusters := 100,
    fTreeCascVarDCABachToBaryon := 1, fTreeCascVarWrongCosPA := 9/10,
    fTreeCascVarV0Lifetime := 10,
    fTreeCascVarPosTrackStatus := 4, fTreeCascVarNegTrackStatus := 4,
    fTreeCascVarBachTrackStatus := 4,
    fTreeCascVarMaxChi2PerCluster := 2, fTreeCascVarMinTrackLength := 120,
    fTreeCascVarCascDCAtoPVz := 0, fTreeCascVarCascDCAtoPVxy := 0,
    fTreeCascVarNegDCAPVSigmaX2 := 0, fTreeCascVarNegDCAPVSigmaY2 := 0,
    fTreeCascVarPosDCAPVSigmaX2 := 0, fTreeCascVarPosDCAPVSigmaY2 := 0,
    fTreeCascVarBachDCAPVSigmaX2 := 0, fTreeCascVarBachDCAPVSigmaY2 := 0 }

end Cascade

namespace BasedNdeta

/-- A trigger histogram with the counters `all = 100`, `B = 100`, `A = 10`, `C = 5`,
`E = 3`, `MB = 100`, `triggered = 100`, `with vertex = 90`, `accepted = 80` in the bins
of `sampleExt`. -/
def sampleTriggers : TH1D :=
  { fName := "triggers", fTitle := "Number of triggers", fNbins := 9, fXmin := 1, fXmax := 9,
    fArray := fun bin =>
      if bin = 1 then 100 else if bin = 2 then 100 else if bin = 3 then 10
      else if bin = 4 then 5 else if bin = 5 then 3 else if bin = 6 then 100
      else if bin = 7 then 100 else if bin = 8 then 90 else if bin = 9 then 80 else 0
    fSumw2 := none }

/-- A sum histogram with two eta bins of width 1/2 and two vertex bins. -/
def sampleSum : TH2D :=
  { fName := "Forward", fTitle := "sum", fNbinsX := 2, fXmin := 0, fXmax := 1,
    fNbinsY := 2, fYmin := -10, fYmax := 10,
    fArray := fun binx biny =>
      if binx = 1 then (if biny = 0 then 1 else if biny = 1 then 4 else 0)
      else if binx = 2 then (if biny = 0 then 1 else if biny = 1 then 8 else 0)
      else 0
    fSumw2 := some (fun _ _ => 1) }

/-- The sums list holding `sampleTriggers` and `sampleSum`. -/
def sampleSums : TList :=
  { fName := "Forward_sums", objs := [TObject.th1 sampleTriggers, TObject.th2 sampleSum] }

/-- A task named `Forward` at the start of `Terminate`, whose output slot 1 holds
`sampleTriggers` and `sampleSum`. -/
def sampleTask : Task :=
  { fName := "Forward", fSum := none, fSumMC := none, fSums := none, fOutput := none,
    fTriggers := none, fVtxMin := -10, fVtxMax := 10, fTriggerMask := 1, fRebin := 5,
    fCutEdges := false, fSymmetrice := true, fCorrEmpty := true,
    outputData1 := some sampleSums, posted := [], messages := [] }

end BasedNdeta

namespace BasedNdeta

/-- The objects held by the output list of a task; none when the task has no list. -/
def outputObjects (t : Task) : List TObject :=
  match t.fOutput with
  | some o => o.objs
  | none => []

/-- Whether a message is one of `AliError`. -/
def Msg.isError : Msg → Bool
  | .errorNoSums => true
  | .errorNoTriggers => true
  | .errorNoBase => true
  | .errorTriggeredLE0 => true
  | .warningGoodLE0 _ _ _ _ _ => false
  | .infoCounts => false

/-- A trigger histogram without any event. -/
def emptyTriggers : TH1D :=
  { fName := "triggers", fTitle := "Number of triggers", fNbins := 9, fXmin := 1, fXmax := 9,
    fArray := fun _ => 0, fSumw2 := none }

/-- The sums list after a run without events. -/
def emptyRunSums : TList :=
  { fName := "Forward_sums", objs := [TObject.th1 emptyTriggers, TObject.th2 sampleSum] }

/-- The task `sampleTask` after a run without events. -/
def emptyRunTask : Task := { sampleTask with outputData1 := some emptyRunSums }

/-- The trigger histogram after one event that has the B trigger, the collision trigger
and the selected trigger but no vertex: `CheckEvent` counts it in `kAll`, `kB`, `kMB`
and `kWithTrigger` and returns at the vertex test. -/
def noVertexTriggers : TH1D :=
  { fName := "triggers", fTitle := "Number of triggers", fNbins := 9, fXmin := 1, fXmax := 9,
    fArray := fun bin =>
      if bin = 1 then 1 else if bin = 2 then 1 else if bin = 6 then 1
      else if bin = 7 then 1 else 0
    fSumw2 := none }

/-- The sums list after a run of that single event. -/
def noVertexSums : TList :=
  { fName := "Forward_sums", objs := [TObject.th1 noVertexTriggers, TObject.th2 sampleSum] }

/-- The task `sampleTask` after a run of that single event. -/
def noVertexTask : Task := { sampleTask with outputData1 := some noVertexSums }

/-- A trigger histogram of a large merged sample with the counters `all = 2100000000`,
`B = 2000000000`, `A = C = 0`, `E = 100000000`, `MB = 2000000000`,
`triggered = 2000000000`, `with vertex = 1900000000`, `accepted = 1800000000`, each within
the range of `Int_t`. -/
def largeTriggers : TH1D :=
  { fName := "triggers", fTitle := "Number of triggers", fNbins := 9, fXmin := 1, fXmax := 9,
    fArray := fun bin =>
      if bin = 1 then 2100000000 else if bin = 2 then 2000000000
      else if bin = 5 then 100000000 else if bin = 6 then 2000000000
      else if bin = 7 then 2000000000 else if bin = 8 then 1900000000
      else if bin = 9 then 1800000000 else 0
    fSumw2 := none }

/-- The sums list holding `largeTriggers` and `sampleSum`. -/
def largeSums : TList :=
  { fName := "Forward_sums", objs := [TObject.th1 largeTriggers, TObject.th2 sampleSum] }

/-- The task `sampleTask` after the run that left the counters `largeTriggers`. -/
def largeTask : Task := { sampleTask with outputData1 := some largeSums }

end BasedNdeta

namespace BasedNdeta

/-- Whether the cell `(xbin, ybin)` is summed by `ProjectX`: its content is at least
`1e-12` and, in the error-respecting mode, so is its error. -/
def contributes (E : Ext) (h : TH2D) (error : Bool) (xbin ybin : Int) : Bool :=
  !(decide (h.GetCellContent xbin ybin < tiny)) &&
  !(decide (h.GetCellError E xbin ybin < tiny) && error)

/-- The y bins in `first .. last` whose cell of column `xbin` is summed by `ProjectX`. -/
def contributingCells (E : Ext) (h : TH2D) (error : Bool) (first last xbin : Int) :
    List Int :=
  (intRange first last).filter (contributes E h error xbin)

/-- The sum of the contents of all cells of column `xbin` over the y bins `first .. last`,
the quantity `S` in the words of the specification. -/
def columnSum (h : TH2D) (first last xbin : Int) : ℚ :=
  ((intRange first last).map (h.GetCellContent xbin)).sum

/-- The number of cells of column `xbin` over the y bins `first .. last` with non-zero
content, the quantity `nNonzero` in the words of the specification. -/
def columnNonzero (h : TH2D) (first last xbin : Int) : Nat :=
  ((intRange first last).filter (fun y => decide (h.GetCellContent xbin y ≠ 0))).length

/-- A histogram with one x bin and two y bins whose cells hold `3` and `-1`, with unit
errors. -/
def signedSum : TH2D :=
  { fName := "signed", fTitle := "sum", fNbinsX := 1, fXmin := 0, fXmax := 1,
    fNbinsY := 2, fYmin := -10, fYmax := 10,
    fArray := fun binx biny =>
      if binx = 1 then (if biny = 1 then 3 else if biny = 2 then -1 else 0) else 0
    fSumw2 := some (fun _ _ => 1) }

/-- A histogram with one x bin and two y bins whose cells hold `3` with unit error and `5`
with zero error. -/
def zeroErrorSum : TH2D :=
  { fName := "zeroError", fTitle := "sum", fNbinsX := 1, fXmin := 0, fXmax := 1,
    fNbinsY := 2, fYmin := -10, fYmax := 10,
    fArray := fun binx biny =>
      if binx = 1 then (if biny = 1 then 3 else if biny = 2 then 5 else 0) else 0
    fSumw2 := some (fun _ biny => if biny = 2 then 0 else 1) }

end BasedNdeta

namespace TH1D

/-- The squared error of a bin as ROOT keeps it: the stored value, or the absolute content
when no errors are stored. -/
def sumw2At (r : TH1D) (b : Int) : ℚ :=
  match r.fSumw2 with
  | some w => w b
  | none => |r.fArray b|

end TH1D

/-- The bundle `sampleExt` with a square root that is exact at `0`, `1`, `4`, `9` and
`16`. -/
def squaresExt : Ext :=
  { sampleExt with
    Sqrt := fun x => if x = 4 then 2 else if x = 9 then 3 else if x = 16 then 4
      else sampleExt.Sqrt x }

namespace BasedNdeta

/-- The error that `ProjectX` adds in quadrature for a summed cell: the error of the cell,
or one when that is below `1e-12` (source lines 308-311). -/
def summedError (E : Ext) (h : TH2D) (xbin ybin : Int) : ℚ :=
  if h.GetCellError E xbin ybin < tiny then 1 else h.GetCellError E xbin ybin

/-- The sum of the squared errors of the contributing cells of column `xbin`. -/
def columnError2 (E : Ext) (h : TH2D) (error : Bool) (first last xbin : Int) : ℚ :=
  ((contributingCells E h error first last xbin).map
    (fun y => h.GetCellError E xbin y * h.GetCellError E xbin y)).sum

/-- The factor of the empty-bin correction for column `xbin`. -/
def columnFactor (E : Ext) (h : TH2D) (corr error : Bool) (first last xbin : Int) : ℚ :=
  if corr then
    ((last - first + 1 : Int) : ℚ) / ((contributingCells E h error first last xbin).length : ℚ)
  else 1

/-- The cells of column `xbin` over the y bins `first .. last` that a projection substituting
a unit error sums: those with a content of at least `1e-12`, whatever their error. -/
def unitErrorCells (h : TH2D) (first last xbin : Int) : List Int :=
  (intRange first last).filter (fun y => decide (tiny ≤ h.GetCellContent xbin y))

/-- The cells of column `xbin` over the y bins `first .. last` that an error-respecting
projection sums: those with a content and an error of at least `1e-12`. -/
def errorRespectingCells (E : Ext) (h : TH2D) (first last xbin : Int) : List Int :=
  (intRange first last).filter (fun y =>
    decide (tiny ≤ h.GetCellContent xbin y) && decide (tiny ≤ h.GetCellError E xbin y))

/-- The content that the sum over the cells `cells` of column `xbin` gives: nothing when
there is no cell, else their sum, with the empty-bin correction times the number of y bins
over the number of cells. -/
def cellsProjection (h : TH2D) (corr : Bool) (first last : Int) (cells : List Int)
    (xbin : Int) : ℚ :=
  if cells = [] then 0
  else (if corr then ((last - first + 1 : Int) : ℚ) / (cells.length : ℚ) else 1) *
    (cells.map (h.GetCellContent xbin)).sum

/-- A trigger histogram with the counters `all = 100`, `B = 40`, `A = C = E = 0`,
`MB = 100`, `triggered = 100`, `with vertex = 90`, `accepted = 80`: the good-event count is
`40` and the normalisation factor `80 / 40 = 2`. -/
def exampleTriggers : TH1D :=
  { fName := "triggers", fTitle := "Number of triggers", fNbins := 9, fXmin := 1, fXmax := 9,
    fArray := fun bin =>
      if bin = 1 then 100 else if bin = 2 then 40 else if bin = 6 then 100
      else if bin = 7 then 100 else if bin = 8 then 90 else if bin = 9 then 80 else 0
    fSumw2 := none }

/-- The sums list holding `exampleTriggers` and the sum histogram `sum`. -/
def plainSums (sum : TH2D) : TList :=
  { fName := "Forward_sums", objs := [TObject.th1 exampleTriggers, TObject.th2 sum] }

/-- The task `sampleTask` without rebinning, mirroring and empty-bin correction after a run
that left the counters `exampleTriggers` and the sum histogram `sum`. -/
def plainTask (sum : TH2D) : Task :=
  { sampleTask with
    fRebin := 1, fSymmetrice := false, fCorrEmpty := false
    outputData1 := some (plainSums sum) }

/-- A sum histogram with two eta bins of width `1/2` whose acceptance cells (vertex
underflow) hold `1` and whose cells of the second vertex bin hold `4` and `8`, all with
unit error. -/
def exampleSum : TH2D :=
  { fName := "Forward", fTitle := "sum", fNbinsX := 2, fXmin := 0, fXmax := 1,
    fNbinsY := 2, fYmin := -10, fYmax := 10,
    fArray := fun binx biny =>
      if biny = 0 then (if binx = 1 ∨ binx = 2 then 1 else 0)
      else if biny = 2 then (if binx = 1 then 4 else if binx = 2 then 8 else 0)
      else 0
    fSumw2 := some (fun _ _ => 1) }

/-- The histogram `exampleSum` with acceptance cells without error. -/
def zeroErrorAcceptance : TH2D :=
  { exampleSum with fSumw2 := some (fun _ biny => if biny = 0 then 0 else 1) }

end BasedNdeta

namespace BasedNdeta

/-- The bins of `h` in the group of the new bin `i` of `Rebin` (bins `(i-1)*R+1 .. i*R`)
that have positive content. -/
def groupBins (fRebin : Int) (h : TH1D) (i : Int) : List Int :=
  ((intRange 1 fRebin).map (fun j => (i - 1) * fRebin + j)).filter
    (fun b => decide (0 < h.GetBinContent b))

/-- The weight `1 / e^2` of a bin. -/
def binWeight (E : Ext) (h : TH1D) (b : Int) : ℚ :=
  1 / (TH1D.GetBinError E h b * TH1D.GetBinError E h b)

/-- The sum of the weights of the bins with positive content in the group of new bin `i`. -/
def groupSumw (E : Ext) (fRebin : Int) (h : TH1D) (i : Int) : ℚ :=
  ((groupBins fRebin h i).map (binWeight E h)).sum

/-- The weighted sum of the contents of the bins with positive content in the group of new
bin `i`. -/
def groupWsum (E : Ext) (fRebin : Int) (h : TH1D) (i : Int) : ℚ :=
  ((groupBins fRebin h i).map (fun b => binWeight E h b * h.GetBinContent b)).sum

end BasedNdeta

namespace BasedNdeta

/-- A histogram with four bins of width `1/2` holding `1`, `3`, `0` and `2`, all with unit
squared error. -/
def fourBins : TH1D :=
  { fName := "dndetaForward", fTitle := "ALICE Forward", fNbins := 4, fXmin := 0, fXmax := 2,
    fArray := fun bin =>
      if bin = 1 then 1 else if bin = 2 then 3 else if bin = 4 then 2 else 0
    fSumw2 := some (fun _ => 1) }

end BasedNdeta

namespace BasedNdeta

/-- The sum of content times bin width over the bins `1 .. nBins` of a histogram. -/
def integralWidth (h : TH1D) : ℚ :=
  ((intRange 1 (h.fNbins : Int)).map (fun j => h.GetBinContent j * h.GetBinWidth)).sum

/-- A histogram with four bins of width `1/2` holding `1`, `3`, `0` and `0`, all with unit
squared error. -/
def twoGroups : TH1D :=
  { fName := "dndetaForward", fTitle := "ALICE Forward", fNbins := 4, fXmin := 0, fXmax := 2,
    fArray := fun bin => if bin = 1 then 1 else if bin = 2 then 3 else 0
    fSumw2 := some (fun _ => 1) }

end BasedNdeta

namespace BasedNdeta

/-- A histogram with four bins of width `1/2` holding `1`, `2`, `3` and `4`, all with unit
squared error; underflow and overflow are empty. -/
def risingBins : TH1D :=
  { fName := "dndetaForward", fTitle := "ALICE Forward", fNbins := 4, fXmin := 0, fXmax := 2,
    fArray := fun bin =>
      if bin = 1 then 1 else if bin = 2 then 2 else if bin = 3 then 3
      else if bin = 4 then 4 else 0
    fSumw2 := some (fun _ => 1) }

end BasedNdeta

namespace BasedNdeta

/-- The bin `f1` of `Symmetrice`: the bin of `h` that holds `-xfirst`, with `xfirst` the
centre of the bin before the first bin with data (source lines 553-554). -/
def symF1 (h : TH1D) : Int :=
  h.FindBin (- h.GetBinCenter ((firstLast h).1 - 1))

/-- The bin `l2` of `Symmetrice`: the bin of the mirrored axis that holds `xfirst` (source
line 555). -/
def symL2 (h : TH1D) : Int :=
  (h.ResetSetBins h.fNbins (- h.fXmax) (- h.fXmin)).FindBin
    (h.GetBinCenter ((firstLast h).1 - 1))

/-- A histogram with four bins of width `1` on `[-1, 3]` holding `1`, `2`, `3` and `4`, all
with unit squared error. -/
def offsetBins : TH1D :=
  { fName := "dndetaForward", fTitle := "ALICE Forward", fNbins := 4, fXmin := -1, fXmax := 3,
    fArray := fun bin =>
      if bin = 1 then 1 else if bin = 2 then 2 else if bin = 3 then 3
      else if bin = 4 then 4 else 0
    fSumw2 := some (fun _ => 1) }

end BasedNdeta

/-! ## Event counting of `AliBasedNdetaTask`

The class `AliAODForwardMult` and its enumerators are not defined in the sources: an object
of the class is represented by the results of the methods that `CheckEvent` calls. -/

/-- The trigger bits `AliAODForwardMult::kInel`, `kB`, `kA`, `kC` and `kE`. -/
structure ETriggerBits where
  kInel : Nat
  kB : Nat
  kA : Nat
  kC : Nat
  kE : Nat

/-- An `AliAODForwardMult` object, by the results of its methods. -/
structure AliAODForwardMult where
  IsTriggerBits : Nat → Bool
  HasIpZ : Bool
  InRange : ℚ → ℚ → Bool

/-- An `AliAODEvent`, by the result of `FindListObject ("Forward")`; `none` is the null
pointer. -/
structure AliAODEvent where
  forward : Option AliAODForwardMult

/-- Method `AddBinContent (bin)` of `TH1D`, `++fArray[bin]`, for a bin of the array; ROOT
makes no range check. -/
def TH1D.AddBinContent (h : TH1D) (bin : Int) : TH1D :=
  { h with fArray := Function.update h.fArray bin (h.fArray bin + 1) }

namespace BasedNdeta

/-- The histogram `fTriggers` that `UserCreateOutputObjects` books (source lines 122-123):
`kAccepted` bins on `[1, kAccepted]`, all empty. -/
def newTriggers (E : Ext) : TH1D :=
  TH1D.new "triggers" "Number of triggers" E.kAccepted.toNat 1 (E.kAccepted : ℚ)

/-- The method `AliBasedNdetaTask::CheckEvent` (source lines 165-201): the task afterwards
and the value returned.  The warning for a missing forward object is not recorded. -/
def CheckEvent (E : Ext) (B : ETriggerBits) (t : Task) (aod : AliAODEvent) :
    Except Fault (Task × Bool) :=
  match aod.forward with
  | none => .ok (t, false)
  | some forward =>
    match t.fTriggers with
    | none => .error Fault.nullPointer
    | some tr =>
      let tr := tr.AddBinContent E.kAll
      let tr := if forward.IsTriggerBits B.kB then tr.AddBinContent E.kB else tr
      let tr := if forward.IsTriggerBits B.kA then tr.AddBinContent E.kA else tr
      let tr := if forward.IsTriggerBits B.kC then tr.AddBinContent E.kC else tr
      let tr := if forward.IsTriggerBits B.kE then tr.AddBinContent E.kE else tr
      let tr := if forward.IsTriggerBits B.kInel then tr.AddBinContent E.kMB else tr
      if !forward.IsTriggerBits t.fTriggerMask then
        .ok ({ t with fTriggers := some tr }, false)
      else
        let tr := tr.AddBinContent E.kWithTrigger
        if !forward.HasIpZ then .ok ({ t with fTriggers := some tr }, false)
        else
          let tr := tr.AddBinContent E.kWithVertex
          if !forward.InRange t.fVtxMin t.fVtxMax then
            .ok ({ t with fTriggers := some tr }, false)
          else .ok ({ t with fTriggers := some (tr.AddBinContent E.kAccepted) }, true)

/-- A sequence of calls of `CheckEvent`, one for each event of the list: the task afterwards
and the values returned, in order. -/
def CheckEvents (E : Ext) (B : ETriggerBits) : Task → List AliAODEvent →
    Except Fault (Task × List Bool)
  | t, [] => .ok (t, [])
  | t, aod :: rest =>
    match CheckEvent E B t aod with
    | .error f => .error f
    | .ok (t1, r) =>
      match CheckEvents E B t1 rest with
      | .error f => .error f
      | .ok (t2, rs) => .ok (t2, r :: rs)

/-- The nine bins of the trigger histogram are different bins of a histogram with
`kAccepted` bins. -/
def triggerBinsValid (E : Ext) : Prop :=
  [E.kAll, E.kB, E.kA, E.kC, E.kE, E.kMB, E.kWithTrigger, E.kWithVertex, E.kAccepted].Nodup ∧
  ∀ k ∈ [E.kAll, E.kB, E.kA, E.kC, E.kE, E.kMB, E.kWithTrigger, E.kWithVertex, E.kAccepted],
    0 ≤ k ∧ k ≤ E.kAccepted + 1

/-- The order of the counters of a trigger histogram:
`accepted ≤ withVertex ≤ withTrigger ≤ all`, and the `B`, `A`, `C`, `E` and minimum-bias
counters are at most `all`. -/
def countersOrdered (E : Ext) (tr : TH1D) : Prop :=
  tr.GetBinContent E.kAccepted ≤ tr.GetBinContent E.kWithVertex ∧
  tr.GetBinContent E.kWithVertex ≤ tr.GetBinContent E.kWithTrigger ∧
  tr.GetBinContent E.kWithTrigger ≤ tr.GetBinContent E.kAll ∧
  tr.GetBinContent E.kB ≤ tr.GetBinContent E.kAll ∧
  tr.GetBinContent E.kA ≤ tr.GetBinContent E.kAll ∧
  tr.GetBinContent E.kC ≤ tr.GetBinContent E.kAll ∧
  tr.GetBinContent E.kE ≤ tr.GetBinContent E.kAll ∧
  tr.GetBinContent E.kMB ≤ tr.GetBinContent E.kAll

/-- The trigger bits `kInel = 0x1`, `kB = 0x10`, `kA = 0x20`, `kC = 0x40`, `kE = 0x80`
(bit masks chosen for the examples). -/
def sampleBits : ETriggerBits := { kInel := 1, kB := 16, kA := 32, kC := 64, kE := 128 }

/-- An event with the B trigger and the collision trigger, with a vertex in range. -/
def acceptedEvent : AliAODEvent :=
  { forward := some
      { IsTriggerBits := fun bits => decide (bits = 1) || decide (bits = 16)
        HasIpZ := true
        InRange := fun _ _ => true } }

/-- An event with the B trigger and the collision trigger, without vertex. -/
def noVertexEvent : AliAODEvent :=
  { forward := some
      { IsTriggerBits := fun bits => decide (bits = 1) || decide (bits = 16)
        HasIpZ := false
        InRange := fun _ _ => false } }

/-- The task `sampleTask` after `UserCreateOutputObjects`. -/
def bookedTask : Task := { sampleTask with fTriggers := some (newTriggers sampleExt) }

end BasedNdeta

/-! ## The candidate loops of `UserExec`

One turn of the loop over the V0s, and of the loop over the cascades, from the
track-quality gate on.  The tests before the gate, and for a cascade those between the gate
and the configuration loop, are represented by their outcome. -/

namespace V0

/-- What the loop over the V0s (source lines 1289-1697) has for one V0 at the track-quality
gate. -/
structure V0Entry where
  /-- None of the `continue` statements of source lines 1292-1391 was taken. -/
  reachesTrackQuality : Bool
  /-- The value `pTrack->GetTPCClusterInfo (2, 1)`. -/
  lPosTrackCrossedRows : ℚ
  /-- The value `nTrack->GetTPCClusterInfo (2, 1)`. -/
  lNegTrackCrossedRows : ℚ
  /-- Whether `pTrack->GetInnerParam ()` is not null. -/
  posInnerParam : Bool
  /-- Whether `nTrack->GetInnerParam ()` is not null. -/
  negInnerParam : Bool
  /-- The value `pTrack->GetLengthInActiveZone (1, 2.0, 220.0, field)`. -/
  posLengthInActiveZone : ℚ
  /-- The value `nTrack->GetLengthInActiveZone (1, 2.0, 220.0, field)`. -/
  negLengthInActiveZone : ℚ
  /-- The members and locals read by the configuration loop, other than
  `fTreeVariableLeastNbrCrossedRows` and `fTreeVariableMinTrackLength`. -/
  candidate : Candidate

/-- The member `fTreeVariableLeastNbrCrossedRows` (source lines 1372-1374). -/
def leastNbrCrossedRows (v : V0Entry) : Int :=
  let least := toInt_t v.lPosTrackCrossedRows
  if v.lNegTrackCrossedRows < (least : ℚ) then toInt_t v.lNegTrackCrossedRows else least

/-- The local `lSmallestTrackLength` (source lines 1420-1428). -/
def lSmallestTrackLength (v : V0Entry) : ℚ :=
  let lSmallestTrackLength : ℚ := 1000
  let lPosTrackLength : ℚ := if v.posInnerParam then v.posLengthInActiveZone else -1
  let lNegTrackLength : ℚ := if v.negInnerParam then v.negLengthInActiveZone else -1
  let lSmallestTrackLength :=
    if lPosTrackLength < lSmallestTrackLength then lPosTrackLength else lSmallestTrackLength
  if lNegTrackLength < lSmallestTrackLength then lNegTrackLength else lSmallestTrackLength

/-- The condition of the `continue` at source line 1432. -/
def trackQualityGate (v : V0Entry) : Bool :=
  (decide (v.lPosTrackCrossedRows < 70) || decide (v.lNegTrackCrossedRows < 70)) &&
    decide (lSmallestTrackLength v < 80)

/-- The candidate that the configuration loop sees. -/
def candidateOf (v : V0Entry) : Candidate :=
  { v.candidate with
    fTreeVariableLeastNbrCrossedRows := leastNbrCrossedRows v
    fTreeVariableMinTrackLength := lSmallestTrackLength v }

/-- One turn of the loop over the V0s: the list `fListV0` afterwards. -/
def v0LoopBody (E : Ext) (fListV0 : List AliV0Result) (v : V0Entry) : List AliV0Result :=
  if !v.reachesTrackQuality then fListV0
  else if trackQualityGate v then fListV0
  else configurationLoop E (candidateOf v) fListV0

/-- The loop over the V0s of an event. -/
def v0Loop (E : Ext) (fListV0 : List AliV0Result) (vs : List V0Entry) : List AliV0Result :=
  vs.foldl (v0LoopBody E) fListV0

/-- A V0 with long daughter tracks that gives `sampleCandidate`. -/
def goodEntry : V0Entry :=
  { reachesTrackQuality := true, lPosTrackCrossedRows := 120, lNegTrackCrossedRows := 125,
    posInnerParam := true, negInnerParam := true,
    posLengthInActiveZone := 130, negLengthInActiveZone := 140,
    candidate := sampleCandidate }

/-- The same V0 with `60` crossed rows on the positive daughter and the track length `50`
on the negative one. -/
def shortEntry : V0Entry :=
  { goodEntry with lPosTrackCrossedRows := 60, negLengthInActiveZone := 50 }

end V0

namespace Cascade

/-- What the loop over the cascades (source lines 1808-2724) has for one cascade at the
track-quality gate. -/
structure CascadeEntry where
  /-- None of the `continue` statements of source lines 1821-2017 was taken. -/
  reachesTrackQuality : Bool
  /-- The value `pTrackXi->GetTPCNcls ()`. -/
  lPosTPCClusters : Int
  /-- The value `nTrackXi->GetTPCNcls ()`. -/
  lNegTPCClusters : Int
  /-- The value `bachTrackXi->GetTPCNcls ()`. -/
  lBachTPCClusters : Int
  /-- Whether `pTrackXi->GetInnerParam ()` is not null. -/
  posInnerParam : Bool
  /-- Whether `nTrackXi->GetInnerParam ()` is not null. -/
  negInnerParam : Bool
  /-- Whether `bachTrackXi->GetInnerParam ()` is not null. -/
  bachInnerParam : Bool
  /-- The value `pTrackXi->GetLengthInActiveZone (1, 2.0, 220.0, field)`. -/
  posLengthInActiveZone : ℚ
  /-- The value `nTrackXi->GetLengthInActiveZone (1, 2.0, 220.0, field)`. -/
  negLengthInActiveZone : ℚ
  /-- The value `bachTrackXi->GetLengthInActiveZone (1, 2.0, 220.0, field)`. -/
  bachLengthInActiveZone : ℚ
  /-- None of the `continue` statements of source lines 2351-2364 is taken. -/
  passesExtraCleanup : Bool
  /-- The members and locals read by the configuration loop, other than
  `fTreeCascVarLeastNbrClusters` and `fTreeCascVarMinTrackLength`. -/
  candidate : Candidate

/-- The local `leastnumberofclusters` (source lines 2033-2039). -/
def leastnumberofclusters (x : CascadeEntry) : Int :=
  let least : Int := 1000
  let least := if x.lPosTPCClusters < least then x.lPosTPCClusters else least
  let least := if x.lNegTPCClusters < least then x.lNegTPCClusters else least
  if x.lBachTPCClusters < least then x.lBachTPCClusters else least

/-- The local `lSmallestTrackLength` (source lines 2047-2058). -/
def lSmallestTrackLength (x : CascadeEntry) : ℚ :=
  let lSmallestTrackLength : ℚ := 1000
  let lPosTrackLength : ℚ := if x.posInnerParam then x.posLengthInActiveZone else -1
  let lNegTrackLength : ℚ := if x.negInnerParam then x.negLengthInActiveZone else -1
  let lBachTrackLength : ℚ := if x.bachInnerParam then x.bachLengthInActiveZone else -1
  let lSmallestTrackLength :=
    if lPosTrackLength < lSmallestTrackLength then lPosTrackLength else lSmallestTrackLength
  let lSmallestTrackLength :=
    if lNegTrackLength < lSmallestTrackLength then lNegTrackLength else lSmallestTrackLength
  if lBachTrackLength < lSmallestTrackLength then lBachTrackLength else lSmallestTrackLength

/-- Whether one of the three `continue` statements of source lines 2063-2074 is taken. -/
def trackQualityGate (x : CascadeEntry) : Bool :=
  if x.lPosTPCClusters < 70 ∧ lSmallestTrackLength x < 80 then true
  else if x.lNegTPCClusters < 70 ∧ lSmallestTrackLength x < 80 then true
  else if x.lBachTPCClusters < 70 ∧ lSmallestTrackLength x < 80 then true
  else false

/-- The candidate that the configuration loop sees. -/
def candidateOf (x : CascadeEntry) : Candidate :=
  { x.candidate with
    fTreeCascVarLeastNbrClusters := leastnumberofclusters x
    fTreeCascVarMinTrackLength := lSmallestTrackLength x }

/-- One turn of the loop over the cascades: the list `fListCascade` afterwards. -/
def cascadeLoopBody (E : Ext) (fListCascade : List AliCascadeResult) (x : CascadeEntry) :
    List AliCascadeResult :=
  if !x.reachesTrackQuality then fListCascade
  else if trackQualityGate x then fListCascade
  else if !x.passesExtraCleanup then fListCascade
  else configurationLoop E (candidateOf x) fListCascade

/-- The loop over the cascades of an event. -/
def cascadeLoop (E : Ext) (fListCascade : List AliCascadeResult) (xs : List CascadeEntry) :
    List AliCascadeResult :=
  xs.foldl (cascadeLoopBody E) fListCascade

/-- A cascade with long daughter tracks that gives `sampleCandidate`. -/
def goodEntry : CascadeEntry :=
  { reachesTrackQuality := true, lPosTPCClusters := 100, lNegTPCClusters := 110,
    lBachTPCClusters := 120, posInnerParam := true, negInnerParam := true,
    bachInnerParam := true, posLengthInActiveZone := 120, negLengthInActiveZone := 125,
    bachLengthInActiveZone := 130, passesExtraCleanup := true, candidate := sampleCandidate }

/-- The same cascade with `60` clusters on the bachelor and no inner parameters on the
negative daughter. -/
def shortEntry : CascadeEntry :=
  { goodEntry with lBachTPCClusters := 60, negInnerParam := false }

end Cascade

namespace BasedNdeta

/-- Whether the loop of `Rebin` lets bin `b` of `h` contribute: its content is positive
(source line 492) and it is not removed by the edge cut (source lines 495-496). -/
def keeps (fCutEdges : Bool) (h : TH1D) (b : Int) : Bool :=
  decide (0 < h.GetBinContent b ∧
    ¬ (fCutEdges = true ∧ (h.GetBinContent (b + 1) ≤ 0 ∨ h.GetBinContent (b - 1) ≠ 0)))

/-- The bins of `h` in the group of the new bin `i` of `Rebin` (bins `(i-1)*R+1 .. i*R`)
that the loop lets contribute. -/
def keptBins (fRebin : Int) (fCutEdges : Bool) (h : TH1D) (i : Int) : List Int :=
  ((intRange 1 fRebin).map (fun j => (i - 1) * fRebin + j)).filter (keeps fCutEdges h)

/-- The sum of the weights `1 / e^2` of the contributing bins of the group of new bin `i`. -/
def keptSumw (E : Ext) (fRebin : Int) (fCutEdges : Bool) (h : TH1D) (i : Int) : ℚ :=
  ((keptBins fRebin fCutEdges h i).map (binWeight E h)).sum

/-- The weighted sum of the contents of the contributing bins of the group of new bin `i`. -/
def keptWsum (E : Ext) (fRebin : Int) (fCutEdges : Bool) (h : TH1D) (i : Int) : ℚ :=
  ((keptBins fRebin fCutEdges h i).map (fun b => binWeight E h b * h.GetBinContent b)).sum

/-- Four bins on `[0, 4]` with the contents `1, 2, 3, 4`, each with the stored squared error
`4` (error `2`). -/
def wideErrors : TH1D :=
  { fName := "wide", fTitle := "wide", fNbins := 4, fXmin := 0, fXmax := 4,
    fArray := fun bin =>
      if bin = 1 then 1 else if bin = 2 then 2 else if bin = 3 then 3
      else if bin = 4 then 4 else 0
    fSumw2 := some (fun _ => 4) }

end BasedNdeta
/-! ## The event loop of `AliBasedNdetaTask` -/

namespace TH2D

/-- Method `Clone (newname)`. -/
def Clone (h : TH2D) (newname : String) : TH2D := { h with fName := newname }

/-- The squared error of a cell as ROOT keeps it: the stored value, or the absolute content
when no errors are stored. -/
def sumw2At (h : TH2D) (binx biny : Int) : ℚ :=
  match h.fSumw2 with
  | some w => w binx biny
  | none => |h.fArray binx biny|

/-- Method `Sumw2 ()`: start storing squared errors, initialised with the absolute
contents. -/
def Sumw2 (h : TH2D) : TH2D :=
  match h.fSumw2 with
  | some _ => h
  | none => { h with fSumw2 := some (fun binx biny => |h.fArray binx biny|) }

/-- Method `Add (h1)`: cell-wise sum of the contents and, when errors are stored, of the
squared errors, over all cells; a histogram with other bin counts is refused with an error
message and nothing is added. -/
def Add (h h1 : TH2D) : TH2D :=
  if h.fNbinsX ≠ h1.fNbinsX ∨ h.fNbinsY ≠ h1.fNbinsY then h
  else
    { h with
      fArray := fun binx biny => h.fArray binx biny + h1.fArray binx biny
      fSumw2 := h.fSumw2.map (fun w binx biny => w binx biny + h1.sumw2At binx biny) }

end TH2D

namespace BasedNdeta

/-- What the framework hands to one call of `UserExec`: the result of
`dynamic_cast<AliAODEvent*> (InputEvent ())` and the results of the virtual calls
`GetHistogram (aod)` and `GetHistogram (aod, true)`; `none` is the null pointer. -/
structure ExecInput where
  aod : Option AliAODEvent
  data : Option TH2D
  dataMC : Option TH2D

/-- The method `AliBasedNdetaTask::UserCreateOutputObjects` (source lines 108-149), for an
analysis manager with an AOD input handler. -/
def UserCreateOutputObjects (E : Ext) (t : Task) : Task :=
  let tr := newTriggers E
  let sums : TList := { fName := t.fName ++ "_sums", objs := [TObject.th1 tr] }
  { t with
    fOutput := some { fName := t.fName ++ "_result", objs := [] }
    fSums := some sums
    fTriggers := some tr
    posted := t.posted ++ [(1, sums)] }

/-- The method `AliBasedNdetaTask::CloneHist` (source lines 152-162): the task afterwards
and the pointer returned.  The list `fSums` holds the clone as it is when it is added. -/
def CloneHist (t : Task) (inp : Option TH2D) (name : String) :
    Except Fault (Task × Option TH2D) :=
  match inp with
  | none => .ok (t, none)
  | some h =>
    let ret := (h.Clone name).Sumw2
    match t.fSums with
    | none => .error Fault.nullPointer
    | some l => .ok ({ t with fSums := some (l.Add (some (TObject.th2 ret))) }, some ret)

/-- The statement `if (!fSum) fSum = CloneHist (data, GetName ())` (source line 224). -/
def createSum (t : Task) (data : TH2D) : Except Fault Task :=
  match t.fSum with
  | some _ => .ok t
  | none =>
    match CloneHist t (some data) t.fName with
    | .error f => .error f
    | .ok (t1, ret) => .ok { t1 with fSum := ret }

/-- The statement `if (!fSumMC && dataMC) fSumMC = CloneHist (dataMC, ...)` (source line
225). -/
def createSumMC (t : Task) (dataMC : Option TH2D) : Except Fault Task :=
  match t.fSumMC, dataMC with
  | none, some d =>
    match CloneHist t (some d) (t.fName ++ "MC") with
    | .error f => .error f
    | .ok (t1, ret) => .ok { t1 with fSumMC := ret }
  | _, _ => .ok t

/-- The statements `fSum->Add (data); if (fSumMC) fSumMC->Add (dataMC); PostData (1, fSums)`
(source lines 231-234); `TH1::Add` refuses a null pointer with an error message. -/
def addContribution (t : Task) (data : TH2D) (dataMC : Option TH2D) : Except Fault Task :=
  match t.fSum with
  | none => .error Fault.nullPointer
  | some sum =>
    let sumMC := match t.fSumMC, dataMC with
      | some s, some d => some (s.Add d)
      | s, _ => s
    match t.fSums with
    | none => .error Fault.nullPointer
    | some l =>
      .ok { t with fSum := some (sum.Add data), fSumMC := sumMC, posted := t.posted ++ [(1, l)] }

/-- The method `AliBasedNdetaTask::UserExec` (source lines 203-235).  Its error and warning
messages are not recorded. -/
def UserExec (E : Ext) (B : ETriggerBits) (t : Task) (inp : ExecInput) : Except Fault Task :=
  match inp.aod with
  | none => .ok t
  | some aod =>
    match inp.data with
    | none => .ok t
    | some data =>
      match createSum t data with
      | .error f => .error f
      | .ok t1 =>
        match createSumMC t1 inp.dataMC with
        | .error f => .error f
        | .ok t2 =>
          match CheckEvent E B t2 aod with
          | .error f => .error f
          | .ok (t3, false) => .ok t3
          | .ok (t3, true) => addContribution t3 data inp.dataMC

/-- A run of the event loop: one call of `UserExec` for each input, in order. -/
def UserExecs (E : Ext) (B : ETriggerBits) : Task → List ExecInput → Except Fault Task
  | t, [] => .ok t
  | t, inp :: rest =>
    match UserExec E B t inp with
    | .error f => .error f
    | .ok t1 => UserExecs E B t1 rest

/-- The cell-wise sum of the contents of a list of histograms. -/
def sumOfData (hs : List TH2D) (binx biny : Int) : ℚ :=
  (hs.map (fun h => h.fArray binx biny)).sum

/-- The data histograms of the inputs of a run for which `CheckEvent` returns true; the
value that `CheckEvent` returns does not depend on the counters. -/
def acceptedData (E : Ext) (B : ETriggerBits) (t : Task) : List ExecInput → List TH2D
  | [] => []
  | inp :: rest =>
    match inp.aod, inp.data with
    | some aod, some data =>
      match CheckEvent E B t aod with
      | .ok (_, true) => data :: acceptedData E B t rest
      | _ => acceptedData E B t rest
    | _, _ => acceptedData E B t rest

/-- The task `sampleTask` after `UserCreateOutputObjects`, before the first event. -/
def createdTask : Task := UserCreateOutputObjects sampleExt sampleTask

/-- An input with the event `noVertexEvent`, which `CheckEvent` rejects, carrying the data
histogram `exampleSum`. -/
def rejectedInput : ExecInput :=
  { aod := some noVertexEvent, data := some exampleSum, dataMC := none }

/-- An input with the event `acceptedEvent`, which `CheckEvent` accepts, carrying the data
histogram `exampleSum`. -/
def acceptedInput : ExecInput :=
  { aod := some acceptedEvent, data := some exampleSum, dataMC := none }

end BasedNdeta

/-! ## The trigger mask by name -/

/-- The trigger masks `AliAODForwardMult::kInel`, `kInelGt0` and `kNSD`, which are not
defined in the sources. -/
structure ETriggerMasks where
  kInel : Nat
  kInelGt0 : Nat
  kNSD : Nat

/-- Method `TString::Tokenize (delim)`: the string is cut at every character of `delim`
and the pieces that are not empty are kept, in order. -/
def Tokenize (delim : List Char) (s : List Char) : List (List Char) :=
  (s.splitOnP (fun c => decide (c ∈ delim))).filter (fun tok => decide (tok ≠ []))

/-- Method `TString::ToUpper ()`. -/
def ToUpper (s : List Char) : List Char := s.map Char.toUpper

namespace BasedNdeta

/-- The delimiters `" ,|"` of `SetTriggerMask` (source line 93). -/
def maskDelimiters : List Char := [' ', ',', '|']

/-- One turn of the loop over the tokens in `SetTriggerMask` (source lines 94-103); the
values are stored in an `UShort_t`.  The warning for an unknown token is not recorded. -/
def maskStep (M : ETriggerMasks) (trgMask : Nat) (s : List Char) : Nat :=
  if s = [] then trgMask
  else if s = "INEL".data then M.kInel % 65536
  else if s = "INEL>0".data then M.kInelGt0 % 65536
  else if s = "NSD".data then M.kNSD % 65536
  else trgMask

/-- The method `AliBasedNdetaTask::SetTriggerMask (const char*)` (source lines 86-105). -/
def SetTriggerMask (M : ETriggerMasks) (t : Task) (mask : String) : Task :=
  let trgs := ToUpper mask.data
  let trgMask := (Tokenize maskDelimiters trgs).foldl (maskStep M) 0
  let trgMask := if trgMask = 0 then 1 else trgMask
  { t with fTriggerMask := trgMask }

/-- Whether a token in upper case is one of the three names that `SetTriggerMask` knows. -/
def recognised (s : List Char) : Bool :=
  decide (s = "INEL".data ∨ s = "INEL>0".data ∨ s = "NSD".data)

/-- The mask that `SetTriggerMask` takes for a recognised token. -/
def maskOf (M : ETriggerMasks) (s : List Char) : Nat :=
  if s = "INEL".data then M.kInel else if s = "INEL>0".data then M.kInelGt0 else M.kNSD

/-- The masks `kInel = 0x1`, `kInelGt0 = 0x2` and `kNSD = 0x4`. -/
def sampleMasks : ETriggerMasks := { kInel := 1, kInelGt0 := 2, kNSD := 4 }

end BasedNdeta

/-! ## The candidate loops of `UserExec` before the track-quality gate -/

namespace V0

/-- What the loop over the V0s reads for one V0 up to the track-quality cuts (source lines
1291-1412 and 1487-1492), with the values it has from the track-quality cuts on. -/
structure V0Reco where
  /-- Whether `GetV0 (iV0)` is not null. -/
  v0 : Bool
  /-- The value `v0->GetParamN ()->Charge ()` after `CheckChargeV0`. -/
  chargeN : Int
  /-- The value `v0->GetParamP ()->Charge ()` after `CheckChargeV0`. -/
  chargeP : Int
  /-- The value `v0->Pt ()`. -/
  lPt : ℚ
  /-- The value `v0->RapK0Short ()`. -/
  lRapK0Short : ℚ
  /-- The value `v0->RapLambda ()`. -/
  lRapLambda : ℚ
  /-- Whether both daughter tracks are found. -/
  tracks : Bool
  /-- The value `nTrack->Eta ()`. -/
  negEta : ℚ
  /-- The value `pTrack->Eta ()`. -/
  posEta : ℚ
  /-- The value `pTrack->GetSign ()`. -/
  posSign : Int
  /-- The value `nTrack->GetSign ()`. -/
  negSign : Int
  /-- Whether the status of the positive track has `kTPCrefit`. -/
  posTPCrefit : Bool
  /-- Whether the status of the negative track has `kTPCrefit`. -/
  negTPCrefit : Bool
  /-- The value `pTrack->GetKinkIndex (0)`. -/
  posKinkIndex : Int
  /-- The value `nTrack->GetKinkIndex (0)`. -/
  negKinkIndex : Int
  /-- The value `pTrack->GetTPCNclsF ()`. -/
  posTPCNclsF : Int
  /-- The value `nTrack->GetTPCNclsF ()`. -/
  negTPCNclsF : Int
  /-- The value `pTrack->GetTPCNcls ()`. -/
  posTPCNcls : Int
  /-- The value `nTrack->GetTPCNcls ()`. -/
  negTPCNcls : Int
  /-- The value `pTrack->GetTPCchi2 ()`. -/
  posTPCchi2 : ℚ
  /-- The value `nTrack->GetTPCchi2 ()`. -/
  negTPCchi2 : ℚ
  /-- The local `lV0TotalMomentum`, a square root. -/
  lV0TotalMomentum : ℚ
  /-- The distance of the decay vertex from the primary vertex (source lines 1487-1491). -/
  decayDistance : ℚ
  /-- The values read from the track-quality gate on. -/
  entry : V0Entry

/-- Whether none of the `continue` statements of source lines 1292-1391 is taken; the
transverse-momentum window is that of source lines 1249-1250. -/
def reachesTrackQuality (fkExtraCleanup : Bool) (r : V0Reco) : Bool :=
  let fMinV0Pt : ℚ := 0
  let fMaxV0Pt : ℚ := 100
  if !r.v0 then false
  else if r.chargeN > 0 ∧ r.chargeP > 0 then false
  else if r.chargeN < 0 ∧ r.chargeP < 0 then false
  else if r.lPt < fMinV0Pt ∨ fMaxV0Pt < r.lPt then false
  else if !r.tracks then false
  else if fkExtraCleanup = true ∧ (|r.negEta| > 8/10 ∨ |r.negEta| > 8/10) then false
  else if fkExtraCleanup = true ∧ (|r.lRapK0Short| > 1/2 ∧ |r.lRapLambda| > 1/2) then false
  else if r.posSign = r.negSign then false
  else if !r.posTPCrefit then false
  else if !r.negTPCrefit then false
  else if r.posKinkIndex > 0 ∨ r.negKinkIndex > 0 then false
  else if r.posTPCNclsF ≤ 0 ∨ r.negTPCNclsF ≤ 0 then false
  else true

/-- The V0 at the track-quality gate: the outcome of the tests before it, and the members
`fTreeVariableNegEta`, `fTreeVariablePosEta`, `fTreeVariablePt`, `fTreeVariableRapK0Short`
and `fTreeVariableRapLambda` (source lines 1355-1356, 1464, 1475-1476). -/
def entryOf (fkExtraCleanup : Bool) (r : V0Reco) : V0Entry :=
  { r.entry with
    reachesTrackQuality := reachesTrackQuality fkExtraCleanup r
    candidate :=
      { r.entry.candidate with
        fTreeVariableNegEta := r.negEta
        fTreeVariablePosEta := r.posEta
        fTreeVariablePt := r.lPt
        fTreeVariableRapK0Short := r.lRapK0Short
        fTreeVariableRapLambda := r.lRapLambda } }

/-- Whether the turn of the loop for this V0 comes to the configuration loop. -/
def reachesConfigurationLoop (fkExtraCleanup : Bool) (r : V0Reco) : Bool :=
  reachesTrackQuality fkExtraCleanup r && !trackQualityGate (entryOf fkExtraCleanup r)

/-- One turn of the loop over the V0s from its first statement: the list `fListV0`
afterwards. -/
def recoLoopBody (E : Ext) (fkExtraCleanup : Bool) (fListV0 : List AliV0Result)
    (r : V0Reco) : List AliV0Result :=
  v0LoopBody E fListV0 (entryOf fkExtraCleanup r)

/-- The quotient `lPosTrackCrossedRowsOverFindable` (source line 1395), evaluated after the
test of source line 1391. -/
def lPosTrackCrossedRowsOverFindable (r : V0Reco) : FVal :=
  FVal.fdiv r.entry.lPosTrackCrossedRows (r.posTPCNclsF : ℚ)

/-- The quotient `lNegTrackCrossedRowsOverFindable` (source line 1396). -/
def lNegTrackCrossedRowsOverFindable (r : V0Reco) : FVal :=
  FVal.fdiv r.entry.lNegTrackCrossedRows (r.negTPCNclsF : ℚ)

/-- The local `lPosChi2PerCluster` (source lines 1408 and 1411). -/
def lPosChi2PerCluster (r : V0Reco) : FVal :=
  if r.posTPCNcls > 0 then FVal.fdiv r.posTPCchi2 (r.posTPCNcls : ℚ) else FVal.fin 1000

/-- The local `lNegChi2PerCluster` (source lines 1409 and 1412). -/
def lNegChi2PerCluster (r : V0Reco) : FVal :=
  if r.negTPCNcls > 0 then FVal.fdiv r.negTPCchi2 (r.negTPCNcls : ℚ) else FVal.fin 1000

/-- The member `fTreeVariableDistOverTotMom` (source lines 1487-1492). -/
def distOverTotMom (r : V0Reco) : FVal :=
  FVal.fdiv r.decayDistance (r.lV0TotalMomentum + 1 / 10000000000)

/-- The quotients that one turn of the loop over the V0s evaluates with a momentum or a
cluster count as divisor, in source order. -/
def quotients (fkExtraCleanup : Bool) (r : V0Reco) : List FVal :=
  if !reachesTrackQuality fkExtraCleanup r then []
  else
    [lPosTrackCrossedRowsOverFindable r, lNegTrackCrossedRowsOverFindable r] ++
    (if r.posTPCNcls > 0 then [lPosChi2PerCluster r] else []) ++
    (if r.negTPCNcls > 0 then [lNegChi2PerCluster r] else []) ++
    (if trackQualityGate (entryOf fkExtraCleanup r) then [] else [distOverTotMom r])

/-- A V0 that passes every test before the configuration loop and gives
`sampleCandidate`. -/
def goodReco : V0Reco :=
  { v0 := true, chargeN := -1, chargeP := 1, lPt := 2, lRapK0Short := 1/10,
    lRapLambda := 2/10, tracks := true, negEta := 3/10, posEta := -2/10, posSign := 1,
    negSign := -1, posTPCrefit := true, negTPCrefit := true, posKinkIndex := 0,
    negKinkIndex := 0, posTPCNclsF := 150, negTPCNclsF := 150, posTPCNcls := 120,
    negTPCNcls := 125, posTPCchi2 := 200, negTPCchi2 := 250, lV0TotalMomentum := 3,
    decayDistance := 12, entry := goodEntry }

/-- The V0 `goodReco` with a positive daughter at pseudorapidity `3/2`. -/
def forwardReco : V0Reco := { goodReco with posEta := 3/2 }

/-- The configuration `sampleResult` with the pseudorapidity window `(-2, 2)`. -/
def wideEtaResult : AliV0Result :=
  { sampleResult with GetCutMinEtaTracks := -2, GetCutMaxEtaTracks := 2 }

end V0

namespace Cascade

/-- What the loop over the cascades reads for one cascade to build the chi2 per cluster, the
charge, the masses and the distance of closest approach of the cascade to the primary vertex
(source lines 2029-2031 and 2141-2302), with the values of `CascadeEntry`. -/
structure CascadeReco where
  /-- The value `pTrackXi->GetTPCchi2 ()`. -/
  posTPCchi2 : ℚ
  /-- The value `nTrackXi->GetTPCchi2 ()`. -/
  negTPCchi2 : ℚ
  /-- The value `bachTrackXi->GetTPCchi2 ()`. -/
  bachTPCchi2 : ℚ
  /-- The value `bachTrackXi->Charge ()`. -/
  bachCharge : Int
  /-- The value `xi->Charge ()`. -/
  xiCharge : Int
  /-- The value `xi->GetEffMassXi ()` under the hypothesis `3312`. -/
  effMassXiMinus : ℚ
  /-- The value `xi->GetEffMassXi ()` under the hypothesis `3334`. -/
  effMassOmegaMinus : ℚ
  /-- The value `xi->GetEffMassXi ()` under the hypothesis `-3312`. -/
  effMassXiPlus : ℚ
  /-- The value `xi->GetEffMassXi ()` under the hypothesis `-3334`. -/
  effMassOmegaPlus : ℚ
  /-- The value `TMath::Abs (hCascTraj->GetD (...))` of the trajectory built from the
  position and the momentum of the cascade with the given charge. -/
  cascadeGetD : Int → ℚ
  /-- The value `dzcascade[1]` after `hCascTraj->GetDZ (...)` of that trajectory. -/
  cascadeGetDZ : Int → ℚ
  /-- The values read by the track-quality gate and the configuration loop. -/
  entry : CascadeEntry

/-- The members of the task that the charge, mass and distance statements of the loop over
the cascades read or write; they outlive the turn of the loop. -/
structure CascadeMembers where
  fTreeCascVarCharge : Int
  fTreeCascVarMassAsXi : ℚ
  fTreeCascVarMassAsOmega : ℚ
  fTreeCascVarCascDCAtoPVxy : ℚ
  fTreeCascVarCascDCAtoPVz : ℚ

/-- The values that the constructors give these members. -/
def initialMembers : CascadeMembers :=
  { fTreeCascVarCharge := 0, fTreeCascVarMassAsXi := 0, fTreeCascVarMassAsOmega := 0,
    fTreeCascVarCascDCAtoPVxy := 0, fTreeCascVarCascDCAtoPVz := 0 }

/-- The quotient `lPosChi2PerCluster` (source line 2029). -/
def lPosChi2PerCluster (r : CascadeReco) : FVal :=
  FVal.fdiv r.posTPCchi2 (r.entry.lPosTPCClusters : ℚ)

/-- The quotient `lNegChi2PerCluster` (source line 2030). -/
def lNegChi2PerCluster (r : CascadeReco) : FVal :=
  FVal.fdiv r.negTPCchi2 (r.entry.lNegTPCClusters : ℚ)

/-- The quotient `lBachChi2PerCluster` (source line 2031). -/
def lBachChi2PerCluster (r : CascadeReco) : FVal :=
  FVal.fdiv r.bachTPCchi2 (r.entry.lBachTPCClusters : ℚ)

/-- The quotients of source lines 2029-2031 that one turn of the loop over the cascades
evaluates: all three, when none of the `continue` statements before them is taken. -/
def chi2Quotients (r : CascadeReco) : List FVal :=
  if !r.entry.reachesTrackQuality then []
  else [lPosChi2PerCluster r, lNegChi2PerCluster r, lBachChi2PerCluster r]

/-- The members after the statements of source lines 2141-2302 that build the masses, the
distance of closest approach of the cascade to the primary vertex and the charge. -/
def buildMembers (m : CascadeMembers) (r : CascadeReco) : CascadeMembers :=
  let lInvMassXiMinus : ℚ := if r.bachCharge < 0 then r.effMassXiMinus else 0
  let lInvMassOmegaMinus : ℚ := if r.bachCharge < 0 then r.effMassOmegaMinus else 0
  let lInvMassXiPlus : ℚ := if r.bachCharge > 0 then r.effMassXiPlus else 0
  let lInvMassOmegaPlus : ℚ := if r.bachCharge > 0 then r.effMassOmegaPlus else 0
  let lChargeXi := r.xiCharge
  let lChargeCascade := m.fTreeCascVarCharge
  let m1 := { m with
    fTreeCascVarCascDCAtoPVxy := r.cascadeGetD lChargeCascade
    fTreeCascVarCascDCAtoPVz := r.cascadeGetDZ lChargeCascade }
  let m2 := { m1 with fTreeCascVarCharge := lChargeXi }
  let m3 := if lChargeXi < 0 then
      { m2 with fTreeCascVarMassAsXi := lInvMassXiMinus
                fTreeCascVarMassAsOmega := lInvMassOmegaMinus }
    else m2
  if lChargeXi > 0 then
    { m3 with fTreeCascVarMassAsXi := lInvMassXiPlus
              fTreeCascVarMassAsOmega := lInvMassOmegaPlus }
  else m3

/-- The candidate that the configuration loop sees, with the members `m`. -/
def candidateWith (m : CascadeMembers) (r : CascadeReco) : Candidate :=
  { candidateOf r.entry with
    fTreeCascVarCharge := m.fTreeCascVarCharge
    fTreeCascVarMassAsXi := m.fTreeCascVarMassAsXi
    fTreeCascVarMassAsOmega := m.fTreeCascVarMassAsOmega
    fTreeCascVarCascDCAtoPVxy := m.fTreeCascVarCascDCAtoPVxy
    fTreeCascVarCascDCAtoPVz := m.fTreeCascVarCascDCAtoPVz }

/-- One turn of the loop over the cascades with the members that outlive it: the members
and the list `fListCascade` afterwards. -/
def recoLoopBody (E : Ext) (s : CascadeMembers × List AliCascadeResult) (r : CascadeReco) :
    CascadeMembers × List AliCascadeResult :=
  if !r.entry.reachesTrackQuality then s
  else if trackQualityGate r.entry then s
  else
    let m := buildMembers s.1 r
    if !r.entry.passesExtraCleanup then (m, s.2)
    else (m, configurationLoop E (candidateWith m r) s.2)

/-- The loop over the cascades of an event with the members that outlive it. -/
def recoLoop (E : Ext) (s : CascadeMembers × List AliCascadeResult)
    (rs : List CascadeReco) : CascadeMembers × List AliCascadeResult :=
  rs.foldl (recoLoopBody E) s

/-- A negative cascade with long daughter tracks whose distance of closest approach to the
primary vertex is `1/10` for a trajectory of charge `-1` and `5` for any other charge. -/
def negativeReco : CascadeReco :=
  { posTPCchi2 := 200, negTPCchi2 := 220, bachTPCchi2 := 240, bachCharge := -1,
    xiCharge := -1, effMassXiMinus := 1322/1000, effMassOmegaMinus := 1700/1000,
    effMassXiPlus := 0, effMassOmegaPlus := 0,
    cascadeGetD := fun q => if q = -1 then 1/10 else 5, cascadeGetDZ := fun _ => 0,
    entry := goodEntry }

/-- A positive cascade that reaches the statements that build the members and is then
removed by the extra cleanup. -/
def positiveReco : CascadeReco :=
  { negativeReco with
    bachCharge := 1, xiCharge := 1, effMassXiPlus := 1322/1000,
    effMassOmegaPlus := 1700/1000,
    entry := { goodEntry with passesExtraCleanup := false } }

/-- A negative cascade that reaches the statements that build the members and is then
removed by the extra cleanup. -/
def removedNegativeReco : CascadeReco :=
  { negativeReco with entry := { goodEntry with passesExtraCleanup := false } }

/-- The cascade `negativeReco` whose positive daughter has no TPC cluster. -/
def zeroClusterReco : CascadeReco :=
  { negativeReco with entry := { goodEntry with lPosTPCClusters := 0 } }

/-- The configuration `sampleResult` with the cut `1` on the distance of closest approach of
the cascade to the primary vertex. -/
def dcaCutResult : AliCascadeResult := { sampleResult with GetCutDCACascadeToPV := 1 }

end Cascade

namespace Cascade

/-- The member `fTreeCascVarV0Lifetime` (source lines 2122-2127) from the locals
`lV0DistanceTrav` and `lV0TotMomentum`. -/
def v0Lifetime (lV0DistanceTrav lV0TotMomentum : ℚ) : FVal :=
  if |lV0TotMomentum| > 1 / 100000 then
    FVal.fdiv (1115683 / 1000000 * lV0DistanceTrav) lV0TotMomentum
  else FVal.fin (-1)

/-- The member `fTreeCascVarDistOverTotMom` (source lines 2324-2329) from the distance of
the decay vertex to the primary vertex and the local `lXiTotMom`, a square root. -/
def distOverTotMom (distance lXiTotMom : ℚ) : FVal :=
  FVal.fdiv distance (lXiTotMom + 1 / 10000000000000)

end Cascade

/-! ## The cut sweeps of `AddStandardV0Configuration` -/

namespace StandardV0

/-- The table `lcutsV0[i][conf][j]` (source lines 3407-3448): species `i` (K0Short, Lambda,
AntiLambda), configuration `conf` (loose, central, tight), selection `j`. -/
def lcutsV0 (i conf j : Nat) : ℚ :=
  let k0 : List (List ℚ) :=
    [[5/100, 5/100, 95/100, 95/100, 450/100, 25, 80, 7/10, 4, 18/100],
     [10/100, 10/100, 8/10, 95/100, 5, 20, 90, 8/10, 3, 20/100],
     [17/100, 17/100, 7/10, 95/100, 550/100, 15, 100, 85/100, 25/10, 22/100]]
  let lam : List (List ℚ) :=
    [[10/100, 8/100, 1, 97/100, 4, 30, 80, 7/10, 4, 18/100],
     [25/100, 10/100, 8/10, 98/100, 5, 25, 90, 8/10, 3, 20/100],
     [40/100, 13/100, 65/100, 99/100, 6, 20, 100, 85/100, 25/10, 22/100]]
  let alam : List (List ℚ) :=
    [[8/100, 10/100, 1, 97/100, 4, 30, 80, 7/10, 4, 18/100],
     [10/100, 25/100, 8/10, 98/100, 5, 25, 90, 8/10, 3, 20/100],
     [13/100, 40/100, 65/100, 99/100, 6, 20, 100, 85/100, 25/10, 22/100]]
  ((([k0, lam, alam].getD i []).getD conf []).getD j 0)

/-- The array `lMeanLifetime` (source line 3589). -/
def lMeanLifetime (i : Nat) : ℚ := [26844/10000, 789/100, 789/100].getD i 0

/-- The array `lCutsTight[i][j]` (source lines 3592-3603). -/
def lCutsTight (i j : Nat) : ℚ :=
  [1/10, 1/10, 1, 998/1000, 5, 3 * lMeanLifetime i, -1, -1/100, 8, 2/10, 100, 70].getD j 0

/-- The array `lCutsLoose[i][j]` (source lines 3605-3610): the central selections, then
`200` and `-1`. -/
def lCutsLoose (i j : Nat) : ℚ :=
  if j < 10 then lcutsV0 i 1 j else if j = 10 then 200 else if j = 11 then -1 else 0

/-- The condition of the `continue` of source lines 3691 and 3762:
`Abs (tight - loose) / loose < 0.01 && iCut != 3`. -/
def skipsSweep (tight loose : ℚ) (iCut : Nat) : Bool :=
  FVal.lt (FVal.fdiv |tight - loose| loose) (FVal.fin (1/100)) && decide (iCut ≠ 3)

/-- One configuration made by a sweep: the species, the selection, the step and the value
handed to the setter of the selection. -/
structure SweepCall where
  i : Nat
  iCut : Nat
  iSweep : Nat
  lCutValue : ℚ
  deriving DecidableEq, Repr

/-- The body of the loop over `iCut` of the tightening sweep (source lines 3688-3723): the
configurations it makes for species `i` and selection `iCut`, in order. -/
def tighteningStep (i iCut : Nat) : List SweepCall :=
  if skipsSweep (lCutsTight i iCut) (lCutsLoose i iCut) iCut then []
  else
    (List.range 12).map (fun k =>
      { i := i, iCut := iCut, iSweep := k + 1
        lCutValue := lCutsLoose i iCut +
          (((k + 1 : Nat) : ℚ) / 12) * (lCutsTight i iCut - lCutsLoose i iCut) })

/-- The body of the loop over `iCut` of the loosening sweep (source lines 3759-3798). -/
def looseningStep (i iCut : Nat) : List SweepCall :=
  if skipsSweep (lCutsTight i iCut) (lCutsLoose i iCut) iCut then []
  else
    (List.range 12).map (fun k =>
      { i := i, iCut := iCut, iSweep := k + 1
        lCutValue := lCutsTight i iCut +
          (((k + 1 : Nat) : ℚ) / 12) * (lCutsLoose i iCut - lCutsTight i iCut) })

/-- The configurations of the sweep 'Tightening cuts one by one' (source lines 3685-3724),
in creation order. -/
def tighteningSweep : List SweepCall :=
  (List.range 3).flatMap (fun i => (List.range 12).flatMap (fun iCut => tighteningStep i iCut))

/-- The configurations of the sweep 'Loosening cuts one by one' (source lines 3756-3799),
in creation order. -/
def looseningSweep : List SweepCall :=
  (List.range 3).flatMap (fun i => (List.range 12).flatMap (fun iCut => looseningStep i iCut))

end StandardV0

/-! ## The configurations of `AddTopologicalQACascade` -/

namespace TopologicalQA

/-- The array `lParticleName` (source line 3052). -/
def lParticleName (i : Nat) : String :=
  ["XiMinus", "XiPlus", "OmegaMinus", "OmegaPlus"].getD i ""

/-- The names of the central configurations (source lines 3058-3060), in creation order. -/
def centralNames : List String :=
  (List.range 4).map (fun i => lParticleName i ++ "_VertexerLevel")

/-- The names `Form ("%s_%s_%i", lParticleName[i], label, icut)` of the configurations that
the sweep of one variable creates, in creation order: for each species, `steps` steps. -/
def sweepNames (label : String) (steps : Nat) : List String :=
  (List.range 4).flatMap (fun i =>
    (List.range steps).map (fun icut => lParticleName i ++ "_" ++ label ++ "_" ++ toString icut))

/-- The labels of the sweeps of variables 1 to 11, which take `lNumberOfSteps` steps, in
source order. -/
def sweepLabels : List String :=
  ["DCANegToPVSweep", "DCAPosToPVSweep", "DCAV0DaughtersSweep", "V0CosPASweep",
   "V0RadiusSweep", "DCAV0ToPVSweep", "DCABachToPVSweep", "DCACascDaughtersSweep",
   "CascRadiusSweep", "CascCosPASweep", "BBCosPASweep"]

/-- The names of the configurations that `AddTopologicalQACascade` creates, in creation
order (source lines 3058-3295). -/
def created (lNumberOfSteps : Nat) : List String :=
  centralNames ++ sweepLabels.flatMap (fun label => sweepNames label lNumberOfSteps) ++
    sweepNames "CascLifetimeSweep" 15 ++ sweepNames "MaxV0LifetimeSweep" 32

/-- The statement `lCascadeResult[lN] = new AliCascadeResult (...); ...; lN++` on the array
of `5000` slots, of which the first `lN` are written: `none` when the write is out of
bounds. -/
def stage (slots : Option (List String)) (name : String) : Option (List String) :=
  match slots with
  | none => none
  | some written => if written.length < 5000 then some (written ++ [name]) else none

/-- The method `AddConfiguration (AliCascadeResult*)` (source lines 2789-2798) on the list
`fListCascade` of the names of the configurations; `none` is the null pointer. -/
def AddConfiguration (fListCascade : Option (List String)) (name : String) :
    Option (List String) :=
  some (fListCascade.getD [] ++ [name])

/-- The method `AddTopologicalQACascade` (source lines 3005-3301) for a positive number of
steps: the list `fListCascade` afterwards, or `none` when a write to the array
`lCascadeResult` is out of bounds. -/
def AddTopologicalQACascade (fListCascade : Option (List String)) (lRecNumberOfSteps : Nat) :
    Option (Option (List String)) :=
  match (created lRecNumberOfSteps).foldl stage (some []) with
  | none => none
  | some written => some (written.foldl AddConfiguration fListCascade)

end TopologicalQA

/-! # Theorems -/

/-! ## The configuration loop as a map -/

/-- Updating position `n` of a list whose first `n` elements are already mapped. -/
theorem set_map_take_drop {α : Type} (f : α → α) :
    ∀ (l : List α) (n : Nat) (a : α), l[n]? = some a →
      ((l.take n).map f ++ l.drop n).set n (f a) = (l.take (n + 1)).map f ++ l.drop (n + 1)
  | [], n, a, h => by simp at h
  | x :: l, 0, a, h => by
    simp at h
    simp [h]
  | x :: l, n + 1, a, h => by
    simp at h
    simpa using set_map_take_drop f l n a h

/-- The element at position `n` of a list whose first `n` elements are mapped. -/
theorem getElem?_map_take_drop {α : Type} (f : α → α) :
    ∀ (l : List α) (n : Nat), ((l.take n).map f ++ l.drop n)[n]? = l[n]?
  | [], n => by simp
  | x :: l, 0 => by simp
  | x :: l, n + 1 => by simpa using getElem?_map_take_drop f l n

/-- An index loop that replaces every entry by its image is a map. -/
theorem forEntries_eq_map_take {α : Type} (f : α → α) (l : List α) :
    ∀ n, n ≤ l.length → forEntries f n l = (l.take n).map f ++ l.drop n
  | 0, _ => by simp [forEntries]
  | n + 1, hn => by
    have hlt : n < l.length := hn
    have ih := forEntries_eq_map_take f l n (Nat.le_of_lt hlt)
    unfold forEntries at ih ⊢
    rw [List.range_succ, List.foldl_append, ih]
    obtain ⟨a, ha⟩ : ∃ a, l[n]? = some a := ⟨l[n], List.getElem?_eq_getElem hlt⟩
    simp only [List.foldl_cons, List.foldl_nil, getElem?_map_take_drop, ha]
    exact set_map_take_drop f l n a ha

/-- Over the whole list the index loop is `List.map`. -/
theorem forEntries_length_eq_map {α : Type} (f : α → α) (l : List α) :
    forEntries f l.length l = l.map f := by
  rw [forEntries_eq_map_take f l l.length (Nat.le_refl _)]
  simp

namespace V0

theorem setLocals_lMass (c : Candidate) (r : AliV0Result) :
    (setLocals c r).lMass = Spec.mass c r.GetMassHypothesis := by
  rcases hm : r.GetMassHypothesis with _ | _ | _ <;> simp [setLocals, initLocals, hm, Spec.mass]

theorem setLocals_lRap (c : Candidate) (r : AliV0Result) :
    (setLocals c r).lRap = Spec.rapidity c r.GetMassHypothesis := by
  rcases hm : r.GetMassHypothesis with _ | _ | _ <;>
    simp [setLocals, initLocals, hm, Spec.rapidity]

theorem setLocals_lPDGMass (c : Candidate) (r : AliV0Result) :
    (setLocals c r).lPDGMass = Spec.pdgMass r.GetMassHypothesis := by
  rcases hm : r.GetMassHypothesis with _ | _ | _ <;>
    simp [setLocals, initLocals, hm, Spec.pdgMass]

theorem setLocals_lNegdEdx (c : Candidate) (r : AliV0Result) :
    (setLocals c r).lNegdEdx = Spec.negSigma c r.GetMassHypothesis := by
  rcases hm : r.GetMassHypothesis with _ | _ | _ <;>
    simp [setLocals, initLocals, hm, Spec.negSigma]

theorem setLocals_lPosdEdx (c : Candidate) (r : AliV0Result) :
    (setLocals c r).lPosdEdx = Spec.posSigma c r.GetMassHypothesis := by
  rcases hm : r.GetMassHypothesis with _ | _ | _ <;>
    simp [setLocals, initLocals, hm, Spec.posSigma]

theorem check1_iff (c : Candidate) (r : AliV0Result) :
    check1 c r = true ↔ Spec.onTheFlyMatch c r := by
  simp [check1, Spec.onTheFlyMatch]

theorem check2_iff (c : Candidate) (r : AliV0Result) :
    check2 c r (setLocals c r) = true ↔ (Spec.etaWindow c r ∧ Spec.rapidityWindow c r) := by
  simp only [check2, Spec.etaWindow, Spec.rapidityWindow, setLocals_lRap, Bool.and_eq_true,
    decide_eq_true_eq, gt_iff_lt]
  tauto

theorem check3_iff (c : Candidate) (r : AliV0Result) :
    check3 c r (setLocals c r) r.GetCutV0CosPA = true ↔
      (Spec.radiusWindow c r ∧ Spec.daughterDCAToPV c r ∧ Spec.daughterPairDCA c r ∧
        Spec.pointingAngle c r ∧ Spec.properLifetime c r ∧ Spec.crossedRows c r) := by
  simp only [check3, Spec.radiusWindow, Spec.daughterDCAToPV, Spec.daughterPairDCA,
    Spec.pointingAngle, Spec.properLifetime, Spec.crossedRows, setLocals_lPDGMass,
    Bool.and_eq_true, decide_eq_true_eq, gt_iff_lt]
  tauto

theorem check4_iff (c : Candidate) (r : AliV0Result) :
    check4 r (setLocals c r) = true ↔ Spec.baryonMomentum c r := by
  rcases hm : r.GetMassHypothesis with _ | _ | _ <;>
    simp [check4, Spec.baryonMomentum, setLocals, initLocals, hm, Spec.baryon]

theorem check5_iff (c : Candidate) (r : AliV0Result) :
    check5 r (setLocals c r) = true ↔ Spec.tpcSigmas c r := by
  simp only [check5, Spec.tpcSigmas, setLocals_lNegdEdx, setLocals_lPosdEdx, Bool.and_eq_true,
    decide_eq_true_eq]

theorem check6_iff (c : Candidate) (r : AliV0Result) :
    check6 c r = true ↔ Spec.armenteros c r := by
  simp only [check6, Spec.armenteros, Bool.or_eq_true, decide_eq_true_eq, beq_iff_eq, gt_iff_lt]
  cases r.GetCutArmenteros
  · simp
  · simp only [Bool.true_eq_false, false_or, true_and]
    tauto

theorem check7_iff (E : Ext) (c : Candidate) (r : AliV0Result) :
    check7 E c r = true ↔ Spec.itsRefit E c r := by
  simp only [check7, Spec.itsRefit, hasITSrefit, Bool.or_eq_true, Bool.and_eq_true, bne_iff_ne,
    Bool.not_eq_true']
  cases r.GetCutUseITSRefitTracks <;> simp

theorem check8_iff (c : Candidate) (r : AliV0Result) :
    check8 c r = true ↔ Spec.chi2PerCluster c r := by
  simp only [check8, Spec.chi2PerCluster, Bool.or_eq_true, decide_eq_true_eq, gt_iff_lt]
  tauto

theorem check9_iff (c : Candidate) (r : AliV0Result) :
    check9 c r = true ↔ Spec.trackLength c r := by
  simp only [check9, Spec.trackLength, Bool.or_eq_true, decide_eq_true_eq, gt_iff_lt]
  tauto

theorem check10_iff (c : Candidate) (r : AliV0Result) :
    check10 r (setLocals c r) = true ↔ Spec.dEdx276TeV c r := by
  rcases hm : r.GetMassHypothesis with _ | _ | _ <;> cases hf : r.GetCut276TeVLikedEdx <;>
    simp [check10, Spec.dEdx276TeV, setLocals, initLocals, hm, hf, Spec.baryon]

theorem passes_iff_spec (E : Ext) (c : Candidate) (r : AliV0Result)
    (h : r.GetCutUseVarV0CosPA = false) :
    passes E c r = true ↔ Spec.allSubConditions E c r := by
  have hcut : lV0CosPACut E c r = r.GetCutV0CosPA := by
    simp [lV0CosPACut, h]
  simp only [passes, Spec.allSubConditions, hcut, Bool.and_eq_true, check1_iff, check2_iff,
    check3_iff, check4_iff, check5_iff, check6_iff, check7_iff, check8_iff, check9_iff,
    check10_iff]
  constructor
  · rintro ⟨⟨⟨⟨⟨⟨⟨⟨⟨h1, h2a, h2b⟩, h3a, h3b, h3c, h3d, h3e, h3f⟩, h4⟩, h5⟩, h6⟩, h7⟩, h8⟩, h9⟩,
      h10⟩
    exact ⟨h1, h2a, h2b, h3a, h3b, h3c, h3d, h3e, h3f, h4, h5, h6, h7, h8, h9, h10⟩
  · rintro ⟨h1, h2a, h2b, h3a, h3b, h3c, h3d, h3e, h3f, h4, h5, h6, h7, h8, h9, h10⟩
    exact ⟨⟨⟨⟨⟨⟨⟨⟨⟨h1, h2a, h2b⟩, h3a, h3b, h3c, h3d, h3e, h3f⟩, h4⟩, h5⟩, h6⟩, h7⟩, h8⟩, h9⟩,
      h10⟩
end V0

namespace V0

/-- The V0 configuration loop applies the loop body to every configuration. -/
theorem v0_configurationLoop_eq_map (E : Ext) (c : Candidate) (fListV0 : List AliV0Result) :
    configurationLoop E c fListV0 = fListV0.map (loopBody E c) := by
  exact forEntries_length_eq_map (loopBody E c) fListV0

end V0

namespace Cascade

/-- The cascade configuration loop applies the loop body to every configuration. -/
theorem cascade_configurationLoop_eq_map (E : Ext) (c : Candidate)
    (fListCascade : List AliCascadeResult) :
    configurationLoop E c fListCascade = fListCascade.map (loopBody E c) := by
  exact forEntries_length_eq_map (loopBody E c) fListCascade

end Cascade

/-! ## Claims on the selection-and-fill engine -/

namespace V0

/-- C1. For a V0 candidate in the configuration loop and a configuration `r` of the list
whose parametric V0 CosPA is disabled, the configuration afterwards is `r` with exactly
one more `Fill (centrality, pT, m)` on its accumulator when every sub-condition of the
selection holds, `m` being the invariant mass of the candidate under the mass hypothesis
of `r`, and it is `r` unchanged otherwise. -/
theorem C1_fill_iff_all_subconditions (E : Ext) (c : Candidate)
    (fListV0 : List AliV0Result) (lcfg : Nat) (r : AliV0Result)
    (hr : fListV0[lcfg]? = some r) (hconst : r.GetCutUseVarV0CosPA = false) :
    (Spec.allSubConditions E c r →
      (configurationLoop E c fListV0)[lcfg]? = some
        { r with GetHistogram :=
            { fills := r.GetHistogram.fills ++
                [(c.fCentrality, c.fTreeVariablePt, Spec.mass c r.GetMassHypothesis)] } }) ∧
    (¬ Spec.allSubConditions E c r → (configurationLoop E c fListV0)[lcfg]? = some r) := by
  rw [v0_configurationLoop_eq_map, List.getElem?_map, hr]
  simp only [Option.map_some', loopBody, ← passes_iff_spec E c r hconst, setLocals_lMass,
    TH3F.Fill]
  constructor
  · intro h
    simp [h]
  · intro h
    simp [h]

/-- C1 at `sampleCandidate` and `sampleResult`: all sub-conditions hold and the empty
accumulator receives the single fill `(35, 2, 0.498)`. -/
theorem C1_fill_iff_all_subconditions_witness :
    sampleResult.GetCutUseVarV0CosPA = false ∧
    Spec.allSubConditions sampleExt sampleCandidate sampleResult ∧
    (configurationLoop sampleExt sampleCandidate [sampleResult])[0]? = some
      { sampleResult with GetHistogram := { fills := [(35, 2, 498/1000)] } } := by
  have hall : Spec.allSubConditions sampleExt sampleCandidate sampleResult := by
    simp only [Spec.allSubConditions, Spec.onTheFlyMatch, Spec.etaWindow, Spec.rapidityWindow,
      Spec.radiusWindow, Spec.daughterDCAToPV, Spec.daughterPairDCA, Spec.pointingAngle,
      Spec.properLifetime, Spec.crossedRows, Spec.baryonMomentum, Spec.tpcSigmas,
      Spec.armenteros, Spec.itsRefit, Spec.chi2PerCluster, Spec.trackLength, Spec.dEdx276TeV,
      Spec.rapidity, Spec.pdgMass, Spec.negSigma, Spec.posSigma, sampleCandidate,
      sampleResult, sampleExt]
    refine ⟨by norm_num, by norm_num, by norm_num, by norm_num, by norm_num, by norm_num,
      by norm_num, by norm_num, by norm_num, trivial, ?_, ?_, ?_, by norm_num, by norm_num,
      by simp⟩
    · constructor <;> norm_num [abs_lt]
    · intro _
      norm_num [abs_of_pos]
    · intro _
      decide
  exact ⟨rfl, hall,
    (C1_fill_iff_all_subconditions sampleExt sampleCandidate [sampleResult] 0 sampleResult
      rfl rfl).1 hall⟩

end V0

/-- C2. Configurations are evaluated independently and without early exit, in the V0 and
in the cascade loop: the loop over a registry `L1 ++ L2` gives the result for `L1`
followed by the result for `L2`; the entry at any position afterwards is the loop body
applied to the candidate and the entry at that position alone; and the loop body adds
at most one fill to the accumulator of its configuration. -/
theorem C2_configurations_independent (E : Ext) (cv : V0.Candidate) (cc : Cascade.Candidate) :
    (∀ L1 L2 : List V0.AliV0Result,
      V0.configurationLoop E cv (L1 ++ L2) =
        V0.configurationLoop E cv L1 ++ V0.configurationLoop E cv L2) ∧
    (∀ M1 M2 : List Cascade.AliCascadeResult,
      Cascade.configurationLoop E cc (M1 ++ M2) =
        Cascade.configurationLoop E cc M1 ++ Cascade.configurationLoop E cc M2) ∧
    (∀ (L : List V0.AliV0Result) (i : Nat),
      (V0.configurationLoop E cv L)[i]? = (L[i]?).map (V0.loopBody E cv)) ∧
    (∀ (M : List Cascade.AliCascadeResult) (i : Nat),
      (Cascade.configurationLoop E cc M)[i]? = (M[i]?).map (Cascade.loopBody E cc)) ∧
    (∀ r : V0.AliV0Result,
      V0.loopBody E cv r = r ∨
        ∃ f, V0.loopBody E cv r =
          { r with GetHistogram := { fills := r.GetHistogram.fills ++ [f] } }) ∧
    (∀ r : Cascade.AliCascadeResult,
      Cascade.loopBody E cc r = r ∨
        ∃ f, Cascade.loopBody E cc r =
          { r with GetHistogram := { fills := r.GetHistogram.fills ++ [f] } }) := by
  refine ⟨?_, ?_, ?_, ?_, ?_, ?_⟩
  · intro L1 L2
    simp only [V0.v0_configurationLoop_eq_map, List.map_append]
  · intro M1 M2
    simp only [Cascade.cascade_configurationLoop_eq_map, List.map_append]
  · intro L i
    rw [V0.v0_configurationLoop_eq_map, List.getElem?_map]
  · intro M i
    rw [Cascade.cascade_configurationLoop_eq_map, List.getElem?_map]
  · intro r
    unfold V0.loopBody
    by_cases h : V0.passes E cv r = true
    · right
      refine ⟨(cv.fCentrality, cv.fTreeVariablePt, (V0.setLocals cv r).lMass), ?_⟩
      simp only [h, if_true, TH3F.Fill]
    · left
      simp only [h, if_false, Bool.false_eq_true]
  · intro r
    unfold Cascade.loopBody
    by_cases h : Cascade.passes E cc r = true
    · right
      refine ⟨(cc.fCentrality, cc.fTreeCascVarPt, (Cascade.setLocals cc r).lMass), ?_⟩
      simp only [h, if_true, TH3F.Fill]
    · left
      simp only [h, if_false, Bool.false_eq_true]

namespace Cascade

/-- The selection is monotone in each of its checks. -/
theorem passes_imp (E : Ext) (c : Candidate) (r r' : AliCascadeResult)
    (h1 : check1 c (setLocals c r) = true → check1 c (setLocals c r') = true)
    (h2 : check2 c r (setLocals c r) = true → check2 c r' (setLocals c r') = true)
    (h3a : check3V0 c r (lV0CosPACut E c r) = true →
      check3V0 c r' (lV0CosPACut E c r') = true)
    (h3b : check3Casc c r (setLocals c r) (lDCACascDauCut E c r) (lCascCosPACut E c r) = true →
      check3Casc c r' (setLocals c r') (lDCACascDauCut E c r') (lCascCosPACut E c r') = true)
    (h3c : check3V0MassSigma E c r (setLocals c r) = true →
      check3V0MassSigma E c r' (setLocals c r') = true)
    (h3d : check3Misc c r (setLocals c r) = true → check3Misc c r' (setLocals c r') = true)
    (h4 : check4 r (setLocals c r) = true → check4 r' (setLocals c r') = true)
    (h4b : check4bis (setLocals c r) = true → check4bis (setLocals c r') = true)
    (h5 : check5 c r = true → check5 c r' = true)
    (h6 : check6 c r = true → check6 c r' = true)
    (h7 : check7 c (lBBCosPACut E c r) = true → check7 c (lBBCosPACut E c r') = true)
    (h8 : check8 c r = true → check8 c r' = true)
    (h9 : check9 E c r = true → check9 E c r' = true)
    (h10 : check10 c r = true → check10 c r' = true)
    (h11 : check11 c r = true → check11 c r' = true)
    (h12 : check12 E c r = true → check12 E c r' = true)
    (h13 : check13 E c r = true → check13 E c r' = true)
    (h14a : check14a E c r = true → check14a E c r' = true)
    (h14b : check14b E c r = true → check14b E c r' = true)
    (h14c : check14c E c r = true → check14c E c r' = true) :
    passes E c r = true → passes E c r' = true := by
  simp only [passes, Bool.and_eq_true]
  rintro ⟨⟨⟨⟨⟨⟨⟨⟨⟨⟨⟨⟨⟨⟨⟨⟨⟨⟨⟨g1, g2⟩, g3a⟩, g3b⟩, g3c⟩, g3d⟩, g4⟩, g4b⟩, g5⟩, g6⟩, g7⟩, g8⟩, g9⟩,
    g10⟩, g11⟩, g12⟩, g13⟩, g14a⟩, g14b⟩, g14c⟩
  exact ⟨⟨⟨⟨⟨⟨⟨⟨⟨⟨⟨⟨⟨⟨⟨⟨⟨⟨⟨h1 g1, h2 g2⟩, h3a g3a⟩, h3b g3b⟩, h3c g3c⟩, h3d g3d⟩, h4 g4⟩,
    h4b g4b⟩, h5 g5⟩, h6 g6⟩, h7 g7⟩, h8 g8⟩, h9 g9⟩, h10 g10⟩, h11 g11⟩, h12 g12⟩, h13 g13⟩,
    h14a g14a⟩, h14b g14b⟩, h14c g14c⟩

/-- The effective V0 CosPA threshold is the larger of constant and curve when enabled. -/
theorem lV0CosPACut_eq (E : Ext) (c : Candidate) (r : AliCascadeResult) :
    lV0CosPACut E c r =
      if r.GetCutUseVarV0CosPA then max r.GetCutV0CosPA (lVarV0CosPA E c r)
      else r.GetCutV0CosPA := by
  unfold lV0CosPACut
  by_cases hf : r.GetCutUseVarV0CosPA = true
  · by_cases hv : lVarV0CosPA E c r > r.GetCutV0CosPA
    · simp [hf, hv, max_eq_right (le_of_lt hv)]
    · simp [hf, hv, max_eq_left (not_lt.mp hv)]
  · simp [hf]

/-- The effective cascade CosPA threshold is the larger of constant and curve when
enabled. -/
theorem lCascCosPACut_eq (E : Ext) (c : Candidate) (r : AliCascadeResult) :
    lCascCosPACut E c r =
      if r.GetCutUseVarCascCosPA then max r.GetCutCascCosPA (lVarCascCosPA E c r)
      else r.GetCutCascCosPA := by
  unfold lCascCosPACut
  by_cases hf : r.GetCutUseVarCascCosPA = true
  · by_cases hv : lVarCascCosPA E c r > r.GetCutCascCosPA
    · simp [hf, hv, max_eq_right (le_of_lt hv)]
    · simp [hf, hv, max_eq_left (not_lt.mp hv)]
  · simp [hf]

/-- The effective bachelor-baryon CosPA threshold is the larger of constant and curve when
enabled. -/
theorem lBBCosPACut_eq (E : Ext) (c : Candidate) (r : AliCascadeResult) :
    lBBCosPACut E c r =
      if r.GetCutUseVarBBCosPA then max r.GetCutBachBaryonCosPA (lVarBBCosPA E c r)
      else r.GetCutBachBaryonCosPA := by
  unfold lBBCosPACut
  by_cases hf : r.GetCutUseVarBBCosPA = true
  · by_cases hv : lVarBBCosPA E c r > r.GetCutBachBaryonCosPA
    · simp [hf, hv, max_eq_right (le_of_lt hv)]
    · simp [hf, hv, max_eq_left (not_lt.mp hv)]
  · simp [hf]

/-- The effective cascade-daughter DCA threshold is the smaller of constant and curve when
enabled. -/
theorem lDCACascDauCut_eq (E : Ext) (c : Candidate) (r : AliCascadeResult) :
    lDCACascDauCut E c r =
      if r.GetCutUseVarDCACascDau then min r.GetCutDCACascDaughters (lVarDCACascDau E c r)
      else r.GetCutDCACascDaughters := by
  unfold lDCACascDauCut
  by_cases hf : r.GetCutUseVarDCACascDau = true
  · by_cases hv : lVarDCACascDau E c r < r.GetCutDCACascDaughters
    · simp [hf, hv, min_eq_right (le_of_lt hv)]
    · simp [hf, hv, min_eq_left (not_lt.mp hv)]
  · simp [hf]

end Cascade

namespace V0

/-- The effective V0 CosPA threshold is the larger of constant and curve when enabled. -/
theorem v0_lV0CosPACut_eq (E : Ext) (c : Candidate) (r : AliV0Result) :
    lV0CosPACut E c r =
      if r.GetCutUseVarV0CosPA then max r.GetCutV0CosPA (lVarV0CosPA E c r)
      else r.GetCutV0CosPA := by
  unfold lV0CosPACut
  by_cases hf : r.GetCutUseVarV0CosPA = true
  · by_cases hv : lVarV0CosPA E c r > r.GetCutV0CosPA
    · simp [hf, hv, max_eq_right (le_of_lt hv)]
    · simp [hf, hv, max_eq_left (not_lt.mp hv)]
  · simp [hf]

end V0

/-- C3. With `v` the five-parameter curve of the configuration at the candidate's pT
(through `Cos` for the angle cuts): the effective V0-CosPA and cascade-CosPA thresholds
are `max (constant, v)` when the parametric cut is enabled, the effective
cascade-daughter-DCA threshold is `min (constant, v)`, the effective bachelor-baryon CosPA
threshold is `max (constant, v)`, which is the looser bound of that upper-bound cut, and
each is the constant when the parametric cut is disabled.  Enabling a parametric V0-CosPA,
cascade-CosPA or cascade-daughter-DCA cut never accepts a candidate that the configuration
with the constant cut alone rejects; enabling the parametric bachelor-baryon cut never
rejects a candidate that the constant cut alone accepts.  The V0 loop combines its
V0-CosPA thresholds like the cascade loop. -/
theorem C3_effective_thresholds (E : Ext) (c : Cascade.Candidate)
    (r : Cascade.AliCascadeResult) (cv : V0.Candidate) (rv : V0.AliV0Result) :
    (Cascade.lV0CosPACut E c r =
      if r.GetCutUseVarV0CosPA then
        max r.GetCutV0CosPA
          (E.Cos (r.GetCutVarV0CosPAExp0Const * E.Exp (r.GetCutVarV0CosPAExp0Slope * c.fTreeCascVarPt)
            + r.GetCutVarV0CosPAExp1Const * E.Exp (r.GetCutVarV0CosPAExp1Slope * c.fTreeCascVarPt)
            + r.GetCutVarV0CosPAConst))
      else r.GetCutV0CosPA) ∧
    (Cascade.lCascCosPACut E c r =
      if r.GetCutUseVarCascCosPA then
        max r.GetCutCascCosPA
          (E.Cos (r.GetCutVarCascCosPAExp0Const *
              E.Exp (r.GetCutVarCascCosPAExp0Slope * c.fTreeCascVarPt)
            + r.GetCutVarCascCosPAExp1Const *
              E.Exp (r.GetCutVarCascCosPAExp1Slope * c.fTreeCascVarPt)
            + r.GetCutVarCascCosPAConst))
      else r.GetCutCascCosPA) ∧
    (Cascade.lDCACascDauCut E c r =
      if r.GetCutUseVarDCACascDau then
        min r.GetCutDCACascDaughters
          (r.GetCutVarDCACascDauExp0Const *
              E.Exp (r.GetCutVarDCACascDauExp0Slope * c.fTreeCascVarPt)
            + r.GetCutVarDCACascDauExp1Const *
              E.Exp (r.GetCutVarDCACascDauExp1Slope * c.fTreeCascVarPt)
            + r.GetCutVarDCACascDauConst)
      else r.GetCutDCACascDaughters) ∧
    (Cascade.lBBCosPACut E c r =
      if r.GetCutUseVarBBCosPA then
        max r.GetCutBachBaryonCosPA
          (E.Cos (r.GetCutVarBBCosPAExp0Const * E.Exp (r.GetCutVarBBCosPAExp0Slope * c.fTreeCascVarPt)
            + r.GetCutVarBBCosPAExp1Const * E.Exp (r.GetCutVarBBCosPAExp1Slope * c.fTreeCascVarPt)
            + r.GetCutVarBBCosPAConst))
      else r.GetCutBachBaryonCosPA) ∧
    (Cascade.passes E c { r with GetCutUseVarV0CosPA := true } = true →
      Cascade.passes E c { r with GetCutUseVarV0CosPA := false } = true) ∧
    (Cascade.passes E c { r with GetCutUseVarCascCosPA := true } = true →
      Cascade.passes E c { r with GetCutUseVarCascCosPA := false } = true) ∧
    (Cascade.passes E c { r with GetCutUseVarDCACascDau := true } = true →
      Cascade.passes E c { r with GetCutUseVarDCACascDau := false } = true) ∧
    (Cascade.passes E c { r with GetCutUseVarBBCosPA := false } = true →
      Cascade.passes E c { r with GetCutUseVarBBCosPA := true } = true) ∧
    (V0.lV0CosPACut E cv rv =
      if rv.GetCutUseVarV0CosPA then
        max rv.GetCutV0CosPA
          (E.Cos (rv.GetCutVarV0CosPAExp0Const *
              E.Exp (rv.GetCutVarV0CosPAExp0Slope * cv.fTreeVariablePt)
            + rv.GetCutVarV0CosPAExp1Const *
              E.Exp (rv.GetCutVarV0CosPAExp1Slope * cv.fTreeVariablePt)
            + rv.GetCutVarV0CosPAConst))
      else rv.GetCutV0CosPA) ∧
    (V0.passes E cv { rv with GetCutUseVarV0CosPA := true } = true →
      V0.passes E cv { rv with GetCutUseVarV0CosPA := false } = true) := by
  refine ⟨Cascade.lV0CosPACut_eq E c r, Cascade.lCascCosPACut_eq E c r,
    Cascade.lDCACascDauCut_eq E c r, Cascade.lBBCosPACut_eq E c r, ?_, ?_, ?_, ?_,
    V0.v0_lV0CosPACut_eq E cv rv, ?_⟩
  · refine Cascade.passes_imp E c _ _ (fun h => h) (fun h => h) ?_ (fun h => h) (fun h => h)
      (fun h => h) (fun h => h) (fun h => h) (fun h => h) (fun h => h) (fun h => h)
      (fun h => h) (fun h => h) (fun h => h) (fun h => h) (fun h => h) (fun h => h)
      (fun h => h) (fun h => h) (fun h => h)
    simp only [Cascade.check3V0, Cascade.lV0CosPACut_eq, Bool.and_eq_true, decide_eq_true_eq,
      if_true, Bool.false_eq_true, if_false, gt_iff_lt, max_lt_iff]
    rintro ⟨⟨⟨⟨g1, g2⟩, g3⟩, g4, _⟩, g5⟩
    exact ⟨⟨⟨⟨g1, g2⟩, g3⟩, g4⟩, g5⟩
  · refine Cascade.passes_imp E c _ _ (fun h => h) (fun h => h) (fun h => h) ?_ (fun h => h)
      (fun h => h) (fun h => h) (fun h => h) (fun h => h) (fun h => h) (fun h => h)
      (fun h => h) (fun h => h) (fun h => h) (fun h => h) (fun h => h) (fun h => h)
      (fun h => h) (fun h => h) (fun h => h)
    simp only [Cascade.check3Casc, Cascade.lCascCosPACut_eq, Bool.and_eq_true,
      decide_eq_true_eq, if_true, Bool.false_eq_true, if_false, gt_iff_lt, max_lt_iff]
    rintro ⟨⟨⟨⟨⟨g1, g2⟩, g3⟩, g4⟩, g5, _⟩, g6⟩
    exact ⟨⟨⟨⟨⟨g1, g2⟩, g3⟩, g4⟩, g5⟩, g6⟩
  · refine Cascade.passes_imp E c _ _ (fun h => h) (fun h => h) (fun h => h) ?_ (fun h => h)
      (fun h => h) (fun h => h) (fun h => h) (fun h => h) (fun h => h) (fun h => h)
      (fun h => h) (fun h => h) (fun h => h) (fun h => h) (fun h => h) (fun h => h)
      (fun h => h) (fun h => h) (fun h => h)
    simp only [Cascade.check3Casc, Cascade.lDCACascDauCut_eq, Bool.and_eq_true,
      decide_eq_true_eq, if_true, Bool.false_eq_true, if_false, gt_iff_lt, lt_min_iff]
    rintro ⟨⟨⟨⟨⟨g1, g2⟩, g3⟩, g4, _⟩, g5⟩, g6⟩
    exact ⟨⟨⟨⟨⟨g1, g2⟩, g3⟩, g4⟩, g5⟩, g6⟩
  · refine Cascade.passes_imp E c _ _ (fun h => h) (fun h => h) (fun h => h) (fun h => h)
      (fun h => h) (fun h => h) (fun h => h) (fun h => h) (fun h => h) (fun h => h) ?_
      (fun h => h) (fun h => h) (fun h => h) (fun h => h) (fun h => h) (fun h => h)
      (fun h => h) (fun h => h) (fun h => h)
    simp only [Cascade.check7, Cascade.lBBCosPACut_eq, decide_eq_true_eq, if_true,
      Bool.false_eq_true, if_false, lt_max_iff]
    exact fun g => Or.inl g
  · simp only [V0.passes, V0.check3, V0.v0_lV0CosPACut_eq, Bool.and_eq_true, decide_eq_true_eq,
      if_true, Bool.false_eq_true, if_false, gt_iff_lt, max_lt_iff]
    rintro ⟨⟨⟨⟨⟨⟨⟨⟨⟨g1, g2⟩, ⟨⟨⟨⟨⟨⟨⟨⟨a1, a2⟩, a3⟩, a4⟩, a5⟩, a6, _⟩, a7⟩, a8⟩, a9⟩⟩, g4⟩, g5⟩,
      g6⟩, g7⟩, g8⟩, g9⟩, g10⟩
    exact ⟨⟨⟨⟨⟨⟨⟨⟨⟨g1, g2⟩, ⟨⟨⟨⟨⟨⟨⟨⟨a1, a2⟩, a3⟩, a4⟩, a5⟩, a6⟩, a7⟩, a8⟩, a9⟩⟩, g4⟩, g5⟩,
      g6⟩, g7⟩, g8⟩, g9⟩, g10⟩

namespace Cascade

/-- A passing candidate exists: `sampleCandidate` passes `sampleResult`. -/
theorem sample_passes : passes sampleExt sampleCandidate sampleResult = true := by
  simp [passes, check1, check2, check3V0, check3Casc, check3V0MassSigma, check3Misc,
    check4, check4bis, check5, check6, check7, check8, check8Min, check8Max, check9, check10,
    check11, check12, check13, check14a, check14b, check14c, setLocals, initLocals, chargeOf,
    lV0CosPACut, lCascCosPACut, lBBCosPACut, lDCACascDauCut, sampleCandidate, sampleResult]
  norm_num [abs_lt]

/-- The V0 part of check 3 is monotone in its thresholds. -/
theorem check3V0_mono (c : Candidate) (r1 r2 : AliCascadeResult) (cut1 cut2 : ℚ)
    (hneg : r2.GetCutDCANegToPV ≤ r1.GetCutDCANegToPV)
    (hpos : r2.GetCutDCAPosToPV ≤ r1.GetCutDCAPosToPV)
    (hdau : r1.GetCutDCAV0Daughters ≤ r2.GetCutDCAV0Daughters)
    (hcut : cut2 ≤ cut1)
    (hrad : r2.GetCutV0Radius ≤ r1.GetCutV0Radius) :
    check3V0 c r1 cut1 = true → check3V0 c r2 cut2 = true := by
  simp only [check3V0, Bool.and_eq_true, decide_eq_true_eq, gt_iff_lt]
  rintro ⟨⟨⟨⟨g1, g2⟩, g3⟩, g4⟩, g5⟩
  exact ⟨⟨⟨⟨lt_of_le_of_lt hneg g1, lt_of_le_of_lt hpos g2⟩, lt_of_lt_of_le g3 hdau⟩,
    lt_of_le_of_lt hcut g4⟩, lt_of_le_of_lt hrad g5⟩

/-- The cascade part of check 3 is monotone in its thresholds. -/
theorem check3Casc_mono (c : Candidate) (r1 r2 : AliCascadeResult) (l : Locals)
    (dca1 dca2 cos1 cos2 : ℚ)
    (hv0 : r2.GetCutDCAV0ToPV ≤ r1.GetCutDCAV0ToPV)
    (hmass : r1.GetCutV0Mass = r2.GetCutV0Mass)
    (hbach : r2.GetCutDCABachToPV ≤ r1.GetCutDCABachToPV)
    (hdca : dca1 ≤ dca2)
    (hcos : cos2 ≤ cos1)
    (hrad : r2.GetCutCascRadius ≤ r1.GetCutCascRadius) :
    check3Casc c r1 l dca1 cos1 = true → check3Casc c r2 l dca2 cos2 = true := by
  simp only [check3Casc, Bool.and_eq_true, decide_eq_true_eq, gt_iff_lt]
  rintro ⟨⟨⟨⟨⟨g1, g2⟩, g3⟩, g4⟩, g5⟩, g6⟩
  exact ⟨⟨⟨⟨⟨lt_of_le_of_lt hv0 g1, hmass ▸ g2⟩, lt_of_le_of_lt hbach g3⟩,
    lt_of_lt_of_le g4 hdca⟩, lt_of_le_of_lt hcos g5⟩, lt_of_le_of_lt hrad g6⟩

/-- The miscellaneous part of check 3 is monotone in the proper-lifetime threshold. -/
theorem check3Misc_mono (c : Candidate) (r1 r2 : AliCascadeResult) (l : Locals)
    (hlife : r1.GetCutProperLifetime ≤ r2.GetCutProperLifetime)
    (hcls : r1.GetCutLeastNumberOfClusters = r2.GetCutLeastNumberOfClusters) :
    check3Misc c r1 l = true → check3Misc c r2 l = true := by
  simp only [check3Misc, Bool.and_eq_true, decide_eq_true_eq, gt_iff_lt]
  rintro ⟨g1, g2⟩
  exact ⟨lt_of_lt_of_le g1 hlife, hcls ▸ g2⟩

/-- Check 7 is monotone in its threshold. -/
theorem check7_mono (c : Candidate) (cut1 cut2 : ℚ) (hcut : cut1 ≤ cut2) :
    check7 c cut1 = true → check7 c cut2 = true := by
  simp only [check7, decide_eq_true_eq]
  exact fun g => lt_of_lt_of_le g hcut

/-- Check 8 is monotone in the maximum V0 lifetime. -/
theorem check8_mono (c : Candidate) (r1 r2 : AliCascadeResult)
    (hmin : r1.GetCutMinV0Lifetime = r2.GetCutMinV0Lifetime)
    (hmax : r1.GetCutMaxV0Lifetime ≤ r2.GetCutMaxV0Lifetime) :
    check8 c r1 = true → check8 c r2 = true := by
  simp only [check8, check8Min, check8Max, Bool.and_eq_true, Bool.or_eq_true,
    decide_eq_true_eq, gt_iff_lt]
  rintro ⟨g1, g2 | g2⟩
  · exact ⟨hmin ▸ g1, Or.inl (lt_of_lt_of_le g2 hmax)⟩
  · exact ⟨hmin ▸ g1, Or.inr (lt_of_lt_of_le g2 hmax)⟩

/-- The effective V0 CosPA threshold is monotone in the constant threshold. -/
theorem lV0CosPACut_set_mono (E : Ext) (c : Candidate) (r : AliCascadeResult) (a b : ℚ)
    (hab : a ≤ b) :
    lV0CosPACut E c { r with GetCutV0CosPA := a } ≤
      lV0CosPACut E c { r with GetCutV0CosPA := b } := by
  rw [lV0CosPACut_eq, lV0CosPACut_eq]
  show (if r.GetCutUseVarV0CosPA then max a (lVarV0CosPA E c r) else a) ≤
    (if r.GetCutUseVarV0CosPA then max b (lVarV0CosPA E c r) else b)
  split
  · exact max_le_max hab (le_refl _)
  · exact hab

/-- The effective cascade CosPA threshold is monotone in the constant threshold. -/
theorem lCascCosPACut_set_mono (E : Ext) (c : Candidate) (r : AliCascadeResult) (a b : ℚ)
    (hab : a ≤ b) :
    lCascCosPACut E c { r with GetCutCascCosPA := a } ≤
      lCascCosPACut E c { r with GetCutCascCosPA := b } := by
  rw [lCascCosPACut_eq, lCascCosPACut_eq]
  show (if r.GetCutUseVarCascCosPA then max a (lVarCascCosPA E c r) else a) ≤
    (if r.GetCutUseVarCascCosPA then max b (lVarCascCosPA E c r) else b)
  split
  · exact max_le_max hab (le_refl _)
  · exact hab

/-- The effective bachelor-baryon CosPA threshold is monotone in the constant threshold. -/
theorem lBBCosPACut_set_mono (E : Ext) (c : Candidate) (r : AliCascadeResult) (a b : ℚ)
    (hab : a ≤ b) :
    lBBCosPACut E c { r with GetCutBachBaryonCosPA := a } ≤
      lBBCosPACut E c { r with GetCutBachBaryonCosPA := b } := by
  rw [lBBCosPACut_eq, lBBCosPACut_eq]
  show (if r.GetCutUseVarBBCosPA then max a (lVarBBCosPA E c r) else a) ≤
    (if r.GetCutUseVarBBCosPA then max b (lVarBBCosPA E c r) else b)
  split
  · exact max_le_max hab (le_refl _)
  · exact hab

/-- The effective cascade-daughter DCA threshold is monotone in the constant threshold. -/
theorem lDCACascDauCut_set_mono (E : Ext) (c : Candidate) (r : AliCascadeResult) (a b : ℚ)
    (hab : a ≤ b) :
    lDCACascDauCut E c { r with GetCutDCACascDaughters := a } ≤
      lDCACascDauCut E c { r with GetCutDCACascDaughters := b } := by
  rw [lDCACascDauCut_eq, lDCACascDauCut_eq]
  show (if r.GetCutUseVarDCACascDau then min a (lVarDCACascDau E c r) else a) ≤
    (if r.GetCutUseVarDCACascDau then min b (lVarDCACascDau E c r) else b)
  split
  · exact min_le_min hab (le_refl _)
  · exact hab

end Cascade

/-- C4, as stated, fails at the threshold 1000 itself: a V0 configuration and a cascade
configuration with maximum chi2 per cluster 1000 reject a candidate with chi2 per cluster
2000, and a cascade configuration with maximum V0 lifetime 1000 rejects a candidate with
V0 lifetime 2000. -/
theorem C4_sentinel_at_1000_counterexample :
    (1000 ≤ ({ V0.sampleResult with GetCutMaxChi2PerCluster := 1000 }
        ).GetCutMaxChi2PerCluster ∧
      V0.check8 { V0.sampleCandidate with fTreeVariableMaxChi2PerCluster := 2000 }
        { V0.sampleResult with GetCutMaxChi2PerCluster := 1000 } = false) ∧
    (1000 ≤ ({ Cascade.sampleResult with GetCutMaxChi2PerCluster := 1000 }
        ).GetCutMaxChi2PerCluster ∧
      Cascade.check10 { Cascade.sampleCandidate with fTreeCascVarMaxChi2PerCluster := 2000 }
        { Cascade.sampleResult with GetCutMaxChi2PerCluster := 1000 } = false) ∧
    (1000 ≤ ({ Cascade.sampleResult with GetCutMaxV0Lifetime := 1000 }
        ).GetCutMaxV0Lifetime ∧
      Cascade.check8Max { Cascade.sampleCandidate with fTreeCascVarV0Lifetime := 2000 }
        { Cascade.sampleResult with GetCutMaxV0Lifetime := 1000 } = false) := by
  refine ⟨⟨le_refl _, ?_⟩, ⟨le_refl _, ?_⟩, ⟨le_refl _, ?_⟩⟩
  · norm_num [V0.check8]
  · norm_num [Cascade.check10]
  · norm_num [Cascade.check8Max]

/-- C4, amended. A sub-cut whose threshold is at its sentinel is true for every candidate:
a V0 or cascade configuration whose maximum chi2 per cluster is above 1000 passes the chi2
sub-cut, and one whose minimum track length is negative passes the track-length sub-cut;
a cascade configuration whose maximum V0 lifetime is above 1000 passes the maximum-lifetime
sub-cut, one whose cascade-DCA-to-PV threshold is at least 1000 passes that sub-cut, and
one whose weighted-DCA threshold is negative passes the respective weighted-DCA sub-cut. -/
theorem C4_sentinel_subcuts_pass (E : Ext) (cv : V0.Candidate) (rv : V0.AliV0Result)
    (cc : Cascade.Candidate) (rc : Cascade.AliCascadeResult) :
    (1000 < rv.GetCutMaxChi2PerCluster → V0.check8 cv rv = true) ∧
    (rv.GetCutMinTrackLength < 0 → V0.check9 cv rv = true) ∧
    (1000 < rc.GetCutMaxChi2PerCluster → Cascade.check10 cc rc = true) ∧
    (rc.GetCutMinTrackLength < 0 → Cascade.check11 cc rc = true) ∧
    (1000 < rc.GetCutMaxV0Lifetime → Cascade.check8Max cc rc = true) ∧
    (1000 ≤ rc.GetCutDCACascadeToPV → Cascade.check13 E cc rc = true) ∧
    (rc.GetCutDCANegToPVWeighted < 0 → Cascade.check14a E cc rc = true) ∧
    (rc.GetCutDCAPosToPVWeighted < 0 → Cascade.check14b E cc rc = true) ∧
    (rc.GetCutDCABachToPVWeighted < 0 → Cascade.check14c E cc rc = true) := by
  refine ⟨?_, ?_, ?_, ?_, ?_, ?_, ?_, ?_, ?_⟩
  · intro h
    simp [V0.check8, h]
  · intro h
    simp [V0.check9, h]
  · intro h
    simp [Cascade.check10, h]
  · intro h
    simp [Cascade.check11, h]
  · intro h
    simp [Cascade.check8Max, h]
  · intro h
    have h999 : (999 : ℚ) < rc.GetCutDCACascadeToPV := by linarith
    simp [Cascade.check13, h999]
  · intro h
    simp [Cascade.check14a, h]
  · intro h
    simp [Cascade.check14b, h]
  · intro h
    simp [Cascade.check14c, h]

/-- C4, amended, at concrete configurations: with maximum chi2 per cluster 10000 a V0
candidate with chi2 per cluster 2000 passes the chi2 sub-cut, and the cascade
configuration `sampleResult`, all of whose sentinels are set, passes its sub-cuts. -/
theorem C4_sentinel_subcuts_pass_witness :
    V0.check8 { V0.sampleCandidate with fTreeVariableMaxChi2PerCluster := 2000 }
      { V0.sampleResult with GetCutMaxChi2PerCluster := 10000 } = true ∧
    V0.check9 V0.sampleCandidate { V0.sampleResult with GetCutMinTrackLength := -1 } = true ∧
    Cascade.check10 Cascade.sampleCandidate Cascade.sampleResult = true ∧
    Cascade.check11 Cascade.sampleCandidate Cascade.sampleResult = true ∧
    Cascade.check8Max { Cascade.sampleCandidate with fTreeCascVarV0Lifetime := 2000 }
      { Cascade.sampleResult with GetCutMaxV0Lifetime := 1001 } = true ∧
    Cascade.check13 sampleExt Cascade.sampleCandidate Cascade.sampleResult = true ∧
    Cascade.check14a sampleExt Cascade.sampleCandidate Cascade.sampleResult = true :=
  ⟨(C4_sentinel_subcuts_pass sampleExt
      { V0.sampleCandidate with fTreeVariableMaxChi2PerCluster := 2000 }
      { V0.sampleResult with GetCutMaxChi2PerCluster := 10000 }
      Cascade.sampleCandidate Cascade.sampleResult).1 (by norm_num),
   (C4_sentinel_subcuts_pass sampleExt V0.sampleCandidate
      { V0.sampleResult with GetCutMinTrackLength := -1 }
      Cascade.sampleCandidate Cascade.sampleResult).2.1 (by norm_num),
   (C4_sentinel_subcuts_pass sampleExt V0.sampleCandidate V0.sampleResult
      Cascade.sampleCandidate Cascade.sampleResult).2.2.1 (by norm_num [Cascade.sampleResult]),
   (C4_sentinel_subcuts_pass sampleExt V0.sampleCandidate V0.sampleResult
      Cascade.sampleCandidate Cascade.sampleResult).2.2.2.1
      (by norm_num [Cascade.sampleResult]),
   (C4_sentinel_subcuts_pass sampleExt V0.sampleCandidate V0.sampleResult
      { Cascade.sampleCandidate with fTreeCascVarV0Lifetime := 2000 }
      { Cascade.sampleResult with GetCutMaxV0Lifetime := 1001 }).2.2.2.2.1 (by norm_num),
   (C4_sentinel_subcuts_pass sampleExt V0.sampleCandidate V0.sampleResult
      Cascade.sampleCandidate Cascade.sampleResult).2.2.2.2.2.1
      (by norm_num [Cascade.sampleResult]),
   (C4_sentinel_subcuts_pass sampleExt V0.sampleCandidate V0.sampleResult
      Cascade.sampleCandidate Cascade.sampleResult).2.2.2.2.2.2.1
      (by norm_num [Cascade.sampleResult])⟩

namespace Cascade

/-- C5. For two cascade configurations that are the same configuration `r` with one of the
thirteen swept thresholds set to `tight` and to `loose`, where `tight` is at least as
restrictive as `loose` (larger for a lower-bound cut, smaller for an upper-bound cut),
every candidate that passes the tight configuration, and so fills its accumulator, passes
the loose one. -/
theorem C5_tight_implies_loose (E : Ext) (c : Candidate) (r : AliCascadeResult)
    (d : SweepVariable) (tight loose : ℚ) (h : d.moreRestrictive tight loose) :
    passes E c (d.set tight r) = true → passes E c (d.set loose r) = true :=
  match d, h with
  | .DCANegToPV, h =>
    passes_imp E c _ _ (fun g => g) (fun g => g)
      (check3V0_mono c _ _ _ _ h (le_refl _) (le_refl _) (le_refl _) (le_refl _)) (fun g => g)
      (fun g => g) (fun g => g) (fun g => g) (fun g => g) (fun g => g) (fun g => g)
      (fun g => g) (fun g => g) (fun g => g) (fun g => g) (fun g => g) (fun g => g)
      (fun g => g) (fun g => g) (fun g => g) (fun g => g)
  | .DCAPosToPV, h =>
    passes_imp E c _ _ (fun g => g) (fun g => g)
      (check3V0_mono c _ _ _ _ (le_refl _) h (le_refl _) (le_refl _) (le_refl _)) (fun g => g)
      (fun g => g) (fun g => g) (fun g => g) (fun g => g) (fun g => g) (fun g => g)
      (fun g => g) (fun g => g) (fun g => g) (fun g => g) (fun g => g) (fun g => g)
      (fun g => g) (fun g => g) (fun g => g) (fun g => g)
  | .DCAV0Daughters, h =>
    passes_imp E c _ _ (fun g => g) (fun g => g)
      (check3V0_mono c _ _ _ _ (le_refl _) (le_refl _) h (le_refl _) (le_refl _)) (fun g => g)
      (fun g => g) (fun g => g) (fun g => g) (fun g => g) (fun g => g) (fun g => g)
      (fun g => g) (fun g => g) (fun g => g) (fun g => g) (fun g => g) (fun g => g)
      (fun g => g) (fun g => g) (fun g => g) (fun g => g)
  | .V0CosPA, h =>
    passes_imp E c _ _ (fun g => g) (fun g => g)
      (check3V0_mono c _ _ _ _ (le_refl _) (le_refl _) (le_refl _) (lV0CosPACut_set_mono E c r loose tight h) (le_refl _))
      (fun g => g) (fun g => g) (fun g => g) (fun g => g) (fun g => g) (fun g => g)
      (fun g => g) (fun g => g) (fun g => g) (fun g => g) (fun g => g) (fun g => g)
      (fun g => g) (fun g => g) (fun g => g) (fun g => g) (fun g => g)
  | .V0Radius, h =>
    passes_imp E c _ _ (fun g => g) (fun g => g)
      (check3V0_mono c _ _ _ _ (le_refl _) (le_refl _) (le_refl _) (le_refl _) h) (fun g => g)
      (fun g => g) (fun g => g) (fun g => g) (fun g => g) (fun g => g) (fun g => g)
      (fun g => g) (fun g => g) (fun g => g) (fun g => g) (fun g => g) (fun g => g)
      (fun g => g) (fun g => g) (fun g => g) (fun g => g)
  | .DCAV0ToPV, h =>
    passes_imp E c _ _ (fun g => g) (fun g => g) (fun g => g)
      (check3Casc_mono c _ _ _ _ _ _ _ h rfl (le_refl _) (le_refl _) (le_refl _) (le_refl _))
      (fun g => g) (fun g => g) (fun g => g) (fun g => g) (fun g => g) (fun g => g)
      (fun g => g) (fun g => g) (fun g => g) (fun g => g) (fun g => g) (fun g => g)
      (fun g => g) (fun g => g) (fun g => g) (fun g => g)
  | .DCABachToPV, h =>
    passes_imp E c _ _ (fun g => g) (fun g => g) (fun g => g)
      (check3Casc_mono c _ _ _ _ _ _ _ (le_refl _) rfl h (le_refl _) (le_refl _) (le_refl _))
      (fun g => g) (fun g => g) (fun g => g) (fun g => g) (fun g => g) (fun g => g)
      (fun g => g) (fun g => g) (fun g => g) (fun g => g) (fun g => g) (fun g => g)
      (fun g => g) (fun g => g) (fun g => g) (fun g => g)
  | .DCACascDaughters, h =>
    passes_imp E c _ _ (fun g => g) (fun g => g) (fun g => g)
      (check3Casc_mono c _ _ _ _ _ _ _ (le_refl _) rfl (le_refl _) (lDCACascDauCut_set_mono E c r tight loose h) (le_refl _) (le_refl _))
      (fun g => g) (fun g => g) (fun g => g) (fun g => g) (fun g => g) (fun g => g)
      (fun g => g) (fun g => g) (fun g => g) (fun g => g) (fun g => g) (fun g => g)
      (fun g => g) (fun g => g) (fun g => g) (fun g => g)
  | .CascRadius, h =>
    passes_imp E c _ _ (fun g => g) (fun g => g) (fun g => g)
      (check3Casc_mono c _ _ _ _ _ _ _ (le_refl _) rfl (le_refl _) (le_refl _) (le_refl _) h)
      (fun g => g) (fun g => g) (fun g => g) (fun g => g) (fun g => g) (fun g => g)
      (fun g => g) (fun g => g) (fun g => g) (fun g => g) (fun g => g) (fun g => g)
      (fun g => g) (fun g => g) (fun g => g) (fun g => g)
  | .CascCosPA, h =>
    passes_imp E c _ _ (fun g => g) (fun g => g) (fun g => g)
      (check3Casc_mono c _ _ _ _ _ _ _ (le_refl _) rfl (le_refl _) (le_refl _) (lCascCosPACut_set_mono E c r loose tight h) (le_refl _))
      (fun g => g) (fun g => g) (fun g => g) (fun g => g) (fun g => g) (fun g => g)
      (fun g => g) (fun g => g) (fun g => g) (fun g => g) (fun g => g) (fun g => g)
      (fun g => g) (fun g => g) (fun g => g) (fun g => g)
  | .BBCosPA, h =>
    passes_imp E c _ _ (fun g => g) (fun g => g) (fun g => g) (fun g => g) (fun g => g)
      (fun g => g) (fun g => g) (fun g => g) (fun g => g) (fun g => g)
      (check7_mono c _ _ (lBBCosPACut_set_mono E c r tight loose h)) (fun g => g) (fun g => g)
      (fun g => g) (fun g => g) (fun g => g) (fun g => g) (fun g => g) (fun g => g)
      (fun g => g)
  | .CascLifetime, h =>
    passes_imp E c _ _ (fun g => g) (fun g => g) (fun g => g) (fun g => g) (fun g => g)
      (check3Misc_mono c _ _ _ h rfl) (fun g => g) (fun g => g) (fun g => g) (fun g => g)
      (fun g => g) (fun g => g) (fun g => g) (fun g => g) (fun g => g) (fun g => g)
      (fun g => g) (fun g => g) (fun g => g) (fun g => g)
  | .MaxV0Lifetime, h =>
    passes_imp E c _ _ (fun g => g) (fun g => g) (fun g => g) (fun g => g) (fun g => g)
      (fun g => g) (fun g => g) (fun g => g) (fun g => g) (fun g => g) (fun g => g)
      (check8_mono c _ _ rfl h) (fun g => g) (fun g => g) (fun g => g) (fun g => g)
      (fun g => g) (fun g => g) (fun g => g) (fun g => g)

end Cascade

namespace Cascade

/-- C5 at `sampleCandidate`: it passes `sampleResult`, whose DCANegToPV threshold is 0.2,
and hence the configuration with that threshold loosened to 0.1. -/
theorem C5_tight_implies_loose_witness :
    SweepVariable.DCANegToPV.moreRestrictive (2/10) (1/10) ∧
    passes sampleExt sampleCandidate (SweepVariable.DCANegToPV.set (2/10) sampleResult) = true ∧
    passes sampleExt sampleCandidate (SweepVariable.DCANegToPV.set (1/10) sampleResult) = true :=
  have h : SweepVariable.DCANegToPV.moreRestrictive (2/10) (1/10) := by
    norm_num [SweepVariable.moreRestrictive, SweepVariable.lowerBound]
  ⟨h, sample_passes,
    C5_tight_implies_loose sampleExt sampleCandidate sampleResult SweepVariable.DCANegToPV
      (2/10) (1/10) h sample_passes⟩

end Cascade

/-! ## Claims on the normalisation pipeline -/

namespace BasedNdeta

/-- Conversion of an integer-valued content to `Int_t` gives that integer. -/
theorem toInt_t_intCast (z : Int) : toInt_t (z : ℚ) = z := by
  unfold toInt_t
  split <;> simp

/-- Wrapping a value of `Int_t` leaves it as it is. -/
theorem wrapInt_t_of_range (z : Int) (h : InInt_t z) : wrapInt_t z = z := by
  unfold InInt_t at h
  unfold wrapInt_t
  omega

/-- A wrapped value is a value of `Int_t`. -/
theorem wrapInt_t_range (z : Int) : InInt_t (wrapInt_t z) := by
  unfold InInt_t wrapInt_t
  omega

/-- The operations of `nB - nA - nC + 2 * nE`, each wrapping around at 32 bits, give the
wrapped value of the expression over the integers. -/
theorem wrapInt_t_sum (a b c e : Int) :
    wrapInt_t (wrapInt_t (wrapInt_t (a - b) - c) + wrapInt_t (2 * e)) =
      wrapInt_t (a - b - c + 2 * e) := by
  unfold wrapInt_t
  omega

/-- What is known when the first part of `Terminate` goes on to the projections. -/
theorem TerminateCounters_goesOn_inv (E : Ext) (t t1 : Task) (l : TerminateLocals)
    (h : TerminateCounters E t = TerminateHead.goesOn t1 l) :
    t.outputData1 = some l.sums ∧
    l.sums.FindTH1D "triggers" = some l.triggers ∧
    l.sums.FindTH2D t.fName = some l.sum ∧
    l.nB = toInt_t (l.triggers.GetBinContent E.kB) ∧
    l.nA = toInt_t (l.triggers.GetBinContent E.kA) ∧
    l.nC = toInt_t (l.triggers.GetBinContent E.kC) ∧
    l.nE = toInt_t (l.triggers.GetBinContent E.kE) ∧
    l.nMB = toInt_t (l.triggers.GetBinContent E.kMB) ∧
    l.nTriggered = toInt_t (l.triggers.GetBinContent E.kWithTrigger) ∧
    l.nAccepted = toInt_t (l.triggers.GetBinContent E.kAccepted) ∧
    0 < l.nTriggered ∧
    l.nGood = (if wrapInt_t (l.nB - l.nA - l.nC + 2 * l.nE) ≤ 0 then l.nMB
      else wrapInt_t (l.nB - l.nA - l.nC + 2 * l.nE)) ∧
    l.vtxEff = FVal.div (FVal.mul (FVal.fdiv l.nMB l.nTriggered) (FVal.fin l.nAccepted))
      (FVal.fin l.nGood) ∧
    l.vNorm = FVal.fdiv l.nAccepted l.nGood ∧
    t1.posted = t.posted ∧ t1.fSumMC = l.sums.FindTH2D (t.fName ++ "MC") ∧
    t1.fName = t.fName := by
  unfold TerminateCounters at h
  split at h
  · exact absurd h (by simp)
  · rename_i sums hsums
    simp only at h
    split at h
    · exact absurd h (by simp)
    · rename_i triggers htrig
      split at h
      · exact absurd h (by simp)
      · rename_i sum hsum
        split at h
        · exact absurd h (by simp)
        · rename_i hpos
          simp only [TerminateHead.goesOn.injEq] at h
          obtain ⟨ht1, hl⟩ := h
          subst hl
          subst ht1
          simp only [not_le] at hpos
          refine ⟨hsums, htrig, hsum, rfl, rfl, rfl, rfl, rfl, rfl, rfl, hpos, ?_, rfl, rfl,
            rfl, rfl, rfl⟩
          simp only [wrapInt_t_sum]

/-- The first part of `Terminate` goes on to the projections whenever the sums list, the
trigger histogram and the sum histogram are there and the triggered counter is positive. -/
theorem TerminateCounters_goesOn (E : Ext) (t : Task) (sums : TList) (triggers : TH1D)
    (sum : TH2D) (h1 : t.outputData1 = some sums)
    (h2 : sums.FindTH1D "triggers" = some triggers) (h3 : sums.FindTH2D t.fName = some sum)
    (h4 : 0 < toInt_t (triggers.GetBinContent E.kWithTrigger)) :
    ∃ t1 l, TerminateCounters E t = TerminateHead.goesOn t1 l ∧ l.triggers = triggers ∧
      l.sum = sum ∧ l.sums = sums := by
  unfold TerminateCounters
  simp only [h1, h2, h3, not_le.mpr h4, if_false]
  exact ⟨_, _, rfl, rfl, rfl, rfl⟩

/-- The sample task goes on to the projections. -/
theorem sampleTask_goesOn :
    ∃ t1 l, TerminateCounters sampleExt sampleTask = TerminateHead.goesOn t1 l ∧
      l.triggers = sampleTriggers ∧ l.sum = sampleSum ∧ l.sums = sampleSums := by
  refine TerminateCounters_goesOn sampleExt sampleTask _ sampleTriggers sampleSum rfl ?_ ?_ ?_
  · simp [TList.FindTH1D, TList.FindObject, TObject.GetName, sampleTriggers, sampleSums]
  · simp [TList.FindTH2D, TList.FindObject, TObject.GetName, sampleTriggers, sampleSum,
      sampleTask, sampleSums]
  · have h : sampleTriggers.GetBinContent sampleExt.kWithTrigger = ((100 : Int) : ℚ) := by
      simp [TH1D.GetBinContent, sampleTriggers, sampleExt, clampBin]
    rw [h, toInt_t_intCast]
    decide

/-- The counters of the sample task. -/
theorem sampleTask_counters (t1 : Task) (l : TerminateLocals)
    (h : TerminateCounters sampleExt sampleTask = TerminateHead.goesOn t1 l) :
    l.nB = 100 ∧ l.nA = 10 ∧ l.nC = 5 ∧ l.nE = 3 ∧ l.nMB = 100 ∧ l.nTriggered = 100 ∧
      l.nAccepted = 80 := by
  obtain ⟨t2, l2, h2, ht, -, -⟩ := sampleTask_goesOn
  rw [h2] at h
  simp only [TerminateHead.goesOn.injEq] at h
  obtain ⟨-, hl⟩ := h
  subst hl
  obtain ⟨-, -, -, hB, hA, hC, hE, hMB, hT, hAcc, -⟩ :=
    TerminateCounters_goesOn_inv sampleExt sampleTask t2 l2 h2
  rw [ht] at hB hA hC hE hMB hT hAcc
  have e100 : ((100 : Int) : ℚ) = 100 := by norm_num
  have e10 : ((10 : Int) : ℚ) = 10 := by norm_num
  have e5 : ((5 : Int) : ℚ) = 5 := by norm_num
  have e3 : ((3 : Int) : ℚ) = 3 := by norm_num
  have e80 : ((80 : Int) : ℚ) = 80 := by norm_num
  refine ⟨?_, ?_, ?_, ?_, ?_, ?_, ?_⟩
  · rw [hB, ← toInt_t_intCast 100, e100]
    simp [TH1D.GetBinContent, sampleTriggers, sampleExt, clampBin]
  · rw [hA, ← toInt_t_intCast 10, e10]
    simp [TH1D.GetBinContent, sampleTriggers, sampleExt, clampBin]
  · rw [hC, ← toInt_t_intCast 5, e5]
    simp [TH1D.GetBinContent, sampleTriggers, sampleExt, clampBin]
  · rw [hE, ← toInt_t_intCast 3, e3]
    simp [TH1D.GetBinContent, sampleTriggers, sampleExt, clampBin]
  · rw [hMB, ← toInt_t_intCast 100, e100]
    simp [TH1D.GetBinContent, sampleTriggers, sampleExt, clampBin]
  · rw [hT, ← toInt_t_intCast 100, e100]
    simp [TH1D.GetBinContent, sampleTriggers, sampleExt, clampBin]
  · rw [hAcc, ← toInt_t_intCast 80, e80]
    simp [TH1D.GetBinContent, sampleTriggers, sampleExt, clampBin]

/-- C6 (amended). Whenever `Terminate` gets past its guards (the triggered counter, read
from the trigger histogram like the others, is positive) with counters `B`, `A`, `C`, `E`
and `MB`, read from the bins `kB`, `kA`, `kC`, `kE` and `kMB`, that are values of `Int_t`
and for which `B - A - C + 2*E` over the integers lies within the range of `Int_t`, the
good-event count it uses for the vertex efficiency and the normalisation scalar is
`B - A - C + 2*E` when that is positive and the minimum-bias count `MB` otherwise, and it
is a value of `Int_t`. -/
theorem C6_good_event_count (E : Ext) (t t1 : Task) (l : TerminateLocals)
    (h : TerminateCounters E t = TerminateHead.goesOn t1 l)
    (hcounters : InInt_t l.nB ∧ InInt_t l.nA ∧ InInt_t l.nC ∧ InInt_t l.nE ∧ InInt_t l.nMB)
    (hrange : InInt_t (l.nB - l.nA - l.nC + 2 * l.nE)) :
    0 < toInt_t (l.triggers.GetBinContent E.kWithTrigger) ∧
    l.nB = toInt_t (l.triggers.GetBinContent E.kB) ∧
    l.nA = toInt_t (l.triggers.GetBinContent E.kA) ∧
    l.nC = toInt_t (l.triggers.GetBinContent E.kC) ∧
    l.nE = toInt_t (l.triggers.GetBinContent E.kE) ∧
    l.nMB = toInt_t (l.triggers.GetBinContent E.kMB) ∧
    l.nGood = (if 0 < l.nB - l.nA - l.nC + 2 * l.nE then l.nB - l.nA - l.nC + 2 * l.nE
      else l.nMB) ∧
    InInt_t l.nGood ∧
    l.vNorm = FVal.fdiv l.nAccepted l.nGood ∧
    l.vtxEff = FVal.div (FVal.mul (FVal.fdiv l.nMB l.nTriggered) (FVal.fin l.nAccepted))
      (FVal.fin l.nGood) := by
  obtain ⟨-, -, -, eB, eA, eC, eE, eMB, eT, -, hpos, hgood, hvtx, hnorm, -⟩ :=
    TerminateCounters_goesOn_inv E t t1 l h
  have hg : l.nGood = (if 0 < l.nB - l.nA - l.nC + 2 * l.nE then
      l.nB - l.nA - l.nC + 2 * l.nE else l.nMB) := by
    rw [hgood, wrapInt_t_of_range _ hrange]
    by_cases hg : l.nB - l.nA - l.nC + 2 * l.nE ≤ 0
    · rw [if_pos hg, if_neg (not_lt.mpr hg)]
    · rw [if_neg hg, if_pos (not_le.mp hg)]
  refine ⟨eT ▸ hpos, eB, eA, eC, eE, eMB, hg, ?_, hnorm, hvtx⟩
  rw [hg]
  split
  · exact hrange
  · exact hcounters.2.2.2.2

/-- C6 (amended) at the sample task: with `B = 100`, `A = 10`, `C = 5`, `E = 3` the
good-event count is `91`. -/
theorem C6_good_event_count_witness :
    ∃ t1 l, TerminateCounters sampleExt sampleTask = TerminateHead.goesOn t1 l ∧
      InInt_t (l.nB - l.nA - l.nC + 2 * l.nE) ∧ l.nGood = 91 := by
  obtain ⟨t1, l, h, -⟩ := sampleTask_goesOn
  obtain ⟨hB, hA, hC, hE, hMB, -⟩ := sampleTask_counters t1 l h
  have hr : InInt_t (l.nB - l.nA - l.nC + 2 * l.nE) := by
    rw [hB, hA, hC, hE]
    decide
  refine ⟨t1, l, h, hr, ?_⟩
  rw [(C6_good_event_count sampleExt sampleTask t1 l h (by rw [hB, hA, hC, hE, hMB]; decide)
    hr).2.2.2.2.2.2.1, hB, hA, hC, hE]
  norm_num

/-- C6 fails for the 32-bit counters of the code. After a run that left `B = 2000000000`,
`A = C = 0`, `E = 100000000`, `MB = 2000000000` and `triggered = 2000000000`, all of them
values of `Int_t`, `B - A - C + 2*E` is `2200000000`, which is positive; the 32-bit sum
of line 373 wraps around to `-2094967296`, the test `nGood <= 0` holds, the warning is
issued and the good-event count is `MB = 2000000000`, not `B - A - C + 2*E`. -/
theorem C6_good_event_count_counterexample :
    ∃ t1 l, TerminateCounters sampleExt largeTask = TerminateHead.goesOn t1 l ∧
      l.nB = 2000000000 ∧ l.nA = 0 ∧ l.nC = 0 ∧ l.nE = 100000000 ∧ l.nMB = 2000000000 ∧
      0 < l.nTriggered ∧
      InInt_t l.nB ∧ InInt_t l.nA ∧ InInt_t l.nC ∧ InInt_t l.nE ∧ InInt_t l.nMB ∧
      l.nB - l.nA - l.nC + 2 * l.nE = 2200000000 ∧
      wrapInt_t (l.nB - l.nA - l.nC + 2 * l.nE) = -2094967296 ∧
      l.nGood = l.nMB ∧
      l.nGood ≠ (if 0 < l.nB - l.nA - l.nC + 2 * l.nE then l.nB - l.nA - l.nC + 2 * l.nE
        else l.nMB) ∧
      t1.messages = [Msg.warningGoodLE0 (-2094967296) 2000000000 0 0 100000000,
        Msg.infoCounts] := by
  have hfind : largeSums.FindTH1D "triggers" = some largeTriggers := by
    simp [TList.FindTH1D, TList.FindObject, TObject.GetName, largeTriggers, largeSums]
  have hsum : largeSums.FindTH2D largeTask.fName = some sampleSum := by
    simp [TList.FindTH2D, TList.FindObject, TObject.GetName, largeTriggers, largeSums,
      largeTask, sampleTask, sampleSum]
  have kT : toInt_t (largeTriggers.GetBinContent sampleExt.kWithTrigger) = 2000000000 := by
    have hq : largeTriggers.GetBinContent sampleExt.kWithTrigger =
        ((2000000000 : Int) : ℚ) := by
      simp [TH1D.GetBinContent, largeTriggers, sampleExt, clampBin]
    rw [hq, toInt_t_intCast]
  have kB : toInt_t (largeTriggers.GetBinContent sampleExt.kB) = 2000000000 := by
    have hq : largeTriggers.GetBinContent sampleExt.kB = ((2000000000 : Int) : ℚ) := by
      simp [TH1D.GetBinContent, largeTriggers, sampleExt, clampBin]
    rw [hq, toInt_t_intCast]
  have kA : toInt_t (largeTriggers.GetBinContent sampleExt.kA) = 0 := by
    have hq : largeTriggers.GetBinContent sampleExt.kA = ((0 : Int) : ℚ) := by
      simp [TH1D.GetBinContent, largeTriggers, sampleExt, clampBin]
    rw [hq, toInt_t_intCast]
  have kC : toInt_t (largeTriggers.GetBinContent sampleExt.kC) = 0 := by
    have hq : largeTriggers.GetBinContent sampleExt.kC = ((0 : Int) : ℚ) := by
      simp [TH1D.GetBinContent, largeTriggers, sampleExt, clampBin]
    rw [hq, toInt_t_intCast]
  have kE : toInt_t (largeTriggers.GetBinContent sampleExt.kE) = 100000000 := by
    have hq : largeTriggers.GetBinContent sampleExt.kE = ((100000000 : Int) : ℚ) := by
      simp [TH1D.GetBinContent, largeTriggers, sampleExt, clampBin]
    rw [hq, toInt_t_intCast]
  have kMB : toInt_t (largeTriggers.GetBinContent sampleExt.kMB) = 2000000000 := by
    have hq : largeTriggers.GetBinContent sampleExt.kMB = ((2000000000 : Int) : ℚ) := by
      simp [TH1D.GetBinContent, largeTriggers, sampleExt, clampBin]
    rw [hq, toInt_t_intCast]
  have hw : wrapInt_t (2000000000 - 0 - 0 + 2 * 100000000) = -2094967296 := by
    norm_num [wrapInt_t]
  have hrun : TerminateCounters sampleExt largeTask = TerminateHead.goesOn
      { largeTask with
        fSums := some largeSums, fOutput := some (newOutput largeTask.fName),
        fSum := some sampleSum, fSumMC := largeSums.FindTH2D (largeTask.fName ++ "MC"),
        fTriggers := some largeTriggers,
        messages := [Msg.warningGoodLE0 (-2094967296) 2000000000 0 0 100000000,
          Msg.infoCounts] }
      { sums := largeSums, sum := sampleSum, triggers := largeTriggers,
        output := newOutput largeTask.fName,
        nAll := toInt_t (largeTriggers.GetBinContent sampleExt.kAll),
        nB := 2000000000, nA := 0, nC := 0, nE := 100000000, nMB := 2000000000,
        nTriggered := 2000000000,
        nWithVertex := toInt_t (largeTriggers.GetBinContent sampleExt.kWithVertex),
        nAccepted := toInt_t (largeTriggers.GetBinContent sampleExt.kAccepted),
        nGood := 2000000000,
        vtxEff := FVal.div (FVal.mul (FVal.fdiv ((2000000000 : Int) : ℚ)
            ((2000000000 : Int) : ℚ))
          (FVal.fin (toInt_t (largeTriggers.GetBinContent sampleExt.kAccepted))))
          (FVal.fin ((2000000000 : Int) : ℚ)),
        vNorm := FVal.fdiv (toInt_t (largeTriggers.GetBinContent sampleExt.kAccepted))
          ((2000000000 : Int) : ℚ) } := by
    unfold TerminateCounters
    simp only [show largeTask.outputData1 = some largeSums from rfl, hfind, hsum, kT, kB, kA,
      kC, kE, kMB, wrapInt_t_sum, hw]
    rfl
  refine ⟨_, _, hrun, rfl, rfl, rfl, rfl, rfl, by decide, by decide, by decide, by decide,
    by decide, by decide, by norm_num, hw, rfl, by decide, rfl⟩

/-- C7. When `Terminate` gets past its guards, with `good` the good-event count after the
fall-back: if `good` is not zero the vertex efficiency is the rational
`(MB / triggered) * (accepted / good)` and the normalisation scalar is `accepted / good`,
and if `good` is zero neither is a finite number; for `B = 100`, `A = 10`, `C = 5`,
`E = 3`, `MB = 100`, `triggered = 100`, `accepted = 80` this gives `good = 91` and the
vertex efficiency `80/91`, which lies within `0.00005` of `0.8791`. -/
theorem C7_vertex_efficiency (E : Ext) (t t1 : Task) (l : TerminateLocals)
    (h : TerminateCounters E t = TerminateHead.goesOn t1 l) :
    (l.nGood ≠ 0 →
      l.vtxEff = FVal.fin (((l.nMB : ℚ) / l.nTriggered) * ((l.nAccepted : ℚ) / l.nGood)) ∧
      l.vNorm = FVal.fin ((l.nAccepted : ℚ) / l.nGood)) ∧
    (l.nGood = 0 → l.vtxEff.toRat? = none ∧ l.vNorm.toRat? = none) ∧
    (l.nB = 100 → l.nA = 10 → l.nC = 5 → l.nE = 3 → l.nMB = 100 → l.nTriggered = 100 →
      l.nAccepted = 80 →
      l.nGood = 91 ∧ l.vtxEff = FVal.fin (80 / 91) ∧ |(80 / 91 : ℚ) - 8791 / 10000| < 1 / 20000) := by
  obtain ⟨-, -, -, -, -, -, -, -, -, -, hpos, hgood, hvtx, hnorm, -⟩ :=
    TerminateCounters_goesOn_inv E t t1 l h
  have htq : (l.nTriggered : ℚ) ≠ 0 := by
    have : (0 : ℚ) < (l.nTriggered : ℚ) := by exact_mod_cast hpos
    exact ne_of_gt this
  have hfin : l.nGood ≠ 0 →
      l.vtxEff = FVal.fin (((l.nMB : ℚ) / l.nTriggered) * ((l.nAccepted : ℚ) / l.nGood)) ∧
      l.vNorm = FVal.fin ((l.nAccepted : ℚ) / l.nGood) := by
    intro hg
    have hgq : (l.nGood : ℚ) ≠ 0 := by exact_mod_cast hg
    rw [hvtx, hnorm]
    simp only [FVal.fdiv, htq, hgq, if_false, FVal.mul, FVal.div]
    refine ⟨?_, trivial⟩
    congr 1
    field_simp
  refine ⟨hfin, ?_, ?_⟩
  · intro hg
    have hgq : (l.nGood : ℚ) = 0 := by exact_mod_cast hg
    rw [hvtx, hnorm]
    simp only [FVal.fdiv, htq, hgq, if_false, if_true, FVal.mul, FVal.div]
    constructor
    · split_ifs <;> rfl
    · split_ifs <;> rfl
  · intro hB hA hC hE hMB hT hAcc
    have hg91 : l.nGood = 91 := by
      rw [hgood, hB, hA, hC, hE]
      norm_num [wrapInt_t]
    obtain ⟨hv, -⟩ := hfin (by rw [hg91]; decide)
    refine ⟨hg91, ?_, ?_⟩
    · rw [hv, hMB, hT, hAcc, hg91]
      norm_num
    · rw [abs_lt]
      constructor <;> norm_num

/-- C7 at the sample task, whose counters are those of the example: the good-event count
is `91` and the vertex efficiency is `80/91`. -/
theorem C7_vertex_efficiency_witness :
    ∃ t1 l, TerminateCounters sampleExt sampleTask = TerminateHead.goesOn t1 l ∧
      l.nGood = 91 ∧ l.vtxEff = FVal.fin (80 / 91) := by
  obtain ⟨t1, l, h, -⟩ := sampleTask_goesOn
  obtain ⟨hB, hA, hC, hE, hMB, hT, hAcc⟩ := sampleTask_counters t1 l h
  obtain ⟨hg, hv, -⟩ :=
    (C7_vertex_efficiency sampleExt sampleTask t1 l h).2.2 hB hA hC hE hMB hT hAcc
  exact ⟨t1, l, h, hg, hv⟩

/-- C8. If the sums list is missing, or it lacks the histogram `triggers` or the sum
histogram of the task, or the triggered counter is not positive, `Terminate` returns
normally after issuing one message, an error; it makes no `PostData` call and the objects
of the output list are what they were (none, when it has just made the list). -/
theorem C8_fatal_paths_export_nothing (E : Ext) (t : Task)
    (h : t.outputData1 = none ∨
      (∃ sums, t.outputData1 = some sums ∧ sums.FindTH1D "triggers" = none) ∨
      (∃ sums, t.outputData1 = some sums ∧ sums.FindTH2D t.fName = none) ∨
      (∃ sums triggers, t.outputData1 = some sums ∧
        sums.FindTH1D "triggers" = some triggers ∧
        toInt_t (triggers.GetBinContent E.kWithTrigger) ≤ 0)) :
    ∃ t1 m, Terminate E t = Except.ok t1 ∧ t1.messages = t.messages ++ [m] ∧
      m.isError = true ∧ t1.posted = t.posted ∧ outputObjects t1 = outputObjects t := by
  have hout : ∀ (o : Option TList),
      (match (some (match o with | some o => o | none => newOutput t.fName) : Option TList)
        with | some o => o.objs | none => []) =
      (match o with | some o => o.objs | none => []) := by
    intro o
    cases o <;> rfl
  unfold Terminate TerminateCounters
  rcases h with h | ⟨sums, h1, h2⟩ | ⟨sums, h1, h3⟩ | ⟨sums, triggers, h1, h2, h4⟩
  · simp only [h]
    exact ⟨_, Msg.errorNoSums, rfl, rfl, rfl, rfl, rfl⟩
  · simp only [h1, h2]
    exact ⟨_, Msg.errorNoTriggers, rfl, rfl, rfl, rfl, hout t.fOutput⟩
  · simp only [h1, h3]
    cases htr : sums.FindTH1D "triggers" with
    | none => exact ⟨_, Msg.errorNoTriggers, rfl, rfl, rfl, rfl, hout t.fOutput⟩
    | some triggers => exact ⟨_, Msg.errorNoBase, rfl, rfl, rfl, rfl, hout t.fOutput⟩
  · simp only [h1, h2]
    cases hs : sums.FindTH2D t.fName with
    | none => exact ⟨_, Msg.errorNoBase, rfl, rfl, rfl, rfl, hout t.fOutput⟩
    | some sum =>
      simp only [h4, if_true]
      exact ⟨_, Msg.errorTriggeredLE0, rfl, rfl, rfl, rfl, hout t.fOutput⟩

/-- C8 after a run without events: the triggered counter is zero; `Terminate` returns
with one error message, posts nothing and exports nothing. -/
theorem C8_fatal_paths_export_nothing_witness :
    ∃ t1 m, Terminate sampleExt emptyRunTask = Except.ok t1 ∧ t1.messages = [m] ∧
      m.isError = true ∧ t1.posted = [] ∧ outputObjects t1 = [] := by
  have hfind : emptyRunSums.FindTH1D "triggers" = some emptyTriggers := by
    simp [TList.FindTH1D, TList.FindObject, TObject.GetName, emptyTriggers, emptyRunSums]
  have hzero : toInt_t (emptyTriggers.GetBinContent sampleExt.kWithTrigger) ≤ 0 := by
    have : emptyTriggers.GetBinContent sampleExt.kWithTrigger = ((0 : Int) : ℚ) := by
      simp [TH1D.GetBinContent, emptyTriggers]
    rw [this, toInt_t_intCast]
  exact C8_fatal_paths_export_nothing sampleExt emptyRunTask
    (Or.inr (Or.inr (Or.inr ⟨emptyRunSums, emptyTriggers, rfl, hfind, hzero⟩)))

/-- The projection of the cells `[0, 1]`, made for the acceptance, is never null. -/
theorem ProjectX_norm_isSome (E : Ext) (h : TH2D) (name : String) (corr error : Bool) :
    ∃ ret, ProjectX E (some h) name 0 1 corr error = some ret := by
  have hl : clampLast h.fNbinsY 1 = 1 := by
    unfold clampLast
    rw [if_neg (by decide), if_neg (by omega)]
  have hf : clampFirst h.fNbinsY 0 = 0 := by
    unfold clampFirst
    rw [if_neg (by decide)]
    split
    · omega
    · rfl
  simp only [ProjectX, hl, hf]
  rw [if_neg (by decide)]
  exact ⟨_, rfl⟩

/-- The projection of the cells `[1, nY]` of a histogram with `nY` bins in y, made for the
yield, is never null. -/
theorem ProjectX_yield_isSome (E : Ext) (h : TH2D) (name : String) (corr error : Bool) :
    ∃ ret, ProjectX E (some h) name 1 (h.fNbinsY : Int) corr error = some ret := by
  have hl : clampLast h.fNbinsY (h.fNbinsY : Int) = (h.fNbinsY : Int) := by
    unfold clampLast
    rw [if_neg (by omega), if_neg (by omega)]
  have hf : clampFirst h.fNbinsY 1 ≤ (h.fNbinsY : Int) := by
    unfold clampFirst
    rw [if_neg (by decide)]
    split
    · exact le_refl _
    · omega
  simp only [ProjectX, hl]
  rw [if_neg (by omega)]
  exact ⟨_, rfl⟩

/-- With no accepted event the scale factor `1. / nAccepted` of the acceptance profile is
not finite. -/
theorem terminateYield_zero_accepted (E : Ext) (t : Task) (l : TerminateLocals)
    (h0 : l.nAccepted = 0) :
    terminateYield E t l l.sum "" "" false = Except.error Fault.nonFinite := by
  obtain ⟨norm, hnorm⟩ := ProjectX_norm_isSome E l.sum ("norm" ++ t.fName ++ "") t.fCorrEmpty
    false
  obtain ⟨dndeta, hdndeta⟩ := ProjectX_yield_isSome E l.sum ("dndeta" ++ t.fName ++ "")
    t.fCorrEmpty E.projectXError
  have hs : ∀ n : TH1D, n.ScaleF E (FVal.fdiv 1 ((0 : Int) : ℚ)) false = none := by
    intro n
    simp [TH1D.ScaleF, FVal.fdiv, FVal.toRat?]
  unfold terminateYield
  simp only [hnorm, hdndeta, h0, hs]
  split <;> simp_all

/-- C9 fails on the code. After a run of one event that fired the triggers but had no
vertex the counters are `triggered = 1`, `B = 1`, `MB = 1`, `accepted = 0`: `Terminate`
gets past its guards with the good-event count `1`, and the divisor `nAccepted` of
`norm->Scale (1. / nAccepted)` is zero, so that the scale factor is `+∞` and the run of
the model ends with the acceptance profile receiving non-finite numbers. -/
theorem C9_zero_accepted_divisor :
    ∃ t1 l, TerminateCounters sampleExt noVertexTask = TerminateHead.goesOn t1 l ∧
      0 < l.nTriggered ∧ l.nGood = 1 ∧ l.nAccepted = 0 ∧
      FVal.fdiv 1 (l.nAccepted : ℚ) = FVal.posInf ∧
      Terminate sampleExt noVertexTask = Except.error Fault.nonFinite := by
  have hfind : noVertexSums.FindTH1D "triggers" = some noVertexTriggers := by
    simp [TList.FindTH1D, TList.FindObject, TObject.GetName, noVertexTriggers, noVertexSums]
  have hsum : noVertexSums.FindTH2D noVertexTask.fName = some sampleSum := by
    simp [TList.FindTH2D, TList.FindObject, TObject.GetName, noVertexTriggers, noVertexSums,
      noVertexTask, sampleTask, sampleSum]
  have kT : toInt_t (noVertexTriggers.GetBinContent sampleExt.kWithTrigger) = 1 := by
    have hq : noVertexTriggers.GetBinContent sampleExt.kWithTrigger = ((1 : Int) : ℚ) := by
      simp [TH1D.GetBinContent, noVertexTriggers, sampleExt, clampBin]
    rw [hq, toInt_t_intCast]
  have kB : toInt_t (noVertexTriggers.GetBinContent sampleExt.kB) = 1 := by
    have hq : noVertexTriggers.GetBinContent sampleExt.kB = ((1 : Int) : ℚ) := by
      simp [TH1D.GetBinContent, noVertexTriggers, sampleExt, clampBin]
    rw [hq, toInt_t_intCast]
  have kA : toInt_t (noVertexTriggers.GetBinContent sampleExt.kA) = 0 := by
    have hq : noVertexTriggers.GetBinContent sampleExt.kA = ((0 : Int) : ℚ) := by
      simp [TH1D.GetBinContent, noVertexTriggers, sampleExt, clampBin]
    rw [hq, toInt_t_intCast]
  have kC : toInt_t (noVertexTriggers.GetBinContent sampleExt.kC) = 0 := by
    have hq : noVertexTriggers.GetBinContent sampleExt.kC = ((0 : Int) : ℚ) := by
      simp [TH1D.GetBinContent, noVertexTriggers, sampleExt, clampBin]
    rw [hq, toInt_t_intCast]
  have kE : toInt_t (noVertexTriggers.GetBinContent sampleExt.kE) = 0 := by
    have hq : noVertexTriggers.GetBinContent sampleExt.kE = ((0 : Int) : ℚ) := by
      simp [TH1D.GetBinContent, noVertexTriggers, sampleExt, clampBin]
    rw [hq, toInt_t_intCast]
  have kAcc : toInt_t (noVertexTriggers.GetBinContent sampleExt.kAccepted) = 0 := by
    have hq : noVertexTriggers.GetBinContent sampleExt.kAccepted = ((0 : Int) : ℚ) := by
      simp [TH1D.GetBinContent, noVertexTriggers, sampleExt, clampBin]
    rw [hq, toInt_t_intCast]
  have htrig : 0 < toInt_t (noVertexTriggers.GetBinContent sampleExt.kWithTrigger) := by
    rw [kT]
    decide
  obtain ⟨t1, l, h, hl, -, -⟩ := TerminateCounters_goesOn sampleExt noVertexTask noVertexSums
    noVertexTriggers sampleSum rfl hfind hsum htrig
  obtain ⟨-, -, -, hB, hA, hC, hE, -, -, hAcc, hpos, hgood, -⟩ :=
    TerminateCounters_goesOn_inv sampleExt noVertexTask t1 l h
  rw [hl] at hB hA hC hE hAcc
  have hB1 : l.nB = 1 := hB.trans kB
  have hA0 : l.nA = 0 := hA.trans kA
  have hC0 : l.nC = 0 := hC.trans kC
  have hE0 : l.nE = 0 := hE.trans kE
  have hAcc0 : l.nAccepted = 0 := hAcc.trans kAcc
  refine ⟨t1, l, h, hpos, ?_, hAcc0, ?_, ?_⟩
  · rw [hgood, hB1, hA0, hC0, hE0]
    norm_num [wrapInt_t]
  · rw [hAcc0]
    simp [FVal.fdiv]
  · simp only [Terminate, h, TerminateOutputs,
      terminateYield_zero_accepted sampleExt t1 l hAcc0]

/-- The loop over y bins sums the contents of the contributing cells and counts them. -/
theorem foldl_projectCell (E : Ext) (h : TH2D) (error : Bool) (xbin : Int) :
    ∀ (ys : List Int) (acc : ProjAcc),
      (ys.foldl (projectCell E h error xbin) acc).content =
        acc.content + ((ys.filter (contributes E h error xbin)).map
          (h.GetCellContent xbin)).sum ∧
      (ys.foldl (projectCell E h error xbin) acc).nbins =
        acc.nbins + ((ys.filter (contributes E h error xbin)).length : Int)
  | [], acc => by simp
  | y :: ys, acc => by
    have ih := foldl_projectCell E h error xbin ys (projectCell E h error xbin acc y)
    rw [List.foldl_cons, ih.1, ih.2]
    by_cases hc : h.GetCellContent xbin y < tiny
    · have hp : contributes E h error xbin y = false := by simp [contributes, hc]
      have ha : projectCell E h error xbin acc y = acc := by simp [projectCell, hc]
      simp [List.filter_cons, hp, ha]
    · by_cases he : h.GetCellError E xbin y < tiny ∧ error = true
      · have hp : contributes E h error xbin y = false := by
          simp [contributes, hc, he.1, he.2]
        have ha : projectCell E h error xbin acc y = acc := by
          simp [projectCell, hc, he.1, he.2]
        simp [List.filter_cons, hp, ha]
      · have hp : contributes E h error xbin y = true := by
          simp only [contributes, hc, decide_False, Bool.not_false, Bool.true_and,
            Bool.not_eq_true', Bool.and_eq_false_iff, decide_eq_false_iff_not]
          by_cases h1 : h.GetCellError E xbin y < tiny
          · right
            cases error
            · rfl
            · exact absurd ⟨h1, rfl⟩ he
          · left
            exact h1
        have ha1 : (projectCell E h error xbin acc y).content =
            acc.content + h.GetCellContent xbin y := by
          simp [projectCell, hc, he]
        have ha2 : (projectCell E h error xbin acc y).nbins = acc.nbins + 1 := by
          simp [projectCell, hc, he]
        rw [ha1, ha2]
        simp only [List.filter_cons, hp, if_true, List.map_cons, List.sum_cons,
          List.length_cons, Nat.cast_add, Nat.cast_one]
        constructor
        · ring
        · ring

/-- The running values of `ProjectX` for one x bin. -/
theorem projectColumn_eq (E : Ext) (h : TH2D) (error : Bool) (first last xbin : Int) :
    (projectColumn E h error first last xbin).content =
      ((contributingCells E h error first last xbin).map (h.GetCellContent xbin)).sum ∧
    (projectColumn E h error first last xbin).nbins =
      ((contributingCells E h error first last xbin).length : Int) := by
  have hf := foldl_projectCell E h error xbin (intRange first last)
    { content := 0, error2 := 0, nbins := 0 }
  simp only [zero_add] at hf
  exact hf

/-- A contributing cell has positive content. -/
theorem contributes_pos (E : Ext) (h : TH2D) (error : Bool) (xbin y : Int)
    (hy : contributes E h error xbin y = true) : 0 < h.GetCellContent xbin y := by
  simp only [contributes, Bool.and_eq_true, Bool.not_eq_true', decide_eq_false_iff_not,
    not_lt] at hy
  have ht : (0 : ℚ) < tiny := by norm_num [tiny]
  exact lt_of_lt_of_le ht hy.1

/-- The sum over a list of contributing cells is positive unless the list is empty. -/
theorem sum_contributing_pos (E : Ext) (h : TH2D) (error : Bool) (xbin : Int) :
    ∀ ys : List Int, (∀ y ∈ ys, contributes E h error xbin y = true) → ys ≠ [] →
      0 < (ys.map (h.GetCellContent xbin)).sum
  | [], _, hne => absurd rfl hne
  | y :: ys, hall, _ => by
    have hy := contributes_pos E h error xbin y (hall y (List.mem_cons_self _ _))
    rw [List.map_cons, List.sum_cons]
    by_cases hys : ys = []
    · subst hys
      simpa using hy
    · have := sum_contributing_pos E h error xbin ys
        (fun z hz => hall z (List.mem_cons_of_mem _ hz)) hys
      linarith

/-- The content that `ProjectX` gives to an x bin with contributing cells. -/
theorem projectXBin_value (E : Ext) (h : TH2D) (corr error : Bool) (first last : Int)
    (ret : TH1D) (x : Int) (hx0 : 0 ≤ x) (hx1 : x < (ret.fNbins : Int) + 2) :
    (projectXBin E h corr error first last ret x).fNbins = ret.fNbins ∧
    ∀ b, (projectXBin E h corr error first last ret x).fArray b =
      if b = x ∧ (contributingCells E h error first last x) ≠ [] then
        (if corr then
          ((last - first + 1 : Int) : ℚ) /
            ((contributingCells E h error first last x).length : ℚ)
         else 1) *
        ((contributingCells E h error first last x).map (h.GetCellContent x)).sum
      else ret.fArray b := by
  obtain ⟨hc, hn⟩ := projectColumn_eq E h error first last x
  have hrange : ¬ (x < 0 ∨ x ≥ (ret.fNbins : Int) + 2) := by omega
  by_cases hne : contributingCells E h error first last x = []
  · have hcond : ¬ ((projectColumn E h error first last x).content > 0 ∧
        (projectColumn E h error first last x).nbins > 0) := by
      rw [hn, hne]
      simp
    constructor
    · simp [projectXBin, hcond]
    · intro b
      simp [projectXBin, hcond, hne]
  · have hpos : (projectColumn E h error first last x).content > 0 := by
      rw [hc]
      exact sum_contributing_pos E h error x _
        (fun y hy => (List.mem_filter.mp hy).2) hne
    have hnpos : (projectColumn E h error first last x).nbins > 0 := by
      rw [hn]
      have : 0 < (contributingCells E h error first last x).length :=
        List.length_pos.mpr hne
      exact_mod_cast this
    simp only [projectXBin, hpos, hnpos, and_self, if_true, hne, ne_eq, not_false_eq_true,
      and_true]
    cases error
    · simp only [Bool.false_eq_true, if_false, TH1D.SetBinContent, hrange]
      refine ⟨trivial, fun b => ?_⟩
      by_cases hb : b = x
      · subst hb
        simp [Function.update, hc, hn]
      · simp [Function.update, hb]
    · simp only [if_true, TH1D.SetBinContent, TH1D.SetBinError, hrange, if_false]
      refine ⟨by cases ret.fSumw2 <;> rfl, fun b => ?_⟩
      have hsw : ∀ r : TH1D, r.Sumw2.fArray = r.fArray := by
        intro r
        unfold TH1D.Sumw2
        cases r.fSumw2 <;> rfl
      have hsn : ∀ r : TH1D, r.Sumw2.fNbins = r.fNbins := by
        intro r
        unfold TH1D.Sumw2
        cases r.fSumw2 <;> rfl
      simp only [hsw]
      by_cases hb : b = x
      · subst hb
        simp [Function.update, hc, hn, mul_comm]
      · simp [Function.update, hb]

/-- The contents after the loop of `ProjectX` over a list of x bins. -/
theorem foldl_projectXBin (E : Ext) (h : TH2D) (corr error : Bool) (first last : Int) :
    ∀ (xs : List Int) (ret : TH1D),
      (∀ x ∈ xs, 0 ≤ x ∧ x < (ret.fNbins : Int) + 2) →
      (xs.foldl (projectXBin E h corr error first last) ret).fNbins = ret.fNbins ∧
      ∀ b, (xs.foldl (projectXBin E h corr error first last) ret).fArray b =
        if b ∈ xs ∧ (contributingCells E h error first last b) ≠ [] then
          (if corr then
            ((last - first + 1 : Int) : ℚ) /
              ((contributingCells E h error first last b).length : ℚ)
           else 1) *
          ((contributingCells E h error first last b).map (h.GetCellContent b)).sum
        else ret.fArray b
  | [], ret, _ => by simp
  | x :: xs, ret, hxs => by
    obtain ⟨hx0, hx1⟩ := hxs x (List.mem_cons_self _ _)
    obtain ⟨hn1, ha1⟩ := projectXBin_value E h corr error first last ret x hx0 hx1
    have ih := foldl_projectXBin E h corr error first last xs
      (projectXBin E h corr error first last ret x)
      (fun z hz => by
        rw [hn1]
        exact hxs z (List.mem_cons_of_mem _ hz))
    rw [List.foldl_cons]
    refine ⟨ih.1.trans hn1, fun b => ?_⟩
    rw [ih.2 b, ha1 b]
    by_cases hbx : b = x
    · subst hbx
      by_cases hne : contributingCells E h error first last b = []
      · simp [hne]
      · simp [hne]
    · by_cases hne : contributingCells E h error first last b = []
      · simp [hne, hbx]
      · by_cases hbxs : b ∈ xs
        · simp [hne, hbxs]
        · simp [hne, hbx, hbxs]

/-- Membership in `intRange`. -/
theorem mem_intRange (lo hi b : Int) : b ∈ intRange lo hi ↔ lo ≤ b ∧ b ≤ hi := by
  unfold intRange
  simp only [List.mem_map, List.mem_range]
  constructor
  · rintro ⟨k, hk, rfl⟩
    omega
  · rintro ⟨h1, h2⟩
    exact ⟨(b - lo).toNat, by omega, by omega⟩

/-- What `ProjectX` returns: null exactly when the clamped range is empty, and otherwise a
histogram whose bin `xbin` holds the scaled sum of the contributing cells of column
`xbin`. -/
theorem ProjectX_content (E : Ext) (h : TH2D) (name : String) (firstbin lastbin : Int)
    (corr error : Bool) (ret : TH1D)
    (hret : ProjectX E (some h) name firstbin lastbin corr error = some ret)
    (xbin : Int) (hx0 : 0 ≤ xbin) (hx1 : xbin ≤ (h.fNbinsX : Int) + 1) :
    ret.GetBinContent xbin =
      if contributingCells E h error (clampFirst h.fNbinsY firstbin)
          (clampLast h.fNbinsY lastbin) xbin = [] then 0
      else
        (if corr then
          ((clampLast h.fNbinsY lastbin - clampFirst h.fNbinsY firstbin + 1 : Int) : ℚ) /
            ((contributingCells E h error (clampFirst h.fNbinsY firstbin)
              (clampLast h.fNbinsY lastbin) xbin).length : ℚ)
         else 1) *
        ((contributingCells E h error (clampFirst h.fNbinsY firstbin)
          (clampLast h.fNbinsY lastbin) xbin).map (h.GetCellContent xbin)).sum := by
  simp only [ProjectX] at hret
  split at hret
  · exact absurd hret (by simp)
  · injection hret with hret
    have hnb : (h.fNbinsX : Int) ≤
        ((TH1D.new name h.fTitle h.fNbinsX h.fXmin h.fXmax).fNbins : Int) := by
      simp only [TH1D.new]
      split <;> omega
    obtain ⟨hn, ha⟩ := foldl_projectXBin E h corr error (clampFirst h.fNbinsY firstbin)
      (clampLast h.fNbinsY lastbin) (intRange 0 ((h.fNbinsX : Int) + 1))
      (TH1D.new name h.fTitle h.fNbinsX h.fXmin h.fXmax)
      (fun x hx => by
        rw [mem_intRange] at hx
        omega)
    rw [hret] at hn ha
    have hclamp : clampBin ret.fNbins xbin = xbin := by
      unfold clampBin
      rw [hn]
      rw [if_neg (by omega), if_neg (by omega)]
    rw [TH1D.GetBinContent, hclamp, ha xbin]
    have hmem : xbin ∈ intRange 0 ((h.fNbinsX : Int) + 1) :=
      (mem_intRange _ _ _).mpr ⟨hx0, hx1⟩
    by_cases hne : contributingCells E h error (clampFirst h.fNbinsY firstbin)
        (clampLast h.fNbinsY lastbin) xbin = []
    · simp [hne, TH1D.new]
    · simp [hne, hmem]

/-- When every cell with non-zero content contributes, the contributing cells are the
non-zero cells and their sum is the sum of all cells. -/
theorem contributing_eq_nonzero (E : Ext) (h : TH2D) (error : Bool) (xbin : Int) :
    ∀ ys : List Int,
      (∀ y ∈ ys, h.GetCellContent xbin y ≠ 0 → contributes E h error xbin y = true) →
      (((ys.filter (contributes E h error xbin)).map (h.GetCellContent xbin)).sum =
          (ys.map (h.GetCellContent xbin)).sum) ∧
      (ys.filter (contributes E h error xbin)).length =
          (ys.filter (fun y => decide (h.GetCellContent xbin y ≠ 0))).length
  | [], _ => by simp
  | y :: ys, hall => by
    have ih := contributing_eq_nonzero E h error xbin ys
      (fun z hz => hall z (List.mem_cons_of_mem _ hz))
    by_cases hz : h.GetCellContent xbin y = 0
    · have hp : contributes E h error xbin y = false := by
        have ht : (0 : ℚ) < tiny := by norm_num [tiny]
        simp [contributes, hz, ht]
      simp [List.filter_cons, hp, hz, ih.1, ih.2]
    · have hp := hall y (List.mem_cons_self _ _) hz
      simp [List.filter_cons, hp, hz, ih.1, ih.2]

/-- C10, as stated, fails when a cell of the range has negative content, and in the
error-respecting mode when a cell has zero error.  For the column with cells `3` and `-1`,
projected over both y bins with the empty-bin correction, the sum of the cells is `2`,
both are non-zero, and the claim gives `2 * (2 / 2) = 2`, while `ProjectX` skips the
negative cell and sets the content to `3 * (2 / 1) = 6`.  For the column with cells `3`
and `5`, the latter with zero error, the claim gives `8 * (2 / 2) = 8`, while the
error-respecting `ProjectX` skips the cell without error and sets `3 * (2 / 1) = 6`. -/
theorem C10_negative_cell_counterexample :
    (∃ ret, ProjectX sampleExt (some signedSum) "projection" 1 2 true false = some ret ∧
      ret.GetBinContent 1 = 6 ∧
      columnSum signedSum 1 2 1 *
        (((2 - 1 + 1 : Int) : ℚ) / (columnNonzero signedSum 1 2 1 : ℚ)) = 2) ∧
    (∃ ret, ProjectX sampleExt (some zeroErrorSum) "projection" 1 2 true true = some ret ∧
      ret.GetBinContent 1 = 6 ∧
      columnSum zeroErrorSum 1 2 1 *
        (((2 - 1 + 1 : Int) : ℚ) / (columnNonzero zeroErrorSum 1 2 1 : ℚ)) = 8) := by
  have hr : intRange 1 2 = [1, 2] := by decide
  constructor
  · have hf : clampFirst signedSum.fNbinsY 1 = 1 := by decide
    have hl : clampLast signedSum.fNbinsY 2 = 2 := by decide
    have hc1 : signedSum.GetCellContent 1 1 = 3 := by
      simp [TH2D.GetCellContent, signedSum, clampBin]
    have hc2 : signedSum.GetCellContent 1 2 = -1 := by
      simp [TH2D.GetCellContent, signedSum, clampBin]
    have hcells : contributingCells sampleExt signedSum false 1 2 1 = [1] := by
      simp [contributingCells, hr, List.filter_cons, contributes, hc1, hc2, tiny]
      norm_num
    obtain ⟨ret, hret⟩ : ∃ ret,
        ProjectX sampleExt (some signedSum) "projection" 1 2 true false = some ret := by
      simp only [ProjectX, hf, hl]
      rw [if_neg (by decide)]
      exact ⟨_, rfl⟩
    refine ⟨ret, hret, ?_, ?_⟩
    · rw [ProjectX_content sampleExt signedSum "projection" 1 2 true false ret hret 1
        (by decide) (by decide), hf, hl, hcells]
      simp [hc1]
      norm_num
    · simp [columnSum, columnNonzero, hr, hc1, hc2, List.filter_cons]
      norm_num
  · have hf : clampFirst zeroErrorSum.fNbinsY 1 = 1 := by decide
    have hl : clampLast zeroErrorSum.fNbinsY 2 = 2 := by decide
    have hc1 : zeroErrorSum.GetCellContent 1 1 = 3 := by
      simp [TH2D.GetCellContent, zeroErrorSum, clampBin]
    have hc2 : zeroErrorSum.GetCellContent 1 2 = 5 := by
      simp [TH2D.GetCellContent, zeroErrorSum, clampBin]
    have he1 : zeroErrorSum.GetCellError sampleExt 1 1 = 1 := by
      simp [TH2D.GetCellError, zeroErrorSum, sampleExt, clampBin]
    have he2 : zeroErrorSum.GetCellError sampleExt 1 2 = 0 := by
      simp [TH2D.GetCellError, zeroErrorSum, sampleExt, clampBin]
    have hcells : contributingCells sampleExt zeroErrorSum true 1 2 1 = [1] := by
      simp [contributingCells, hr, List.filter_cons, contributes, hc1, hc2, he1, he2, tiny]
      norm_num
    obtain ⟨ret, hret⟩ : ∃ ret,
        ProjectX sampleExt (some zeroErrorSum) "projection" 1 2 true true = some ret := by
      simp only [ProjectX, hf, hl]
      rw [if_neg (by decide)]
      exact ⟨_, rfl⟩
    refine ⟨ret, hret, ?_, ?_⟩
    · rw [ProjectX_content sampleExt zeroErrorSum "projection" 1 2 true true ret hret 1
        (by decide) (by decide), hf, hl, hcells]
      simp [hc1]
      norm_num
    · simp [columnSum, columnNonzero, hr, hc1, hc2, List.filter_cons]
      norm_num

/-- C10, amended. For every x bin, underflow and overflow included, of a histogram that
`ProjectX` returns, with `first` and `last` the clamped y range, `S` the sum of the
contents of the contributing cells of that x bin over `[first, last]` (a cell contributes
when its content is at least `1e-12` and, in the error-respecting mode, its error is at
least `1e-12`) and `n` their number: the content is `S * ((last - first + 1) / n)` with the
empty-bin correction and `S` without it, and it stays `0` when no cell contributes.  When
every cell of the range with non-zero content contributes, `S` is the sum of all cells of
the range and `n` the number of cells with non-zero content. -/
theorem C10_projection_content (E : Ext) (h : TH2D) (name : String) (firstbin lastbin : Int)
    (corr error : Bool) (ret : TH1D)
    (hret : ProjectX E (some h) name firstbin lastbin corr error = some ret)
    (xbin : Int) (hx0 : 0 ≤ xbin) (hx1 : xbin ≤ (h.fNbinsX : Int) + 1) :
    (contributingCells E h error (clampFirst h.fNbinsY firstbin)
        (clampLast h.fNbinsY lastbin) xbin ≠ [] → corr = true →
      ret.GetBinContent xbin =
        ((contributingCells E h error (clampFirst h.fNbinsY firstbin)
          (clampLast h.fNbinsY lastbin) xbin).map (h.GetCellContent xbin)).sum *
        (((clampLast h.fNbinsY lastbin - clampFirst h.fNbinsY firstbin + 1 : Int) : ℚ) /
          ((contributingCells E h error (clampFirst h.fNbinsY firstbin)
            (clampLast h.fNbinsY lastbin) xbin).length : ℚ))) ∧
    (contributingCells E h error (clampFirst h.fNbinsY firstbin)
        (clampLast h.fNbinsY lastbin) xbin ≠ [] → corr = false →
      ret.GetBinContent xbin =
        ((contributingCells E h error (clampFirst h.fNbinsY firstbin)
          (clampLast h.fNbinsY lastbin) xbin).map (h.GetCellContent xbin)).sum) ∧
    (contributingCells E h error (clampFirst h.fNbinsY firstbin)
        (clampLast h.fNbinsY lastbin) xbin = [] → ret.GetBinContent xbin = 0) ∧
    ((∀ y ∈ intRange (clampFirst h.fNbinsY firstbin) (clampLast h.fNbinsY lastbin),
        h.GetCellContent xbin y ≠ 0 → contributes E h error xbin y = true) →
      ((contributingCells E h error (clampFirst h.fNbinsY firstbin)
          (clampLast h.fNbinsY lastbin) xbin).map (h.GetCellContent xbin)).sum =
        columnSum h (clampFirst h.fNbinsY firstbin) (clampLast h.fNbinsY lastbin) xbin ∧
      (contributingCells E h error (clampFirst h.fNbinsY firstbin)
          (clampLast h.fNbinsY lastbin) xbin).length =
        columnNonzero h (clampFirst h.fNbinsY firstbin) (clampLast h.fNbinsY lastbin) xbin) := by
  have hmain := ProjectX_content E h name firstbin lastbin corr error ret hret xbin hx0 hx1
  refine ⟨?_, ?_, ?_, ?_⟩
  · intro hne hcorr
    rw [hmain, if_neg hne, hcorr, if_pos rfl, mul_comm]
  · intro hne hcorr
    rw [hmain, if_neg hne, hcorr]
    simp
  · intro hnil
    rw [hmain, if_pos hnil]
  · intro hall
    exact contributing_eq_nonzero E h error xbin _ hall

/-- C10, amended, at the sample sum histogram: the yield projection over the y bins
`[1, 2]` finds the cells `4` and `0` in x bin `1`; one cell contributes and the content is
`4 * (2 / 1) = 8`. -/
theorem C10_projection_content_witness :
    ∃ ret, ProjectX sampleExt (some sampleSum) "dndetaForward" 1 2 true true = some ret ∧
      contributingCells sampleExt sampleSum true 1 2 1 = [1] ∧
      ret.GetBinContent 1 = 8 := by
  have hr : intRange 1 2 = [1, 2] := by decide
  have hf : clampFirst sampleSum.fNbinsY 1 = 1 := by decide
  have hl : clampLast sampleSum.fNbinsY 2 = 2 := by decide
  have hc1 : sampleSum.GetCellContent 1 1 = 4 := by
    simp [TH2D.GetCellContent, sampleSum, clampBin]
  have hc2 : sampleSum.GetCellContent 1 2 = 0 := by
    simp [TH2D.GetCellContent, sampleSum, clampBin]
  have he1 : sampleSum.GetCellError sampleExt 1 1 = 1 := by
    simp [TH2D.GetCellError, sampleSum, sampleExt]
  have hcells : contributingCells sampleExt sampleSum true 1 2 1 = [1] := by
    simp [contributingCells, hr, List.filter_cons, contributes, hc1, hc2, he1, tiny]
    norm_num
  obtain ⟨ret, hret⟩ : ∃ ret,
      ProjectX sampleExt (some sampleSum) "dndetaForward" 1 2 true true = some ret := by
    simp only [ProjectX, hf, hl]
    rw [if_neg (by decide)]
    exact ⟨_, rfl⟩
  have hne : contributingCells sampleExt sampleSum true (clampFirst sampleSum.fNbinsY 1)
      (clampLast sampleSum.fNbinsY 2) 1 ≠ [] := by
    rw [hf, hl, hcells]
    simp
  have h8 := (C10_projection_content sampleExt sampleSum "dndetaForward" 1 2 true true ret
    hret 1 (by decide) (by decide)).1 hne rfl
  rw [hf, hl, hcells] at h8
  refine ⟨ret, hret, hcells, ?_⟩
  rw [h8]
  simp [hc1]
  norm_num

end BasedNdeta

namespace BasedNdeta

/-- What `Sumw2` keeps. -/
theorem Sumw2_keeps (r : TH1D) :
    r.Sumw2.fNbins = r.fNbins ∧ r.Sumw2.fXmin = r.fXmin ∧ r.Sumw2.fXmax = r.fXmax ∧
      r.Sumw2.fArray = r.fArray ∧ r.Sumw2.fName = r.fName ∧ r.Sumw2.fTitle = r.fTitle := by
  unfold TH1D.Sumw2
  split <;> exact ⟨rfl, rfl, rfl, rfl, rfl, rfl⟩

/-- What `SetBinContent` keeps. -/
theorem SetBinContent_keeps (r : TH1D) (b : Int) (c : ℚ) :
    (r.SetBinContent b c).fNbins = r.fNbins ∧ (r.SetBinContent b c).fXmin = r.fXmin ∧
      (r.SetBinContent b c).fXmax = r.fXmax ∧ (r.SetBinContent b c).fSumw2 = r.fSumw2 ∧
      (r.SetBinContent b c).fName = r.fName ∧ (r.SetBinContent b c).fTitle = r.fTitle := by
  unfold TH1D.SetBinContent
  split <;> exact ⟨rfl, rfl, rfl, rfl, rfl, rfl⟩

/-- What `SetBinError` keeps. -/
theorem SetBinError_keeps (r : TH1D) (b : Int) (e : ℚ) :
    (r.SetBinError b e).fNbins = r.fNbins ∧ (r.SetBinError b e).fXmin = r.fXmin ∧
      (r.SetBinError b e).fXmax = r.fXmax ∧ (r.SetBinError b e).fArray = r.fArray ∧
      (r.SetBinError b e).fName = r.fName ∧ (r.SetBinError b e).fTitle = r.fTitle := by
  unfold TH1D.SetBinError
  simp only []
  split
  · exact Sumw2_keeps r
  · exact Sumw2_keeps r

/-- The bin error is the root of the squared error that the histogram keeps. -/
theorem GetBinError_eq_sumw2At (E : Ext) (r : TH1D) (b : Int) :
    TH1D.GetBinError E r b = E.Sqrt (r.sumw2At (clampBin r.fNbins b)) := by
  unfold TH1D.GetBinError TH1D.sumw2At
  cases r.fSumw2 <;> rfl

/-- The loop over y bins adds the squared errors of the contributing cells. -/
theorem foldl_projectCell_error2 (E : Ext) (h : TH2D) (error : Bool) (xbin : Int) :
    ∀ (ys : List Int) (acc : ProjAcc),
      (ys.foldl (projectCell E h error xbin) acc).error2 =
        acc.error2 + ((ys.filter (contributes E h error xbin)).map
          (fun y => summedError E h xbin y * summedError E h xbin y)).sum
  | [], acc => by simp
  | y :: ys, acc => by
    have ih := foldl_projectCell_error2 E h error xbin ys (projectCell E h error xbin acc y)
    rw [List.foldl_cons, ih]
    by_cases hc : h.GetCellContent xbin y < tiny
    · have hp : contributes E h error xbin y = false := by simp [contributes, hc]
      have ha : projectCell E h error xbin acc y = acc := by simp [projectCell, hc]
      simp [List.filter_cons, hp, ha]
    · by_cases he : h.GetCellError E xbin y < tiny ∧ error = true
      · have hp : contributes E h error xbin y = false := by
          simp [contributes, hc, he.1, he.2]
        have ha : projectCell E h error xbin acc y = acc := by
          simp [projectCell, hc, he.1, he.2]
        simp [List.filter_cons, hp, ha]
      · have hp : contributes E h error xbin y = true := by
          simp only [contributes, hc, decide_False, Bool.not_false, Bool.true_and,
            Bool.not_eq_true', Bool.and_eq_false_iff, decide_eq_false_iff_not]
          by_cases h1 : h.GetCellError E xbin y < tiny
          · right
            cases error
            · rfl
            · exact absurd ⟨h1, rfl⟩ he
          · left
            exact h1
        have ha1 : (projectCell E h error xbin acc y).error2 =
            acc.error2 + summedError E h xbin y * summedError E h xbin y := by
          simp [projectCell, hc, he, summedError]
        rw [ha1]
        simp only [List.filter_cons, hp, if_true, List.map_cons, List.sum_cons]
        ring

/-- In the error-respecting mode every summed cell enters with its own error. -/
theorem summedError_of_contributes (E : Ext) (h : TH2D) (xbin y : Int)
    (hy : contributes E h true xbin y = true) :
    summedError E h xbin y = h.GetCellError E xbin y := by
  simp only [contributes, Bool.and_eq_true, Bool.not_eq_true', decide_eq_false_iff_not,
    Bool.and_true] at hy
  simp [summedError, hy.2]

/-- The running squared error of `ProjectX` for one x bin in the error-respecting mode. -/
theorem projectColumn_error2 (E : Ext) (h : TH2D) (first last xbin : Int) :
    (projectColumn E h true first last xbin).error2 =
      columnError2 E h true first last xbin := by
  have hf := foldl_projectCell_error2 E h true xbin (intRange first last)
    { content := 0, error2 := 0, nbins := 0 }
  simp only [zero_add] at hf
  unfold projectColumn columnError2 contributingCells
  rw [hf]
  congr 1
  apply List.map_congr_left
  intro y hy
  rw [summedError_of_contributes E h xbin y (List.mem_filter.mp hy).2]

/-- What `ProjectX` stores as the squared error of an x bin in the error-respecting mode. -/
theorem projectXBin_sumw2 (E : Ext) (h : TH2D) (corr : Bool) (first last : Int)
    (ret : TH1D) (x : Int) (hx0 : 0 ≤ x) (hx1 : x < (ret.fNbins : Int) + 2) :
    (contributingCells E h true first last x ≠ [] →
      (projectXBin E h corr true first last ret x).fSumw2.isSome = true) ∧
    (ret.fSumw2.isSome = true →
      (projectXBin E h corr true first last ret x).fSumw2.isSome = true) ∧
    ∀ b, (projectXBin E h corr true first last ret x).sumw2At b =
      if b = x ∧ (contributingCells E h true first last x) ≠ [] then
        (columnFactor E h corr true first last x *
            E.Sqrt (columnError2 E h true first last x)) *
          (columnFactor E h corr true first last x *
            E.Sqrt (columnError2 E h true first last x))
      else ret.sumw2At b := by
  obtain ⟨hc, hn⟩ := projectColumn_eq E h true first last x
  have he2 := projectColumn_error2 E h first last x
  have hrange : ¬ (x < 0 ∨ x ≥ (ret.fNbins : Int) + 2) := by omega
  by_cases hne : contributingCells E h true first last x = []
  · have hcond : ¬ ((projectColumn E h true first last x).content > 0 ∧
        (projectColumn E h true first last x).nbins > 0) := by
      rw [hn, hne]
      simp
    have hsame : projectXBin E h corr true first last ret x = ret := by
      simp [projectXBin, hcond]
    rw [hsame]
    exact ⟨fun hh => absurd hne hh, fun hh => hh, fun b => by simp [hne]⟩
  · have hpos : (projectColumn E h true first last x).content > 0 := by
      rw [hc]
      exact sum_contributing_pos E h true x _
        (fun y hy => (List.mem_filter.mp hy).2) hne
    have hnpos : (projectColumn E h true first last x).nbins > 0 := by
      rw [hn]
      have : 0 < (contributingCells E h true first last x).length :=
        List.length_pos.mpr hne
      exact_mod_cast this
    have hval : projectXBin E h corr true first last ret x =
        (ret.SetBinContent x ((projectColumn E h true first last x).content *
          columnFactor E h corr true first last x)).SetBinError x
          (columnFactor E h corr true first last x *
            E.Sqrt (columnError2 E h true first last x)) := by
      simp only [projectXBin, hpos, hnpos, and_self, if_true]
      simp only [he2, hn, columnFactor, Int.cast_natCast]
    rw [hval]
    have hsome : ∀ (r : TH1D) (e : ℚ), (r.SetBinError x e).fSumw2.isSome = true := by
      intro r e
      have h1 : (r.Sumw2).fSumw2.isSome = true := by
        unfold TH1D.Sumw2
        split
        · next w hw => simp [hw]
        · rfl
      unfold TH1D.SetBinError
      split
      · exact h1
      · simpa using h1
    refine ⟨fun _ => hsome _ _, fun _ => hsome _ _, fun b => ?_⟩
    simp only [TH1D.SetBinContent, TH1D.SetBinError, hrange, if_false, TH1D.Sumw2,
      TH1D.sumw2At, hne, ne_eq, not_false_eq_true, and_true]
    cases hw : ret.fSumw2 with
    | none =>
      by_cases hb : b = x
      · subst hb
        simp [Function.update]
      · simp [Function.update, hb]
    | some w =>
      by_cases hb : b = x
      · subst hb
        simp [Function.update]
      · simp [Function.update, hb]

/-- Without the error flag `ProjectX` leaves the stored errors of the result alone. -/
theorem projectXBin_noerror (E : Ext) (h : TH2D) (corr : Bool) (first last : Int)
    (ret : TH1D) (x : Int) :
    (projectXBin E h corr false first last ret x).fSumw2 = ret.fSumw2 := by
  unfold projectXBin TH1D.SetBinContent
  simp only [Bool.false_eq_true, if_false]
  split
  · split <;> rfl
  · rfl

/-- The stored squared errors after the loop of `ProjectX` over a list of x bins, in the
error-respecting mode. -/
theorem foldl_projectXBin_sumw2 (E : Ext) (h : TH2D) (corr : Bool) (first last : Int) :
    ∀ (xs : List Int) (ret : TH1D),
      (∀ x ∈ xs, 0 ≤ x ∧ x < (ret.fNbins : Int) + 2) →
      ((∃ x ∈ xs, contributingCells E h true first last x ≠ []) →
        (xs.foldl (projectXBin E h corr true first last) ret).fSumw2.isSome = true) ∧
      (ret.fSumw2.isSome = true →
        (xs.foldl (projectXBin E h corr true first last) ret).fSumw2.isSome = true) ∧
      ∀ b, (xs.foldl (projectXBin E h corr true first last) ret).sumw2At b =
        if b ∈ xs ∧ (contributingCells E h true first last b) ≠ [] then
          (columnFactor E h corr true first last b *
              E.Sqrt (columnError2 E h true first last b)) *
            (columnFactor E h corr true first last b *
              E.Sqrt (columnError2 E h true first last b))
        else ret.sumw2At b
  | [], ret, _ => by simp
  | x :: xs, ret, hxs => by
    obtain ⟨hx0, hx1⟩ := hxs x (List.mem_cons_self _ _)
    obtain ⟨hn1, -⟩ := projectXBin_value E h corr true first last ret x hx0 hx1
    obtain ⟨hs1, hs2, hs3⟩ := projectXBin_sumw2 E h corr first last ret x hx0 hx1
    obtain ⟨ih1, ih2, ih3⟩ := foldl_projectXBin_sumw2 E h corr first last xs
      (projectXBin E h corr true first last ret x)
      (fun z hz => by
        rw [hn1]
        exact hxs z (List.mem_cons_of_mem _ hz))
    rw [List.foldl_cons]
    refine ⟨?_, fun hr => ih2 (hs2 hr), fun b => ?_⟩
    · rintro ⟨z, hz, hzne⟩
      rcases List.mem_cons.mp hz with hzx | hzxs
      · subst hzx
        exact ih2 (hs1 hzne)
      · exact ih1 ⟨z, hzxs, hzne⟩
    · rw [ih3 b, hs3 b]
      by_cases hbx : b = x
      · subst hbx
        by_cases hne : contributingCells E h true first last b = []
        · simp [hne]
        · simp [hne]
      · by_cases hne : contributingCells E h true first last b = []
        · simp [hne, hbx]
        · by_cases hbxs : b ∈ xs
          · simp [hne, hbxs]
          · simp [hne, hbx, hbxs]

/-- Without the error flag the loop of `ProjectX` stores no error. -/
theorem foldl_projectXBin_noerror (E : Ext) (h : TH2D) (corr : Bool) (first last : Int) :
    ∀ (xs : List Int) (ret : TH1D),
      (xs.foldl (projectXBin E h corr false first last) ret).fSumw2 = ret.fSumw2
  | [], _ => rfl
  | x :: xs, ret => by
    rw [List.foldl_cons, foldl_projectXBin_noerror E h corr first last xs,
      projectXBin_noerror]

/-- What `ProjectX` stores as the squared error of an x bin with contributing cells when it
is called with the error flag. -/
theorem ProjectX_error (E : Ext) (h : TH2D) (name : String) (firstbin lastbin : Int)
    (corr : Bool) (ret : TH1D)
    (hret : ProjectX E (some h) name firstbin lastbin corr true = some ret)
    (xbin : Int) (hx0 : 0 ≤ xbin) (hx1 : xbin ≤ (h.fNbinsX : Int) + 1)
    (hne : contributingCells E h true (clampFirst h.fNbinsY firstbin)
      (clampLast h.fNbinsY lastbin) xbin ≠ []) :
    ∃ w, ret.fSumw2 = some w ∧
      w xbin =
        (columnFactor E h corr true (clampFirst h.fNbinsY firstbin)
            (clampLast h.fNbinsY lastbin) xbin *
          E.Sqrt (columnError2 E h true (clampFirst h.fNbinsY firstbin)
            (clampLast h.fNbinsY lastbin) xbin)) *
        (columnFactor E h corr true (clampFirst h.fNbinsY firstbin)
            (clampLast h.fNbinsY lastbin) xbin *
          E.Sqrt (columnError2 E h true (clampFirst h.fNbinsY firstbin)
            (clampLast h.fNbinsY lastbin) xbin)) := by
  simp only [ProjectX] at hret
  split at hret
  · exact absurd hret (by simp)
  · injection hret with hret
    have hnb : (h.fNbinsX : Int) ≤
        ((TH1D.new name h.fTitle h.fNbinsX h.fXmin h.fXmax).fNbins : Int) := by
      simp only [TH1D.new]
      split <;> omega
    obtain ⟨hs1, -, hs3⟩ := foldl_projectXBin_sumw2 E h corr (clampFirst h.fNbinsY firstbin)
      (clampLast h.fNbinsY lastbin) (intRange 0 ((h.fNbinsX : Int) + 1))
      (TH1D.new name h.fTitle h.fNbinsX h.fXmin h.fXmax)
      (fun x hx => by
        rw [mem_intRange] at hx
        omega)
    rw [hret] at hs1 hs3
    have hmem : xbin ∈ intRange 0 ((h.fNbinsX : Int) + 1) :=
      (mem_intRange _ _ _).mpr ⟨hx0, hx1⟩
    have hsome := hs1 ⟨xbin, hmem, hne⟩
    have hval := hs3 xbin
    rw [if_pos ⟨hmem, hne⟩] at hval
    cases hw : ret.fSumw2 with
    | none => rw [hw] at hsome; exact absurd hsome (by simp)
    | some w =>
      refine ⟨w, rfl, ?_⟩
      rw [← hval]
      simp [TH1D.sumw2At, hw]

/-- What `ProjectX` returns without the error flag stores no error. -/
theorem ProjectX_noerror (E : Ext) (h : TH2D) (name : String) (firstbin lastbin : Int)
    (corr : Bool) (ret : TH1D)
    (hret : ProjectX E (some h) name firstbin lastbin corr false = some ret) :
    ret.fSumw2 = none := by
  simp only [ProjectX] at hret
  split at hret
  · exact absurd hret (by simp)
  · injection hret with hret
    rw [← hret, foldl_projectXBin_noerror]
    rfl

/-- The loop of `ProjectX` keeps the axis of the result. -/
theorem foldl_projectXBin_axis (E : Ext) (h : TH2D) (corr error : Bool) (first last : Int) :
    ∀ (xs : List Int) (ret : TH1D),
      (xs.foldl (projectXBin E h corr error first last) ret).fNbins = ret.fNbins ∧
      (xs.foldl (projectXBin E h corr error first last) ret).fXmin = ret.fXmin ∧
      (xs.foldl (projectXBin E h corr error first last) ret).fXmax = ret.fXmax
  | [], _ => ⟨rfl, rfl, rfl⟩
  | x :: xs, ret => by
    have h1 : (projectXBin E h corr error first last ret x).fNbins = ret.fNbins ∧
        (projectXBin E h corr error first last ret x).fXmin = ret.fXmin ∧
        (projectXBin E h corr error first last ret x).fXmax = ret.fXmax := by
      unfold projectXBin
      simp only []
      split
      · split
        · obtain ⟨a1, a2, a3, -⟩ := SetBinError_keeps
            (ret.SetBinContent x ((projectColumn E h error first last x).content *
              (if corr then ((last - first + 1 : Int) : ℚ) /
                ((projectColumn E h error first last x).nbins : ℚ) else 1))) x
            ((if corr then ((last - first + 1 : Int) : ℚ) /
                ((projectColumn E h error first last x).nbins : ℚ) else 1) *
              E.Sqrt (projectColumn E h error first last x).error2)
          obtain ⟨b1, b2, b3, -⟩ := SetBinContent_keeps ret x
            ((projectColumn E h error first last x).content *
              (if corr then ((last - first + 1 : Int) : ℚ) /
                ((projectColumn E h error first last x).nbins : ℚ) else 1))
          exact ⟨a1.trans b1, a2.trans b2, a3.trans b3⟩
        · obtain ⟨b1, b2, b3, -⟩ := SetBinContent_keeps ret x
            ((if corr then ((last - first + 1 : Int) : ℚ) /
                ((projectColumn E h error first last x).nbins : ℚ) else 1) *
              (projectColumn E h error first last x).content)
          exact ⟨b1, b2, b3⟩
      · exact ⟨rfl, rfl, rfl⟩
    obtain ⟨i1, i2, i3⟩ := foldl_projectXBin_axis E h corr error first last xs
      (projectXBin E h corr error first last ret x)
    rw [List.foldl_cons]
    exact ⟨i1.trans h1.1, i2.trans h1.2.1, i3.trans h1.2.2⟩

/-- The axis of what `ProjectX` returns is the x axis of its argument. -/
theorem ProjectX_axis (E : Ext) (h : TH2D) (name : String) (firstbin lastbin : Int)
    (corr error : Bool) (ret : TH1D)
    (hret : ProjectX E (some h) name firstbin lastbin corr error = some ret) :
    ret.fNbins = (if h.fNbinsX = 0 then 1 else h.fNbinsX) ∧ ret.fXmin = h.fXmin ∧
      ret.fXmax = h.fXmax := by
  simp only [ProjectX] at hret
  split at hret
  · exact absurd hret (by simp)
  · injection hret with hret
    rw [← hret]
    exact foldl_projectXBin_axis E h corr error _ _ _ _

end BasedNdeta
namespace BasedNdeta

/-- C11, as stated, fails for the acceptance-normalisation projection, which `Terminate`
makes without the error flag: `ProjectX` then never calls `SetBinError`.  For the sample
sum histogram, projected over the y bins `[0, 1]` as in `Terminate`, x bin `2` sums the
cells `1` and `8`, both with error `1`, with factor `2 / 2 = 1`; the claim gives the squared
error `1 * (1 + 1) = 2`, while the result stores no error at all and its bin error is the
default of ROOT, the root `3` of the content `9`. -/
theorem C11_norm_projection_counterexample :
    ∃ ret, ProjectX squaresExt (some sampleSum) "normForward" 0 1 true false = some ret ∧
      contributingCells squaresExt sampleSum false 0 1 2 = [0, 1] ∧
      ret.GetBinContent 2 = 9 ∧
      ret.fSumw2 = none ∧
      TH1D.GetBinError squaresExt ret 2 = 3 ∧
      columnFactor squaresExt sampleSum true false 0 1 2 *
        columnFactor squaresExt sampleSum true false 0 1 2 *
        columnError2 squaresExt sampleSum false 0 1 2 = 2 ∧
      TH1D.GetBinError squaresExt ret 2 * TH1D.GetBinError squaresExt ret 2 ≠
        columnFactor squaresExt sampleSum true false 0 1 2 *
          columnFactor squaresExt sampleSum true false 0 1 2 *
          columnError2 squaresExt sampleSum false 0 1 2 := by
  have hr : intRange 0 1 = [0, 1] := by decide
  have hf : clampFirst sampleSum.fNbinsY 0 = 0 := by decide
  have hl : clampLast sampleSum.fNbinsY 1 = 1 := by decide
  have hc1 : sampleSum.GetCellContent 2 0 = 1 := by
    simp [TH2D.GetCellContent, sampleSum, clampBin]
  have hc2 : sampleSum.GetCellContent 2 1 = 8 := by
    simp [TH2D.GetCellContent, sampleSum, clampBin]
  have he : ∀ y, sampleSum.GetCellError squaresExt 2 y = 1 := by
    intro y
    simp [TH2D.GetCellError, sampleSum, squaresExt, sampleExt]
  have hcells : contributingCells squaresExt sampleSum false 0 1 2 = [0, 1] := by
    simp [contributingCells, hr, List.filter_cons, contributes, hc1, hc2, tiny]
    norm_num
  obtain ⟨ret, hret⟩ : ∃ ret,
      ProjectX squaresExt (some sampleSum) "normForward" 0 1 true false = some ret := by
    simp only [ProjectX, hf, hl]
    rw [if_neg (by decide)]
    exact ⟨_, rfl⟩
  have hcont : ret.GetBinContent 2 = 9 := by
    rw [ProjectX_content squaresExt sampleSum "normForward" 0 1 true false ret hret 2
      (by decide) (by decide), hf, hl, hcells]
    simp [hc1, hc2]
    norm_num
  have hnone := ProjectX_noerror squaresExt sampleSum "normForward" 0 1 true ret hret
  have herr : TH1D.GetBinError squaresExt ret 2 = 3 := by
    have h9 : ret.fArray (clampBin ret.fNbins 2) = 9 := hcont
    simp [TH1D.GetBinError, hnone, h9, squaresExt]
  have hval : columnFactor squaresExt sampleSum true false 0 1 2 *
        columnFactor squaresExt sampleSum true false 0 1 2 *
        columnError2 squaresExt sampleSum false 0 1 2 = 2 := by
    simp [columnFactor, columnError2, hcells, he]
    norm_num
  refine ⟨ret, hret, hcells, hcont, hnone, herr, hval, ?_⟩
  rw [hval, herr]
  norm_num

/-- C11, amended. For every x bin, underflow and overflow included, that receives content
(some cell of the clamped y range contributes), with `factor` the empty-bin factor and `S2`
the sum of the squared errors of the contributing cells: a projection made with the error
flag (the raw-yield projection, when the default of the flag is set) stores the squared
error `(factor * Sqrt S2)^2`, which is `factor^2 * S2` whenever the root is exact at `S2`,
and the bin error is the root of the stored value; a projection made without the error flag
(the acceptance-normalisation profile) stores no error, and the bin error is the root of
the absolute content. -/
theorem C11_projection_error (E : Ext) (h : TH2D) (name : String) (firstbin lastbin : Int)
    (corr error : Bool) (ret : TH1D)
    (hret : ProjectX E (some h) name firstbin lastbin corr error = some ret)
    (xbin : Int) (hx0 : 0 ≤ xbin) (hx1 : xbin ≤ (h.fNbinsX : Int) + 1)
    (hne : contributingCells E h error (clampFirst h.fNbinsY firstbin)
      (clampLast h.fNbinsY lastbin) xbin ≠ []) :
    (error = true → ∃ w, ret.fSumw2 = some w ∧
      w xbin =
        (columnFactor E h corr true (clampFirst h.fNbinsY firstbin)
            (clampLast h.fNbinsY lastbin) xbin *
          E.Sqrt (columnError2 E h true (clampFirst h.fNbinsY firstbin)
            (clampLast h.fNbinsY lastbin) xbin)) *
        (columnFactor E h corr true (clampFirst h.fNbinsY firstbin)
            (clampLast h.fNbinsY lastbin) xbin *
          E.Sqrt (columnError2 E h true (clampFirst h.fNbinsY firstbin)
            (clampLast h.fNbinsY lastbin) xbin)) ∧
      TH1D.GetBinError E ret xbin = E.Sqrt (w xbin) ∧
      (E.Sqrt (columnError2 E h true (clampFirst h.fNbinsY firstbin)
            (clampLast h.fNbinsY lastbin) xbin) *
          E.Sqrt (columnError2 E h true (clampFirst h.fNbinsY firstbin)
            (clampLast h.fNbinsY lastbin) xbin) =
          columnError2 E h true (clampFirst h.fNbinsY firstbin)
            (clampLast h.fNbinsY lastbin) xbin →
        w xbin =
          columnFactor E h corr true (clampFirst h.fNbinsY firstbin)
              (clampLast h.fNbinsY lastbin) xbin *
            columnFactor E h corr true (clampFirst h.fNbinsY firstbin)
              (clampLast h.fNbinsY lastbin) xbin *
            columnError2 E h true (clampFirst h.fNbinsY firstbin)
              (clampLast h.fNbinsY lastbin) xbin)) ∧
    (error = false → ret.fSumw2 = none ∧
      TH1D.GetBinError E ret xbin = E.Sqrt |ret.GetBinContent xbin|) := by
  obtain ⟨hnb, -, -⟩ := ProjectX_axis E h name firstbin lastbin corr error ret hret
  have hclamp : clampBin ret.fNbins xbin = xbin := by
    have : (h.fNbinsX : Int) ≤ (ret.fNbins : Int) := by
      rw [hnb]
      split <;> omega
    unfold clampBin
    rw [if_neg (by omega), if_neg (by omega)]
  constructor
  · intro herr
    subst herr
    obtain ⟨w, hw, hval⟩ := ProjectX_error E h name firstbin lastbin corr ret hret xbin hx0
      hx1 hne
    refine ⟨w, hw, hval, ?_, fun hex => ?_⟩
    · simp [TH1D.GetBinError, hw, hclamp]
    · rw [hval, mul_mul_mul_comm, hex]
  · intro herr
    subst herr
    have hnone := ProjectX_noerror E h name firstbin lastbin corr ret hret
    refine ⟨hnone, ?_⟩
    simp [TH1D.GetBinError, hnone, TH1D.GetBinContent]

/-- C11, amended, at the sample sum histogram: the yield projection over the y bins
`[1, 2]` with the error flag finds the one contributing cell `4` with error `1` in x bin `1`
and stores the squared error `(2 * 1)^2 = 4`. -/
theorem C11_projection_error_witness :
    ∃ ret w, ProjectX sampleExt (some sampleSum) "dndetaForward" 1 2 true true = some ret ∧
      ret.fSumw2 = some w ∧ w 1 = 4 := by
  have hr : intRange 1 2 = [1, 2] := by decide
  have hf : clampFirst sampleSum.fNbinsY 1 = 1 := by decide
  have hl : clampLast sampleSum.fNbinsY 2 = 2 := by decide
  have hc1 : sampleSum.GetCellContent 1 1 = 4 := by
    simp [TH2D.GetCellContent, sampleSum, clampBin]
  have hc2 : sampleSum.GetCellContent 1 2 = 0 := by
    simp [TH2D.GetCellContent, sampleSum, clampBin]
  have he1 : sampleSum.GetCellError sampleExt 1 1 = 1 := by
    simp [TH2D.GetCellError, sampleSum, sampleExt]
  have hcells : contributingCells sampleExt sampleSum true 1 2 1 = [1] := by
    simp [contributingCells, hr, List.filter_cons, contributes, hc1, hc2, he1, tiny]
    norm_num
  obtain ⟨ret, hret⟩ : ∃ ret,
      ProjectX sampleExt (some sampleSum) "dndetaForward" 1 2 true true = some ret := by
    simp only [ProjectX, hf, hl]
    rw [if_neg (by decide)]
    exact ⟨_, rfl⟩
  have hne : contributingCells sampleExt sampleSum true (clampFirst sampleSum.fNbinsY 1)
      (clampLast sampleSum.fNbinsY 2) 1 ≠ [] := by
    rw [hf, hl, hcells]
    simp
  obtain ⟨w, hw, hval, -⟩ := (C11_projection_error sampleExt sampleSum "dndetaForward" 1 2
    true true ret hret 1 (by decide) (by decide) hne).1 rfl
  refine ⟨ret, w, hret, hw, ?_⟩
  have hS2 : columnError2 sampleExt sampleSum true 1 2 1 = 1 := by
    simp [columnError2, hcells, he1]
  have hF : columnFactor sampleExt sampleSum true true 1 2 1 = 2 := by
    simp [columnFactor, hcells]
  have hsq : sampleExt.Sqrt 1 = 1 := by norm_num [sampleExt]
  rw [hval, hf, hl, hS2, hF, hsq]
  norm_num

end BasedNdeta
namespace BasedNdeta

/-- A finite quotient has a non-zero divisor and is the quotient of the rationals. -/
theorem fdiv_toRat (a b q : ℚ) (h : (FVal.fdiv a b).toRat? = some q) : b ≠ 0 ∧ q = a / b := by
  unfold FVal.fdiv at h
  split at h
  · split at h
    · simp [FVal.toRat?] at h
    · split at h <;> simp [FVal.toRat?] at h
  · next hb =>
    simp only [FVal.toRat?, Option.some.injEq] at h
    exact ⟨hb, h.symm⟩

/-- A quotient by a non-zero divisor is finite. -/
theorem fdiv_of_ne (a b : ℚ) (hb : b ≠ 0) : (FVal.fdiv a b).toRat? = some (a / b) := by
  simp [FVal.fdiv, hb, FVal.toRat?]

/-- What a run of the projections, normalisation and exports that ends without a fault has
done. -/
theorem terminateYield_inv (E : Ext) (t : Task) (l : TerminateLocals) (sum : TH2D)
    (suffix titleSuffix : String) (mc : Bool) (objs : List TObject)
    (h : terminateYield E t l sum suffix titleSuffix mc = Except.ok objs) :
    ∃ norm0 raw0 vn an,
      ProjectX E (some sum) ("norm" ++ t.fName ++ suffix) 0 1 t.fCorrEmpty false =
        some norm0 ∧
      ProjectX E (some sum) ("dndeta" ++ t.fName ++ suffix) 1 (l.sum.fNbinsY : Int)
        t.fCorrEmpty E.projectXError = some raw0 ∧
      l.vNorm.toRat? = some vn ∧ (FVal.fdiv 1 l.nAccepted).toRat? = some an ∧
      (raw0.Divide E norm0).GetBinWidth ≠ 0 ∧
      TObject.th1 { (raw0.Divide E norm0).Scale E vn true with
        fTitle := "ALICE " ++ t.fName ++ titleSuffix } ∈ objs ∧
      TObject.th1 { norm0.Scale E an false with
        fTitle := "ALICE " ++ t.fName ++ titleSuffix ++ " normalisation" } ∈ objs := by
  unfold terminateYield at h
  simp only [] at h
  rcases hn : ProjectX E (some sum) ("norm" ++ t.fName ++ suffix) 0 1 t.fCorrEmpty false
    with _ | norm0
  · rw [hn] at h
    split at h <;> simp_all
  rcases hd : ProjectX E (some sum) ("dndeta" ++ t.fName ++ suffix) 1 (l.sum.fNbinsY : Int)
    t.fCorrEmpty E.projectXError with _ | raw0
  · rw [hd] at h
    simp at h
  rw [hn, hd] at h
  simp only [] at h
  rcases hv : l.vNorm.toRat? with _ | vn
  · simp [TH1D.ScaleF, hv] at h
  rcases ha : (FVal.fdiv 1 (l.nAccepted : ℚ)).toRat? with _ | an
  · simp [TH1D.ScaleF, ha] at h
  by_cases hw : (raw0.Divide E norm0).GetBinWidth = 0
  · simp [TH1D.ScaleF, hv, ha, hw] at h
  refine ⟨norm0, raw0, vn, an, rfl, rfl, rfl, rfl, hw, ?_⟩
  simp only [TH1D.ScaleF, hv, ha, hw, and_false, if_false, Bool.false_eq_true, false_and] at h
  rcases hr : Rebin E t.fRebin t.fCutEdges
    { (raw0.Divide E norm0).Scale E vn true with
      fTitle := "ALICE " ++ t.fName ++ titleSuffix } with f | rebinned
  · rw [hr] at h
    simp at h
  rw [hr] at h
  simp only [] at h
  by_cases hs : t.fSymmetrice = true
  · simp only [hs, if_true] at h
    cases rebinned with
    | none => simp at h
    | some r =>
      simp only [Except.ok.injEq] at h
      subst h
      cases mc <;> simp
  · simp only [hs, if_false, Bool.false_eq_true, Except.ok.injEq] at h
    subst h
    cases mc <;> simp

/-- The run of the projections, normalisation and exports for the data when neither a
rebinned nor a mirrored histogram is asked for. -/
theorem terminateYield_plain (E : Ext) (t : Task) (l : TerminateLocals) (sum : TH2D)
    (suffix titleSuffix : String) (norm0 raw0 : TH1D) (vn an : ℚ)
    (hs : t.fSymmetrice = false) (hr : t.fRebin ≤ 1)
    (hn : ProjectX E (some sum) ("norm" ++ t.fName ++ suffix) 0 1 t.fCorrEmpty false =
      some norm0)
    (hd : ProjectX E (some sum) ("dndeta" ++ t.fName ++ suffix) 1 (l.sum.fNbinsY : Int)
      t.fCorrEmpty E.projectXError = some raw0)
    (hv : l.vNorm.toRat? = some vn) (ha : (FVal.fdiv 1 l.nAccepted).toRat? = some an)
    (hw : (raw0.Divide E norm0).GetBinWidth ≠ 0) :
    terminateYield E t l sum suffix titleSuffix false =
      Except.ok [TObject.th1 { (raw0.Divide E norm0).Scale E vn true with
          fTitle := "ALICE " ++ t.fName ++ titleSuffix },
        TObject.th1 { norm0.Scale E an false with
          fTitle := "ALICE " ++ t.fName ++ titleSuffix ++ " normalisation" }] := by
  unfold terminateYield
  simp only [hn, hd, TH1D.ScaleF, hv, ha, hw, and_false, false_and, if_false, Rebin, hr,
    if_true, hs, Bool.false_eq_true, List.nil_append, List.append_nil, List.singleton_append]

end BasedNdeta
namespace BasedNdeta

/-- The settings of the task and the output list when the first part of `Terminate` goes on
to the projections. -/
theorem TerminateCounters_goesOn_config (E : Ext) (t t1 : Task) (l : TerminateLocals)
    (h : TerminateCounters E t = TerminateHead.goesOn t1 l) :
    t1.fRebin = t.fRebin ∧ t1.fCutEdges = t.fCutEdges ∧ t1.fSymmetrice = t.fSymmetrice ∧
    t1.fCorrEmpty = t.fCorrEmpty ∧ t1.fName = t.fName ∧
    l.output = (match t.fOutput with
      | some o => o
      | none => newOutput t.fName) ∧
    t1.fTriggerMask = t.fTriggerMask ∧ t1.fVtxMin = t.fVtxMin ∧ t1.fVtxMax = t.fVtxMax := by
  unfold TerminateCounters at h
  split at h
  · exact absurd h (by simp)
  · simp only at h
    split at h
    · exact absurd h (by simp)
    · split at h
      · exact absurd h (by simp)
      · split at h
        · exact absurd h (by simp)
        · simp only [TerminateHead.goesOn.injEq] at h
          obtain ⟨ht1, hl⟩ := h
          subst hl
          subst ht1
          exact ⟨rfl, rfl, rfl, rfl, rfl, rfl, rfl, rfl, rfl⟩

/-- When `Terminate` goes on to the projections and ends without a fault, the projections
of the data ended without a fault and what they export is in the output list. -/
theorem Terminate_ok_inv (E : Ext) (t t1 t2 : Task) (l : TerminateLocals)
    (hc : TerminateCounters E t = TerminateHead.goesOn t1 l)
    (hok : Terminate E t = Except.ok t2) :
    ∃ data, terminateYield E t1 l l.sum "" "" false = Except.ok data ∧
      ∀ o ∈ data, o ∈ outputObjects t2 := by
  simp only [Terminate, hc, TerminateOutputs] at hok
  rcases hd : terminateYield E t1 l l.sum "" "" false with f | data
  · rw [hd] at hok
    simp at hok
  · rw [hd] at hok
    simp only [] at hok
    refine ⟨data, rfl, ?_⟩
    split at hok
    · simp at hok
    · simp only [Except.ok.injEq] at hok
      subst hok
      intro o ho
      simp [outputObjects, ho]

/-- The run of `Terminate` for a task without simulation sums that asks neither for a
rebinned nor for a mirrored histogram. -/
theorem Terminate_plain (E : Ext) (t t1 : Task) (l : TerminateLocals) (norm0 raw0 : TH1D)
    (vn an : ℚ)
    (hc : TerminateCounters E t = TerminateHead.goesOn t1 l)
    (hmc : l.sums.FindTH2D (t.fName ++ "MC") = none)
    (hs : t.fSymmetrice = false) (hr : t.fRebin ≤ 1)
    (hn : ProjectX E (some l.sum) ("norm" ++ t.fName) 0 1 t.fCorrEmpty false = some norm0)
    (hd : ProjectX E (some l.sum) ("dndeta" ++ t.fName) 1 (l.sum.fNbinsY : Int)
      t.fCorrEmpty E.projectXError = some raw0)
    (hv : l.vNorm.toRat? = some vn) (ha : (FVal.fdiv 1 l.nAccepted).toRat? = some an)
    (hw : (raw0.Divide E norm0).GetBinWidth ≠ 0) :
    ∃ t2, Terminate E t = Except.ok t2 ∧
      outputObjects t2 = l.output.objs ++ [TObject.th1 l.triggers,
        TObject.th1 { (raw0.Divide E norm0).Scale E vn true with
          fTitle := "ALICE " ++ t.fName },
        TObject.th1 { norm0.Scale E an false with
          fTitle := "ALICE " ++ t.fName ++ " normalisation" },
        TObject.named "trigString" (E.GetTriggerString t1.fTriggerMask) t1.fTriggerMask,
        TObject.axis "vtxAxis" "v_z range" 1 t1.fVtxMin t1.fVtxMax] := by
  obtain ⟨c1, -, c3, c4, c5, -, -⟩ := TerminateCounters_goesOn_config E t t1 l hc
  obtain ⟨-, -, -, -, -, -, -, -, -, -, -, -, -, -, -, hmc1, -⟩ :=
    TerminateCounters_goesOn_inv E t t1 l hc
  have hy := terminateYield_plain E t1 l l.sum "" "" norm0 raw0 vn an (c3.trans hs)
    (c1 ▸ hr) (by simpa [c5, c4] using hn) (by simpa [c5, c4] using hd) hv ha hw
  rw [hmc] at hmc1
  simp only [Terminate, hc, TerminateOutputs, hy, hmc1]
  refine ⟨_, rfl, ?_⟩
  simp [outputObjects, c5]

end BasedNdeta
namespace BasedNdeta

/-- What `Divide` keeps. -/
theorem Divide_keeps (E : Ext) (h h1 : TH1D) :
    (h.Divide E h1).fNbins = h.fNbins ∧ (h.Divide E h1).fXmin = h.fXmin ∧
      (h.Divide E h1).fXmax = h.fXmax ∧ (h.Divide E h1).fName = h.fName := by
  unfold TH1D.Divide
  simp only []
  split
  · obtain ⟨a1, a2, a3, -, a5, -⟩ := Sumw2_keeps h
    exact ⟨a1, a2, a3, a5⟩
  · exact ⟨rfl, rfl, rfl, rfl⟩

/-- The integer read from a bin that holds an integer. -/
theorem counter_of (h : TH1D) (k n : Int) (hk : h.GetBinContent k = (n : ℚ)) :
    toInt_t (h.GetBinContent k) = n := by
  rw [hk, toInt_t_intCast]

/-- The run of `Terminate` for the task `plainTask sum`. -/
theorem plainTask_runs (sum : TH2D) (hname : sum.fName = "Forward")
    (hx : sum.fXmax - sum.fXmin ≠ 0) :
    ∃ t1 l t2 norm0 raw0,
      TerminateCounters sampleExt (plainTask sum) = TerminateHead.goesOn t1 l ∧
      l.sum = sum ∧ l.nAccepted = 80 ∧ l.nGood = 40 ∧
      ProjectX sampleExt (some sum) "normForward" 0 1 false false = some norm0 ∧
      ProjectX sampleExt (some sum) "dndetaForward" 1 (sum.fNbinsY : Int) false true =
        some raw0 ∧
      Terminate sampleExt (plainTask sum) = Except.ok t2 ∧
      outputObjects t2 = [TObject.th1 exampleTriggers,
        TObject.th1 { (raw0.Divide sampleExt norm0).Scale sampleExt 2 true with
          fTitle := "ALICE Forward" },
        TObject.th1 { norm0.Scale sampleExt (1 / 80) false with
          fTitle := "ALICE Forward normalisation" },
        TObject.named "trigString" "INEL" 1,
        TObject.axis "vtxAxis" "v_z range" 1 (-10) 10] := by
  have hfind : (plainSums sum).FindTH1D "triggers" = some exampleTriggers := by
    simp [TList.FindTH1D, TList.FindObject, TObject.GetName, exampleTriggers, plainSums]
  have hsum : (plainSums sum).FindTH2D (plainTask sum).fName = some sum := by
    simp [TList.FindTH2D, TList.FindObject, TObject.GetName, exampleTriggers, plainTask,
      sampleTask, hname, plainSums]
  have hmc : (plainSums sum).FindTH2D ((plainTask sum).fName ++ "MC") = none := by
    simp [TList.FindTH2D, TList.FindObject, TObject.GetName, exampleTriggers, plainTask,
      sampleTask, hname, plainSums]
  have kT : toInt_t (exampleTriggers.GetBinContent sampleExt.kWithTrigger) = 100 :=
    counter_of _ _ 100 (by simp [TH1D.GetBinContent, exampleTriggers, sampleExt, clampBin])
  have kB : toInt_t (exampleTriggers.GetBinContent sampleExt.kB) = 40 :=
    counter_of _ _ 40 (by simp [TH1D.GetBinContent, exampleTriggers, sampleExt, clampBin])
  have kA : toInt_t (exampleTriggers.GetBinContent sampleExt.kA) = 0 :=
    counter_of _ _ 0 (by simp [TH1D.GetBinContent, exampleTriggers, sampleExt, clampBin])
  have kC : toInt_t (exampleTriggers.GetBinContent sampleExt.kC) = 0 :=
    counter_of _ _ 0 (by simp [TH1D.GetBinContent, exampleTriggers, sampleExt, clampBin])
  have kE : toInt_t (exampleTriggers.GetBinContent sampleExt.kE) = 0 :=
    counter_of _ _ 0 (by simp [TH1D.GetBinContent, exampleTriggers, sampleExt, clampBin])
  have kAcc : toInt_t (exampleTriggers.GetBinContent sampleExt.kAccepted) = 80 :=
    counter_of _ _ 80 (by simp [TH1D.GetBinContent, exampleTriggers, sampleExt, clampBin])
  obtain ⟨t1, l, hc, hl, hls, hlsums⟩ := TerminateCounters_goesOn sampleExt (plainTask sum) _
    exampleTriggers sum rfl hfind hsum (by rw [kT]; decide)
  obtain ⟨-, -, -, hB, hA, hC, hE, -, -, hAcc, -, hgood, -, hnorm, -⟩ :=
    TerminateCounters_goesOn_inv sampleExt (plainTask sum) t1 l hc
  obtain ⟨-, -, -, -, -, hout, hm1, hm2, hm3⟩ :=
    TerminateCounters_goesOn_config sampleExt (plainTask sum) t1 l hc
  rw [hl] at hB hA hC hE hAcc
  have hAcc80 : l.nAccepted = 80 := hAcc.trans kAcc
  have hGood40 : l.nGood = 40 := by
    rw [hgood, hB, hA, hC, hE, kB, kA, kC, kE]
    norm_num [wrapInt_t]
  clear hgood
  obtain ⟨norm0, hn⟩ := ProjectX_norm_isSome sampleExt sum "normForward" false false
  obtain ⟨raw0, hd⟩ := ProjectX_yield_isSome sampleExt sum "dndetaForward" false true
  have hv : l.vNorm.toRat? = some 2 := by
    rw [hnorm, hAcc80, hGood40]
    simp [FVal.fdiv, FVal.toRat?]
    norm_num
  have ha : (FVal.fdiv 1 (l.nAccepted : ℚ)).toRat? = some (1 / 80) := by
    rw [hAcc80]
    simp [FVal.fdiv, FVal.toRat?]
  have hw : (raw0.Divide sampleExt norm0).GetBinWidth ≠ 0 := by
    obtain ⟨d1, d2, d3, -⟩ := Divide_keeps sampleExt raw0 norm0
    obtain ⟨p1, p2, p3⟩ := ProjectX_axis sampleExt sum "dndetaForward" 1 (sum.fNbinsY : Int)
      false true raw0 hd
    unfold TH1D.GetBinWidth
    rw [d1, d2, d3, p1, p2, p3]
    apply div_ne_zero hx
    split <;> simp_all
  obtain ⟨t2, ht2, hobjs⟩ := Terminate_plain sampleExt (plainTask sum) t1 l norm0 raw0 2
    (1 / 80) hc (by rw [hlsums]; exact hmc) rfl (by norm_num [plainTask]) (by rw [hls]; exact hn)
    (by rw [hls]; exact hd) hv ha hw
  refine ⟨t1, l, t2, norm0, raw0, hc, hls, hAcc80, hGood40, hn, hd, ht2, ?_⟩
  rw [hobjs, hout, hl, hm1, hm2, hm3]
  simp [plainTask, sampleTask, newOutput, sampleExt]

end BasedNdeta
namespace BasedNdeta

/-- A value is not below a bound exactly when the bound is at most the value. -/
theorem not_decide_lt (a b : ℚ) : (!decide (a < b)) = decide (b ≤ a) := by
  by_cases h : a < b
  · simp [h]
  · simp [h, not_lt.mp h]

/-- Without the error flag `ProjectX` sums the cells with content, whatever their error. -/
theorem contributingCells_false (E : Ext) (h : TH2D) (first last xbin : Int) :
    contributingCells E h false first last xbin = unitErrorCells h first last xbin := by
  unfold contributingCells unitErrorCells
  apply List.filter_congr
  intro y _
  simp only [contributes, Bool.and_false, Bool.not_false, Bool.and_true, not_decide_lt]

/-- With the error flag `ProjectX` sums the cells with content and error. -/
theorem contributingCells_true (E : Ext) (h : TH2D) (first last xbin : Int) :
    contributingCells E h true first last xbin = errorRespectingCells E h first last xbin := by
  unfold contributingCells errorRespectingCells
  apply List.filter_congr
  intro y _
  simp only [contributes, Bool.and_true, not_decide_lt]

/-- The content of a bin of what `ProjectX` returns, in the words of `cellsProjection`. -/
theorem ProjectX_cellsProjection (E : Ext) (h : TH2D) (name : String)
    (firstbin lastbin : Int) (corr error : Bool) (ret : TH1D)
    (hret : ProjectX E (some h) name firstbin lastbin corr error = some ret)
    (xbin : Int) (hx0 : 0 ≤ xbin) (hx1 : xbin ≤ (h.fNbinsX : Int) + 1) :
    ret.GetBinContent xbin =
      cellsProjection h corr (clampFirst h.fNbinsY firstbin) (clampLast h.fNbinsY lastbin)
        (if error then
          errorRespectingCells E h (clampFirst h.fNbinsY firstbin)
            (clampLast h.fNbinsY lastbin) xbin
         else unitErrorCells h (clampFirst h.fNbinsY firstbin) (clampLast h.fNbinsY lastbin)
            xbin) xbin := by
  rw [ProjectX_content E h name firstbin lastbin corr error ret hret xbin hx0 hx1]
  cases error
  · simp only [contributingCells_false, cellsProjection, Bool.false_eq_true, if_false]
  · simp only [contributingCells_true, cellsProjection, if_true]

/-- C12, as stated, fails: `Terminate` makes the acceptance-normalisation profile without
the error flag.  In the run of `plainTask zeroErrorAcceptance` the acceptance cell of eta
bin `1` has content `1` and error `0`; an error-respecting projection would sum no cell of
that bin, but the profile that `Terminate` projects holds the content `1` there, and its
scaled copy is exported. -/
theorem C12_acceptance_projection_counterexample :
    ∃ t2 norm0, Terminate sampleExt (plainTask zeroErrorAcceptance) = Except.ok t2 ∧
      ProjectX sampleExt (some zeroErrorAcceptance) "normForward" 0 1 false false =
        some norm0 ∧
      TObject.th1 { norm0.Scale sampleExt (1 / 80) false with
        fTitle := "ALICE Forward normalisation" } ∈ outputObjects t2 ∧
      zeroErrorAcceptance.GetCellContent 1 0 = 1 ∧
      zeroErrorAcceptance.GetCellError sampleExt 1 0 = 0 ∧
      errorRespectingCells sampleExt zeroErrorAcceptance 0 1 1 = [] ∧
      norm0.GetBinContent 1 = 1 := by
  obtain ⟨t1, l, t2, norm0, raw0, -, -, -, -, hn, -, ht2, hobjs⟩ :=
    plainTask_runs zeroErrorAcceptance rfl (by norm_num [zeroErrorAcceptance, exampleSum])
  have hr : intRange 0 1 = [0, 1] := by decide
  have hf : clampFirst zeroErrorAcceptance.fNbinsY 0 = 0 := by decide
  have hl : clampLast zeroErrorAcceptance.fNbinsY 1 = 1 := by decide
  have hc0 : zeroErrorAcceptance.GetCellContent 1 0 = 1 := by
    simp [TH2D.GetCellContent, zeroErrorAcceptance, exampleSum, clampBin]
  have hc1 : zeroErrorAcceptance.GetCellContent 1 1 = 0 := by
    simp [TH2D.GetCellContent, zeroErrorAcceptance, exampleSum, clampBin]
  have he0 : zeroErrorAcceptance.GetCellError sampleExt 1 0 = 0 := by
    simp [TH2D.GetCellError, zeroErrorAcceptance, exampleSum, sampleExt, clampBin]
  have hcells : unitErrorCells zeroErrorAcceptance 0 1 1 = [0] := by
    simp [unitErrorCells, hr, List.filter_cons, hc0, hc1, tiny]
    norm_num
  refine ⟨t2, norm0, ht2, hn, ?_, hc0, he0, ?_, ?_⟩
  · rw [hobjs]
    simp
  · simp [errorRespectingCells, hr, List.filter_cons, hc0, hc1, he0, tiny]
  · rw [ProjectX_cellsProjection sampleExt zeroErrorAcceptance "normForward" 0 1 false false
      norm0 hn 1 (by decide) (by decide), hf, hl]
    simp [cellsProjection, hcells, hc0]

end BasedNdeta
namespace BasedNdeta

/-- When `Terminate` goes on to the projections and ends without a fault: the two
projections of the data, the finite factors, and the two exported histograms. -/
theorem Terminate_ok_projections (E : Ext) (t t1 t2 : Task) (l : TerminateLocals)
    (hc : TerminateCounters E t = TerminateHead.goesOn t1 l)
    (hok : Terminate E t = Except.ok t2) :
    ∃ norm0 raw0 vn an,
      ProjectX E (some l.sum) ("norm" ++ t.fName) 0 1 t.fCorrEmpty false = some norm0 ∧
      ProjectX E (some l.sum) ("dndeta" ++ t.fName) 1 (l.sum.fNbinsY : Int) t.fCorrEmpty
        E.projectXError = some raw0 ∧
      l.vNorm.toRat? = some vn ∧ (FVal.fdiv 1 l.nAccepted).toRat? = some an ∧
      (raw0.Divide E norm0).GetBinWidth ≠ 0 ∧
      TObject.th1 { (raw0.Divide E norm0).Scale E vn true with
        fTitle := "ALICE " ++ t.fName } ∈ outputObjects t2 ∧
      TObject.th1 { norm0.Scale E an false with
        fTitle := "ALICE " ++ t.fName ++ " normalisation" } ∈ outputObjects t2 := by
  obtain ⟨data, hdata, hmem⟩ := Terminate_ok_inv E t t1 t2 l hc hok
  obtain ⟨-, -, -, c4, c5, -⟩ := TerminateCounters_goesOn_config E t t1 l hc
  obtain ⟨norm0, raw0, vn, an, hn, hd, hv, ha, hw, hm1, hm2⟩ :=
    terminateYield_inv E t1 l l.sum "" "" false data hdata
  simp only [String.append_empty, c4, c5] at hn hd hm1 hm2
  exact ⟨norm0, raw0, vn, an, hn, hd, hv, ha, hw, hmem _ hm1, hmem _ hm2⟩

/-- C12, amended. When `Terminate` gets past its guards and ends without a fault, the
acceptance-normalisation profile that it scales and exports is the projection of the y bins
`0 .. 1` made without the error flag: every cell with a content of at least `1e-12` is
summed, a cell without error included, and no error is stored.  The raw-yield profile is the
projection of the y bins `1 .. nY` made with the default value of the error flag: when that
is set, the cells whose content and error are at least `1e-12` are summed and the cells
without error are skipped; otherwise every cell with content is summed. -/
theorem C12_projection_modes (E : Ext) (t t1 t2 : Task) (l : TerminateLocals)
    (hc : TerminateCounters E t = TerminateHead.goesOn t1 l)
    (hok : Terminate E t = Except.ok t2) :
    ∃ norm0 raw0 vn an,
      ProjectX E (some l.sum) ("norm" ++ t.fName) 0 1 t.fCorrEmpty false = some norm0 ∧
      ProjectX E (some l.sum) ("dndeta" ++ t.fName) 1 (l.sum.fNbinsY : Int) t.fCorrEmpty
        E.projectXError = some raw0 ∧
      TObject.th1 { norm0.Scale E an false with
        fTitle := "ALICE " ++ t.fName ++ " normalisation" } ∈ outputObjects t2 ∧
      TObject.th1 { (raw0.Divide E norm0).Scale E vn true with
        fTitle := "ALICE " ++ t.fName } ∈ outputObjects t2 ∧
      norm0.fSumw2 = none ∧
      (∀ x, 0 ≤ x → x ≤ (l.sum.fNbinsX : Int) + 1 →
        norm0.GetBinContent x =
          cellsProjection l.sum t.fCorrEmpty 0 1 (unitErrorCells l.sum 0 1 x) x) ∧
      (∀ x, 0 ≤ x → x ≤ (l.sum.fNbinsX : Int) + 1 →
        raw0.GetBinContent x =
          cellsProjection l.sum t.fCorrEmpty (clampFirst l.sum.fNbinsY 1) (l.sum.fNbinsY : Int)
            (if E.projectXError then
              errorRespectingCells E l.sum (clampFirst l.sum.fNbinsY 1) (l.sum.fNbinsY : Int) x
             else unitErrorCells l.sum (clampFirst l.sum.fNbinsY 1) (l.sum.fNbinsY : Int) x)
            x) := by
  obtain ⟨norm0, raw0, vn, an, hn, hd, -, -, -, hm1, hm2⟩ :=
    Terminate_ok_projections E t t1 t2 l hc hok
  have hl1 : clampLast l.sum.fNbinsY 1 = 1 := by
    unfold clampLast
    rw [if_neg (by decide), if_neg (by omega)]
  have hf0 : clampFirst l.sum.fNbinsY 0 = 0 := by
    unfold clampFirst
    rw [if_neg (by decide)]
    split
    · omega
    · rfl
  have hlast : clampLast l.sum.fNbinsY (l.sum.fNbinsY : Int) = (l.sum.fNbinsY : Int) := by
    unfold clampLast
    rw [if_neg (by omega), if_neg (by omega)]
  refine ⟨norm0, raw0, vn, an, hn, hd, hm2, hm1,
    ProjectX_noerror E l.sum _ 0 1 t.fCorrEmpty norm0 hn, fun x hx0 hx1 => ?_,
    fun x hx0 hx1 => ?_⟩
  · have := ProjectX_cellsProjection E l.sum _ 0 1 t.fCorrEmpty false norm0 hn x hx0 hx1
    rw [hl1, hf0] at this
    simpa using this
  · have := ProjectX_cellsProjection E l.sum _ 1 (l.sum.fNbinsY : Int) t.fCorrEmpty
      E.projectXError raw0 hd x hx0 hx1
    rw [hlast] at this
    exact this

/-- C12, amended, at the run of `plainTask zeroErrorAcceptance`: the acceptance profile
holds the content `1` of the acceptance cell without error in eta bin `1`, and the cell `4`
of the raw yield, which has an error, is summed. -/
theorem C12_projection_modes_witness :
    ∃ t2 norm0 raw0, Terminate sampleExt (plainTask zeroErrorAcceptance) = Except.ok t2 ∧
      ProjectX sampleExt (some zeroErrorAcceptance) "normForward" 0 1 false false =
        some norm0 ∧
      ProjectX sampleExt (some zeroErrorAcceptance) "dndetaForward" 1 2 false true =
        some raw0 ∧
      norm0.fSumw2 = none ∧ norm0.GetBinContent 1 = 1 ∧ raw0.GetBinContent 1 = 4 := by
  obtain ⟨t1, l, t2, norm0, raw0, hc, hls, -, -, hn, hd, ht2, -⟩ :=
    plainTask_runs zeroErrorAcceptance rfl (by norm_num [zeroErrorAcceptance, exampleSum])
  obtain ⟨norm1, raw1, vn, an, hn1, hd1, -, -, hnone, hnorm, hraw⟩ :=
    C12_projection_modes sampleExt (plainTask zeroErrorAcceptance) t1 t2 l hc ht2
  rw [hls] at hn1 hd1 hnorm hraw
  have e1 : norm1 = norm0 := Option.some.inj (hn1.symm.trans hn)
  have e2 : raw1 = raw0 := Option.some.inj (hd1.symm.trans hd)
  subst e1
  subst e2
  have hr : intRange 0 1 = [0, 1] := by decide
  have hr2 : intRange 1 2 = [1, 2] := by decide
  have hc0 : zeroErrorAcceptance.GetCellContent 1 0 = 1 := by
    simp [TH2D.GetCellContent, zeroErrorAcceptance, exampleSum, clampBin]
  have hc1 : zeroErrorAcceptance.GetCellContent 1 1 = 0 := by
    simp [TH2D.GetCellContent, zeroErrorAcceptance, exampleSum, clampBin]
  have hc2 : zeroErrorAcceptance.GetCellContent 1 2 = 4 := by
    simp [TH2D.GetCellContent, zeroErrorAcceptance, exampleSum, clampBin]
  have he2 : zeroErrorAcceptance.GetCellError sampleExt 1 2 = 1 := by
    simp [TH2D.GetCellError, zeroErrorAcceptance, exampleSum, sampleExt, clampBin]
  have hcells : unitErrorCells zeroErrorAcceptance 0 1 1 = [0] := by
    simp [unitErrorCells, hr, List.filter_cons, hc0, hc1, tiny]
    norm_num
  have hcells2 : errorRespectingCells sampleExt zeroErrorAcceptance 1 2 1 = [2] := by
    simp [errorRespectingCells, hr2, List.filter_cons, hc1, hc2, he2, tiny]
    norm_num
  have hf : clampFirst zeroErrorAcceptance.fNbinsY 1 = 1 := by decide
  refine ⟨t2, norm1, raw1, ht2, hn, hd, hnone, ?_, ?_⟩
  · rw [hnorm 1 (by decide) (by decide)]
    simp [cellsProjection, hcells, hc0, plainTask]
  · have h4 := hraw 1 (by decide) (by decide)
    rw [hf] at h4
    have hny : ((zeroErrorAcceptance.fNbinsY : Nat) : Int) = 2 := by decide
    rw [hny] at h4
    have hp : sampleExt.projectXError = true := rfl
    rw [h4, if_pos hp, hcells2]
    simp [cellsProjection, hc2, plainTask]

end BasedNdeta
namespace BasedNdeta

/-- A bin number within the range of a histogram is not clamped. -/
theorem clampBin_of_range (n : Nat) (i : Int) (h0 : 0 ≤ i) (h1 : i ≤ (n : Int) + 1) :
    clampBin n i = i := by
  unfold clampBin
  rw [if_neg (by omega), if_neg (by omega)]

/-- The content of a bin after `Divide` by a histogram that is not zero there. -/
theorem Divide_content (E : Ext) (h h1 : TH1D) (i : Int) (h0 : 0 ≤ i)
    (hi : i ≤ (h.fNbins : Int) + 1) (hne : h1.GetBinContent i ≠ 0) :
    (h.Divide E h1).GetBinContent i = h.GetBinContent i / h1.GetBinContent i := by
  obtain ⟨d1, -⟩ := Divide_keeps E h h1
  unfold TH1D.GetBinContent
  rw [d1, clampBin_of_range h.fNbins i h0 hi]
  unfold TH1D.Divide
  simp only []
  split
  · obtain ⟨a1, -, -, a4, -⟩ := Sumw2_keeps h
    rw [a1, if_neg (by omega)]
    have hne1 : h1.fArray (clampBin h1.fNbins i) ≠ 0 := hne
    simp only [TH1D.GetBinContent, a1, a4, hne1, if_false]
    rw [clampBin_of_range h.fNbins i h0 hi]
  · rw [if_neg (by omega)]
    have hne1 : h1.fArray (clampBin h1.fNbins i) ≠ 0 := hne
    simp only [TH1D.GetBinContent, hne1, if_false]
    rw [clampBin_of_range h.fNbins i h0 hi]

/-- The content of a bin after `Scale` with the option `width`. -/
theorem Scale_width_content (E : Ext) (h : TH1D) (c : ℚ) (i : Int) (h0 : 0 ≤ i)
    (hi : i ≤ (h.fNbins : Int) + 1) :
    (h.Scale E c true).GetBinContent i = c * h.GetBinContent i / h.GetBinWidth := by
  unfold TH1D.GetBinContent
  have hn : (h.Scale E c true).fNbins = h.fNbins := rfl
  rw [hn, clampBin_of_range h.fNbins i h0 hi]
  unfold TH1D.Scale
  simp only [if_true]
  rw [if_neg (by omega)]
  simp only [TH1D.GetBinContent, clampBin_of_range h.fNbins i h0 hi]

/-- C13. When `Terminate` gets past its guards and ends without a fault, the exported
yield `dndeta`, titled `ALICE` and the name of the task, has the axis of the raw-yield
projection `raw`, the good-event count and the bin width are not zero, and for every bin
`i`, underflow and overflow included, whose content `norm_i` of the acceptance profile
before its scaling by `1 / accepted` is not zero,
`dndeta_i = raw_i / norm_i * (accepted / good) / width`. -/
theorem C13_differential_yield (E : Ext) (t t1 t2 : Task) (l : TerminateLocals)
    (hc : TerminateCounters E t = TerminateHead.goesOn t1 l)
    (hok : Terminate E t = Except.ok t2) :
    ∃ norm0 raw0 dndeta,
      ProjectX E (some l.sum) ("norm" ++ t.fName) 0 1 t.fCorrEmpty false = some norm0 ∧
      ProjectX E (some l.sum) ("dndeta" ++ t.fName) 1 (l.sum.fNbinsY : Int) t.fCorrEmpty
        E.projectXError = some raw0 ∧
      TObject.th1 dndeta ∈ outputObjects t2 ∧
      dndeta.fTitle = "ALICE " ++ t.fName ∧
      dndeta.fNbins = raw0.fNbins ∧ dndeta.GetBinWidth = raw0.GetBinWidth ∧
      (l.nGood : ℚ) ≠ 0 ∧ dndeta.GetBinWidth ≠ 0 ∧
      ∀ i : Int, 0 ≤ i → i ≤ (dndeta.fNbins : Int) + 1 → norm0.GetBinContent i ≠ 0 →
        dndeta.GetBinContent i =
          raw0.GetBinContent i / norm0.GetBinContent i *
            ((l.nAccepted : ℚ) / (l.nGood : ℚ)) / dndeta.GetBinWidth := by
  obtain ⟨norm0, raw0, vn, an, hn, hd, hv, -, hw, hm1, -⟩ :=
    Terminate_ok_projections E t t1 t2 l hc hok
  obtain ⟨-, -, -, -, -, -, -, -, -, -, -, -, -, hnorm, -⟩ :=
    TerminateCounters_goesOn_inv E t t1 l hc
  rw [hnorm] at hv
  obtain ⟨hgood, hvn⟩ := fdiv_toRat _ _ _ hv
  obtain ⟨d1, d2, d3, -⟩ := Divide_keeps E raw0 norm0
  have hwidth : (raw0.Divide E norm0).GetBinWidth = raw0.GetBinWidth := by
    unfold TH1D.GetBinWidth
    rw [d1, d2, d3]
  refine ⟨norm0, raw0, _, hn, hd, hm1, rfl, d1, hwidth, hgood, hwidth ▸ hw, ?_⟩
  intro i h0 hi hne
  have hi1 : i ≤ (raw0.fNbins : Int) + 1 := by
    have : ((raw0.Divide E norm0).fNbins : Int) = (raw0.fNbins : Int) := by rw [d1]
    have hi2 : i ≤ ((raw0.Divide E norm0).fNbins : Int) + 1 := hi
    omega
  have hs := Scale_width_content E (raw0.Divide E norm0) vn i h0 (by rw [d1]; exact hi1)
  have hdv := Divide_content E raw0 norm0 i h0 hi1 hne
  have hgw : TH1D.GetBinWidth { (raw0.Divide E norm0).Scale E vn true with
      fTitle := "ALICE " ++ t.fName } = raw0.GetBinWidth := hwidth
  have hgc : TH1D.GetBinContent { (raw0.Divide E norm0).Scale E vn true with
      fTitle := "ALICE " ++ t.fName } i = ((raw0.Divide E norm0).Scale E vn true).GetBinContent i :=
    rfl
  rw [hgw, hgc, hs, hdv, hwidth, hvn]
  ring

end BasedNdeta

namespace BasedNdeta

/-- C13 at the run of `plainTask exampleSum`, the example of the specification: two bins of
width `1/2` with raw content `4` and `8`, unit acceptance and the normalisation factor
`80 / 40 = 2` give the final content `16` and `32`. -/
theorem C13_differential_yield_witness :
    ∃ t2 norm0 raw0 dndeta, Terminate sampleExt (plainTask exampleSum) = Except.ok t2 ∧
      ProjectX sampleExt (some exampleSum) "normForward" 0 1 false false = some norm0 ∧
      ProjectX sampleExt (some exampleSum) "dndetaForward" 1 2 false true = some raw0 ∧
      TObject.th1 dndeta ∈ outputObjects t2 ∧ dndeta.GetBinWidth = 1 / 2 ∧
      raw0.GetBinContent 1 = 4 ∧ raw0.GetBinContent 2 = 8 ∧
      norm0.GetBinContent 1 = 1 ∧ norm0.GetBinContent 2 = 1 ∧
      dndeta.GetBinContent 1 = 16 ∧ dndeta.GetBinContent 2 = 32 := by
  obtain ⟨t1, l, t2, norm0, raw0, hc, hls, hacc, hgood, hn, hd, ht2, -⟩ :=
    plainTask_runs exampleSum rfl (by norm_num [exampleSum])
  obtain ⟨norm1, raw1, dndeta, hn1, hd1, hmem, -, hnb, hwid, -, -, hform⟩ :=
    C13_differential_yield sampleExt (plainTask exampleSum) t1 t2 l hc ht2
  rw [hls] at hn1 hd1
  have e1 : norm1 = norm0 := Option.some.inj (hn1.symm.trans hn)
  have e2 : raw1 = raw0 := Option.some.inj (hd1.symm.trans hd)
  subst e1
  subst e2
  have hr : intRange 0 1 = [0, 1] := by decide
  have hr2 : intRange 1 2 = [1, 2] := by decide
  have hf0 : clampFirst exampleSum.fNbinsY 0 = 0 := by decide
  have hl1 : clampLast exampleSum.fNbinsY 1 = 1 := by decide
  have hf1 : clampFirst exampleSum.fNbinsY 1 = 1 := by decide
  have hl2 : clampLast exampleSum.fNbinsY 2 = 2 := by decide
  have hc10 : exampleSum.GetCellContent 1 0 = 1 := by
    simp [TH2D.GetCellContent, exampleSum, clampBin]
  have hc11 : exampleSum.GetCellContent 1 1 = 0 := by
    simp [TH2D.GetCellContent, exampleSum, clampBin]
  have hc12 : exampleSum.GetCellContent 1 2 = 4 := by
    simp [TH2D.GetCellContent, exampleSum, clampBin]
  have hc20 : exampleSum.GetCellContent 2 0 = 1 := by
    simp [TH2D.GetCellContent, exampleSum, clampBin]
  have hc21 : exampleSum.GetCellContent 2 1 = 0 := by
    simp [TH2D.GetCellContent, exampleSum, clampBin]
  have hc22 : exampleSum.GetCellContent 2 2 = 8 := by
    simp [TH2D.GetCellContent, exampleSum, clampBin]
  have he : ∀ x y, exampleSum.GetCellError sampleExt x y = 1 := by
    intro x y
    simp [TH2D.GetCellError, exampleSum, sampleExt]
  have hn1v : norm1.GetBinContent 1 = 1 := by
    rw [ProjectX_cellsProjection sampleExt exampleSum "normForward" 0 1 false false norm1 hn 1
      (by decide) (by decide), hf0, hl1]
    simp [cellsProjection, unitErrorCells, hr, List.filter_cons, hc10, hc11, tiny]
    norm_num
    exact hc10
  have hn2v : norm1.GetBinContent 2 = 1 := by
    rw [ProjectX_cellsProjection sampleExt exampleSum "normForward" 0 1 false false norm1 hn 2
      (by decide) (by decide), hf0, hl1]
    simp [cellsProjection, unitErrorCells, hr, List.filter_cons, hc20, hc21, tiny]
    norm_num
    exact hc20
  have hr1v : raw1.GetBinContent 1 = 4 := by
    rw [ProjectX_cellsProjection sampleExt exampleSum "dndetaForward" 1 2 false true raw1 hd 1
      (by decide) (by decide), hf1, hl2]
    simp [cellsProjection, errorRespectingCells, hr2, List.filter_cons, hc11, hc12, he, tiny]
    norm_num
    exact hc12
  have hr2v : raw1.GetBinContent 2 = 8 := by
    rw [ProjectX_cellsProjection sampleExt exampleSum "dndetaForward" 1 2 false true raw1 hd 2
      (by decide) (by decide), hf1, hl2]
    simp [cellsProjection, errorRespectingCells, hr2, List.filter_cons, hc21, hc22, he, tiny]
    norm_num
    exact hc22
  obtain ⟨p1, p2, p3⟩ := ProjectX_axis sampleExt exampleSum "dndetaForward" 1 2 false true raw1
    hd
  have hnb2 : raw1.fNbins = 2 := by
    rw [p1]
    rfl
  have hw : dndeta.GetBinWidth = 1 / 2 := by
    rw [hwid]
    unfold TH1D.GetBinWidth
    rw [hnb2, p2, p3]
    norm_num [exampleSum]
  have hacc' : (l.nAccepted : ℚ) = 80 := by rw [hacc]; norm_num
  have hgood' : (l.nGood : ℚ) = 40 := by rw [hgood]; norm_num
  refine ⟨t2, norm1, raw1, dndeta, ht2, hn, hd, hmem, hw, hr1v, hr2v, hn1v, hn2v, ?_, ?_⟩
  · rw [hform 1 (by decide) (by rw [hnb, hnb2]; decide) (by rw [hn1v]; norm_num), hr1v, hn1v,
      hw, hacc', hgood']
    norm_num
  · rw [hform 2 (by decide) (by rw [hnb, hnb2]; decide) (by rw [hn2v]; norm_num), hr2v, hn2v,
      hw, hacc', hgood']
    norm_num

end BasedNdeta

namespace BasedNdeta

/-- The loop over the bins of one group in `Rebin`, without edge cutting, when every bin
with positive content has a non-zero error. -/
theorem foldl_rebinStep (E : Ext) (fRebin : Int) (h : TH1D) (i : Int) :
    ∀ (js : List Int) (a : RebinAcc),
      (∀ j ∈ js, 0 < h.GetBinContent ((i - 1) * fRebin + j) →
        TH1D.GetBinError E h ((i - 1) * fRebin + j) ≠ 0) →
      js.foldl (rebinStep E fRebin false h i) (Except.ok a) =
        Except.ok
          { content := a.content + (((js.map (fun j => (i - 1) * fRebin + j)).filter
              (fun b => decide (0 < h.GetBinContent b))).map h.GetBinContent).sum
            sumw := a.sumw + (((js.map (fun j => (i - 1) * fRebin + j)).filter
              (fun b => decide (0 < h.GetBinContent b))).map (binWeight E h)).sum
            wsum := a.wsum + (((js.map (fun j => (i - 1) * fRebin + j)).filter
              (fun b => decide (0 < h.GetBinContent b))).map
                (fun b => binWeight E h b * h.GetBinContent b)).sum
            nbins := a.nbins + (((js.map (fun j => (i - 1) * fRebin + j)).filter
              (fun b => decide (0 < h.GetBinContent b))).length : Int) }
  | [], a, _ => by simp
  | j :: js, a, herr => by
    rw [List.foldl_cons]
    by_cases hc : h.GetBinContent ((i - 1) * fRebin + j) ≤ 0
    · have hstep : rebinStep E fRebin false h i (Except.ok a) j = Except.ok a := by
        simp [rebinStep, hc]
      rw [hstep, foldl_rebinStep E fRebin h i js a
        (fun z hz => herr z (List.mem_cons_of_mem _ hz))]
      simp [List.filter_cons, not_lt.mpr hc]
    · have hpos : 0 < h.GetBinContent ((i - 1) * fRebin + j) := not_le.mp hc
      have he := herr j (List.mem_cons_self _ _) hpos
      have hee : TH1D.GetBinError E h ((i - 1) * fRebin + j) *
          TH1D.GetBinError E h ((i - 1) * fRebin + j) ≠ 0 := mul_ne_zero he he
      have hstep : rebinStep E fRebin false h i (Except.ok a) j =
          Except.ok { content := a.content + h.GetBinContent ((i - 1) * fRebin + j)
                      sumw := a.sumw + binWeight E h ((i - 1) * fRebin + j)
                      wsum := a.wsum + binWeight E h ((i - 1) * fRebin + j) *
                        h.GetBinContent ((i - 1) * fRebin + j)
                      nbins := a.nbins + 1 } := by
        simp only [rebinStep, hc, if_false, Bool.false_eq_true, false_and,
          fdiv_of_ne 1 _ hee, binWeight]
      rw [hstep, foldl_rebinStep E fRebin h i js _
        (fun z hz => herr z (List.mem_cons_of_mem _ hz))]
      simp only [List.map_cons, List.filter_cons, hpos, decide_True, if_true, List.sum_cons,
        List.length_cons, Nat.cast_add, Nat.cast_one, Except.ok.injEq, RebinAcc.mk.injEq]
      refine ⟨?_, ?_, ?_, ?_⟩ <;> ring

/-- The sum of positive numbers over a non-empty list is positive. -/
theorem sum_map_pos {α : Type} (f : α → ℚ) :
    ∀ l : List α, (∀ x ∈ l, 0 < f x) → l ≠ [] → 0 < (l.map f).sum
  | [], _, hne => absurd rfl hne
  | x :: xs, hall, _ => by
    have hx := hall x (List.mem_cons_self _ _)
    rw [List.map_cons, List.sum_cons]
    by_cases hxs : xs = []
    · subst hxs
      simpa using hx
    · have := sum_map_pos f xs (fun z hz => hall z (List.mem_cons_of_mem _ hz)) hxs
      linarith

/-- A bin of the group of new bin `i` is a bin `(i-1)*R + j` with `1 ≤ j ≤ R` and has
positive content. -/
theorem mem_groupBins (fRebin : Int) (h : TH1D) (i b : Int) :
    b ∈ groupBins fRebin h i ↔
      (∃ j, 1 ≤ j ∧ j ≤ fRebin ∧ b = (i - 1) * fRebin + j) ∧ 0 < h.GetBinContent b := by
  unfold groupBins
  simp only [List.mem_filter, List.mem_map, mem_intRange, decide_eq_true_eq]
  constructor
  · rintro ⟨⟨j, ⟨h1, h2⟩, rfl⟩, hpos⟩
    exact ⟨⟨j, h1, h2, rfl⟩, hpos⟩
  · rintro ⟨⟨j, h1, h2, rfl⟩, hpos⟩
    exact ⟨⟨j, ⟨h1, h2⟩, rfl⟩, hpos⟩

/-- One turn of the loop over the new bins in `Rebin`, without edge cutting, when every
bin of the group with positive content has a non-zero error and the root of the sum of
weights is not zero. -/
theorem rebinBin_value (E : Ext) (fRebin : Int) (h tmp : TH1D) (i : Int)
    (herr : ∀ b ∈ groupBins fRebin h i, TH1D.GetBinError E h b ≠ 0)
    (hsqrt : groupBins fRebin h i ≠ [] → E.Sqrt (groupSumw E fRebin h i) ≠ 0) :
    rebinBin E fRebin false h (Except.ok tmp) i =
      Except.ok (if groupBins fRebin h i = [] then tmp
        else (tmp.SetBinContent i (groupWsum E fRebin h i / groupSumw E fRebin h i)).SetBinError
          i (1 / E.Sqrt (groupSumw E fRebin h i))) := by
  have hfold := foldl_rebinStep E fRebin h i (intRange 1 fRebin)
    { content := 0, sumw := 0, wsum := 0, nbins := 0 }
    (fun j hj hpos => herr _ ((mem_groupBins fRebin h i _).mpr
      ⟨⟨j, ((mem_intRange _ _ _).mp hj).1, ((mem_intRange _ _ _).mp hj).2, rfl⟩, hpos⟩))
  simp only [zero_add] at hfold
  unfold rebinBin
  simp only [hfold]
  by_cases hne : groupBins fRebin h i = []
  · have hne' : List.filter (fun b => decide (0 < h.GetBinContent b))
        (List.map (fun j => (i - 1) * fRebin + j) (intRange 1 fRebin)) = [] := hne
    simp [hne, hne']
  · have hne' : List.filter (fun b => decide (0 < h.GetBinContent b))
        (List.map (fun j => (i - 1) * fRebin + j) (intRange 1 fRebin)) ≠ [] := hne
    have hcpos : 0 < ((groupBins fRebin h i).map h.GetBinContent).sum :=
      sum_map_pos _ _ (fun b hb => ((mem_groupBins fRebin h i b).mp hb).2) hne
    have hnpos : (0 : Int) < ((groupBins fRebin h i).length : Int) := by
      have : 0 < (groupBins fRebin h i).length := List.length_pos.mpr hne
      exact_mod_cast this
    have hwpos : 0 < groupSumw E fRebin h i := by
      apply sum_map_pos _ _ _ hne
      intro b hb
      have he := herr b hb
      unfold binWeight
      have : 0 < TH1D.GetBinError E h b * TH1D.GetBinError E h b := by
        rcases lt_or_gt_of_ne he with hlt | hgt
        · exact mul_pos_of_neg_of_neg hlt hlt
        · exact mul_pos hgt hgt
      positivity
    have hs := hsqrt hne
    have h1 := fdiv_of_ne (groupWsum E fRebin h i) (groupSumw E fRebin h i) (ne_of_gt hwpos)
    have h2 := fdiv_of_ne 1 (E.Sqrt (groupSumw E fRebin h i)) hs
    have hcond : ((groupBins fRebin h i).map h.GetBinContent).sum > 0 ∧
        ((groupBins fRebin h i).length : Int) > 0 := ⟨hcpos, hnpos⟩
    unfold groupBins at hcond
    unfold groupSumw groupWsum groupBins at h1
    unfold groupSumw groupBins at h2
    simp only [hcond, and_self, if_true, h1, h2]
    rw [if_neg hne]
    rfl

/-- The squared errors after `SetBinError (i, e)`. -/
theorem SetBinError_sumw2At (r : TH1D) (i : Int) (e : ℚ) (b : Int) :
    (r.SetBinError i e).sumw2At b =
      if b = i ∧ 0 ≤ i ∧ i < (r.fNbins : Int) + 2 then e * e else r.sumw2At b := by
  rcases r with ⟨n, t, nb, xmin, xmax, arr, sw⟩
  by_cases hr : i < 0 ∨ i ≥ (nb : Int) + 2
  · have hi : ¬ (b = i ∧ 0 ≤ i ∧ i < (nb : Int) + 2) := by omega
    cases sw <;> simp [TH1D.SetBinError, TH1D.Sumw2, TH1D.sumw2At, hr, hi]
  · by_cases hb : b = i
    · subst hb
      have hi : 0 ≤ b ∧ b < (nb : Int) + 2 := ⟨by omega, by omega⟩
      cases sw <;> simp [TH1D.SetBinError, TH1D.Sumw2, TH1D.sumw2At, hr, hi, Function.update]
    · cases sw <;> simp [TH1D.SetBinError, TH1D.Sumw2, TH1D.sumw2At, hr, hb, Function.update]

/-- The bins after `SetBinContent (i, c)` followed by `SetBinError (i, e)`: bin `i`, when
it is a bin of the histogram, holds `c` with the squared error `e * e`, and nothing else
changes. -/
theorem setContentError (r : TH1D) (i : Int) (c e : ℚ) :
    ((r.SetBinContent i c).SetBinError i e).fNbins = r.fNbins ∧
    ((r.SetBinContent i c).SetBinError i e).fXmin = r.fXmin ∧
    ((r.SetBinContent i c).SetBinError i e).fXmax = r.fXmax ∧
    (∀ b, ((r.SetBinContent i c).SetBinError i e).fArray b =
      if b = i ∧ 0 ≤ i ∧ i < (r.fNbins : Int) + 2 then c else r.fArray b) ∧
    (∀ b, ((r.SetBinContent i c).SetBinError i e).sumw2At b =
      if b = i ∧ 0 ≤ i ∧ i < (r.fNbins : Int) + 2 then e * e else r.sumw2At b) := by
  obtain ⟨a1, a2, a3, a4, -⟩ := SetBinError_keeps (r.SetBinContent i c) i e
  obtain ⟨b1, b2, b3, b4, -⟩ := SetBinContent_keeps r i c
  have hcont : ∀ b, (r.SetBinContent i c).fArray b =
      if b = i ∧ 0 ≤ i ∧ i < (r.fNbins : Int) + 2 then c else r.fArray b := by
    intro b
    unfold TH1D.SetBinContent
    by_cases hr : i < 0 ∨ i ≥ (r.fNbins : Int) + 2
    · rw [if_pos hr, if_neg (by omega)]
    · rw [if_neg hr]
      by_cases hb : b = i
      · subst hb
        rw [if_pos ⟨rfl, by omega, by omega⟩]
        simp [Function.update]
      · rw [if_neg (fun hh => hb hh.1)]
        simp [Function.update, hb]
  refine ⟨a1.trans b1, a2.trans b2, a3.trans b3, fun b => ?_, fun b => ?_⟩
  · rw [a4, hcont]
  · rw [SetBinError_sumw2At, b1]
    by_cases hi : b = i ∧ 0 ≤ i ∧ i < (r.fNbins : Int) + 2
    · rw [if_pos hi, if_pos hi]
    · rw [if_neg hi, if_neg hi]
      have hcb := hcont b
      rw [if_neg hi] at hcb
      unfold TH1D.sumw2At
      rw [b4, hcb]

/-- The loop over the new bins in `Rebin`, without edge cutting, when every bin with
positive content has a non-zero error and the roots of the sums of weights are not zero:
it ends without a fault, and every new bin of the list whose group has a bin with positive
content holds the weighted mean and the squared error `(1 / Sqrt sumw)^2`. -/
theorem foldl_rebinBin (E : Ext) (fRebin : Int) (h : TH1D) :
    ∀ (is : List Int) (tmp : TH1D),
      (∀ i ∈ is, ∀ b ∈ groupBins fRebin h i, TH1D.GetBinError E h b ≠ 0) →
      (∀ i ∈ is, groupBins fRebin h i ≠ [] → E.Sqrt (groupSumw E fRebin h i) ≠ 0) →
      (∀ i ∈ is, 0 ≤ i ∧ i < (tmp.fNbins : Int) + 2) →
      ∃ r, is.foldl (rebinBin E fRebin false h) (Except.ok tmp) = Except.ok r ∧
        r.fNbins = tmp.fNbins ∧ r.fXmin = tmp.fXmin ∧ r.fXmax = tmp.fXmax ∧
        (∀ b, r.fArray b =
          if b ∈ is ∧ groupBins fRebin h b ≠ [] then
            groupWsum E fRebin h b / groupSumw E fRebin h b
          else tmp.fArray b) ∧
        (∀ b, r.sumw2At b =
          if b ∈ is ∧ groupBins fRebin h b ≠ [] then
            (1 / E.Sqrt (groupSumw E fRebin h b)) * (1 / E.Sqrt (groupSumw E fRebin h b))
          else tmp.sumw2At b)
  | [], tmp, _, _, _ => ⟨tmp, rfl, rfl, rfl, rfl, fun b => by simp, fun b => by simp⟩
  | i :: is, tmp, herr, hsqrt, hrange => by
    have hv := rebinBin_value E fRebin h tmp i (herr i (List.mem_cons_self _ _))
      (hsqrt i (List.mem_cons_self _ _))
    obtain ⟨hi0, hi1⟩ := hrange i (List.mem_cons_self _ _)
    obtain ⟨s1, s2, s3, s4, s5⟩ := setContentError tmp i
      (groupWsum E fRebin h i / groupSumw E fRebin h i)
      (1 / E.Sqrt (groupSumw E fRebin h i))
    have hin : ∀ b, (b = i ∧ 0 ≤ i ∧ i < (tmp.fNbins : Int) + 2) ↔ b = i :=
      fun b => ⟨fun hh => hh.1, fun hh => ⟨hh, hi0, hi1⟩⟩
    simp only [hin] at s4 s5
    rw [List.foldl_cons, hv]
    by_cases hne : groupBins fRebin h i = []
    · rw [if_pos hne]
      obtain ⟨r, hr, r1, r2, r3, r4, r5⟩ := foldl_rebinBin E fRebin h is tmp
        (fun z hz => herr z (List.mem_cons_of_mem _ hz))
        (fun z hz => hsqrt z (List.mem_cons_of_mem _ hz))
        (fun z hz => hrange z (List.mem_cons_of_mem _ hz))
      refine ⟨r, hr, r1, r2, r3, fun b => ?_, fun b => ?_⟩
      · rw [r4 b]
        by_cases hb : b = i
        · subst hb
          simp [hne]
        · simp [hb]
      · rw [r5 b]
        by_cases hb : b = i
        · subst hb
          simp [hne]
        · simp [hb]
    · rw [if_neg hne]
      obtain ⟨r, hr, r1, r2, r3, r4, r5⟩ := foldl_rebinBin E fRebin h is
        ((tmp.SetBinContent i (groupWsum E fRebin h i / groupSumw E fRebin h i)).SetBinError i
          (1 / E.Sqrt (groupSumw E fRebin h i)))
        (fun z hz => herr z (List.mem_cons_of_mem _ hz))
        (fun z hz => hsqrt z (List.mem_cons_of_mem _ hz))
        (fun z hz => by
          rw [s1]
          exact hrange z (List.mem_cons_of_mem _ hz))
      refine ⟨r, hr, r1.trans s1, r2.trans s2, r3.trans s3, fun b => ?_, fun b => ?_⟩
      · rw [r4 b, s4 b]
        by_cases hb : b = i
        · subst hb
          simp [hne]
        · simp [hb]
      · rw [r5 b, s5 b]
        by_cases hb : b = i
        · subst hb
          simp [hne]
        · simp [hb]

end BasedNdeta
namespace BasedNdeta

/-- The bins of a group of `Rebin` are bins of the histogram. -/
theorem groupBins_range (fRebin : Int) (h : TH1D) (i b : Int) (hR : 1 < fRebin)
    (hdiv : (h.fNbins : Int) % fRebin = 0) (hi1 : 1 ≤ i) (hi2 : i ≤ (h.fNbins : Int) / fRebin)
    (hb : b ∈ groupBins fRebin h i) :
    (i - 1) * fRebin + 1 ≤ b ∧ b ≤ i * fRebin ∧ 1 ≤ b ∧ b ≤ (h.fNbins : Int) ∧
      0 < h.GetBinContent b := by
  obtain ⟨⟨j, hj1, hj2, rfl⟩, hpos⟩ := (mem_groupBins fRebin h i _).mp hb
  have h0 : 0 ≤ (i - 1) * fRebin := mul_nonneg (by omega) (by omega)
  have h1 : i * fRebin ≤ (h.fNbins : Int) / fRebin * fRebin :=
    Int.mul_le_mul_of_nonneg_right hi2 (by omega)
  have h2 : (h.fNbins : Int) / fRebin * fRebin = (h.fNbins : Int) :=
    Int.ediv_mul_cancel (Int.dvd_of_emod_eq_zero hdiv)
  have h3 : i * fRebin = (i - 1) * fRebin + fRebin := by ring
  refine ⟨by linarith, by linarith, by linarith, by linarith, hpos⟩

/-- What `Rebin` returns without edge cutting for a rebin factor above one that divides the
bin count, when every bin with positive content has a non-zero error and the root is not
zero on positive numbers: a histogram on the axis of `h` with `nBins / R` bins, in which
a new bin whose group has a bin with positive content holds the weighted mean of these and
the squared error `(1 / Sqrt sumw)^2`, and any other new bin the sum of its group. -/
theorem Rebin_value (E : Ext) (fRebin : Int) (h : TH1D) (hR : 1 < fRebin)
    (hdiv : (h.fNbins : Int) % fRebin = 0)
    (herr : ∀ b : Int, 1 ≤ b → b ≤ (h.fNbins : Int) → 0 < h.GetBinContent b →
      TH1D.GetBinError E h b ≠ 0)
    (hsqrt : ∀ x : ℚ, 0 < x → E.Sqrt x ≠ 0) :
    ∃ r, Rebin E fRebin false h = Except.ok (some r) ∧
      (r.fNbins : Int) = (h.fNbins : Int) / fRebin ∧
      r.fNbins = h.fNbins / fRebin.toNat ∧ r.fXmin = h.fXmin ∧ r.fXmax = h.fXmax ∧
      ∀ i : Int, 1 ≤ i → i ≤ (h.fNbins : Int) / fRebin →
        (groupBins fRebin h i ≠ [] →
          r.GetBinContent i = groupWsum E fRebin h i / groupSumw E fRebin h i ∧
          r.sumw2At i =
            (1 / E.Sqrt (groupSumw E fRebin h i)) * (1 / E.Sqrt (groupSumw E fRebin h i))) ∧
        (groupBins fRebin h i = [] →
          r.GetBinContent i =
            ((intRange ((i - 1) * fRebin + 1) (i * fRebin)).map h.GetBinContent).sum) := by
  have hRnat : ((fRebin.toNat : Nat) : Int) = fRebin := Int.toNat_of_nonneg (by omega)
  have hnew : (((h.fNbins / fRebin.toNat : Nat)) : Int) = (h.fNbins : Int) / fRebin := by
    rw [Int.natCast_ediv, hRnat]
    rfl
  have herr' : ∀ i ∈ intRange 1 ((h.fNbins : Int) / fRebin),
      ∀ b ∈ groupBins fRebin h i, TH1D.GetBinError E h b ≠ 0 := by
    intro i hi b hb
    obtain ⟨hi1, hi2⟩ := (mem_intRange _ _ _).mp hi
    obtain ⟨-, -, hb1, hb2, hpos⟩ := groupBins_range fRebin h i b hR hdiv hi1 hi2 hb
    exact herr b hb1 hb2 hpos
  have hsq' : ∀ i ∈ intRange 1 ((h.fNbins : Int) / fRebin),
      groupBins fRebin h i ≠ [] → E.Sqrt (groupSumw E fRebin h i) ≠ 0 := by
    intro i hi hne
    apply hsqrt
    apply sum_map_pos _ _ _ hne
    intro b hb
    have he := herr' i hi b hb
    unfold binWeight
    have : 0 < TH1D.GetBinError E h b * TH1D.GetBinError E h b := by
      rcases lt_or_gt_of_ne he with hlt | hgt
      · exact mul_pos_of_neg_of_neg hlt hlt
      · exact mul_pos hgt hgt
    positivity
  obtain ⟨r, hr, r1, r2, r3, r4, r5⟩ := foldl_rebinBin E fRebin h
    (intRange 1 ((h.fNbins : Int) / fRebin))
    ((h.Clone (h.fName ++ "_rebin" ++ (if fRebin < 10 then "0" else "") ++
      toString fRebin)).RebinROOT E fRebin.toNat) herr' hsq'
    (fun i hi => by
      obtain ⟨hi1, hi2⟩ := (mem_intRange _ _ _).mp hi
      have : (((h.Clone (h.fName ++ "_rebin" ++ (if fRebin < 10 then "0" else "") ++
        toString fRebin)).RebinROOT E fRebin.toNat).fNbins : Int) =
          (h.fNbins : Int) / fRebin := hnew
      omega)
  have hrn : (r.fNbins : Int) = (h.fNbins : Int) / fRebin := by
    rw [r1]
    exact hnew
  refine ⟨r, ?_, hrn, r1, r2, r3, ?_⟩
  · unfold Rebin
    rw [if_neg (by omega), if_neg (by simp [hdiv])]
    simp only [hr]
  · intro i hi1 hi2
    have hmem : i ∈ intRange 1 ((h.fNbins : Int) / fRebin) :=
      (mem_intRange _ _ _).mpr ⟨hi1, hi2⟩
    have hclamp : clampBin r.fNbins i = i := clampBin_of_range r.fNbins i (by omega) (by omega)
    constructor
    · intro hne
      have h5 := r5 i
      rw [if_pos ⟨hmem, hne⟩] at h5
      refine ⟨?_, h5⟩
      rw [TH1D.GetBinContent, hclamp, r4 i, if_pos ⟨hmem, hne⟩]
    · intro hnil
      rw [TH1D.GetBinContent, hclamp, r4 i, if_neg (fun hh => hh.2 hnil)]
      simp only [TH1D.RebinROOT, TH1D.Clone]
      rw [if_neg (by omega), if_neg (by omega), hRnat]
      rfl

/-- C14. For a histogram `h` whose bin count is divisible by the rebin factor `R > 1`, with
edge cutting off, a positive error in every bin with positive content, and a root that is
positive on positive numbers: `Rebin` returns a histogram with `nBins / R` bins, and every
new bin `i` whose group (the bins `(i-1)*R+1 .. i*R` of `h`) has a bin with positive
content holds the content `sum (w_j * c_j) / sum w_j` and the stored squared error
`(1 / Sqrt (sum w_j))^2`, with `w_j = 1 / e_j^2` and both sums over the bins of the group
with `c_j > 0`; its bin error is the root of the stored value, which is `1 / Sqrt (sum w_j)`
when the root is exact at that square. -/
theorem C14_rebin_weighted_mean (E : Ext) (fRebin : Int) (h : TH1D) (hR : 1 < fRebin)
    (hdiv : (h.fNbins : Int) % fRebin = 0)
    (herr : ∀ b : Int, 1 ≤ b → b ≤ (h.fNbins : Int) → 0 < h.GetBinContent b →
      0 < TH1D.GetBinError E h b)
    (hsqrt : ∀ x : ℚ, 0 < x → 0 < E.Sqrt x) :
    ∃ r, Rebin E fRebin false h = Except.ok (some r) ∧
      (r.fNbins : Int) = (h.fNbins : Int) / fRebin ∧
      ∀ i : Int, 1 ≤ i → i ≤ (h.fNbins : Int) / fRebin → groupBins fRebin h i ≠ [] →
        (∀ b, b ∈ groupBins fRebin h i ↔
          ((i - 1) * fRebin + 1 ≤ b ∧ b ≤ i * fRebin ∧ 0 < h.GetBinContent b)) ∧
        r.GetBinContent i = groupWsum E fRebin h i / groupSumw E fRebin h i ∧
        r.sumw2At i =
          (1 / E.Sqrt (groupSumw E fRebin h i)) * (1 / E.Sqrt (groupSumw E fRebin h i)) ∧
        TH1D.GetBinError E r i =
          E.Sqrt ((1 / E.Sqrt (groupSumw E fRebin h i)) *
            (1 / E.Sqrt (groupSumw E fRebin h i))) ∧
        (E.Sqrt ((1 / E.Sqrt (groupSumw E fRebin h i)) *
            (1 / E.Sqrt (groupSumw E fRebin h i))) = 1 / E.Sqrt (groupSumw E fRebin h i) →
          TH1D.GetBinError E r i = 1 / E.Sqrt (groupSumw E fRebin h i)) := by
  obtain ⟨r, hr, hrn, -, -, -, hall⟩ := Rebin_value E fRebin h hR hdiv
    (fun b h1 h2 h3 => ne_of_gt (herr b h1 h2 h3)) (fun x hx => ne_of_gt (hsqrt x hx))
  refine ⟨r, hr, hrn, ?_⟩
  intro i hi1 hi2 hne
  obtain ⟨hc, h5⟩ := (hall i hi1 hi2).1 hne
  have hclamp : clampBin r.fNbins i = i := clampBin_of_range r.fNbins i (by omega) (by omega)
  have hge : TH1D.GetBinError E r i =
      E.Sqrt ((1 / E.Sqrt (groupSumw E fRebin h i)) *
        (1 / E.Sqrt (groupSumw E fRebin h i))) := by
    rw [GetBinError_eq_sumw2At, hclamp, h5]
  refine ⟨fun b => ?_, hc, h5, hge, fun hex => hge.trans hex⟩
  constructor
  · intro hb
    obtain ⟨g1, g2, -, -, g5⟩ := groupBins_range fRebin h i b hR hdiv hi1 hi2 hb
    exact ⟨g1, g2, g5⟩
  · rintro ⟨g1, g2, g3⟩
    refine (mem_groupBins fRebin h i b).mpr ⟨⟨b - (i - 1) * fRebin, by linarith, ?_, by ring⟩,
      g3⟩
    have h3 : i * fRebin = (i - 1) * fRebin + fRebin := by ring
    linarith

/-- C14 at the histogram `fourBins` with the rebin factor `2`: the first new bin averages
the contents `1` and `3` with equal weights to `2`, the second holds the only positive
content `2` of its group. -/
theorem C14_rebin_weighted_mean_witness :
    ∃ r, Rebin sampleExt 2 false fourBins = Except.ok (some r) ∧ (r.fNbins : Int) = 2 ∧
      r.GetBinContent 1 = 2 ∧ r.GetBinContent 2 = 2 := by
  have he : ∀ b, TH1D.GetBinError sampleExt fourBins b = 1 := by
    intro b
    simp [TH1D.GetBinError, fourBins, sampleExt]
  obtain ⟨r, hr, hn, hall⟩ := C14_rebin_weighted_mean sampleExt 2 fourBins (by decide)
    (by decide) (fun b _ _ _ => by rw [he]; norm_num)
    (fun x hx => by
      have : ¬ x ≤ 0 := not_le.mpr hx
      simp only [sampleExt, this, if_false]
      linarith)
  have hr12 : intRange 1 2 = [1, 2] := by decide
  have c1 : fourBins.GetBinContent 1 = 1 := by simp [TH1D.GetBinContent, fourBins, clampBin]
  have c2 : fourBins.GetBinContent 2 = 3 := by simp [TH1D.GetBinContent, fourBins, clampBin]
  have c3 : fourBins.GetBinContent 3 = 0 := by simp [TH1D.GetBinContent, fourBins, clampBin]
  have c4 : fourBins.GetBinContent 4 = 2 := by simp [TH1D.GetBinContent, fourBins, clampBin]
  have g1 : groupBins 2 fourBins 1 = [1, 2] := by
    simp [groupBins, hr12, List.filter_cons, c1, c2]
  have g2 : groupBins 2 fourBins 2 = [4] := by
    simp [groupBins, hr12, List.filter_cons, c3, c4]
  have hq : ((fourBins.fNbins : Nat) : Int) / 2 = 2 := by decide
  refine ⟨r, hr, hn.trans hq, ?_, ?_⟩
  · obtain ⟨-, hc, -⟩ := hall 1 (by decide) (by decide) (by rw [g1]; simp)
    rw [hc]
    simp [groupWsum, groupSumw, g1, binWeight, he, c1, c2]
    norm_num
  · obtain ⟨-, hc, -⟩ := hall 2 (by decide) (by decide) (by rw [g2]; simp)
    rw [hc]
    simp [groupWsum, groupSumw, g2, binWeight, he, c4]

end BasedNdeta
namespace BasedNdeta

/-- A range of integers splits at any point. -/
theorem intRange_append (lo mid hi : Int) (h1 : lo ≤ mid + 1) (h2 : mid ≤ hi) :
    intRange lo hi = intRange lo mid ++ intRange (mid + 1) hi := by
  unfold intRange
  have e : (hi + 1 - lo).toNat = (mid + 1 - lo).toNat + (hi + 1 - (mid + 1)).toNat := by omega
  rw [e, List.range_add, List.map_append, List.map_map]
  congr 1
  apply List.map_congr_left
  intro k _
  simp only [Function.comp, Nat.cast_add]
  omega

/-- A range of integers is a shifted range from one. -/
theorem intRange_shift (a n : Int) :
    intRange (a + 1) (a + n) = (intRange 1 n).map (fun j => a + j) := by
  unfold intRange
  have e : (a + n + 1 - (a + 1)).toNat = (n + 1 - 1).toNat := by omega
  rw [e, List.map_map]
  apply List.map_congr_left
  intro k _
  simp only [Function.comp]
  omega

/-- The sum over the bins `1 .. n * R` is the sum over the `n` groups of `R` bins. -/
theorem sum_groups (f : Int → ℚ) (R : Int) (hR : 0 ≤ R) :
    ∀ n : Nat, ((intRange 1 (n : Int)).map
        (fun i => ((intRange 1 R).map (fun j => f ((i - 1) * R + j))).sum)).sum =
      ((intRange 1 ((n : Int) * R)).map f).sum
  | 0 => by simp [intRange]
  | n + 1 => by
    have ih := sum_groups f R hR n
    have hn : 0 ≤ (n : Int) * R := mul_nonneg (by omega) hR
    have e1 : intRange 1 ((n + 1 : Nat) : Int) = intRange 1 (n : Int) ++ [(n : Int) + 1] := by
      rw [intRange_append 1 (n : Int) ((n + 1 : Nat) : Int) (by omega) (by push_cast; omega)]
      congr 1
      unfold intRange
      have : (((n + 1 : Nat) : Int) + 1 - ((n : Int) + 1)).toNat = 1 := by push_cast; omega
      rw [this]
      simp [List.range_succ]
    have e2 : intRange 1 (((n + 1 : Nat) : Int) * R) =
        intRange 1 ((n : Int) * R) ++ (intRange 1 R).map (fun j => (n : Int) * R + j) := by
      have e3 : ((n + 1 : Nat) : Int) * R = (n : Int) * R + R := by push_cast; ring
      rw [e3, intRange_append 1 ((n : Int) * R) ((n : Int) * R + R) (by omega) (by omega),
        intRange_shift]
    rw [e1, e2, List.map_append, List.sum_append, ih, List.map_append, List.sum_append,
      List.map_map]
    simp only [List.map_cons, List.map_nil, List.sum_cons, List.sum_nil, add_zero,
      add_sub_cancel_right]
    rfl

end BasedNdeta

namespace BasedNdeta

/-- Without edge cutting and with one non-zero error in every bin, the new bin of a group
whose bins all have positive content holds their mean, and the new bin of a group whose
bins are all zero holds zero: in both cases `R` times the new content is the sum of the
group. -/
theorem Rebin_group_mean (E : Ext) (fRebin : Int) (h r : TH1D) (hR : 1 < fRebin)
    (hdiv : (h.fNbins : Int) % fRebin = 0) (e : ℚ) (he : e ≠ 0)
    (herr : ∀ b : Int, 1 ≤ b → b ≤ (h.fNbins : Int) → TH1D.GetBinError E h b = e)
    (i : Int) (hi1 : 1 ≤ i) (hi2 : i ≤ (h.fNbins : Int) / fRebin)
    (hpos : groupBins fRebin h i ≠ [] →
      r.GetBinContent i = groupWsum E fRebin h i / groupSumw E fRebin h i)
    (hnil : groupBins fRebin h i = [] →
      r.GetBinContent i =
        ((intRange ((i - 1) * fRebin + 1) (i * fRebin)).map h.GetBinContent).sum)
    (hgroup : (∀ b, (i - 1) * fRebin + 1 ≤ b → b ≤ i * fRebin → 0 < h.GetBinContent b) ∨
      (∀ b, (i - 1) * fRebin + 1 ≤ b → b ≤ i * fRebin → h.GetBinContent b = 0)) :
    r.GetBinContent i * (fRebin : ℚ) =
      ((intRange 1 fRebin).map (fun j => h.GetBinContent ((i - 1) * fRebin + j))).sum := by
  have hmul : i * fRebin = (i - 1) * fRebin + fRebin := by ring
  rcases hgroup with hall | hzero
  · have hg : groupBins fRebin h i = (intRange 1 fRebin).map (fun j => (i - 1) * fRebin + j) := by
      unfold groupBins
      apply List.filter_eq_self.mpr
      intro b hb
      obtain ⟨j, hj, rfl⟩ := List.mem_map.mp hb
      obtain ⟨hj1, hj2⟩ := (mem_intRange _ _ _).mp hj
      exact decide_eq_true (hall _ (by linarith) (by linarith))
    have hlen : (intRange 1 fRebin).length = fRebin.toNat := by
      unfold intRange
      simp
    have hne : groupBins fRebin h i ≠ [] := by
      intro hh
      have : (groupBins fRebin h i).length = fRebin.toNat := by rw [hg, List.length_map, hlen]
      rw [hh] at this
      simp at this
      omega
    have hw : ∀ b ∈ groupBins fRebin h i, binWeight E h b = 1 / (e * e) := by
      intro b hb
      obtain ⟨-, -, hb1, hb2, -⟩ := groupBins_range fRebin h i b hR hdiv hi1 hi2 hb
      unfold binWeight
      rw [herr b hb1 hb2]
    have hsumw : groupSumw E fRebin h i = (fRebin : ℚ) * (1 / (e * e)) := by
      unfold groupSumw
      rw [List.map_congr_left hw, List.map_const', List.sum_replicate, hg, List.length_map,
        hlen, nsmul_eq_mul]
      have : ((fRebin.toNat : Nat) : ℚ) = (fRebin : ℚ) := by
        have := Int.toNat_of_nonneg (show (0 : Int) ≤ fRebin by omega)
        exact_mod_cast this
      rw [this]
    have hwsum : groupWsum E fRebin h i =
        (1 / (e * e)) * ((groupBins fRebin h i).map h.GetBinContent).sum := by
      unfold groupWsum
      rw [List.map_congr_left (fun b hb => by rw [hw b hb]), List.sum_map_mul_left]
    have hR0 : (fRebin : ℚ) ≠ 0 := by
      have : (0 : ℚ) < (fRebin : ℚ) := by exact_mod_cast (show (0 : Int) < fRebin by omega)
      exact ne_of_gt this
    have hee : e * e ≠ 0 := mul_ne_zero he he
    rw [hpos hne, hsumw, hwsum, hg, List.map_map]
    have hcomp : (h.GetBinContent ∘ fun j => (i - 1) * fRebin + j) =
        fun j => h.GetBinContent ((i - 1) * fRebin + j) := rfl
    rw [hcomp]
    field_simp
  · have hg : groupBins fRebin h i = [] := by
      unfold groupBins
      apply List.filter_eq_nil_iff.mpr
      intro b hb
      obtain ⟨j, hj, rfl⟩ := List.mem_map.mp hb
      obtain ⟨hj1, hj2⟩ := (mem_intRange _ _ _).mp hj
      rw [decide_eq_true_eq, hzero _ (by linarith) (by linarith)]
      exact lt_irrefl 0
    have hz1 : ((intRange ((i - 1) * fRebin + 1) (i * fRebin)).map h.GetBinContent).sum = 0 := by
      apply List.sum_eq_zero
      intro x hx
      obtain ⟨b, hb, rfl⟩ := List.mem_map.mp hx
      obtain ⟨hb1, hb2⟩ := (mem_intRange _ _ _).mp hb
      exact hzero b hb1 hb2
    have hz2 : ((intRange 1 fRebin).map
        (fun j => h.GetBinContent ((i - 1) * fRebin + j))).sum = 0 := by
      apply List.sum_eq_zero
      intro x hx
      obtain ⟨j, hj, rfl⟩ := List.mem_map.mp hx
      obtain ⟨hj1, hj2⟩ := (mem_intRange _ _ _).mp hj
      exact hzero _ (by linarith) (by linarith)
    rw [hnil hg, hz1, hz2, zero_mul]

/-- The bin width after `Rebin` is `R` times the bin width before. -/
theorem Rebin_width (fRebin : Int) (h r : TH1D) (hR : 1 < fRebin)
    (hdiv : (h.fNbins : Int) % fRebin = 0) (hn : r.fNbins = h.fNbins / fRebin.toNat)
    (hmin : r.fXmin = h.fXmin) (hmax : r.fXmax = h.fXmax) :
    r.GetBinWidth = (fRebin : ℚ) * h.GetBinWidth := by
  have hRnat : ((fRebin.toNat : Nat) : Int) = fRebin := Int.toNat_of_nonneg (by omega)
  have hRq : ((fRebin.toNat : Nat) : ℚ) = (fRebin : ℚ) := by exact_mod_cast hRnat
  have hdvd : fRebin.toNat ∣ h.fNbins := by
    have : (fRebin : Int) ∣ (h.fNbins : Int) := Int.dvd_of_emod_eq_zero hdiv
    rw [← hRnat] at this
    exact Int.natCast_dvd_natCast.mp this
  have hR0 : (fRebin : ℚ) ≠ 0 := by
    have : (0 : ℚ) < (fRebin : ℚ) := by exact_mod_cast (show (0 : Int) < fRebin by omega)
    exact ne_of_gt this
  unfold TH1D.GetBinWidth
  rw [hn, hmin, hmax, Nat.cast_div hdvd (by rw [hRq]; exact hR0), hRq]
  by_cases h0 : (h.fNbins : ℚ) = 0
  · simp [h0]
  · field_simp
    ring

/-- C15, as stated, fails in two ways.  The rebin factor `1` divides every bin count, but
`Rebin` returns no histogram for a factor of at most one.  And for the histogram `fourBins`
(contents `1`, `3`, `0`, `2`, width `1/2`, the same error `1` in every bin) and the factor
`2`, `Rebin` averages over the bins with positive content only: the new bins hold `2` and
`2` with width `1`, so the sum of content times width is `4`, while it is `3` for
`fourBins`. -/
theorem C15_rebin_counterexample :
    ((fourBins.fNbins : Int) % 1 = 0 ∧ Rebin sampleExt 1 false fourBins = Except.ok none) ∧
    ((fourBins.fNbins : Int) % 2 = 0 ∧
      (∀ b, TH1D.GetBinError sampleExt fourBins b = 1) ∧
      ∃ r, Rebin sampleExt 2 false fourBins = Except.ok (some r) ∧
        integralWidth r = 4 ∧ integralWidth fourBins = 3) := by
  have he : ∀ b, TH1D.GetBinError sampleExt fourBins b = 1 := by
    intro b
    simp [TH1D.GetBinError, fourBins, sampleExt]
  have hr12 : intRange 1 2 = [1, 2] := by decide
  have hr14 : intRange 1 4 = [1, 2, 3, 4] := by decide
  have c1 : fourBins.GetBinContent 1 = 1 := by simp [TH1D.GetBinContent, fourBins, clampBin]
  have c2 : fourBins.GetBinContent 2 = 3 := by simp [TH1D.GetBinContent, fourBins, clampBin]
  have c3 : fourBins.GetBinContent 3 = 0 := by simp [TH1D.GetBinContent, fourBins, clampBin]
  have c4 : fourBins.GetBinContent 4 = 2 := by simp [TH1D.GetBinContent, fourBins, clampBin]
  have g1 : groupBins 2 fourBins 1 = [1, 2] := by
    simp [groupBins, hr12, List.filter_cons, c1, c2]
  have g2 : groupBins 2 fourBins 2 = [4] := by
    simp [groupBins, hr12, List.filter_cons, c3, c4]
  have hw4 : fourBins.GetBinWidth = 1 / 2 := by norm_num [TH1D.GetBinWidth, fourBins]
  refine ⟨⟨by decide, by simp [Rebin]⟩, by decide, he, ?_⟩
  obtain ⟨r, hr, -, hn, hmin, hmax, hall⟩ := Rebin_value sampleExt 2 fourBins (by decide)
    (by decide) (fun b _ _ _ => by rw [he]; norm_num)
    (fun x hx => by
      have : ¬ x ≤ 0 := not_le.mpr hx
      simp only [sampleExt, this, if_false]
      linarith)
  have hw := Rebin_width 2 fourBins r (by decide) (by decide) hn hmin hmax
  have hn2 : r.fNbins = 2 := hn
  have hc1 : r.GetBinContent 1 = 2 := by
    rw [((hall 1 (by decide) (by decide)).1 (by rw [g1]; simp)).1]
    simp [groupWsum, groupSumw, g1, binWeight, he, c1, c2]
    norm_num
  have hc2 : r.GetBinContent 2 = 2 := by
    rw [((hall 2 (by decide) (by decide)).1 (by rw [g2]; simp)).1]
    simp [groupWsum, groupSumw, g2, binWeight, he, c4]
  refine ⟨r, hr, ?_, ?_⟩
  · unfold integralWidth
    rw [hn2, hw, hw4]
    simp [hr12, hc1, hc2]
    norm_num
  · unfold integralWidth
    have : ((fourBins.fNbins : Nat) : Int) = 4 := rfl
    rw [this, hr14, hw4]
    simp [c1, c2, c3, c4]
    norm_num

/-- C15, amended. For a histogram `H` whose bin count is divisible by the rebin factor
`R > 1`, with edge cutting off, the same non-zero error in every bin, a root that is positive
on positive numbers, and every group of `R` bins either entirely of positive content or
entirely zero: `Rebin (H)` exists, has `nBins / R` bins of `R` times the width, and the sum
of content times width over its bins is that of `H`. -/
theorem C15_rebin_integral (E : Ext) (fRebin : Int) (h : TH1D) (hR : 1 < fRebin)
    (hdiv : (h.fNbins : Int) % fRebin = 0) (e : ℚ) (he : e ≠ 0)
    (herr : ∀ b : Int, 1 ≤ b → b ≤ (h.fNbins : Int) → TH1D.GetBinError E h b = e)
    (hsqrt : ∀ x : ℚ, 0 < x → 0 < E.Sqrt x)
    (hgroups : ∀ i : Int, 1 ≤ i → i ≤ (h.fNbins : Int) / fRebin →
      (∀ b, (i - 1) * fRebin + 1 ≤ b → b ≤ i * fRebin → 0 < h.GetBinContent b) ∨
      (∀ b, (i - 1) * fRebin + 1 ≤ b → b ≤ i * fRebin → h.GetBinContent b = 0)) :
    ∃ r, Rebin E fRebin false h = Except.ok (some r) ∧
      (r.fNbins : Int) = (h.fNbins : Int) / fRebin ∧
      r.GetBinWidth = (fRebin : ℚ) * h.GetBinWidth ∧
      integralWidth r = integralWidth h := by
  obtain ⟨r, hr, hrn, hrn', hmin, hmax, hall⟩ := Rebin_value E fRebin h hR hdiv
    (fun b h1 h2 _ => by rw [herr b h1 h2]; exact he) (fun x hx => ne_of_gt (hsqrt x hx))
  have hw := Rebin_width fRebin h r hR hdiv hrn' hmin hmax
  refine ⟨r, hr, hrn, hw, ?_⟩
  have hRnat : ((fRebin.toNat : Nat) : Int) = fRebin := Int.toNat_of_nonneg (by omega)
  have hnR : ((h.fNbins / fRebin.toNat : Nat) : Int) * fRebin = (h.fNbins : Int) := by
    rw [Int.natCast_ediv, hRnat]
    exact Int.ediv_mul_cancel (Int.dvd_of_emod_eq_zero hdiv)
  have hn' : ((h.fNbins / fRebin.toNat : Nat) : Int) = (h.fNbins : Int) / fRebin := by
    rw [Int.natCast_ediv, hRnat]
    rfl
  have hsum := sum_groups h.GetBinContent fRebin (by omega) (h.fNbins / fRebin.toNat)
  rw [hnR] at hsum
  unfold integralWidth
  rw [List.sum_map_mul_right, List.sum_map_mul_right, ← hsum, hw, hrn', ← mul_assoc,
    ← List.sum_map_mul_right]
  congr 2
  apply List.map_congr_left
  intro i hi
  obtain ⟨hi1, hi2⟩ := (mem_intRange _ _ _).mp hi
  rw [hn'] at hi2
  exact Rebin_group_mean E fRebin h r hR hdiv e he herr i hi1 hi2 (fun hne =>
    ((hall i hi1 hi2).1 hne).1) (hall i hi1 hi2).2 (hgroups i hi1 hi2)

/-- C15, amended, at the histogram `twoGroups` (contents `1`, `3`, `0`, `0`, width `1/2`)
with the rebin factor `2`: the rebinned histogram has two bins and the same sum of content
times width, `2`. -/
theorem C15_rebin_integral_witness :
    ∃ r, Rebin sampleExt 2 false twoGroups = Except.ok (some r) ∧ (r.fNbins : Int) = 2 ∧
      integralWidth r = integralWidth twoGroups ∧ integralWidth twoGroups = 2 := by
  have he : ∀ b, TH1D.GetBinError sampleExt twoGroups b = 1 := by
    intro b
    simp [TH1D.GetBinError, twoGroups, sampleExt]
  have hcont : ∀ b : Int, twoGroups.GetBinContent b =
      if b = 1 then 1 else if b = 2 then 3 else 0 := by
    intro b
    simp only [TH1D.GetBinContent, twoGroups, clampBin]
    split_ifs <;> first | rfl | omega
  obtain ⟨r, hr, hn, -, hint⟩ := C15_rebin_integral sampleExt 2 twoGroups (by decide)
    (by decide) 1 (by norm_num) (fun b _ _ => he b)
    (fun x hx => by
      have : ¬ x ≤ 0 := not_le.mpr hx
      simp only [sampleExt, this, if_false]
      linarith)
    (fun i hi1 hi2 => by
      have hq : ((twoGroups.fNbins : Nat) : Int) / 2 = 2 := by decide
      rw [hq] at hi2
      have hi : i = 1 ∨ i = 2 := by omega
      rcases hi with rfl | rfl
      · left
        intro b hb1 hb2
        rw [hcont]
        have : b = 1 ∨ b = 2 := by omega
        rcases this with rfl | rfl <;> norm_num
      · right
        intro b hb1 hb2
        rw [hcont]
        have : b = 3 ∨ b = 4 := by omega
        rcases this with rfl | rfl <;> norm_num)
  have hq : ((twoGroups.fNbins : Nat) : Int) / 2 = 2 := by decide
  refine ⟨r, hr, hn.trans hq, hint, ?_⟩
  have hr14 : intRange 1 4 = [1, 2, 3, 4] := by decide
  have hw4 : twoGroups.GetBinWidth = 1 / 2 := by norm_num [TH1D.GetBinWidth, twoGroups]
  unfold integralWidth
  have : ((twoGroups.fNbins : Nat) : Int) = 4 := rfl
  rw [this, hr14, hw4]
  simp [hcont]
  norm_num

end BasedNdeta
namespace BasedNdeta

/-- C16 fails on the code. With edge cutting, `Rebin` tests the right neighbour with
`<= 0` but the left neighbour for being non-zero.  In the histogram `risingBins` (contents
`1`, `2`, `3`, `4`, empty underflow and overflow) with the rebin factor `2`: bin `2` has
positive content and two neighbours with positive content, and the loop drops it (the
running values are unchanged); bin `1` has the empty underflow as its left neighbour, and
the loop keeps it.  The first rebinned bin so holds `1`, the content of bin `1` alone, and
the second, whose bins are both dropped, keeps the sum `7` of its group. -/
theorem C16_edge_cut_left_neighbour :
    risingBins.GetBinContent 0 = 0 ∧ risingBins.GetBinContent 1 = 1 ∧
    risingBins.GetBinContent 2 = 2 ∧ risingBins.GetBinContent 3 = 3 ∧
    rebinStep sampleExt 2 true risingBins 1
        (Except.ok { content := 0, sumw := 0, wsum := 0, nbins := 0 }) 2 =
      Except.ok { content := 0, sumw := 0, wsum := 0, nbins := 0 } ∧
    rebinStep sampleExt 2 true risingBins 1
        (Except.ok { content := 0, sumw := 0, wsum := 0, nbins := 0 }) 1 =
      Except.ok { content := 1, sumw := 1, wsum := 1, nbins := 1 } ∧
    ∃ r, Rebin sampleExt 2 true risingBins = Except.ok (some r) ∧
      r.GetBinContent 1 = 1 ∧ r.GetBinContent 2 = 7 := by
  have hcont : ∀ b : Int, risingBins.GetBinContent b =
      if b = 1 then 1 else if b = 2 then 2 else if b = 3 then 3 else if b = 4 then 4
      else 0 := by
    intro b
    simp only [TH1D.GetBinContent, risingBins, clampBin]
    split_ifs <;> first | rfl | omega
  have he : ∀ b, TH1D.GetBinError sampleExt risingBins b = 1 := by
    intro b
    simp [TH1D.GetBinError, risingBins, sampleExt]
  have hr12 : intRange 1 2 = [1, 2] := by decide
  have s11 : rebinStep sampleExt 2 true risingBins 1
        (Except.ok { content := 0, sumw := 0, wsum := 0, nbins := 0 }) 1 =
      Except.ok { content := 1, sumw := 1, wsum := 1, nbins := 1 } := by
    simp [rebinStep, hcont, he, FVal.fdiv, FVal.toRat?]
    norm_num
  have s12 : ∀ a, rebinStep sampleExt 2 true risingBins 1 (Except.ok a) 2 = Except.ok a := by
    intro a
    simp [rebinStep, hcont, he, FVal.fdiv, FVal.toRat?]
  have s21 : ∀ a, rebinStep sampleExt 2 true risingBins 2 (Except.ok a) 1 = Except.ok a := by
    intro a
    simp [rebinStep, hcont, he, FVal.fdiv, FVal.toRat?]
  have s22 : ∀ a, rebinStep sampleExt 2 true risingBins 2 (Except.ok a) 2 = Except.ok a := by
    intro a
    simp [rebinStep, hcont, he, FVal.fdiv, FVal.toRat?]
  refine ⟨by rw [hcont]; norm_num, by rw [hcont]; norm_num, by rw [hcont]; norm_num,
    by rw [hcont]; norm_num, s12 _, s11, ?_⟩
  have hsq1 : sampleExt.Sqrt 1 = 1 := by norm_num [sampleExt]
  have b1 : ∀ tmp, rebinBin sampleExt 2 true risingBins (Except.ok tmp) 1 =
      Except.ok ((tmp.SetBinContent 1 1).SetBinError 1 1) := by
    intro tmp
    simp [rebinBin, hr12, s11, s12, FVal.fdiv, FVal.toRat?, hsq1]
  have b2 : ∀ tmp, rebinBin sampleExt 2 true risingBins (Except.ok tmp) 2 = Except.ok tmp := by
    intro tmp
    simp [rebinBin, hr12, s21, s22]
  have hq : intRange 1 (((risingBins.fNbins : Nat) : Int) / 2) = [1, 2] := by decide
  have hreb : Rebin sampleExt 2 true risingBins = Except.ok (some
      ((((risingBins.Clone (risingBins.fName ++ "_rebin" ++
        (if (2 : Int) < 10 then "0" else "") ++ toString (2 : Int))).RebinROOT sampleExt
        (2 : Int).toNat).SetBinContent 1 1).SetBinError 1 1)) := by
    simp only [Rebin]
    rw [if_neg (by decide), if_neg (by decide), hq]
    simp only [List.foldl_cons, List.foldl_nil, b1, b2]
  refine ⟨_, hreb, ?_, ?_⟩
  · obtain ⟨s1, -, -, s4, -⟩ := setContentError
      ((risingBins.Clone (risingBins.fName ++ "_rebin" ++ (if (2 : Int) < 10 then "0" else "") ++
        toString (2 : Int))).RebinROOT sampleExt (2 : Int).toNat) 1 1 1
    have hn : (((risingBins.Clone (risingBins.fName ++ "_rebin" ++
        (if (2 : Int) < 10 then "0" else "") ++ toString (2 : Int))).RebinROOT sampleExt
        (2 : Int).toNat).fNbins : Int) = 2 := by decide
    rw [TH1D.GetBinContent, s1, clampBin_of_range _ 1 (by decide) (by rw [hn]; decide), s4,
      if_pos ⟨rfl, by decide, by rw [hn]; decide⟩]
  · obtain ⟨s1, -, -, s4, -⟩ := setContentError
      ((risingBins.Clone (risingBins.fName ++ "_rebin" ++ (if (2 : Int) < 10 then "0" else "") ++
        toString (2 : Int))).RebinROOT sampleExt (2 : Int).toNat) 1 1 1
    have hn : (((risingBins.Clone (risingBins.fName ++ "_rebin" ++
        (if (2 : Int) < 10 then "0" else "") ++ toString (2 : Int))).RebinROOT sampleExt
        (2 : Int).toNat).fNbins : Int) = 2 := by decide
    rw [TH1D.GetBinContent, s1, clampBin_of_range _ 2 (by decide) (by rw [hn]; decide), s4,
      if_neg (by decide)]
    have hr34 : intRange ((2 - 1) * ((2 : Int).toNat : Int) + 1) (2 * ((2 : Int).toNat : Int)) =
        [3, 4] := by decide
    simp only [TH1D.RebinROOT, TH1D.Clone]
    rw [if_neg (by decide), if_neg (by decide), hr34]
    simp only [List.map_cons, List.map_nil, List.sum_cons, List.sum_nil, add_zero]
    show risingBins.GetBinContent 3 + risingBins.GetBinContent 4 = 7
    rw [hcont, hcont]
    norm_num

end BasedNdeta
namespace BasedNdeta

/-- `Rebin` returns the null pointer when the rebin factor is at most one or does not
divide the bin count. -/
theorem Rebin_none (E : Ext) (fRebin : Int) (cut : Bool) (h : TH1D)
    (hR : fRebin ≤ 1 ∨ (h.fNbins : Int) % fRebin ≠ 0) :
    Rebin E fRebin cut h = Except.ok none := by
  unfold Rebin
  by_cases h1 : fRebin ≤ 1
  · rw [if_pos h1]
  · rw [if_neg h1]
    rcases hR with hR | hR
    · exact absurd hR h1
    · simp only [hR, ne_eq, not_false_eq_true, if_true]

/-- When the mirrored histograms are asked for and `Rebin` returns the null pointer, the
call `Symmetrice (Rebin (dndeta))` dereferences it. -/
theorem terminateYield_symmetrice_null (E : Ext) (t : Task) (l : TerminateLocals)
    (sum : TH2D) (suffix titleSuffix : String) (mc : Bool) (norm0 raw0 : TH1D) (vn an : ℚ)
    (hs : t.fSymmetrice = true)
    (hn : ProjectX E (some sum) ("norm" ++ t.fName ++ suffix) 0 1 t.fCorrEmpty false =
      some norm0)
    (hd : ProjectX E (some sum) ("dndeta" ++ t.fName ++ suffix) 1 (l.sum.fNbinsY : Int)
      t.fCorrEmpty E.projectXError = some raw0)
    (hv : l.vNorm.toRat? = some vn) (ha : (FVal.fdiv 1 l.nAccepted).toRat? = some an)
    (hw : (raw0.Divide E norm0).GetBinWidth ≠ 0)
    (hreb : Rebin E t.fRebin t.fCutEdges { (raw0.Divide E norm0).Scale E vn true with
      fTitle := "ALICE " ++ t.fName ++ titleSuffix } = Except.ok none) :
    terminateYield E t l sum suffix titleSuffix mc = Except.error Fault.nullPointer := by
  unfold terminateYield
  simp only [hn, hd, TH1D.ScaleF, hv, ha, hw, and_false, false_and, if_false, hreb, hs, if_true,
    Bool.false_eq_true]

/-- C17 fails on the code. The task `sampleTask` has the settings of the constructors
(rebin factor `5`, mirrored histograms asked for) and a sum histogram with two eta bins.
`Terminate` gets past its guards, the yield histogram has two bins, `Rebin` returns the null
pointer because `5` does not divide `2`, and the call `Symmetrice (Rebin (dndeta))` that
follows dereferences it: the run ends with a null-pointer fault instead of the export. -/
theorem C17_symmetrice_of_null_rebin :
    sampleTask.fRebin = 5 ∧ sampleTask.fSymmetrice = true ∧
    ∃ t1 l norm0 raw0,
      TerminateCounters sampleExt sampleTask = TerminateHead.goesOn t1 l ∧
      ProjectX sampleExt (some sampleSum) "normForward" 0 1 true false = some norm0 ∧
      ProjectX sampleExt (some sampleSum) "dndetaForward" 1 2 true true = some raw0 ∧
      raw0.fNbins = 2 ∧ l.vNorm = FVal.fin (80 / 91) ∧
      Rebin sampleExt 5 false { (raw0.Divide sampleExt norm0).Scale sampleExt (80 / 91) true with
        fTitle := "ALICE Forward" } = Except.ok none ∧
      Terminate sampleExt sampleTask = Except.error Fault.nullPointer := by
  refine ⟨rfl, rfl, ?_⟩
  obtain ⟨t1, l, hc, hlt, hls, -⟩ := sampleTask_goesOn
  obtain ⟨hB, hA, hC, hE, -, -, hAcc⟩ := sampleTask_counters t1 l hc
  obtain ⟨-, -, -, -, -, -, -, -, -, -, -, hgood, -, hnorm, -⟩ :=
    TerminateCounters_goesOn_inv sampleExt sampleTask t1 l hc
  obtain ⟨c1, c2, c3, c4, c5, -⟩ := TerminateCounters_goesOn_config sampleExt sampleTask t1 l hc
  have hGood : l.nGood = 91 := by
    rw [hgood, hB, hA, hC, hE]
    norm_num [wrapInt_t]
  obtain ⟨norm0, hn⟩ := ProjectX_norm_isSome sampleExt sampleSum "normForward" true false
  obtain ⟨raw0, hd⟩ := ProjectX_yield_isSome sampleExt sampleSum "dndetaForward" true true
  obtain ⟨p1, p2, p3⟩ := ProjectX_axis sampleExt sampleSum "dndetaForward" 1
    (sampleSum.fNbinsY : Int) true true raw0 hd
  have hnb : raw0.fNbins = 2 := by
    rw [p1]
    rfl
  have hvn : l.vNorm = FVal.fin (80 / 91) := by
    rw [hnorm, hAcc, hGood]
    simp [FVal.fdiv]
  have hv : l.vNorm.toRat? = some (80 / 91) := by
    rw [hvn]
    rfl
  have ha : (FVal.fdiv 1 (l.nAccepted : ℚ)).toRat? = some (1 / 80) := by
    rw [hAcc]
    simp [FVal.fdiv, FVal.toRat?]
  obtain ⟨d1, d2, d3, -⟩ := Divide_keeps sampleExt raw0 norm0
  have hw : (raw0.Divide sampleExt norm0).GetBinWidth ≠ 0 := by
    unfold TH1D.GetBinWidth
    rw [d1, d2, d3, hnb, p2, p3]
    norm_num [sampleSum]
  have hreb : Rebin sampleExt 5 false
      { (raw0.Divide sampleExt norm0).Scale sampleExt (80 / 91) true with
        fTitle := "ALICE Forward" } = Except.ok none := by
    apply Rebin_none
    right
    have : (TH1D.fNbins { (raw0.Divide sampleExt norm0).Scale sampleExt (80 / 91) true with
        fTitle := "ALICE Forward" }) = 2 := d1.trans hnb
    rw [this]
    decide
  have ht1R : t1.fRebin = 5 := c1
  have ht1C : t1.fCutEdges = false := c2
  have ht1N : t1.fName = "Forward" := c5
  have ht1E : t1.fCorrEmpty = true := c4
  have hy := terminateYield_symmetrice_null sampleExt t1 l l.sum "" "" false norm0 raw0
    (80 / 91) (1 / 80) c3
    (by rw [ht1N, ht1E, hls]; exact hn) (by rw [ht1N, ht1E, hls]; exact hd) hv ha hw
    (by rw [ht1R, ht1C, ht1N]; exact hreb)
  refine ⟨t1, l, norm0, raw0, hc, hn, hd, hnb, hvn, hreb, ?_⟩
  simp only [Terminate, hc, TerminateOutputs, hy]

end BasedNdeta

namespace BasedNdeta

/-- The loop of `Symmetrice` over a list of bins `i` of `h`: bin `l2 - (i - f1)` of the
result, when it is a bin of the histogram, holds the content of bin `i` and the square of its
error; nothing else changes. -/
theorem foldl_mirror (E : Ext) (h : TH1D) (f1 l2 : Int) :
    ∀ (is : List Int) (s0 : TH1D),
      (is.foldl (fun s i =>
          (s.SetBinContent (l2 - (i - f1)) (h.GetBinContent i)).SetBinError (l2 - (i - f1))
            (TH1D.GetBinError E h i)) s0).fNbins = s0.fNbins ∧
      (is.foldl (fun s i =>
          (s.SetBinContent (l2 - (i - f1)) (h.GetBinContent i)).SetBinError (l2 - (i - f1))
            (TH1D.GetBinError E h i)) s0).fXmin = s0.fXmin ∧
      (is.foldl (fun s i =>
          (s.SetBinContent (l2 - (i - f1)) (h.GetBinContent i)).SetBinError (l2 - (i - f1))
            (TH1D.GetBinError E h i)) s0).fXmax = s0.fXmax ∧
      (∀ b, (is.foldl (fun s i =>
          (s.SetBinContent (l2 - (i - f1)) (h.GetBinContent i)).SetBinError (l2 - (i - f1))
            (TH1D.GetBinError E h i)) s0).fArray b =
        if (f1 + l2 - b) ∈ is ∧ 0 ≤ b ∧ b < (s0.fNbins : Int) + 2 then
          h.GetBinContent (f1 + l2 - b)
        else s0.fArray b) ∧
      (∀ b, (is.foldl (fun s i =>
          (s.SetBinContent (l2 - (i - f1)) (h.GetBinContent i)).SetBinError (l2 - (i - f1))
            (TH1D.GetBinError E h i)) s0).sumw2At b =
        if (f1 + l2 - b) ∈ is ∧ 0 ≤ b ∧ b < (s0.fNbins : Int) + 2 then
          TH1D.GetBinError E h (f1 + l2 - b) * TH1D.GetBinError E h (f1 + l2 - b)
        else s0.sumw2At b)
  | [], s0 => ⟨rfl, rfl, rfl, fun b => by simp, fun b => by simp⟩
  | i :: is, s0 => by
    obtain ⟨s1, s2, s3, s4, s5⟩ := setContentError s0 (l2 - (i - f1)) (h.GetBinContent i)
      (TH1D.GetBinError E h i)
    obtain ⟨r1, r2, r3, r4, r5⟩ := foldl_mirror E h f1 l2 is
      ((s0.SetBinContent (l2 - (i - f1)) (h.GetBinContent i)).SetBinError (l2 - (i - f1))
        (TH1D.GetBinError E h i))
    rw [List.foldl_cons]
    refine ⟨r1.trans s1, r2.trans s2, r3.trans s3, fun b => ?_, fun b => ?_⟩
    · rw [r4 b, s4 b, s1]
      by_cases hb : b = l2 - (i - f1)
      · subst hb
        have hk : f1 + l2 - (l2 - (i - f1)) = i := by omega
        simp only [hk, List.mem_cons, true_or, true_and]
        by_cases hr : 0 ≤ l2 - (i - f1) ∧ l2 - (i - f1) < (s0.fNbins : Int) + 2
        · by_cases hm : i ∈ is
          · simp only [hr, hm, and_self, if_true]
          · simp only [hr, hm, false_and, if_false, if_true]
        · simp only [hr, and_false, if_false]
      · have hi : f1 + l2 - b ≠ i := by omega
        simp [hi, hb]
    · rw [r5 b, s5 b, s1]
      by_cases hb : b = l2 - (i - f1)
      · subst hb
        have hk : f1 + l2 - (l2 - (i - f1)) = i := by omega
        simp only [hk, List.mem_cons, true_or, true_and]
        by_cases hr : 0 ≤ l2 - (i - f1) ∧ l2 - (i - f1) < (s0.fNbins : Int) + 2
        · by_cases hm : i ∈ is
          · simp only [hr, hm, and_self, if_true]
          · simp only [hr, hm, false_and, if_false, if_true]
        · simp only [hr, and_false, if_false]
      · have hi : f1 + l2 - b ≠ i := by omega
        simp [hi, hb]

end BasedNdeta

namespace BasedNdeta

/-- What `Symmetrice` returns: a histogram with the bins of `h` on the negated axis in which
bin `l2 + 1` holds the first bin with data of `h`, bin `l2 - (i - f1)` holds bin `i` of `h`
for `f1 ≤ i ≤ last`, and every other bin is empty. -/
theorem Symmetrice_value (E : Ext) (h : TH1D) :
    (Symmetrice E h).fNbins = h.fNbins ∧ (Symmetrice E h).fXmin = - h.fXmax ∧
    (Symmetrice E h).fXmax = - h.fXmin ∧
    (∀ b, (Symmetrice E h).fArray b =
      if b = symL2 h + 1 ∧ 0 ≤ symL2 h + 1 ∧ symL2 h + 1 < (h.fNbins : Int) + 2 then
        h.GetBinContent (firstLast h).1
      else if (symF1 h ≤ symF1 h + symL2 h - b ∧ symF1 h + symL2 h - b ≤ (firstLast h).2) ∧
          0 ≤ b ∧ b < (h.fNbins : Int) + 2 then
        h.GetBinContent (symF1 h + symL2 h - b)
      else 0) ∧
    (∀ b, (Symmetrice E h).sumw2At b =
      if b = symL2 h + 1 ∧ 0 ≤ symL2 h + 1 ∧ symL2 h + 1 < (h.fNbins : Int) + 2 then
        TH1D.GetBinError E h (firstLast h).1 * TH1D.GetBinError E h (firstLast h).1
      else if (symF1 h ≤ symF1 h + symL2 h - b ∧ symF1 h + symL2 h - b ≤ (firstLast h).2) ∧
          0 ≤ b ∧ b < (h.fNbins : Int) + 2 then
        TH1D.GetBinError E h (symF1 h + symL2 h - b) *
          TH1D.GetBinError E h (symF1 h + symL2 h - b)
      else 0) := by
  have hs0 : ∀ b, TH1D.sumw2At (({ h.Clone (h.fName ++ "_mirror") with
      fTitle := h.fTitle ++ " (mirrored)" } : TH1D).ResetSetBins h.fNbins (- h.fXmax)
      (- h.fXmin)) b = 0 := by
    intro b
    simp only [TH1D.sumw2At, TH1D.ResetSetBins, TH1D.Clone]
    cases h.fSumw2 <;> simp
  obtain ⟨r1, r2, r3, r4, r5⟩ := foldl_mirror E h (symF1 h) (symL2 h)
    (intRange (symF1 h) (firstLast h).2)
    (({ h.Clone (h.fName ++ "_mirror") with
      fTitle := h.fTitle ++ " (mirrored)" } : TH1D).ResetSetBins h.fNbins (- h.fXmax)
      (- h.fXmin))
  obtain ⟨s1, s2, s3, s4, s5⟩ := setContentError
    ((intRange (symF1 h) (firstLast h).2).foldl (fun s i =>
        (s.SetBinContent (symL2 h - (i - symF1 h)) (h.GetBinContent i)).SetBinError
          (symL2 h - (i - symF1 h)) (TH1D.GetBinError E h i))
      (({ h.Clone (h.fName ++ "_mirror") with
        fTitle := h.fTitle ++ " (mirrored)" } : TH1D).ResetSetBins h.fNbins (- h.fXmax)
        (- h.fXmin)))
    (symL2 h + 1) (h.GetBinContent (firstLast h).1) (TH1D.GetBinError E h (firstLast h).1)
  have hn0 : (({ h.Clone (h.fName ++ "_mirror") with
      fTitle := h.fTitle ++ " (mirrored)" } : TH1D).ResetSetBins h.fNbins (- h.fXmax)
      (- h.fXmin)).fNbins = h.fNbins := rfl
  rw [r1, hn0] at s1 s4 s5
  rw [hn0] at r4 r5
  refine ⟨s1, s2.trans r2, s3.trans r3, fun b => ?_, fun b => ?_⟩
  · have := s4 b
    rw [r4 b] at this
    simp only [mem_intRange] at this
    exact this
  · have := s5 b
    rw [r5 b, hs0 b] at this
    simp only [mem_intRange] at this
    exact this

end BasedNdeta

namespace BasedNdeta

/-- The conversion to `Int_t` of a non-negative number between `z` and `z + 1`. -/
theorem toInt_t_of_floor (x : ℚ) (z : Int) (h0 : 0 ≤ x) (h1 : (z : ℚ) ≤ x)
    (h2 : x < (z : ℚ) + 1) : toInt_t x = z := by
  unfold toInt_t
  rw [if_pos h0]
  exact Int.floor_eq_iff.mpr ⟨h1, h2⟩

/-- The bins `first`, `last`, `f1` and `l2` of `Symmetrice` for the histogram
`offsetBins`. -/
theorem offsetBins_bins :
    firstLast offsetBins = (1, 4) ∧ symF1 offsetBins = 3 ∧ symL2 offsetBins = 2 ∧
    ∀ b : Int, offsetBins.GetBinContent b =
      if b = 1 then 1 else if b = 2 then 2 else if b = 3 then 3 else if b = 4 then 4
      else 0 := by
  have hcont : ∀ b : Int, offsetBins.GetBinContent b =
      if b = 1 then 1 else if b = 2 then 2 else if b = 3 then 3 else if b = 4 then 4
      else 0 := by
    intro b
    simp only [TH1D.GetBinContent, offsetBins, clampBin]
    split_ifs <;> first | rfl | omega
  have hr14 : intRange 1 ((offsetBins.fNbins : Nat) : Int) = [1, 2, 3, 4] := by decide
  have hfl : firstLast offsetBins = (1, 4) := by
    simp only [firstLast, hr14, List.foldl_cons, List.foldl_nil, hcont]
    norm_num
  have hw : offsetBins.GetBinWidth = 1 := by norm_num [TH1D.GetBinWidth, offsetBins]
  have hxf : offsetBins.GetBinCenter ((firstLast offsetBins).1 - 1) = -(3 / 2) := by
    rw [hfl]
    simp only [TH1D.GetBinCenter, hw]
    norm_num [offsetBins]
  refine ⟨hfl, ?_, ?_, hcont⟩
  · unfold symF1
    rw [hxf]
    simp only [TH1D.FindBin, offsetBins]
    rw [if_neg (by norm_num), if_neg (by norm_num),
      toInt_t_of_floor _ 2 (by norm_num) (by norm_num) (by norm_num)]
    norm_num
  · unfold symL2
    rw [hxf]
    simp only [TH1D.FindBin, TH1D.ResetSetBins, offsetBins]
    rw [if_neg (by norm_num), if_neg (by norm_num),
      toInt_t_of_floor _ 1 (by norm_num) (by norm_num) (by norm_num)]
    norm_num

/-- C18, as stated, fails: `Symmetrice` mirrors only the bins from `f1` to the last bin with
data, and puts the first bin with data in the overlap bin.  For `offsetBins` (four bins on
`[-1, 3]` holding `1`, `2`, `3`, `4`) the bins are `first = 1`, `last = 4`, `f1 = 3` and
`l2 = 2`: bin `2` has content `2`, but its mirrored bin `4 + 1 - 2 = 3` of the result holds
`1`, the content of bin `1`; and bin `1` has content `1`, but its mirrored bin `4` is
empty. -/
theorem C18_symmetrice_counterexample :
    firstLast offsetBins = (1, 4) ∧ symF1 offsetBins = 3 ∧ symL2 offsetBins = 2 ∧
    offsetBins.GetBinContent 2 = 2 ∧
    (Symmetrice sampleExt offsetBins).GetBinContent (4 + 1 - 2) = 1 ∧
    offsetBins.GetBinContent 1 = 1 ∧
    (Symmetrice sampleExt offsetBins).GetBinContent (4 + 1 - 1) = 0 := by
  obtain ⟨hfl, hf1, hl2, hcont⟩ := offsetBins_bins
  obtain ⟨hn, -, -, h4, -⟩ := Symmetrice_value sampleExt offsetBins
  have hn4 : (Symmetrice sampleExt offsetBins).fNbins = 4 := hn
  refine ⟨hfl, hf1, hl2, by rw [hcont]; norm_num, ?_, by rw [hcont]; norm_num, ?_⟩
  · rw [TH1D.GetBinContent, hn4, clampBin_of_range 4 (4 + 1 - 2) (by decide) (by decide), h4,
      hf1, hl2, hfl]
    rw [if_pos ⟨by decide, by decide, by decide⟩, hcont]
    norm_num
  · rw [TH1D.GetBinContent, hn4, clampBin_of_range 4 (4 + 1 - 1) (by decide) (by decide), h4,
      hf1, hl2, hfl]
    rw [if_neg (by decide), if_neg (by decide)]

end BasedNdeta

namespace BasedNdeta

/-- C18, amended. For every histogram `H` with `nBins` bins on `[xmin, xmax]`,
`Symmetrice (H)` is a new histogram with `nBins` bins on `[-xmax, -xmin]`.  With `first` and
`last` the first and last bin of `H` with positive content, `f1` the bin of `H` that holds
`-xfirst` and `l2` the bin of the result that holds `xfirst`, where `xfirst` is the centre
of bin `first - 1`: for every bin `i` of `H` with `f1 ≤ i ≤ last`, the bin
`j = l2 - (i - f1)` of the result, when it is one of its bins, has the content of bin `i`
and the square of its error stored, so the same error when the root is exact at that
square; the overlap bin `l2 + 1` holds the content and error of bin `first`; every other
bin of the result is empty.  When `f1 + l2 = nBins + 1` the bin `j` is the mirrored bin
`nBins + 1 - i`. -/
theorem C18_symmetrice_extension (E : Ext) (h : TH1D) :
    (Symmetrice E h).fNbins = h.fNbins ∧ (Symmetrice E h).fXmin = - h.fXmax ∧
    (Symmetrice E h).fXmax = - h.fXmin ∧
    (∀ i : Int, symF1 h ≤ i → i ≤ (firstLast h).2 → 0 ≤ symL2 h - (i - symF1 h) →
      symL2 h - (i - symF1 h) ≤ (h.fNbins : Int) + 1 →
      (Symmetrice E h).GetBinContent (symL2 h - (i - symF1 h)) = h.GetBinContent i ∧
      (Symmetrice E h).sumw2At (symL2 h - (i - symF1 h)) =
        TH1D.GetBinError E h i * TH1D.GetBinError E h i ∧
      TH1D.GetBinError E (Symmetrice E h) (symL2 h - (i - symF1 h)) =
        E.Sqrt (TH1D.GetBinError E h i * TH1D.GetBinError E h i) ∧
      (E.Sqrt (TH1D.GetBinError E h i * TH1D.GetBinError E h i) = TH1D.GetBinError E h i →
        TH1D.GetBinError E (Symmetrice E h) (symL2 h - (i - symF1 h)) =
          TH1D.GetBinError E h i)) ∧
    (0 ≤ symL2 h + 1 → symL2 h + 1 ≤ (h.fNbins : Int) + 1 →
      (Symmetrice E h).GetBinContent (symL2 h + 1) = h.GetBinContent (firstLast h).1 ∧
      (Symmetrice E h).sumw2At (symL2 h + 1) =
        TH1D.GetBinError E h (firstLast h).1 * TH1D.GetBinError E h (firstLast h).1) ∧
    (∀ b : Int, 0 ≤ b → b ≤ (h.fNbins : Int) + 1 → b ≠ symL2 h + 1 →
      ¬ (symF1 h ≤ symF1 h + symL2 h - b ∧ symF1 h + symL2 h - b ≤ (firstLast h).2) →
      (Symmetrice E h).GetBinContent b = 0) ∧
    (symF1 h + symL2 h = (h.fNbins : Int) + 1 →
      ∀ i : Int, symL2 h - (i - symF1 h) = (h.fNbins : Int) + 1 - i) := by
  obtain ⟨hn, hmin, hmax, h4, h5⟩ := Symmetrice_value E h
  refine ⟨hn, hmin, hmax, ?_, ?_, ?_, fun hsum i => by omega⟩
  · intro i hi1 hi2 hj0 hj1
    have hclamp : clampBin (Symmetrice E h).fNbins (symL2 h - (i - symF1 h)) =
        symL2 h - (i - symF1 h) := by
      rw [hn]
      exact clampBin_of_range _ _ hj0 hj1
    have hk : symF1 h + symL2 h - (symL2 h - (i - symF1 h)) = i := by omega
    have hne : ¬ (symL2 h - (i - symF1 h) = symL2 h + 1 ∧ 0 ≤ symL2 h + 1 ∧
        symL2 h + 1 < (h.fNbins : Int) + 2) := by omega
    have hin : (symF1 h ≤ i ∧ i ≤ (firstLast h).2) ∧ 0 ≤ symL2 h - (i - symF1 h) ∧
        symL2 h - (i - symF1 h) < (h.fNbins : Int) + 2 := ⟨⟨hi1, hi2⟩, hj0, by omega⟩
    have hc : (Symmetrice E h).GetBinContent (symL2 h - (i - symF1 h)) = h.GetBinContent i := by
      rw [TH1D.GetBinContent, hclamp, h4, if_neg hne, hk, if_pos hin]
    have hw : (Symmetrice E h).sumw2At (symL2 h - (i - symF1 h)) =
        TH1D.GetBinError E h i * TH1D.GetBinError E h i := by
      rw [h5, if_neg hne, hk, if_pos hin]
    have he : TH1D.GetBinError E (Symmetrice E h) (symL2 h - (i - symF1 h)) =
        E.Sqrt (TH1D.GetBinError E h i * TH1D.GetBinError E h i) := by
      rw [GetBinError_eq_sumw2At, hclamp, hw]
    exact ⟨hc, hw, he, fun hex => he.trans hex⟩
  · intro h0 h1
    have hclamp : clampBin (Symmetrice E h).fNbins (symL2 h + 1) = symL2 h + 1 := by
      rw [hn]
      exact clampBin_of_range _ _ h0 h1
    have hin : symL2 h + 1 = symL2 h + 1 ∧ 0 ≤ symL2 h + 1 ∧
        symL2 h + 1 < (h.fNbins : Int) + 2 := ⟨rfl, h0, by omega⟩
    constructor
    · rw [TH1D.GetBinContent, hclamp, h4, if_pos hin]
    · rw [h5, if_pos hin]
  · intro b hb0 hb1 hne hout
    have hclamp : clampBin (Symmetrice E h).fNbins b = b := by
      rw [hn]
      exact clampBin_of_range _ _ hb0 hb1
    rw [TH1D.GetBinContent, hclamp, h4, if_neg (fun hh => hne hh.1), if_neg (fun hh => hout hh.1)]

/-- C18, amended, at the histogram `offsetBins`: with `f1 = 3` and `l2 = 2`, bin `3` of
content `3` goes to bin `2 = 4 + 1 - 3` of the result and bin `4` of content `4` to bin
`1`, the overlap bin `3` holds the content `1` of the first bin, and bin `4` is empty. -/
theorem C18_symmetrice_extension_witness :
    (Symmetrice sampleExt offsetBins).fNbins = 4 ∧
    (Symmetrice sampleExt offsetBins).fXmin = -3 ∧
    (Symmetrice sampleExt offsetBins).fXmax = 1 ∧
    (Symmetrice sampleExt offsetBins).GetBinContent 1 = 4 ∧
    (Symmetrice sampleExt offsetBins).GetBinContent 2 = 3 ∧
    (Symmetrice sampleExt offsetBins).GetBinContent 3 = 1 ∧
    (Symmetrice sampleExt offsetBins).GetBinContent 4 = 0 := by
  obtain ⟨hfl, hf1, hl2, hcont⟩ := offsetBins_bins
  obtain ⟨hn, hmin, hmax, hmirror, hover, hempty, -⟩ :=
    C18_symmetrice_extension sampleExt offsetBins
  simp only [hf1, hl2, hfl] at hmirror hover hempty
  refine ⟨hn, ?_, ?_, ?_, ?_, ?_, ?_⟩
  · rw [hmin]
    norm_num [offsetBins]
  · rw [hmax]
    norm_num [offsetBins]
  · have := (hmirror 4 (by decide) (by decide) (by decide) (by decide)).1
    rw [hcont] at this
    simpa using this
  · have := (hmirror 3 (by decide) (by decide) (by decide) (by decide)).1
    rw [hcont] at this
    simpa using this
  · have := (hover (by decide) (by decide)).1
    rw [hcont] at this
    simpa using this
  · exact hempty 4 (by decide) (by decide) (by decide) (by decide)

end BasedNdeta
namespace BasedNdeta

/-- The array after `AddBinContent`. -/
theorem AddBinContent_fArray (tr : TH1D) (k b : Int) :
    (tr.AddBinContent k).fArray b = tr.fArray b + (if b = k then 1 else 0) := by
  unfold TH1D.AddBinContent
  by_cases hb : b = k
  · subst hb
    simp [Function.update]
  · simp [Function.update, hb]

/-- The array after a conditional `AddBinContent`. -/
theorem addIf_fArray (c : Bool) (tr : TH1D) (k b : Int) :
    (if c = true then tr.AddBinContent k else tr).fArray b =
      tr.fArray b + (if c = true ∧ b = k then 1 else 0) := by
  cases c
  · simp
  · simp [AddBinContent_fArray]

/-- The bin count after `AddBinContent`. -/
theorem AddBinContent_fNbins (tr : TH1D) (k : Int) : (tr.AddBinContent k).fNbins = tr.fNbins :=
  rfl

/-- The bin count after a conditional `AddBinContent`. -/
theorem addIf_fNbins (c : Bool) (tr : TH1D) (k : Int) :
    (if c = true then tr.AddBinContent k else tr).fNbins = tr.fNbins := by
  cases c <;> rfl

/-- What one call of `CheckEvent` does for an event with a forward object: the value
returned is the conjunction of the three tests, and every bin of the trigger histogram
grows by the number of the increments made on it. -/
theorem CheckEvent_effect (E : Ext) (B : ETriggerBits) (t : Task) (aod : AliAODEvent)
    (f : AliAODForwardMult) (tr : TH1D) (hf : aod.forward = some f)
    (ht : t.fTriggers = some tr) :
    ∃ tr1, CheckEvent E B t aod =
        Except.ok ({ t with fTriggers := some tr1 },
          f.IsTriggerBits t.fTriggerMask && f.HasIpZ && f.InRange t.fVtxMin t.fVtxMax) ∧
      tr1.fNbins = tr.fNbins ∧
      ∀ b, tr1.fArray b = tr.fArray b + (if b = E.kAll then 1 else 0) +
        (if f.IsTriggerBits B.kB = true ∧ b = E.kB then 1 else 0) +
        (if f.IsTriggerBits B.kA = true ∧ b = E.kA then 1 else 0) +
        (if f.IsTriggerBits B.kC = true ∧ b = E.kC then 1 else 0) +
        (if f.IsTriggerBits B.kE = true ∧ b = E.kE then 1 else 0) +
        (if f.IsTriggerBits B.kInel = true ∧ b = E.kMB then 1 else 0) +
        (if f.IsTriggerBits t.fTriggerMask = true ∧ b = E.kWithTrigger then 1 else 0) +
        (if (f.IsTriggerBits t.fTriggerMask = true ∧ f.HasIpZ = true) ∧ b = E.kWithVertex
          then 1 else 0) +
        (if (f.IsTriggerBits t.fTriggerMask = true ∧ f.HasIpZ = true ∧
            f.InRange t.fVtxMin t.fVtxMax = true) ∧ b = E.kAccepted then 1 else 0) := by
  unfold CheckEvent
  simp only [hf, ht]
  cases hm : f.IsTriggerBits t.fTriggerMask
  · refine ⟨_, rfl, ?_, fun b => ?_⟩
    · simp only [AddBinContent_fNbins, addIf_fNbins]
    · simp only [addIf_fArray, AddBinContent_fArray, Bool.false_eq_true, false_and, if_false,
        add_zero]
  · cases hz : f.HasIpZ
    · refine ⟨_, rfl, ?_, fun b => ?_⟩
      · show (TH1D.AddBinContent _ E.kWithTrigger).fNbins = tr.fNbins
        simp only [AddBinContent_fNbins, addIf_fNbins]
      · simp only [addIf_fArray, AddBinContent_fArray, Bool.false_eq_true, false_and,
          and_false, if_false, add_zero, true_and]
    · cases hv : f.InRange t.fVtxMin t.fVtxMax
      · refine ⟨_, rfl, ?_, fun b => ?_⟩
        · show (TH1D.AddBinContent _ E.kWithVertex).fNbins = tr.fNbins
          simp only [AddBinContent_fNbins, addIf_fNbins]
        · simp only [addIf_fArray, AddBinContent_fArray, Bool.false_eq_true, false_and,
            and_false, if_false, add_zero, true_and, and_self]
      · refine ⟨_, rfl, ?_, fun b => ?_⟩
        · show (TH1D.AddBinContent _ E.kAccepted).fNbins = tr.fNbins
          simp only [AddBinContent_fNbins, addIf_fNbins]
        · simp only [addIf_fArray, AddBinContent_fArray, true_and, and_self]

end BasedNdeta
namespace BasedNdeta

/-- The nine bins of a valid trigger histogram are pairwise different. -/
theorem triggerBins_ne (E : Ext) (h : triggerBinsValid E) :
    E.kAll ≠ E.kB ∧
    E.kAll ≠ E.kA ∧
    E.kAll ≠ E.kC ∧
    E.kAll ≠ E.kE ∧
    E.kAll ≠ E.kMB ∧
    E.kAll ≠ E.kWithTrigger ∧
    E.kAll ≠ E.kWithVertex ∧
    E.kAll ≠ E.kAccepted ∧
    E.kB ≠ E.kA ∧
    E.kB ≠ E.kC ∧
    E.kB ≠ E.kE ∧
    E.kB ≠ E.kMB ∧
    E.kB ≠ E.kWithTrigger ∧
    E.kB ≠ E.kWithVertex ∧
    E.kB ≠ E.kAccepted ∧
    E.kA ≠ E.kC ∧
    E.kA ≠ E.kE ∧
    E.kA ≠ E.kMB ∧
    E.kA ≠ E.kWithTrigger ∧
    E.kA ≠ E.kWithVertex ∧
    E.kA ≠ E.kAccepted ∧
    E.kC ≠ E.kE ∧
    E.kC ≠ E.kMB ∧
    E.kC ≠ E.kWithTrigger ∧
    E.kC ≠ E.kWithVertex ∧
    E.kC ≠ E.kAccepted ∧
    E.kE ≠ E.kMB ∧
    E.kE ≠ E.kWithTrigger ∧
    E.kE ≠ E.kWithVertex ∧
    E.kE ≠ E.kAccepted ∧
    E.kMB ≠ E.kWithTrigger ∧
    E.kMB ≠ E.kWithVertex ∧
    E.kMB ≠ E.kAccepted ∧
    E.kWithTrigger ≠ E.kWithVertex ∧
    E.kWithTrigger ≠ E.kAccepted ∧
    E.kWithVertex ≠ E.kAccepted := by
  obtain ⟨hn, -⟩ := h
  simp only [List.nodup_cons, List.mem_cons, List.mem_singleton, not_or, List.not_mem_nil,
    not_false_eq_true, List.nodup_nil, and_true] at hn
  tauto

/-- The nine bins of a valid trigger histogram are bins of a histogram with at least
`kAccepted` bins. -/
theorem triggerBins_range (E : Ext) (h : triggerBinsValid E) (n : Nat)
    (hn : E.kAccepted ≤ (n : Int)) :
    clampBin n E.kAll = E.kAll ∧ clampBin n E.kB = E.kB ∧ clampBin n E.kA = E.kA ∧
    clampBin n E.kC = E.kC ∧ clampBin n E.kE = E.kE ∧ clampBin n E.kMB = E.kMB ∧
    clampBin n E.kWithTrigger = E.kWithTrigger ∧ clampBin n E.kWithVertex = E.kWithVertex ∧
    clampBin n E.kAccepted = E.kAccepted := by
  obtain ⟨-, hr⟩ := h
  have key : ∀ k ∈ [E.kAll, E.kB, E.kA, E.kC, E.kE, E.kMB, E.kWithTrigger, E.kWithVertex,
      E.kAccepted], clampBin n k = k := by
    intro k hk
    obtain ⟨h0, h1⟩ := hr k hk
    exact clampBin_of_range n k h0 (by omega)
  exact ⟨key _ (by simp), key _ (by simp), key _ (by simp), key _ (by simp), key _ (by simp),
    key _ (by simp), key _ (by simp), key _ (by simp), key _ (by simp)⟩

end BasedNdeta
namespace BasedNdeta

/-- The counters after one call of `CheckEvent` for an event with a forward object, when
the nine bins are different bins of the trigger histogram: `all` grows by one, the counter of
a trigger by one when the event has the trigger, `withTrigger`, `withVertex` and `accepted`
by one when the event passes the tests up to theirs, and no bin grows by more than one. -/
theorem CheckEvent_counters (E : Ext) (B : ETriggerBits) (hv : triggerBinsValid E) (t : Task)
    (aod : AliAODEvent) (f : AliAODForwardMult) (tr : TH1D) (hf : aod.forward = some f)
    (ht : t.fTriggers = some tr) (hn : E.kAccepted ≤ (tr.fNbins : Int)) :
    ∃ tr1, CheckEvent E B t aod =
        Except.ok ({ t with fTriggers := some tr1 },
          f.IsTriggerBits t.fTriggerMask && f.HasIpZ && f.InRange t.fVtxMin t.fVtxMax) ∧
      tr1.fNbins = tr.fNbins ∧
      tr1.GetBinContent E.kAll = tr.GetBinContent E.kAll + 1 ∧
      tr1.GetBinContent E.kB = tr.GetBinContent E.kB +
        (if f.IsTriggerBits B.kB = true then 1 else 0) ∧
      tr1.GetBinContent E.kA = tr.GetBinContent E.kA +
        (if f.IsTriggerBits B.kA = true then 1 else 0) ∧
      tr1.GetBinContent E.kC = tr.GetBinContent E.kC +
        (if f.IsTriggerBits B.kC = true then 1 else 0) ∧
      tr1.GetBinContent E.kE = tr.GetBinContent E.kE +
        (if f.IsTriggerBits B.kE = true then 1 else 0) ∧
      tr1.GetBinContent E.kMB = tr.GetBinContent E.kMB +
        (if f.IsTriggerBits B.kInel = true then 1 else 0) ∧
      tr1.GetBinContent E.kWithTrigger = tr.GetBinContent E.kWithTrigger +
        (if f.IsTriggerBits t.fTriggerMask = true then 1 else 0) ∧
      tr1.GetBinContent E.kWithVertex = tr.GetBinContent E.kWithVertex +
        (if f.IsTriggerBits t.fTriggerMask = true ∧ f.HasIpZ = true then 1 else 0) ∧
      tr1.GetBinContent E.kAccepted = tr.GetBinContent E.kAccepted +
        (if f.IsTriggerBits t.fTriggerMask = true ∧ f.HasIpZ = true ∧
        f.InRange t.fVtxMin t.fVtxMax = true then 1 else 0) ∧
      ∀ b, tr1.GetBinContent b = tr.GetBinContent b ∨
        tr1.GetBinContent b = tr.GetBinContent b + 1 := by
  obtain ⟨tr1, hce, hnb, heff⟩ := CheckEvent_effect E B t aod f tr hf ht
  obtain ⟨n0, n1, n2, n3, n4, n5, n6, n7, n8, n9, n10, n11, n12, n13, n14, n15, n16, n17, n18,
    n19, n20, n21, n22, n23, n24, n25, n26, n27, n28, n29, n30, n31, n32, n33, n34, n35⟩ :=
    triggerBins_ne E hv
  have m0 := Ne.symm n0
  have m1 := Ne.symm n1
  have m2 := Ne.symm n2
  have m3 := Ne.symm n3
  have m4 := Ne.symm n4
  have m5 := Ne.symm n5
  have m6 := Ne.symm n6
  have m7 := Ne.symm n7
  have m8 := Ne.symm n8
  have m9 := Ne.symm n9
  have m10 := Ne.symm n10
  have m11 := Ne.symm n11
  have m12 := Ne.symm n12
  have m13 := Ne.symm n13
  have m14 := Ne.symm n14
  have m15 := Ne.symm n15
  have m16 := Ne.symm n16
  have m17 := Ne.symm n17
  have m18 := Ne.symm n18
  have m19 := Ne.symm n19
  have m20 := Ne.symm n20
  have m21 := Ne.symm n21
  have m22 := Ne.symm n22
  have m23 := Ne.symm n23
  have m24 := Ne.symm n24
  have m25 := Ne.symm n25
  have m26 := Ne.symm n26
  have m27 := Ne.symm n27
  have m28 := Ne.symm n28
  have m29 := Ne.symm n29
  have m30 := Ne.symm n30
  have m31 := Ne.symm n31
  have m32 := Ne.symm n32
  have m33 := Ne.symm n33
  have m34 := Ne.symm n34
  have m35 := Ne.symm n35
  obtain ⟨cAll, cB, cA, cC, cE, cMB, cWT, cWV, cAcc⟩ := triggerBins_range E hv tr.fNbins hn
  refine ⟨tr1, hce, hnb, ?_, ?_, ?_, ?_, ?_, ?_, ?_, ?_, ?_, ?_⟩
  · rw [TH1D.GetBinContent, TH1D.GetBinContent, hnb, cAll, heff E.kAll]
    simp only [n0, n1, n2, n3, n4, n5, n6, n7, n8, n9, n10, n11, n12, n13, n14, n15, n16, n17,
      n18, n19, n20, n21, n22, n23, n24, n25, n26, n27, n28, n29, n30, n31, n32, n33, n34, n35,
      m0, m1, m2, m3, m4, m5, m6, m7, m8, m9, m10, m11, m12, m13, m14, m15, m16, m17, m18, m19,
      m20, m21, m22, m23, m24, m25, m26, m27, m28, m29, m30, m31, m32, m33, m34, m35, true_and,
      and_true, and_false, if_true, if_false, add_zero]
  · rw [TH1D.GetBinContent, TH1D.GetBinContent, hnb, cB, heff E.kB]
    simp only [n0, n1, n2, n3, n4, n5, n6, n7, n8, n9, n10, n11, n12, n13, n14, n15, n16, n17,
      n18, n19, n20, n21, n22, n23, n24, n25, n26, n27, n28, n29, n30, n31, n32, n33, n34, n35,
      m0, m1, m2, m3, m4, m5, m6, m7, m8, m9, m10, m11, m12, m13, m14, m15, m16, m17, m18, m19,
      m20, m21, m22, m23, m24, m25, m26, m27, m28, m29, m30, m31, m32, m33, m34, m35, true_and,
      and_true, and_false, if_true, if_false, add_zero]
  · rw [TH1D.GetBinContent, TH1D.GetBinContent, hnb, cA, heff E.kA]
    simp only [n0, n1, n2, n3, n4, n5, n6, n7, n8, n9, n10, n11, n12, n13, n14, n15, n16, n17,
      n18, n19, n20, n21, n22, n23, n24, n25, n26, n27, n28, n29, n30, n31, n32, n33, n34, n35,
      m0, m1, m2, m3, m4, m5, m6, m7, m8, m9, m10, m11, m12, m13, m14, m15, m16, m17, m18, m19,
      m20, m21, m22, m23, m24, m25, m26, m27, m28, m29, m30, m31, m32, m33, m34, m35, true_and,
      and_true, and_false, if_true, if_false, add_zero]
  · rw [TH1D.GetBinContent, TH1D.GetBinContent, hnb, cC, heff E.kC]
    simp only [n0, n1, n2, n3, n4, n5, n6, n7, n8, n9, n10, n11, n12, n13, n14, n15, n16, n17,
      n18, n19, n20, n21, n22, n23, n24, n25, n26, n27, n28, n29, n30, n31, n32, n33, n34, n35,
      m0, m1, m2, m3, m4, m5, m6, m7, m8, m9, m10, m11, m12, m13, m14, m15, m16, m17, m18, m19,
      m20, m21, m22, m23, m24, m25, m26, m27, m28, m29, m30, m31, m32, m33, m34, m35, true_and,
      and_true, and_false, if_true, if_false, add_zero]
  · rw [TH1D.GetBinContent, TH1D.GetBinContent, hnb, cE, heff E.kE]
    simp only [n0, n1, n2, n3, n4, n5, n6, n7, n8, n9, n10, n11, n12, n13, n14, n15, n16, n17,
      n18, n19, n20, n21, n22, n23, n24, n25, n26, n27, n28, n29, n30, n31, n32, n33, n34, n35,
      m0, m1, m2, m3, m4, m5, m6, m7, m8, m9, m10, m11, m12, m13, m14, m15, m16, m17, m18, m19,
      m20, m21, m22, m23, m24, m25, m26, m27, m28, m29, m30, m31, m32, m33, m34, m35, true_and,
      and_true, and_false, if_true, if_false, add_zero]
  · rw [TH1D.GetBinContent, TH1D.GetBinContent, hnb, cMB, heff E.kMB]
    simp only [n0, n1, n2, n3, n4, n5, n6, n7, n8, n9, n10, n11, n12, n13, n14, n15, n16, n17,
      n18, n19, n20, n21, n22, n23, n24, n25, n26, n27, n28, n29, n30, n31, n32, n33, n34, n35,
      m0, m1, m2, m3, m4, m5, m6, m7, m8, m9, m10, m11, m12, m13, m14, m15, m16, m17, m18, m19,
      m20, m21, m22, m23, m24, m25, m26, m27, m28, m29, m30, m31, m32, m33, m34, m35, true_and,
      and_true, and_false, if_true, if_false, add_zero]
  · rw [TH1D.GetBinContent, TH1D.GetBinContent, hnb, cWT, heff E.kWithTrigger]
    simp only [n0, n1, n2, n3, n4, n5, n6, n7, n8, n9, n10, n11, n12, n13, n14, n15, n16, n17,
      n18, n19, n20, n21, n22, n23, n24, n25, n26, n27, n28, n29, n30, n31, n32, n33, n34, n35,
      m0, m1, m2, m3, m4, m5, m6, m7, m8, m9, m10, m11, m12, m13, m14, m15, m16, m17, m18, m19,
      m20, m21, m22, m23, m24, m25, m26, m27, m28, m29, m30, m31, m32, m33, m34, m35, true_and,
      and_true, and_false, if_true, if_false, add_zero]
  · rw [TH1D.GetBinContent, TH1D.GetBinContent, hnb, cWV, heff E.kWithVertex]
    simp only [n0, n1, n2, n3, n4, n5, n6, n7, n8, n9, n10, n11, n12, n13, n14, n15, n16, n17,
      n18, n19, n20, n21, n22, n23, n24, n25, n26, n27, n28, n29, n30, n31, n32, n33, n34, n35,
      m0, m1, m2, m3, m4, m5, m6, m7, m8, m9, m10, m11, m12, m13, m14, m15, m16, m17, m18, m19,
      m20, m21, m22, m23, m24, m25, m26, m27, m28, m29, m30, m31, m32, m33, m34, m35, true_and,
      and_true, and_false, if_true, if_false, add_zero]
  · rw [TH1D.GetBinContent, TH1D.GetBinContent, hnb, cAcc, heff E.kAccepted]
    simp only [n0, n1, n2, n3, n4, n5, n6, n7, n8, n9, n10, n11, n12, n13, n14, n15, n16, n17,
      n18, n19, n20, n21, n22, n23, n24, n25, n26, n27, n28, n29, n30, n31, n32, n33, n34, n35,
      m0, m1, m2, m3, m4, m5, m6, m7, m8, m9, m10, m11, m12, m13, m14, m15, m16, m17, m18, m19,
      m20, m21, m22, m23, m24, m25, m26, m27, m28, m29, m30, m31, m32, m33, m34, m35, true_and,
      and_true, and_false, if_true, if_false, add_zero]
  · intro b
    have hb := heff (clampBin tr.fNbins b)
    rw [TH1D.GetBinContent, TH1D.GetBinContent, hnb]
    by_cases e_kAll : clampBin tr.fNbins b = E.kAll
    · rw [e_kAll] at hb ⊢
      simp only [n0, n1, n2, n3, n4, n5, n6, n7, n8, n9, n10, n11, n12, n13, n14, n15, n16,
        n17, n18, n19, n20, n21, n22, n23, n24, n25, n26, n27, n28, n29, n30, n31, n32, n33,
        n34, n35, m0, m1, m2, m3, m4, m5, m6, m7, m8, m9, m10, m11, m12, m13, m14, m15, m16,
        m17, m18, m19, m20, m21, m22, m23, m24, m25, m26, m27, m28, m29, m30, m31, m32, m33,
        m34, m35, true_and, and_true, and_false, if_true, if_false, add_zero] at hb
      exact Or.inr hb
    by_cases e_kB : clampBin tr.fNbins b = E.kB
    · rw [e_kB] at hb ⊢
      simp only [n0, n1, n2, n3, n4, n5, n6, n7, n8, n9, n10, n11, n12, n13, n14, n15, n16,
        n17, n18, n19, n20, n21, n22, n23, n24, n25, n26, n27, n28, n29, n30, n31, n32, n33,
        n34, n35, m0, m1, m2, m3, m4, m5, m6, m7, m8, m9, m10, m11, m12, m13, m14, m15, m16,
        m17, m18, m19, m20, m21, m22, m23, m24, m25, m26, m27, m28, m29, m30, m31, m32, m33,
        m34, m35, true_and, and_true, and_false, if_true, if_false, add_zero] at hb
      split_ifs at hb
      all_goals first | exact Or.inr hb | exact Or.inl (by simpa using hb)
    by_cases e_kA : clampBin tr.fNbins b = E.kA
    · rw [e_kA] at hb ⊢
      simp only [n0, n1, n2, n3, n4, n5, n6, n7, n8, n9, n10, n11, n12, n13, n14, n15, n16,
        n17, n18, n19, n20, n21, n22, n23, n24, n25, n26, n27, n28, n29, n30, n31, n32, n33,
        n34, n35, m0, m1, m2, m3, m4, m5, m6, m7, m8, m9, m10, m11, m12, m13, m14, m15, m16,
        m17, m18, m19, m20, m21, m22, m23, m24, m25, m26, m27, m28, m29, m30, m31, m32, m33,
        m34, m35, true_and, and_true, and_false, if_true, if_false, add_zero] at hb
      split_ifs at hb
      all_goals first | exact Or.inr hb | exact Or.inl (by simpa using hb)
    by_cases e_kC : clampBin tr.fNbins b = E.kC
    · rw [e_kC] at hb ⊢
      simp only [n0, n1, n2, n3, n4, n5, n6, n7, n8, n9, n10, n11, n12, n13, n14, n15, n16,
        n17, n18, n19, n20, n21, n22, n23, n24, n25, n26, n27, n28, n29, n30, n31, n32, n33,
        n34, n35, m0, m1, m2, m3, m4, m5, m6, m7, m8, m9, m10, m11, m12, m13, m14, m15, m16,
        m17, m18, m19, m20, m21, m22, m23, m24, m25, m26, m27, m28, m29, m30, m31, m32, m33,
        m34, m35, true_and, and_true, and_false, if_true, if_false, add_zero] at hb
      split_ifs at hb
      all_goals first | exact Or.inr hb | exact Or.inl (by simpa using hb)
    by_cases e_kE : clampBin tr.fNbins b = E.kE
    · rw [e_kE] at hb ⊢
      simp only [n0, n1, n2, n3, n4, n5, n6, n7, n8, n9, n10, n11, n12, n13, n14, n15, n16,
        n17, n18, n19, n20, n21, n22, n23, n24, n25, n26, n27, n28, n29, n30, n31, n32, n33,
        n34, n35, m0, m1, m2, m3, m4, m5, m6, m7, m8, m9, m10, m11, m12, m13, m14, m15, m16,
        m17, m18, m19, m20, m21, m22, m23, m24, m25, m26, m27, m28, m29, m30, m31, m32, m33,
        m34, m35, true_and, and_true, and_false, if_true, if_false, add_zero] at hb
      split_ifs at hb
      all_goals first | exact Or.inr hb | exact Or.inl (by simpa using hb)
    by_cases e_kMB : clampBin tr.fNbins b = E.kMB
    · rw [e_kMB] at hb ⊢
      simp only [n0, n1, n2, n3, n4, n5, n6, n7, n8, n9, n10, n11, n12, n13, n14, n15, n16,
        n17, n18, n19, n20, n21, n22, n23, n24, n25, n26, n27, n28, n29, n30, n31, n32, n33,
        n34, n35, m0, m1, m2, m3, m4, m5, m6, m7, m8, m9, m10, m11, m12, m13, m14, m15, m16,
        m17, m18, m19, m20, m21, m22, m23, m24, m25, m26, m27, m28, m29, m30, m31, m32, m33,
        m34, m35, true_and, and_true, and_false, if_true, if_false, add_zero] at hb
      split_ifs at hb
      all_goals first | exact Or.inr hb | exact Or.inl (by simpa using hb)
    by_cases e_kWithTrigger : clampBin tr.fNbins b = E.kWithTrigger
    · rw [e_kWithTrigger] at hb ⊢
      simp only [n0, n1, n2, n3, n4, n5, n6, n7, n8, n9, n10, n11, n12, n13, n14, n15, n16,
        n17, n18, n19, n20, n21, n22, n23, n24, n25, n26, n27, n28, n29, n30, n31, n32, n33,
        n34, n35, m0, m1, m2, m3, m4, m5, m6, m7, m8, m9, m10, m11, m12, m13, m14, m15, m16,
        m17, m18, m19, m20, m21, m22, m23, m24, m25, m26, m27, m28, m29, m30, m31, m32, m33,
        m34, m35, true_and, and_true, and_false, if_true, if_false, add_zero] at hb
      split_ifs at hb
      all_goals first | exact Or.inr hb | exact Or.inl (by simpa using hb)
    by_cases e_kWithVertex : clampBin tr.fNbins b = E.kWithVertex
    · rw [e_kWithVertex] at hb ⊢
      simp only [n0, n1, n2, n3, n4, n5, n6, n7, n8, n9, n10, n11, n12, n13, n14, n15, n16,
        n17, n18, n19, n20, n21, n22, n23, n24, n25, n26, n27, n28, n29, n30, n31, n32, n33,
        n34, n35, m0, m1, m2, m3, m4, m5, m6, m7, m8, m9, m10, m11, m12, m13, m14, m15, m16,
        m17, m18, m19, m20, m21, m22, m23, m24, m25, m26, m27, m28, m29, m30, m31, m32, m33,
        m34, m35, true_and, and_true, and_false, if_true, if_false, add_zero] at hb
      split_ifs at hb
      all_goals first | exact Or.inr hb | exact Or.inl (by simpa using hb)
    by_cases e_kAccepted : clampBin tr.fNbins b = E.kAccepted
    · rw [e_kAccepted] at hb ⊢
      simp only [n0, n1, n2, n3, n4, n5, n6, n7, n8, n9, n10, n11, n12, n13, n14, n15, n16,
        n17, n18, n19, n20, n21, n22, n23, n24, n25, n26, n27, n28, n29, n30, n31, n32, n33,
        n34, n35, m0, m1, m2, m3, m4, m5, m6, m7, m8, m9, m10, m11, m12, m13, m14, m15, m16,
        m17, m18, m19, m20, m21, m22, m23, m24, m25, m26, m27, m28, m29, m30, m31, m32, m33,
        m34, m35, true_and, and_true, and_false, if_true, if_false, add_zero] at hb
      split_ifs at hb
      all_goals first | exact Or.inr hb | exact Or.inl (by simpa using hb)
    left
    simp only [e_kAll, e_kB, e_kA, e_kC, e_kE, e_kMB, e_kWithTrigger, e_kWithVertex,
      e_kAccepted, and_false, if_false, add_zero] at hb
    exact hb

end BasedNdeta
namespace BasedNdeta

/-- One call of `CheckEvent` on a task with a trigger histogram: it returns, no bin grows by
more than one, the value returned is true exactly when the accepted counter grows, and the
order of the counters is kept. -/
theorem CheckEvent_step (E : Ext) (B : ETriggerBits) (hv : triggerBinsValid E) (t : Task)
    (aod : AliAODEvent) (tr : TH1D) (ht : t.fTriggers = some tr)
    (hn : E.kAccepted ≤ (tr.fNbins : Int)) :
    ∃ t1 r tr1, CheckEvent E B t aod = Except.ok (t1, r) ∧ t1.fTriggers = some tr1 ∧
      tr1.fNbins = tr.fNbins ∧
      (∀ b, tr1.GetBinContent b = tr.GetBinContent b ∨
        tr1.GetBinContent b = tr.GetBinContent b + 1) ∧
      (r = true ↔ tr1.GetBinContent E.kAccepted = tr.GetBinContent E.kAccepted + 1) ∧
      tr1.GetBinContent E.kAccepted =
        tr.GetBinContent E.kAccepted + (if r = true then 1 else 0) ∧
      (countersOrdered E tr → countersOrdered E tr1) := by
  rcases hf : aod.forward with _ | f
  · refine ⟨t, false, tr, ?_, ht, rfl, fun b => Or.inl rfl, ?_, by simp, fun h => h⟩
    · simp only [CheckEvent, hf]
    · constructor
      · intro h
        exact absurd h (by decide)
      · intro h
        linarith
  · obtain ⟨tr1, hce, hnb, aAll, aB, aA, aC, aE, aMB, aWT, aWV, aAcc, hinc⟩ :=
      CheckEvent_counters E B hv t aod f tr hf ht hn
    refine ⟨_, _, tr1, hce, rfl, hnb, hinc, ?_, ?_, ?_⟩
    · rw [aAcc]
      simp only [Bool.and_eq_true]
      constructor
      · intro h
        rw [if_pos ⟨h.1.1, h.1.2, h.2⟩]
      · intro h
        by_cases hc : f.IsTriggerBits t.fTriggerMask = true ∧ f.HasIpZ = true ∧
            f.InRange t.fVtxMin t.fVtxMax = true
        · exact ⟨⟨hc.1, hc.2.1⟩, hc.2.2⟩
        · rw [if_neg hc] at h
          linarith
    · rw [aAcc]
      simp only [Bool.and_eq_true, and_assoc]
    · rintro ⟨o1, o2, o3, o4, o5, o6, o7, o8⟩
      unfold countersOrdered
      rw [aAll, aB, aA, aC, aE, aMB, aWT, aWV, aAcc]
      refine ⟨?_, ?_, ?_, ?_, ?_, ?_, ?_, ?_⟩
      all_goals split_ifs
      all_goals first | linarith | (exfalso; tauto)

/-- A sequence of calls of `CheckEvent` on a task with a trigger histogram whose counters
are in order: every call returns, the counters stay in order, and the accepted counter
grows by the number of calls that returned true. -/
theorem CheckEvents_ordered (E : Ext) (B : ETriggerBits) (hv : triggerBinsValid E) :
    ∀ (events : List AliAODEvent) (t : Task) (tr : TH1D), t.fTriggers = some tr →
      E.kAccepted ≤ (tr.fNbins : Int) → countersOrdered E tr →
      ∃ t1 rs tr1, CheckEvents E B t events = Except.ok (t1, rs) ∧
        t1.fTriggers = some tr1 ∧ rs.length = events.length ∧ countersOrdered E tr1 ∧
        tr1.GetBinContent E.kAccepted =
          tr.GetBinContent E.kAccepted + ((rs.count true : Nat) : ℚ)
  | [], t, tr, ht, _, ho => ⟨t, [], tr, rfl, ht, rfl, ho, by simp⟩
  | aod :: rest, t, tr, ht, hn, ho => by
    obtain ⟨t1, r, tr1, hce, ht1, hnb, -, -, hacc, hord⟩ :=
      CheckEvent_step E B hv t aod tr ht hn
    obtain ⟨t2, rs, tr2, hces, ht2, hlen, ho2, hacc2⟩ :=
      CheckEvents_ordered E B hv rest t1 tr1 ht1 (by rw [hnb]; exact hn) (hord ho)
    refine ⟨t2, r :: rs, tr2, ?_, ht2, by simp [hlen], ho2, ?_⟩
    · simp only [CheckEvents, hce, hces]
    · rw [hacc2, hacc]
      cases r
      · simp
      · simp [List.count_cons]
        ring

end BasedNdeta
namespace BasedNdeta

/-- C19. When the nine counter bins are different bins of the trigger histogram: every call
of `CheckEvent` on a task with a trigger histogram returns, grows no bin by more than one,
and returns true exactly when it grows the accepted counter; and after any sequence of
calls that starts from the empty histogram booked by `UserCreateOutputObjects`,
`accepted ≤ withVertex ≤ withTrigger ≤ all`, each of the `B`, `A`, `C`, `E` and
minimum-bias counters is at most `all`, and the accepted counter is the number of calls
that returned true. -/
theorem C19_trigger_counters (E : Ext) (B : ETriggerBits) (hv : triggerBinsValid E) :
    (∀ (t : Task) (aod : AliAODEvent) (tr : TH1D), t.fTriggers = some tr →
      E.kAccepted ≤ (tr.fNbins : Int) →
      ∃ t1 r tr1, CheckEvent E B t aod = Except.ok (t1, r) ∧ t1.fTriggers = some tr1 ∧
        (∀ b, tr1.GetBinContent b = tr.GetBinContent b ∨
          tr1.GetBinContent b = tr.GetBinContent b + 1) ∧
        (r = true ↔ tr1.GetBinContent E.kAccepted = tr.GetBinContent E.kAccepted + 1)) ∧
    (∀ (t : Task) (events : List AliAODEvent), t.fTriggers = some (newTriggers E) →
      ∃ t1 rs tr1, CheckEvents E B t events = Except.ok (t1, rs) ∧
        t1.fTriggers = some tr1 ∧ rs.length = events.length ∧
        tr1.GetBinContent E.kAccepted ≤ tr1.GetBinContent E.kWithVertex ∧
        tr1.GetBinContent E.kWithVertex ≤ tr1.GetBinContent E.kWithTrigger ∧
        tr1.GetBinContent E.kWithTrigger ≤ tr1.GetBinContent E.kAll ∧
        tr1.GetBinContent E.kB ≤ tr1.GetBinContent E.kAll ∧
        tr1.GetBinContent E.kA ≤ tr1.GetBinContent E.kAll ∧
        tr1.GetBinContent E.kC ≤ tr1.GetBinContent E.kAll ∧
        tr1.GetBinContent E.kE ≤ tr1.GetBinContent E.kAll ∧
        tr1.GetBinContent E.kMB ≤ tr1.GetBinContent E.kAll ∧
        tr1.GetBinContent E.kAccepted = ((rs.count true : Nat) : ℚ)) := by
  constructor
  · intro t aod tr ht hn
    obtain ⟨t1, r, tr1, hce, ht1, -, hinc, hiff, -, -⟩ := CheckEvent_step E B hv t aod tr ht hn
    exact ⟨t1, r, tr1, hce, ht1, hinc, hiff⟩
  · intro t events ht
    have hzero : ∀ b, (newTriggers E).GetBinContent b = 0 := fun b => rfl
    have hn : E.kAccepted ≤ ((newTriggers E).fNbins : Int) := by
      simp only [newTriggers, TH1D.new]
      split <;> omega
    have ho : countersOrdered E (newTriggers E) := by
      unfold countersOrdered
      simp only [hzero, le_refl, and_self]
    obtain ⟨t1, rs, tr1, hces, ht1, hlen, ⟨o1, o2, o3, o4, o5, o6, o7, o8⟩, hacc⟩ :=
      CheckEvents_ordered E B hv events t (newTriggers E) ht hn ho
    rw [hzero, zero_add] at hacc
    exact ⟨t1, rs, tr1, hces, ht1, hlen, o1, o2, o3, o4, o5, o6, o7, o8, hacc⟩

/-- C19 at the bins of `sampleExt` and the task `bookedTask`, for an accepted event followed
by an event without vertex: both calls return and the counters are in order. -/
theorem C19_trigger_counters_witness :
    triggerBinsValid sampleExt ∧
    ∃ t1 rs tr1,
      CheckEvents sampleExt sampleBits bookedTask [acceptedEvent, noVertexEvent] =
        Except.ok (t1, rs) ∧
      t1.fTriggers = some tr1 ∧ rs.length = 2 ∧
      tr1.GetBinContent sampleExt.kAccepted ≤ tr1.GetBinContent sampleExt.kWithVertex ∧
      tr1.GetBinContent sampleExt.kWithVertex ≤ tr1.GetBinContent sampleExt.kWithTrigger ∧
      tr1.GetBinContent sampleExt.kWithTrigger ≤ tr1.GetBinContent sampleExt.kAll := by
  have hv : triggerBinsValid sampleExt := by
    unfold triggerBinsValid
    decide
  obtain ⟨t1, rs, tr1, hces, ht1, hlen, o1, o2, o3, -⟩ :=
    (C19_trigger_counters sampleExt sampleBits hv).2 bookedTask
      [acceptedEvent, noVertexEvent] rfl
  exact ⟨hv, t1, rs, tr1, hces, ht1, hlen, o1, o2, o3⟩

end BasedNdeta
/-- A turn of a loop that leaves the state unchanged can be taken out of the loop. -/
theorem foldl_skip {α β : Type} (f : β → α → β) (a : α) (hskip : ∀ b, f b a = b) :
    ∀ (xs ys : List α) (b : β), (xs ++ a :: ys).foldl f b = (xs ++ ys).foldl f b := by
  intro xs ys b
  rw [List.foldl_append, List.foldl_cons, hskip, List.foldl_append]

/-- The assignment `if (a < s) s = a` leaves the smaller of `s` and `a` in `s`. -/
theorem ite_lt_eq_min (a s : ℚ) : (if a < s then a else s) = min s a := by
  rw [min_def]
  split_ifs <;> first | rfl | linarith

/-- The smaller of the start value `1000` and two track lengths, as the chain of
comparisons of `UserExec` computes it. -/
theorem v0_lSmallestTrackLength_eq (v : V0.V0Entry) :
    V0.lSmallestTrackLength v =
      min (min 1000 (if v.posInnerParam then v.posLengthInActiveZone else -1))
        (if v.negInnerParam then v.negLengthInActiveZone else -1) := by
  unfold V0.lSmallestTrackLength
  simp only [ite_lt_eq_min]

/-- The smaller of the start value `1000` and three track lengths, as the chain of
comparisons of `UserExec` computes it. -/
theorem cascade_lSmallestTrackLength_eq (x : Cascade.CascadeEntry) :
    Cascade.lSmallestTrackLength x =
      min (min (min 1000 (if x.posInnerParam then x.posLengthInActiveZone else -1))
        (if x.negInnerParam then x.negLengthInActiveZone else -1))
        (if x.bachInnerParam then x.bachLengthInActiveZone else -1) := by
  unfold Cascade.lSmallestTrackLength
  simp only [ite_lt_eq_min]

/-- C20. In the loop over the V0s, a V0 that reaches the track-quality gate is skipped by it
exactly when the positive or the negative daughter has fewer than 70 crossed rows and the
smallest track length (the smaller of `1000` and the daughters' lengths, `-1` standing for a
daughter without inner parameters) is below 80; in the loop over the cascades, a cascade is
skipped exactly when one of the three daughters has fewer than 70 TPC clusters and the
smallest track length is below 80.  A skipped candidate leaves every configuration as it
was, the loop over the event gives the same lists with and without it, and a candidate that
is not skipped goes on to the configuration loop (for a cascade, when it passes the extra
cleanup). -/
theorem C20_track_quality_gate (E : Ext) :
    (∀ v : V0.V0Entry, V0.trackQualityGate v = true ↔
      (v.lPosTrackCrossedRows < 70 ∨ v.lNegTrackCrossedRows < 70) ∧
        V0.lSmallestTrackLength v < 80) ∧
    (∀ v : V0.V0Entry, V0.lSmallestTrackLength v =
      min (min 1000 (if v.posInnerParam then v.posLengthInActiveZone else -1))
        (if v.negInnerParam then v.negLengthInActiveZone else -1)) ∧
    (∀ (l : List V0.AliV0Result) (v : V0.V0Entry), V0.trackQualityGate v = true →
      V0.v0LoopBody E l v = l) ∧
    (∀ (l : List V0.AliV0Result) (v : V0.V0Entry), v.reachesTrackQuality = true →
      V0.trackQualityGate v = false →
      V0.v0LoopBody E l v = V0.configurationLoop E (V0.candidateOf v) l) ∧
    (∀ (l : List V0.AliV0Result) (vs1 : List V0.V0Entry) (v : V0.V0Entry)
        (vs2 : List V0.V0Entry), V0.trackQualityGate v = true →
      V0.v0Loop E l (vs1 ++ v :: vs2) = V0.v0Loop E l (vs1 ++ vs2)) ∧
    (∀ x : Cascade.CascadeEntry, Cascade.trackQualityGate x = true ↔
      (x.lPosTPCClusters < 70 ∨ x.lNegTPCClusters < 70 ∨ x.lBachTPCClusters < 70) ∧
        Cascade.lSmallestTrackLength x < 80) ∧
    (∀ x : Cascade.CascadeEntry, Cascade.lSmallestTrackLength x =
      min (min (min 1000 (if x.posInnerParam then x.posLengthInActiveZone else -1))
        (if x.negInnerParam then x.negLengthInActiveZone else -1))
        (if x.bachInnerParam then x.bachLengthInActiveZone else -1)) ∧
    (∀ (l : List Cascade.AliCascadeResult) (x : Cascade.CascadeEntry),
      Cascade.trackQualityGate x = true → Cascade.cascadeLoopBody E l x = l) ∧
    (∀ (l : List Cascade.AliCascadeResult) (x : Cascade.CascadeEntry),
      x.reachesTrackQuality = true → Cascade.trackQualityGate x = false →
      Cascade.cascadeLoopBody E l x =
        if x.passesExtraCleanup then Cascade.configurationLoop E (Cascade.candidateOf x) l
        else l) ∧
    (∀ (l : List Cascade.AliCascadeResult) (xs1 : List Cascade.CascadeEntry)
        (x : Cascade.CascadeEntry) (xs2 : List Cascade.CascadeEntry),
      Cascade.trackQualityGate x = true →
      Cascade.cascadeLoop E l (xs1 ++ x :: xs2) = Cascade.cascadeLoop E l (xs1 ++ xs2)) := by
  have hv : ∀ (l : List V0.AliV0Result) (v : V0.V0Entry), V0.trackQualityGate v = true →
      V0.v0LoopBody E l v = l := by
    intro l v hg
    unfold V0.v0LoopBody
    rw [hg]
    simp
  have hx : ∀ (l : List Cascade.AliCascadeResult) (x : Cascade.CascadeEntry),
      Cascade.trackQualityGate x = true → Cascade.cascadeLoopBody E l x = l := by
    intro l x hg
    unfold Cascade.cascadeLoopBody
    rw [hg]
    simp
  refine ⟨?_, v0_lSmallestTrackLength_eq, hv, ?_, ?_, ?_, cascade_lSmallestTrackLength_eq, hx,
    ?_, ?_⟩
  · intro v
    simp only [V0.trackQualityGate, Bool.and_eq_true, Bool.or_eq_true, decide_eq_true_eq]
  · intro l v hr hg
    unfold V0.v0LoopBody
    rw [hr, hg]
    simp
  · intro l vs1 v vs2 hg
    exact foldl_skip (V0.v0LoopBody E) v (fun b => hv b v hg) vs1 vs2 l
  · intro x
    unfold Cascade.trackQualityGate
    split_ifs with h1 h2 h3
    · simp only [true_iff]
      exact ⟨Or.inl h1.1, h1.2⟩
    · simp only [true_iff]
      exact ⟨Or.inr (Or.inl h2.1), h2.2⟩
    · simp only [true_iff]
      exact ⟨Or.inr (Or.inr h3.1), h3.2⟩
    · simp only [Bool.false_eq_true, false_iff]
      rintro ⟨h | h | h, hs⟩
      · exact h1 ⟨h, hs⟩
      · exact h2 ⟨h, hs⟩
      · exact h3 ⟨h, hs⟩
  · intro l x hr hg
    unfold Cascade.cascadeLoopBody
    rw [hr, hg]
    cases x.passesExtraCleanup <;> simp
  · intro l xs1 x xs2 hg
    exact foldl_skip (Cascade.cascadeLoopBody E) x (fun b => hx b x hg) xs1 xs2 l

/-- C20 at sample candidates: the V0 `shortEntry` (60 crossed rows, smallest length 50) and
the cascade `shortEntry` (60 bachelor clusters, smallest length `-1`) are skipped, and the
loops over an event that holds them next to a good candidate give the same lists as the
loops over the good candidate alone. -/
theorem C20_track_quality_gate_witness :
    V0.trackQualityGate V0.shortEntry = true ∧
    V0.v0Loop sampleExt [V0.sampleResult] [V0.goodEntry, V0.shortEntry] =
      V0.v0Loop sampleExt [V0.sampleResult] [V0.goodEntry] ∧
    Cascade.trackQualityGate Cascade.shortEntry = true ∧
    Cascade.cascadeLoop sampleExt [Cascade.sampleResult] [Cascade.goodEntry, Cascade.shortEntry] =
      Cascade.cascadeLoop sampleExt [Cascade.sampleResult] [Cascade.goodEntry] := by
  have g1 : V0.trackQualityGate V0.shortEntry = true := by
    norm_num [V0.trackQualityGate, V0.lSmallestTrackLength, V0.shortEntry, V0.goodEntry]
  have g2 : Cascade.trackQualityGate Cascade.shortEntry = true := by
    norm_num [Cascade.trackQualityGate, Cascade.lSmallestTrackLength, Cascade.shortEntry,
      Cascade.goodEntry]
  exact ⟨g1, (C20_track_quality_gate sampleExt).2.2.2.2.1 [V0.sampleResult] [V0.goodEntry]
    V0.shortEntry [] g1, g2,
    (C20_track_quality_gate sampleExt).2.2.2.2.2.2.2.2.2 [Cascade.sampleResult]
      [Cascade.goodEntry] Cascade.shortEntry [] g2⟩

namespace BasedNdeta

/-- C25: for a histogram `h` with `nY` y bins, `ProjectX` replaces a negative first bin by
`0` and a first bin at or beyond `nY + 1` by `nY`, and a last bin that is negative or beyond
`nY + 1` by `nY`, and keeps every other value; the clamped bins satisfy `0 ≤ first ≤ nY` and
`0 ≤ last ≤ nY + 1`, every y bin of the loop is a cell index in `[0, nY + 1]` that the
accessors read unchanged, the null pointer is returned exactly when `last < first`, and a
returned histogram has the x binning of `h`. -/
theorem C25_projection_range (E : Ext) (h : TH2D) (name : String) (firstbin lastbin : Int)
    (corr error : Bool) (hx : 0 < h.fNbinsX) :
    (firstbin < 0 → clampFirst h.fNbinsY firstbin = 0) ∧
    ((h.fNbinsY : Int) + 1 ≤ firstbin → clampFirst h.fNbinsY firstbin = h.fNbinsY) ∧
    (0 ≤ firstbin → firstbin ≤ h.fNbinsY → clampFirst h.fNbinsY firstbin = firstbin) ∧
    (lastbin < 0 ∨ (h.fNbinsY : Int) + 1 < lastbin →
      clampLast h.fNbinsY lastbin = h.fNbinsY) ∧
    (0 ≤ lastbin → lastbin ≤ (h.fNbinsY : Int) + 1 → clampLast h.fNbinsY lastbin = lastbin) ∧
    (0 ≤ clampFirst h.fNbinsY firstbin ∧ clampFirst h.fNbinsY firstbin ≤ h.fNbinsY) ∧
    (0 ≤ clampLast h.fNbinsY lastbin ∧ clampLast h.fNbinsY lastbin ≤ (h.fNbinsY : Int) + 1) ∧
    (∀ ybin ∈ intRange (clampFirst h.fNbinsY firstbin) (clampLast h.fNbinsY lastbin),
      0 ≤ ybin ∧ ybin ≤ (h.fNbinsY : Int) + 1 ∧ clampBin h.fNbinsY ybin = ybin) ∧
    (ProjectX E (some h) name firstbin lastbin corr error = none ↔
      clampLast h.fNbinsY lastbin < clampFirst h.fNbinsY firstbin) ∧
    (∀ ret, ProjectX E (some h) name firstbin lastbin corr error = some ret →
      ret.fNbins = h.fNbinsX ∧ ret.fXmin = h.fXmin ∧ ret.fXmax = h.fXmax) := by
  have hf : 0 ≤ clampFirst h.fNbinsY firstbin ∧ clampFirst h.fNbinsY firstbin ≤ h.fNbinsY := by
    unfold clampFirst
    split_ifs <;> omega
  have hl : 0 ≤ clampLast h.fNbinsY lastbin ∧
      clampLast h.fNbinsY lastbin ≤ (h.fNbinsY : Int) + 1 := by
    unfold clampLast
    split_ifs <;> omega
  refine ⟨?_, ?_, ?_, ?_, ?_, hf, hl, ?_, ?_, ?_⟩
  · intro h0
    simp [clampFirst, h0]
  · intro h0
    unfold clampFirst
    split_ifs <;> omega
  · intro h0 h1
    unfold clampFirst
    split_ifs <;> omega
  · intro h0
    unfold clampLast
    split_ifs <;> omega
  · intro h0 h1
    unfold clampLast
    split_ifs <;> omega
  · intro ybin hy
    rw [mem_intRange] at hy
    refine ⟨by omega, by omega, ?_⟩
    unfold clampBin
    split_ifs <;> omega
  · simp only [ProjectX]
    split_ifs with hc
    · simp only [true_iff]
      omega
    · simp only [false_iff, reduceCtorEq]
      omega
  · intro ret hret
    obtain ⟨h1, h2, h3⟩ := ProjectX_axis E h name firstbin lastbin corr error ret hret
    refine ⟨?_, h2, h3⟩
    rw [h1, if_neg (by omega)]

/-- C25 at `exampleSum` (two y bins): the requested range `[-1, 7]` is clamped to `[0, 2]`
and gives a histogram of two bins on `[0, 1]`, and the range `[3, 1]` is clamped to
`[2, 1]` and gives the null pointer. -/
theorem C25_projection_range_witness :
    0 < exampleSum.fNbinsX ∧
    clampFirst exampleSum.fNbinsY (-1) = 0 ∧ clampLast exampleSum.fNbinsY 7 = 2 ∧
    clampFirst exampleSum.fNbinsY 3 = 2 ∧
    ProjectX sampleExt (some exampleSum) "p" 3 1 true true = none ∧
    (∀ ret, ProjectX sampleExt (some exampleSum) "p" (-1) 7 true true = some ret →
      ret.fNbins = 2 ∧ ret.fXmin = 0 ∧ ret.fXmax = 1) :=
  ⟨by decide, by decide, by decide, by decide,
    (C25_projection_range sampleExt exampleSum "p" 3 1 true true (by decide)).2.2.2.2.2.2.2.2.1.mpr
      (by decide),
    (C25_projection_range sampleExt exampleSum "p" (-1) 7 true true
      (by decide)).2.2.2.2.2.2.2.2.2⟩

end BasedNdeta
namespace BasedNdeta

/-- A contributing bin has positive content. -/
theorem keeps_pos (fCutEdges : Bool) (h : TH1D) (b : Int) (hk : keeps fCutEdges h b = true) :
    0 < h.GetBinContent b := by
  unfold keeps at hk
  exact (of_decide_eq_true hk).1

/-- One turn of the loop over the bins of a group in `Rebin` at a bin that does not
contribute. -/
theorem rebinStep_skip (E : Ext) (fRebin : Int) (fCutEdges : Bool) (h : TH1D) (i j : Int)
    (a : RebinAcc) (hk : keeps fCutEdges h ((i - 1) * fRebin + j) = false) :
    rebinStep E fRebin fCutEdges h i (Except.ok a) j = Except.ok a := by
  unfold keeps at hk
  have hk' := of_decide_eq_false hk
  simp only [rebinStep]
  by_cases hc : h.GetBinContent ((i - 1) * fRebin + j) ≤ 0
  · rw [if_pos hc]
  · rw [if_neg hc]
    have hcut : fCutEdges = true ∧ (h.GetBinContent ((i - 1) * fRebin + j + 1) ≤ 0 ∨
        h.GetBinContent ((i - 1) * fRebin + j - 1) ≠ 0) := by
      by_contra hn
      exact hk' ⟨not_le.mp hc, hn⟩
    rw [if_pos hcut]

/-- One turn of the loop over the bins of a group in `Rebin` at a contributing bin with a
non-zero error. -/
theorem rebinStep_keep (E : Ext) (fRebin : Int) (fCutEdges : Bool) (h : TH1D) (i j : Int)
    (a : RebinAcc) (hk : keeps fCutEdges h ((i - 1) * fRebin + j) = true)
    (he : TH1D.GetBinError E h ((i - 1) * fRebin + j) ≠ 0) :
    rebinStep E fRebin fCutEdges h i (Except.ok a) j =
      Except.ok { content := a.content + h.GetBinContent ((i - 1) * fRebin + j)
                  sumw := a.sumw + binWeight E h ((i - 1) * fRebin + j)
                  wsum := a.wsum + binWeight E h ((i - 1) * fRebin + j) *
                    h.GetBinContent ((i - 1) * fRebin + j)
                  nbins := a.nbins + 1 } := by
  unfold keeps at hk
  obtain ⟨hpos, hcut⟩ := of_decide_eq_true hk
  have hee : TH1D.GetBinError E h ((i - 1) * fRebin + j) *
      TH1D.GetBinError E h ((i - 1) * fRebin + j) ≠ 0 := mul_ne_zero he he
  simp only [rebinStep]
  rw [if_neg (not_le.mpr hpos), if_neg hcut]
  simp only [fdiv_of_ne 1 _ hee, binWeight]

/-- The loop over the bins of one group in `Rebin` when every contributing bin has a
non-zero error. -/
theorem foldl_rebinStep_kept (E : Ext) (fRebin : Int) (fCutEdges : Bool) (h : TH1D) (i : Int) :
    ∀ (js : List Int) (a : RebinAcc),
      (∀ j ∈ js, keeps fCutEdges h ((i - 1) * fRebin + j) = true →
        TH1D.GetBinError E h ((i - 1) * fRebin + j) ≠ 0) →
      js.foldl (rebinStep E fRebin fCutEdges h i) (Except.ok a) =
        Except.ok
          { content := a.content + (((js.map (fun j => (i - 1) * fRebin + j)).filter
              (keeps fCutEdges h)).map h.GetBinContent).sum
            sumw := a.sumw + (((js.map (fun j => (i - 1) * fRebin + j)).filter
              (keeps fCutEdges h)).map (binWeight E h)).sum
            wsum := a.wsum + (((js.map (fun j => (i - 1) * fRebin + j)).filter
              (keeps fCutEdges h)).map (fun b => binWeight E h b * h.GetBinContent b)).sum
            nbins := a.nbins + (((js.map (fun j => (i - 1) * fRebin + j)).filter
              (keeps fCutEdges h)).length : Int) }
  | [], a, _ => by simp
  | j :: js, a, herr => by
    rw [List.foldl_cons]
    by_cases hk : keeps fCutEdges h ((i - 1) * fRebin + j) = true
    · rw [rebinStep_keep E fRebin fCutEdges h i j a hk (herr j (List.mem_cons_self _ _) hk),
        foldl_rebinStep_kept E fRebin fCutEdges h i js _
          (fun z hz => herr z (List.mem_cons_of_mem _ hz))]
      simp only [List.map_cons, List.filter_cons, hk, if_true, List.sum_cons,
        List.length_cons, Nat.cast_add, Nat.cast_one, Except.ok.injEq, RebinAcc.mk.injEq]
      refine ⟨?_, ?_, ?_, ?_⟩ <;> ring
    · have hk' : keeps fCutEdges h ((i - 1) * fRebin + j) = false := by simpa using hk
      rw [rebinStep_skip E fRebin fCutEdges h i j a hk',
        foldl_rebinStep_kept E fRebin fCutEdges h i js a
          (fun z hz => herr z (List.mem_cons_of_mem _ hz))]
      simp [List.filter_cons, hk']

/-- A contributing bin of the group of new bin `i` is a bin `(i-1)*R + j` with
`1 ≤ j ≤ R` that the loop keeps. -/
theorem mem_keptBins (fRebin : Int) (fCutEdges : Bool) (h : TH1D) (i b : Int) :
    b ∈ keptBins fRebin fCutEdges h i ↔
      (∃ j, 1 ≤ j ∧ j ≤ fRebin ∧ b = (i - 1) * fRebin + j) ∧ keeps fCutEdges h b = true := by
  unfold keptBins
  simp only [List.mem_filter, List.mem_map, mem_intRange]
  constructor
  · rintro ⟨⟨j, ⟨h1, h2⟩, rfl⟩, hpos⟩
    exact ⟨⟨j, h1, h2, rfl⟩, hpos⟩
  · rintro ⟨⟨j, h1, h2, rfl⟩, hpos⟩
    exact ⟨⟨j, ⟨h1, h2⟩, rfl⟩, hpos⟩

/-- The weight of a bin with a non-zero error is positive. -/
theorem binWeight_pos (E : Ext) (h : TH1D) (b : Int) (he : TH1D.GetBinError E h b ≠ 0) :
    0 < binWeight E h b := by
  unfold binWeight
  have : 0 < TH1D.GetBinError E h b * TH1D.GetBinError E h b := by
    rcases lt_or_gt_of_ne he with hlt | hgt
    · exact mul_pos_of_neg_of_neg hlt hlt
    · exact mul_pos hgt hgt
  positivity

/-- The sum of the weights of a group with a contributing bin is positive when the
contributing bins have non-zero errors. -/
theorem keptSumw_pos (E : Ext) (fRebin : Int) (fCutEdges : Bool) (h : TH1D) (i : Int)
    (herr : ∀ b ∈ keptBins fRebin fCutEdges h i, TH1D.GetBinError E h b ≠ 0)
    (hne : keptBins fRebin fCutEdges h i ≠ []) : 0 < keptSumw E fRebin fCutEdges h i :=
  sum_map_pos _ _ (fun b hb => binWeight_pos E h b (herr b hb)) hne

/-- One turn of the loop over the new bins in `Rebin` when every contributing bin of the
group has a non-zero error and the root of the sum of weights is not zero. -/
theorem rebinBin_kept (E : Ext) (fRebin : Int) (fCutEdges : Bool) (h tmp : TH1D) (i : Int)
    (herr : ∀ b ∈ keptBins fRebin fCutEdges h i, TH1D.GetBinError E h b ≠ 0)
    (hsqrt : keptBins fRebin fCutEdges h i ≠ [] →
      E.Sqrt (keptSumw E fRebin fCutEdges h i) ≠ 0) :
    rebinBin E fRebin fCutEdges h (Except.ok tmp) i =
      Except.ok (if keptBins fRebin fCutEdges h i = [] then tmp
        else (tmp.SetBinContent i (keptWsum E fRebin fCutEdges h i /
          keptSumw E fRebin fCutEdges h i)).SetBinError
            i (1 / E.Sqrt (keptSumw E fRebin fCutEdges h i))) := by
  have hfold := foldl_rebinStep_kept E fRebin fCutEdges h i (intRange 1 fRebin)
    { content := 0, sumw := 0, wsum := 0, nbins := 0 }
    (fun j hj hk => herr _ ((mem_keptBins fRebin fCutEdges h i _).mpr
      ⟨⟨j, ((mem_intRange _ _ _).mp hj).1, ((mem_intRange _ _ _).mp hj).2, rfl⟩, hk⟩))
  simp only [zero_add] at hfold
  unfold rebinBin
  simp only [hfold]
  by_cases hne : keptBins fRebin fCutEdges h i = []
  · have hne' : List.filter (keeps fCutEdges h)
        (List.map (fun j => (i - 1) * fRebin + j) (intRange 1 fRebin)) = [] := hne
    simp [hne, hne']
  · have hcpos : 0 < ((keptBins fRebin fCutEdges h i).map h.GetBinContent).sum :=
      sum_map_pos _ _
        (fun b hb => keeps_pos fCutEdges h b ((mem_keptBins fRebin fCutEdges h i b).mp hb).2)
        hne
    have hnpos : (0 : Int) < ((keptBins fRebin fCutEdges h i).length : Int) := by
      have : 0 < (keptBins fRebin fCutEdges h i).length := List.length_pos.mpr hne
      exact_mod_cast this
    have hwpos := keptSumw_pos E fRebin fCutEdges h i herr hne
    have hs := hsqrt hne
    have h1 := fdiv_of_ne (keptWsum E fRebin fCutEdges h i) (keptSumw E fRebin fCutEdges h i)
      (ne_of_gt hwpos)
    have h2 := fdiv_of_ne 1 (E.Sqrt (keptSumw E fRebin fCutEdges h i)) hs
    have hcond : ((keptBins fRebin fCutEdges h i).map h.GetBinContent).sum > 0 ∧
        ((keptBins fRebin fCutEdges h i).length : Int) > 0 := ⟨hcpos, hnpos⟩
    unfold keptBins at hcond
    unfold keptSumw keptWsum keptBins at h1
    unfold keptSumw keptBins at h2
    simp only [hcond, and_self, if_true, h1, h2]
    rw [if_neg hne]
    rfl

end BasedNdeta
namespace BasedNdeta

/-- The loop over the new bins in `Rebin` when every contributing bin has a non-zero error
and the roots of the sums of weights are not zero: it ends without a fault, and every new
bin of the list whose group has a contributing bin holds the weighted mean and the squared
error `(1 / Sqrt sumw)^2`. -/
theorem foldl_rebinBin_kept (E : Ext) (fRebin : Int) (fCutEdges : Bool) (h : TH1D) :
    ∀ (is : List Int) (tmp : TH1D),
      (∀ i ∈ is, ∀ b ∈ keptBins fRebin fCutEdges h i, TH1D.GetBinError E h b ≠ 0) →
      (∀ i ∈ is, keptBins fRebin fCutEdges h i ≠ [] →
        E.Sqrt (keptSumw E fRebin fCutEdges h i) ≠ 0) →
      (∀ i ∈ is, 0 ≤ i ∧ i < (tmp.fNbins : Int) + 2) →
      ∃ r, is.foldl (rebinBin E fRebin fCutEdges h) (Except.ok tmp) = Except.ok r ∧
        r.fNbins = tmp.fNbins ∧ r.fXmin = tmp.fXmin ∧ r.fXmax = tmp.fXmax ∧
        (∀ b, r.fArray b =
          if b ∈ is ∧ keptBins fRebin fCutEdges h b ≠ [] then
            keptWsum E fRebin fCutEdges h b / keptSumw E fRebin fCutEdges h b
          else tmp.fArray b) ∧
        (∀ b, r.sumw2At b =
          if b ∈ is ∧ keptBins fRebin fCutEdges h b ≠ [] then
            (1 / E.Sqrt (keptSumw E fRebin fCutEdges h b)) *
              (1 / E.Sqrt (keptSumw E fRebin fCutEdges h b))
          else tmp.sumw2At b)
  | [], tmp, _, _, _ => ⟨tmp, rfl, rfl, rfl, rfl, fun b => by simp, fun b => by simp⟩
  | i :: is, tmp, herr, hsqrt, hrange => by
    have hv := rebinBin_kept E fRebin fCutEdges h tmp i (herr i (List.mem_cons_self _ _))
      (hsqrt i (List.mem_cons_self _ _))
    obtain ⟨hi0, hi1⟩ := hrange i (List.mem_cons_self _ _)
    obtain ⟨s1, s2, s3, s4, s5⟩ := setContentError tmp i
      (keptWsum E fRebin fCutEdges h i / keptSumw E fRebin fCutEdges h i)
      (1 / E.Sqrt (keptSumw E fRebin fCutEdges h i))
    have hin : ∀ b, (b = i ∧ 0 ≤ i ∧ i < (tmp.fNbins : Int) + 2) ↔ b = i :=
      fun b => ⟨fun hh => hh.1, fun hh => ⟨hh, hi0, hi1⟩⟩
    simp only [hin] at s4 s5
    rw [List.foldl_cons, hv]
    by_cases hne : keptBins fRebin fCutEdges h i = []
    · rw [if_pos hne]
      obtain ⟨r, hr, r1, r2, r3, r4, r5⟩ := foldl_rebinBin_kept E fRebin fCutEdges h is tmp
        (fun z hz => herr z (List.mem_cons_of_mem _ hz))
        (fun z hz => hsqrt z (List.mem_cons_of_mem _ hz))
        (fun z hz => hrange z (List.mem_cons_of_mem _ hz))
      refine ⟨r, hr, r1, r2, r3, fun b => ?_, fun b => ?_⟩
      · rw [r4 b]
        by_cases hb : b = i
        · subst hb
          simp [hne]
        · simp [hb]
      · rw [r5 b]
        by_cases hb : b = i
        · subst hb
          simp [hne]
        · simp [hb]
    · rw [if_neg hne]
      obtain ⟨r, hr, r1, r2, r3, r4, r5⟩ := foldl_rebinBin_kept E fRebin fCutEdges h is
        ((tmp.SetBinContent i (keptWsum E fRebin fCutEdges h i /
          keptSumw E fRebin fCutEdges h i)).SetBinError i
          (1 / E.Sqrt (keptSumw E fRebin fCutEdges h i)))
        (fun z hz => herr z (List.mem_cons_of_mem _ hz))
        (fun z hz => hsqrt z (List.mem_cons_of_mem _ hz))
        (fun z hz => by
          rw [s1]
          exact hrange z (List.mem_cons_of_mem _ hz))
      refine ⟨r, hr, r1.trans s1, r2.trans s2, r3.trans s3, fun b => ?_, fun b => ?_⟩
      · rw [r4 b, s4 b]
        by_cases hb : b = i
        · subst hb
          simp [hne]
        · simp [hb]
      · rw [r5 b, s5 b]
        by_cases hb : b = i
        · subst hb
          simp [hne]
        · simp [hb]

/-- The contributing bins of a group of `Rebin` are bins of the histogram. -/
theorem keptBins_range (fRebin : Int) (fCutEdges : Bool) (h : TH1D) (i b : Int)
    (hR : 1 < fRebin) (hdiv : (h.fNbins : Int) % fRebin = 0) (hi1 : 1 ≤ i)
    (hi2 : i ≤ (h.fNbins : Int) / fRebin) (hb : b ∈ keptBins fRebin fCutEdges h i) :
    (i - 1) * fRebin + 1 ≤ b ∧ b ≤ i * fRebin ∧ 1 ≤ b ∧ b ≤ (h.fNbins : Int) ∧
      keeps fCutEdges h b = true := by
  obtain ⟨⟨j, hj1, hj2, rfl⟩, hk⟩ := (mem_keptBins fRebin fCutEdges h i _).mp hb
  have h0 : 0 ≤ (i - 1) * fRebin := mul_nonneg (by omega) (by omega)
  have h1 : i * fRebin ≤ (h.fNbins : Int) / fRebin * fRebin :=
    Int.mul_le_mul_of_nonneg_right hi2 (by omega)
  have h2 : (h.fNbins : Int) / fRebin * fRebin = (h.fNbins : Int) :=
    Int.ediv_mul_cancel (Int.dvd_of_emod_eq_zero hdiv)
  have h3 : i * fRebin = (i - 1) * fRebin + fRebin := by ring
  refine ⟨by linarith, by linarith, by linarith, by linarith, hk⟩

/-- What `Rebin` returns for a rebin factor above one that divides the bin count, when every
contributing bin has a non-zero error and the root is not zero on positive numbers: a
histogram with `nBins / R` bins in which a new bin whose group has a contributing bin holds
the weighted mean of the contributing bins and the squared error `(1 / Sqrt sumw)^2`. -/
theorem Rebin_kept (E : Ext) (fRebin : Int) (fCutEdges : Bool) (h : TH1D) (hR : 1 < fRebin)
    (hdiv : (h.fNbins : Int) % fRebin = 0)
    (herr : ∀ b : Int, 1 ≤ b → b ≤ (h.fNbins : Int) → keeps fCutEdges h b = true →
      TH1D.GetBinError E h b ≠ 0)
    (hsqrt : ∀ x : ℚ, 0 < x → E.Sqrt x ≠ 0) :
    ∃ r, Rebin E fRebin fCutEdges h = Except.ok (some r) ∧
      (r.fNbins : Int) = (h.fNbins : Int) / fRebin ∧
      ∀ i : Int, 1 ≤ i → i ≤ (h.fNbins : Int) / fRebin →
        keptBins fRebin fCutEdges h i ≠ [] →
          r.GetBinContent i =
            keptWsum E fRebin fCutEdges h i / keptSumw E fRebin fCutEdges h i ∧
          r.sumw2At i = (1 / E.Sqrt (keptSumw E fRebin fCutEdges h i)) *
            (1 / E.Sqrt (keptSumw E fRebin fCutEdges h i)) := by
  have hRnat : ((fRebin.toNat : Nat) : Int) = fRebin := Int.toNat_of_nonneg (by omega)
  have hnew : (((h.fNbins / fRebin.toNat : Nat)) : Int) = (h.fNbins : Int) / fRebin := by
    rw [Int.natCast_ediv, hRnat]
    rfl
  have herr' : ∀ i ∈ intRange 1 ((h.fNbins : Int) / fRebin),
      ∀ b ∈ keptBins fRebin fCutEdges h i, TH1D.GetBinError E h b ≠ 0 := by
    intro i hi b hb
    obtain ⟨hi1, hi2⟩ := (mem_intRange _ _ _).mp hi
    obtain ⟨-, -, hb1, hb2, hk⟩ := keptBins_range fRebin fCutEdges h i b hR hdiv hi1 hi2 hb
    exact herr b hb1 hb2 hk
  have hsq' : ∀ i ∈ intRange 1 ((h.fNbins : Int) / fRebin),
      keptBins fRebin fCutEdges h i ≠ [] → E.Sqrt (keptSumw E fRebin fCutEdges h i) ≠ 0 :=
    fun i hi hne => hsqrt _ (keptSumw_pos E fRebin fCutEdges h i (herr' i hi) hne)
  obtain ⟨r, hr, r1, -, -, r4, r5⟩ := foldl_rebinBin_kept E fRebin fCutEdges h
    (intRange 1 ((h.fNbins : Int) / fRebin))
    ((h.Clone (h.fName ++ "_rebin" ++ (if fRebin < 10 then "0" else "") ++
      toString fRebin)).RebinROOT E fRebin.toNat) herr' hsq'
    (fun i hi => by
      obtain ⟨hi1, hi2⟩ := (mem_intRange _ _ _).mp hi
      have : (((h.Clone (h.fName ++ "_rebin" ++ (if fRebin < 10 then "0" else "") ++
        toString fRebin)).RebinROOT E fRebin.toNat).fNbins : Int) =
          (h.fNbins : Int) / fRebin := hnew
      omega)
  have hrn : (r.fNbins : Int) = (h.fNbins : Int) / fRebin := by
    rw [r1]
    exact hnew
  refine ⟨r, ?_, hrn, ?_⟩
  · unfold Rebin
    rw [if_neg (by omega), if_neg (by simp [hdiv])]
    simp only [hr]
  · intro i hi1 hi2 hne
    have hmem : i ∈ intRange 1 ((h.fNbins : Int) / fRebin) :=
      (mem_intRange _ _ _).mpr ⟨hi1, hi2⟩
    have hclamp : clampBin r.fNbins i = i := clampBin_of_range r.fNbins i (by omega) (by omega)
    have h5 := r5 i
    rw [if_pos ⟨hmem, hne⟩] at h5
    refine ⟨?_, h5⟩
    rw [TH1D.GetBinContent, hclamp, r4 i, if_pos ⟨hmem, hne⟩]

/-- A weighted sum with positive weights of values in `[lo, hi]` lies between `lo` and `hi`
times the sum of the weights. -/
theorem weighted_sum_bounds {α : Type} (w c : α → ℚ) (lo hi : ℚ) :
    ∀ l : List α, (∀ x ∈ l, 0 < w x) → (∀ x ∈ l, lo ≤ c x ∧ c x ≤ hi) →
      lo * (l.map w).sum ≤ (l.map (fun x => w x * c x)).sum ∧
      (l.map (fun x => w x * c x)).sum ≤ hi * (l.map w).sum
  | [], _, _ => by simp
  | x :: xs, hw, hc => by
    obtain ⟨h1, h2⟩ := weighted_sum_bounds w c lo hi xs
      (fun z hz => hw z (List.mem_cons_of_mem _ hz))
      (fun z hz => hc z (List.mem_cons_of_mem _ hz))
    have hwx := hw x (List.mem_cons_self _ _)
    obtain ⟨c1, c2⟩ := hc x (List.mem_cons_self _ _)
    simp only [List.map_cons, List.sum_cons]
    constructor
    · nlinarith
    · nlinarith

/-- One positive term of a sum of positive terms is at most the sum. -/
theorem le_sum_of_mem {α : Type} (w : α → ℚ) :
    ∀ (l : List α) (x : α), (∀ z ∈ l, 0 < w z) → x ∈ l → w x ≤ (l.map w).sum
  | [], _, _, hx => absurd hx (List.not_mem_nil _)
  | y :: ys, x, hw, hx => by
    simp only [List.map_cons, List.sum_cons]
    have hy := hw y (List.mem_cons_self _ _)
    rcases List.mem_cons.mp hx with rfl | hx'
    · by_cases hys : ys = []
      · subst hys
        simp
      · have := sum_map_pos w ys (fun z hz => hw z (List.mem_cons_of_mem _ hz)) hys
        linarith
    · have := le_sum_of_mem w ys x (fun z hz => hw z (List.mem_cons_of_mem _ hz)) hx'
      linarith

end BasedNdeta
namespace BasedNdeta

/-- The root of `sampleExt`, `(x + 1) / 2` on positive numbers, is not below the true root:
its square is at least `x`. -/
theorem sampleExt_Sqrt_sq_ge (x : ℚ) (hx : 0 < x) :
    x ≤ sampleExt.Sqrt x * sampleExt.Sqrt x := by
  have h0 : ¬ x ≤ 0 := not_le.mpr hx
  simp only [sampleExt, h0, if_false]
  nlinarith [sq_nonneg (x - 1)]

/-- C27. For a histogram `h` whose bin count is divisible by the rebin factor `R > 1`, with
a positive error in every bin that `Rebin` lets contribute (positive content, not removed by
the edge cut) and a root that is positive on positive numbers, `Rebin` returns a histogram
in which every new bin `i` whose group has a contributing bin holds a content between any
lower and upper bound of the contributing contents, hence between their minimum and their
maximum.  With `s` the sum of the weights `1 / e_j^2` of the contributing bins, for any such
root: `s` is positive, `1 / s` is at most `e_j^2` for every contributing bin, the stored
squared error is the square of the error `1 / Sqrt s` given to `SetBinError`, and its
product with `(Sqrt s)^2` is one.  For a root that is not below the true root at `s`
(`s <= (Sqrt s)^2`, which an exact root satisfies), the stored squared error is at most
`1 / s`, hence at most `e_j^2`, and the error `1 / Sqrt s` is at most `e_j`, for every
contributing bin.  Where the root is exact at `s` the stored squared error is `1 / s`, and
where it is also exact at `1 / s` the bin error read back is at most `e_j`. -/
theorem C27_rebin_bounds (E : Ext) (fRebin : Int) (fCutEdges : Bool) (h : TH1D)
    (hR : 1 < fRebin) (hdiv : (h.fNbins : Int) % fRebin = 0)
    (herr : ∀ b : Int, 1 ≤ b → b ≤ (h.fNbins : Int) → keeps fCutEdges h b = true →
      0 < TH1D.GetBinError E h b)
    (hsqrt : ∀ x : ℚ, 0 < x → 0 < E.Sqrt x) :
    ∃ r, Rebin E fRebin fCutEdges h = Except.ok (some r) ∧
      ∀ i : Int, 1 ≤ i → i ≤ (h.fNbins : Int) / fRebin →
        keptBins fRebin fCutEdges h i ≠ [] →
        (∀ b, b ∈ keptBins fRebin fCutEdges h i ↔
          ((i - 1) * fRebin + 1 ≤ b ∧ b ≤ i * fRebin ∧ 0 < h.GetBinContent b ∧
            ¬ (fCutEdges = true ∧
              (h.GetBinContent (b + 1) ≤ 0 ∨ h.GetBinContent (b - 1) ≠ 0)))) ∧
        (∀ lo hi : ℚ,
          (∀ b ∈ keptBins fRebin fCutEdges h i,
            lo ≤ h.GetBinContent b ∧ h.GetBinContent b ≤ hi) →
          lo ≤ r.GetBinContent i ∧ r.GetBinContent i ≤ hi) ∧
        (0 < keptSumw E fRebin fCutEdges h i ∧
          (∀ b ∈ keptBins fRebin fCutEdges h i,
            1 / keptSumw E fRebin fCutEdges h i ≤
              TH1D.GetBinError E h b * TH1D.GetBinError E h b) ∧
          r.sumw2At i = (1 / E.Sqrt (keptSumw E fRebin fCutEdges h i)) *
            (1 / E.Sqrt (keptSumw E fRebin fCutEdges h i)) ∧
          r.sumw2At i * (E.Sqrt (keptSumw E fRebin fCutEdges h i) *
            E.Sqrt (keptSumw E fRebin fCutEdges h i)) = 1) ∧
        (keptSumw E fRebin fCutEdges h i ≤
            E.Sqrt (keptSumw E fRebin fCutEdges h i) *
              E.Sqrt (keptSumw E fRebin fCutEdges h i) →
          r.sumw2At i ≤ 1 / keptSumw E fRebin fCutEdges h i ∧
          ∀ b ∈ keptBins fRebin fCutEdges h i,
            r.sumw2At i ≤ TH1D.GetBinError E h b * TH1D.GetBinError E h b ∧
            1 / E.Sqrt (keptSumw E fRebin fCutEdges h i) ≤ TH1D.GetBinError E h b) ∧
        (E.Sqrt (keptSumw E fRebin fCutEdges h i) * E.Sqrt (keptSumw E fRebin fCutEdges h i) =
            keptSumw E fRebin fCutEdges h i →
          r.sumw2At i = 1 / keptSumw E fRebin fCutEdges h i ∧
          (∀ b ∈ keptBins fRebin fCutEdges h i,
            r.sumw2At i ≤ TH1D.GetBinError E h b * TH1D.GetBinError E h b) ∧
          (E.Sqrt (r.sumw2At i) = 1 / E.Sqrt (keptSumw E fRebin fCutEdges h i) →
            ∀ b ∈ keptBins fRebin fCutEdges h i,
              TH1D.GetBinError E r i ≤ TH1D.GetBinError E h b)) := by
  obtain ⟨r, hr, hrn, hall⟩ := Rebin_kept E fRebin fCutEdges h hR hdiv
    (fun b h1 h2 h3 => ne_of_gt (herr b h1 h2 h3)) (fun x hx => ne_of_gt (hsqrt x hx))
  refine ⟨r, hr, ?_⟩
  intro i hi1 hi2 hne
  obtain ⟨hc, h5⟩ := hall i hi1 hi2 hne
  have hepos : ∀ b ∈ keptBins fRebin fCutEdges h i, 0 < TH1D.GetBinError E h b := by
    intro b hb
    obtain ⟨-, -, g3, g4, g5⟩ := keptBins_range fRebin fCutEdges h i b hR hdiv hi1 hi2 hb
    exact herr b g3 g4 g5
  have hwpos : ∀ b ∈ keptBins fRebin fCutEdges h i, 0 < binWeight E h b :=
    fun b hb => binWeight_pos E h b (ne_of_gt (hepos b hb))
  have hspos : 0 < keptSumw E fRebin fCutEdges h i :=
    keptSumw_pos E fRebin fCutEdges h i (fun b hb => ne_of_gt (hepos b hb)) hne
  have hrpos : 0 < E.Sqrt (keptSumw E fRebin fCutEdges h i) := hsqrt _ hspos
  have hinv : ∀ b ∈ keptBins fRebin fCutEdges h i,
      1 / keptSumw E fRebin fCutEdges h i ≤
        TH1D.GetBinError E h b * TH1D.GetBinError E h b := by
    intro b hb
    have hw := le_sum_of_mem (binWeight E h) (keptBins fRebin fCutEdges h i) b hwpos hb
    have he := hepos b hb
    have hee : 0 < TH1D.GetBinError E h b * TH1D.GetBinError E h b := mul_pos he he
    change binWeight E h b ≤ keptSumw E fRebin fCutEdges h i at hw
    unfold binWeight at hw
    rw [div_le_iff₀ hspos]
    rw [div_le_iff₀ hee] at hw
    linarith
  have hprod : r.sumw2At i * (E.Sqrt (keptSumw E fRebin fCutEdges h i) *
      E.Sqrt (keptSumw E fRebin fCutEdges h i)) = 1 := by
    rw [h5]
    field_simp
  refine ⟨fun b => ?_, ?_, ⟨hspos, hinv, h5, hprod⟩, ?_, ?_⟩
  · constructor
    · intro hb
      obtain ⟨g1, g2, -, -, g5⟩ := keptBins_range fRebin fCutEdges h i b hR hdiv hi1 hi2 hb
      unfold keeps at g5
      obtain ⟨k1, k2⟩ := of_decide_eq_true g5
      exact ⟨g1, g2, k1, k2⟩
    · rintro ⟨g1, g2, k1, k2⟩
      refine (mem_keptBins fRebin fCutEdges h i b).mpr
        ⟨⟨b - (i - 1) * fRebin, by linarith, ?_, by ring⟩, ?_⟩
      · have h3 : i * fRebin = (i - 1) * fRebin + fRebin := by ring
        linarith
      · unfold keeps
        exact decide_eq_true ⟨k1, k2⟩
  · intro lo hi hb
    obtain ⟨b1, b2⟩ := weighted_sum_bounds (binWeight E h) h.GetBinContent lo hi
      (keptBins fRebin fCutEdges h i) hwpos hb
    rw [hc]
    unfold keptWsum
    unfold keptSumw at hspos ⊢
    constructor
    · rw [le_div_iff₀ hspos]
      exact b1
    · rw [div_le_iff₀ hspos]
      exact b2
  · intro hover
    have hstored : r.sumw2At i ≤ 1 / keptSumw E fRebin fCutEdges h i := by
      rw [h5, div_mul_div_comm, one_mul]
      exact one_div_le_one_div_of_le hspos hover
    refine ⟨hstored, fun b hb => ⟨le_trans hstored (hinv b hb), ?_⟩⟩
    have he := hepos b hb
    have hee : 0 < TH1D.GetBinError E h b * TH1D.GetBinError E h b := mul_pos he he
    have h1 : 1 ≤ TH1D.GetBinError E h b * TH1D.GetBinError E h b *
        keptSumw E fRebin fCutEdges h i := by
      have := hinv b hb
      rw [div_le_iff₀ hspos] at this
      exact this
    have h2 : TH1D.GetBinError E h b * TH1D.GetBinError E h b *
        keptSumw E fRebin fCutEdges h i ≤
        TH1D.GetBinError E h b * TH1D.GetBinError E h b *
          (E.Sqrt (keptSumw E fRebin fCutEdges h i) *
            E.Sqrt (keptSumw E fRebin fCutEdges h i)) :=
      mul_le_mul_of_nonneg_left hover (le_of_lt hee)
    rw [div_le_iff₀ hrpos]
    by_contra hcon
    have hlt : TH1D.GetBinError E h b * E.Sqrt (keptSumw E fRebin fCutEdges h i) < 1 :=
      not_le.mp hcon
    have hpos : 0 < TH1D.GetBinError E h b * E.Sqrt (keptSumw E fRebin fCutEdges h i) :=
      mul_pos he hrpos
    nlinarith
  · intro hex
    have hstored : r.sumw2At i = 1 / keptSumw E fRebin fCutEdges h i := by
      rw [h5, div_mul_div_comm, hex, one_mul]
    have hle : ∀ b ∈ keptBins fRebin fCutEdges h i,
        r.sumw2At i ≤ TH1D.GetBinError E h b * TH1D.GetBinError E h b := by
      intro b hb
      rw [hstored]
      exact hinv b hb
    refine ⟨hstored, hle, ?_⟩
    intro hex2 b hb
    have hclamp : clampBin r.fNbins i = i := clampBin_of_range r.fNbins i (by omega) (by omega)
    have hge : TH1D.GetBinError E r i = 1 / E.Sqrt (keptSumw E fRebin fCutEdges h i) := by
      rw [GetBinError_eq_sumw2At, hclamp, hex2]
    have hsq := hle b hb
    rw [h5, ← hge] at hsq
    have he := hepos b hb
    have hg0 : 0 < TH1D.GetBinError E r i := by
      rw [hge]
      positivity
    by_contra hcon
    have hlt : TH1D.GetBinError E h b < TH1D.GetBinError E r i := not_le.mp hcon
    nlinarith

/-- C27 at the histogram `wideErrors` (contents `1, 2, 3, 4`, errors `2`) rebinned by `2`
without edge cut: each group has the sum of weights `1/2`, which is not the square of a
rational, and the root gives `3/4` there, above the true root.  The new bins hold contents
between `1` and `2` and between `3` and `4`, the first the stored squared error `16/9`,
and both a stored squared error of at most `4` and an error `4/3`, at most `2`. -/
theorem C27_rebin_bounds_witness :
    ∃ r, Rebin squaresExt 2 false wideErrors = Except.ok (some r) ∧
      keptSumw squaresExt 2 false wideErrors 1 = 1 / 2 ∧
      keptSumw squaresExt 2 false wideErrors 2 = 1 / 2 ∧
      squaresExt.Sqrt (1 / 2) = 3 / 4 ∧
      1 ≤ r.GetBinContent 1 ∧ r.GetBinContent 1 ≤ 2 ∧
      3 ≤ r.GetBinContent 2 ∧ r.GetBinContent 2 ≤ 4 ∧
      r.sumw2At 1 = 16 / 9 ∧ r.sumw2At 1 ≤ 4 ∧ r.sumw2At 2 ≤ 4 ∧
      1 / squaresExt.Sqrt (1 / 2) ≤ 2 := by
  have he : ∀ b, TH1D.GetBinError squaresExt wideErrors b = 2 := by
    intro b
    simp [TH1D.GetBinError, wideErrors, squaresExt]
  obtain ⟨r, hr, hall⟩ := C27_rebin_bounds squaresExt 2 false wideErrors (by decide)
    (by decide) (fun b _ _ _ => by rw [he]; norm_num)
    (fun x hx => by
      have : ¬ x ≤ 0 := not_le.mpr hx
      simp only [squaresExt, sampleExt, this, if_false]
      split_ifs <;> linarith)
  have hr12 : intRange 1 2 = [1, 2] := by decide
  have c1 : wideErrors.GetBinContent 1 = 1 := by simp [TH1D.GetBinContent, wideErrors, clampBin]
  have c2 : wideErrors.GetBinContent 2 = 2 := by simp [TH1D.GetBinContent, wideErrors, clampBin]
  have c3 : wideErrors.GetBinContent 3 = 3 := by simp [TH1D.GetBinContent, wideErrors, clampBin]
  have c4 : wideErrors.GetBinContent 4 = 4 := by simp [TH1D.GetBinContent, wideErrors, clampBin]
  have g1 : keptBins 2 false wideErrors 1 = [1, 2] := by
    simp [keptBins, keeps, hr12, List.filter_cons, c1, c2]
  have g2 : keptBins 2 false wideErrors 2 = [3, 4] := by
    simp [keptBins, keeps, hr12, List.filter_cons, c3, c4]
  have hs1 : keptSumw squaresExt 2 false wideErrors 1 = 1 / 2 := by
    simp [keptSumw, g1, binWeight, he]
    norm_num
  have hs2 : keptSumw squaresExt 2 false wideErrors 2 = 1 / 2 := by
    simp [keptSumw, g2, binWeight, he]
    norm_num
  have hroot : squaresExt.Sqrt (1 / 2) = 3 / 4 := by
    norm_num [squaresExt, sampleExt]
  have hq : ((wideErrors.fNbins : Nat) : Int) / 2 = 2 := by decide
  obtain ⟨-, hb1, ⟨-, -, hst1, -⟩, hov1, -⟩ :=
    hall 1 (by decide) (by rw [hq]; decide) (by rw [g1]; simp)
  obtain ⟨-, hb2, -, hov2, -⟩ := hall 2 (by decide) (by rw [hq]) (by rw [g2]; simp)
  rw [hs1, hroot] at hst1 hov1
  rw [hs2, hroot] at hov2
  obtain ⟨-, ho1⟩ := hov1 (by norm_num)
  obtain ⟨-, ho2⟩ := hov2 (by norm_num)
  obtain ⟨l1, l2⟩ := hb1 1 2 (by
    intro b hb
    rw [g1] at hb
    simp only [List.mem_cons, List.mem_singleton, List.not_mem_nil, or_false] at hb
    rcases hb with rfl | rfl
    · rw [c1]; norm_num
    · rw [c2]; norm_num)
  obtain ⟨l3, l4⟩ := hb2 3 4 (by
    intro b hb
    rw [g2] at hb
    simp only [List.mem_cons, List.mem_singleton, List.not_mem_nil, or_false] at hb
    rcases hb with rfl | rfl
    · rw [c3]; norm_num
    · rw [c4]; norm_num)
  have e1 := ho1 1 (by rw [g1]; simp)
  have e2 := ho2 3 (by rw [g2]; simp)
  rw [he] at e1 e2
  refine ⟨r, hr, hs1, hs2, hroot, l1, l2, l3, l4, ?_, ?_, ?_, ?_⟩
  · rw [hst1]
    norm_num
  · have := e1.1
    norm_num at this
    exact this
  · have := e2.1
    norm_num at this
    exact this
  · rw [hroot]
    norm_num

end BasedNdeta
namespace BasedNdeta

/-- A call of `CheckEvent` on a task with a trigger histogram returns, changes the trigger
histogram only, and returns the same value on every task with the same trigger mask and
vertex range. -/
theorem CheckEvent_ok (E : Ext) (B : ETriggerBits) (t : Task) (aod : AliAODEvent) (tr : TH1D)
    (ht : t.fTriggers = some tr) :
    ∃ tr1 r, CheckEvent E B t aod = Except.ok ({ t with fTriggers := some tr1 }, r) ∧
      ∀ (t' : Task) (tr' : TH1D), t'.fTriggers = some tr' →
        t'.fTriggerMask = t.fTriggerMask → t'.fVtxMin = t.fVtxMin → t'.fVtxMax = t.fVtxMax →
        ∃ tr1', CheckEvent E B t' aod = Except.ok ({ t' with fTriggers := some tr1' }, r) := by
  rcases hf : aod.forward with _ | f
  · refine ⟨tr, false, ?_, ?_⟩
    · simp only [CheckEvent, hf]
      rw [← ht]
    · intro t' tr' ht' _ _ _
      refine ⟨tr', ?_⟩
      simp only [CheckEvent, hf]
      rw [← ht']
  · obtain ⟨tr1, hce, -, -⟩ := CheckEvent_effect E B t aod f tr hf ht
    refine ⟨tr1, _, hce, ?_⟩
    intro t' tr' ht' h1 h2 h3
    obtain ⟨tr1', hce', -, -⟩ := CheckEvent_effect E B t' aod f tr' hf ht'
    have hv : (f.IsTriggerBits t'.fTriggerMask && f.HasIpZ &&
        f.InRange t'.fVtxMin t'.fVtxMax) = (f.IsTriggerBits t.fTriggerMask && f.HasIpZ &&
        f.InRange t.fVtxMin t.fVtxMax) := by rw [h1, h2, h3]
    rw [hv] at hce'
    exact ⟨tr1', hce'⟩

/-- The statement that creates `fSumMC` returns on a task with a sums list and changes
`fSumMC` and the sums list only. -/
theorem createSumMC_ok (t : Task) (dataMC : Option TH2D) (l : TList) (hl : t.fSums = some l) :
    ∃ t2 l2, createSumMC t dataMC = Except.ok t2 ∧ t2.fSums = some l2 ∧ t2.fSum = t.fSum ∧
      t2.fTriggers = t.fTriggers ∧ t2.fTriggerMask = t.fTriggerMask ∧
      t2.fVtxMin = t.fVtxMin ∧ t2.fVtxMax = t.fVtxMax := by
  unfold createSumMC
  rcases hm : t.fSumMC with _ | m <;> rcases dataMC with _ | d
  · exact ⟨t, l, rfl, hl, rfl, rfl, rfl, rfl, rfl⟩
  · simp only [CloneHist, hl]
    exact ⟨_, _, rfl, rfl, rfl, rfl, rfl, rfl, rfl⟩
  · exact ⟨t, l, rfl, hl, rfl, rfl, rfl, rfl, rfl⟩
  · exact ⟨t, l, rfl, hl, rfl, rfl, rfl, rfl, rfl⟩

/-- The cells after `Add` of a histogram with the same bin counts. -/
theorem TH2D_Add_fArray (h h1 : TH2D) (hx : h.fNbinsX = h1.fNbinsX)
    (hy : h.fNbinsY = h1.fNbinsY) :
    (h.Add h1).fNbinsX = h.fNbinsX ∧ (h.Add h1).fNbinsY = h.fNbinsY ∧
      ∀ binx biny, (h.Add h1).fArray binx biny = h.fArray binx biny + h1.fArray binx biny := by
  unfold TH2D.Add
  rw [if_neg (by simp [hx, hy])]
  exact ⟨rfl, rfl, fun _ _ => rfl⟩

/-- One call of `UserExec` for an input with an event and a data histogram, on a task that
has its sum histogram: the call returns, and the sum histogram grows by the data histogram
when `CheckEvent` returns true and is unchanged otherwise. -/
theorem UserExec_step (E : Ext) (B : ETriggerBits) (t : Task) (inp : ExecInput)
    (aod : AliAODEvent) (d s : TH2D) (l : TList) (tr : TH1D) (ha : inp.aod = some aod)
    (hd : inp.data = some d) (hs : t.fSum = some s) (hl : t.fSums = some l)
    (ht : t.fTriggers = some tr) (hx : s.fNbinsX = d.fNbinsX) (hy : s.fNbinsY = d.fNbinsY) :
    ∃ t1 s1 l1 tr1 r, UserExec E B t inp = Except.ok t1 ∧
      (∃ t2, CheckEvent E B t aod = Except.ok (t2, r)) ∧
      t1.fSum = some s1 ∧ t1.fSums = some l1 ∧ t1.fTriggers = some tr1 ∧
      t1.fTriggerMask = t.fTriggerMask ∧ t1.fVtxMin = t.fVtxMin ∧ t1.fVtxMax = t.fVtxMax ∧
      s1.fNbinsX = s.fNbinsX ∧ s1.fNbinsY = s.fNbinsY ∧
      ∀ binx biny, s1.fArray binx biny =
        s.fArray binx biny + (if r = true then d.fArray binx biny else 0) := by
  obtain ⟨t2, l2, hmc, hl2, hs2, ht2, c1, c2, c3⟩ := createSumMC_ok t inp.dataMC l hl
  obtain ⟨tr1, r, hce, hcongr⟩ := CheckEvent_ok E B t aod tr ht
  obtain ⟨tr2, hce2⟩ := hcongr t2 tr (ht2.trans ht) c1 c2 c3
  have hcs : createSum t d = Except.ok t := by
    simp only [createSum, hs]
  unfold UserExec
  simp only [ha, hd, hcs, hmc, hce2]
  cases r
  · refine ⟨_, s, l2, tr2, false, rfl, ⟨_, hce⟩, hs2.trans hs, hl2, rfl, c1, c2, c3, rfl, rfl,
      fun _ _ => by simp⟩
  · obtain ⟨a1, a2, a3⟩ := TH2D_Add_fArray s d hx hy
    simp only [addContribution, hs2, hs, hl2]
    refine ⟨_, s.Add d, l2, tr2, true, rfl, ⟨_, hce⟩, rfl, rfl, rfl, c1, c2, c3, a1, a2,
      fun x y => by simp [a3]⟩

end BasedNdeta
namespace BasedNdeta

/-- The accepted data histograms of a run are the same for two tasks with a trigger
histogram, the same trigger mask and the same vertex range. -/
theorem acceptedData_congr (E : Ext) (B : ETriggerBits) (t t' : Task) (tr tr' : TH1D)
    (ht : t.fTriggers = some tr) (ht' : t'.fTriggers = some tr')
    (h1 : t'.fTriggerMask = t.fTriggerMask) (h2 : t'.fVtxMin = t.fVtxMin)
    (h3 : t'.fVtxMax = t.fVtxMax) :
    ∀ inps : List ExecInput, acceptedData E B t' inps = acceptedData E B t inps
  | [] => rfl
  | inp :: rest => by
    have ih := acceptedData_congr E B t t' tr tr' ht ht' h1 h2 h3 rest
    rcases ha : inp.aod with _ | aod
    · simp only [acceptedData, ha, ih]
    · rcases hd : inp.data with _ | d
      · simp only [acceptedData, ha, hd, ih]
      · obtain ⟨tr1, r, hce, hcongr⟩ := CheckEvent_ok E B t aod tr ht
        obtain ⟨tr2, hce2⟩ := hcongr t' tr' ht' h1 h2 h3
        simp only [acceptedData, ha, hd, hce, hce2, ih]
        cases r <;> rfl

/-- A run of `UserExec` over inputs that all carry an event and a data histogram with the
bin counts of the sum histogram, on a task that has its sum histogram: the run returns and
the sum histogram grows by the data histograms of the accepted events. -/
theorem UserExecs_sum (E : Ext) (B : ETriggerBits) :
    ∀ (inps : List ExecInput) (t : Task) (s : TH2D) (l : TList) (tr : TH1D),
      t.fSum = some s → t.fSums = some l → t.fTriggers = some tr →
      (∀ i ∈ inps, ∃ aod d, i.aod = some aod ∧ i.data = some d ∧
        d.fNbinsX = s.fNbinsX ∧ d.fNbinsY = s.fNbinsY) →
      ∃ t1 s1, UserExecs E B t inps = Except.ok t1 ∧ t1.fSum = some s1 ∧
        ∀ binx biny, s1.fArray binx biny =
          s.fArray binx biny + sumOfData (acceptedData E B t inps) binx biny
  | [], t, s, _, _, hs, _, _, _ => ⟨t, s, rfl, hs, fun _ _ => by simp [acceptedData, sumOfData]⟩
  | inp :: rest, t, s, l, tr, hs, hl, ht, hall => by
    obtain ⟨aod, d, ha, hd, hx, hy⟩ := hall inp (List.mem_cons_self _ _)
    obtain ⟨t1, s1, l1, tr1, r, hrun, ⟨tc, hce⟩, hs1, hl1, ht1, c1, c2, c3, n1, n2, hcell⟩ :=
      UserExec_step E B t inp aod d s l tr ha hd hs hl ht hx.symm hy.symm
    obtain ⟨t2, s2, hrun2, hs2, hcell2⟩ := UserExecs_sum E B rest t1 s1 l1 tr1 hs1 hl1 ht1
      (fun i hi => by
        obtain ⟨a, e, p1, p2, p3, p4⟩ := hall i (List.mem_cons_of_mem _ hi)
        exact ⟨a, e, p1, p2, p3.trans n1.symm, p4.trans n2.symm⟩)
    refine ⟨t2, s2, ?_, hs2, fun x y => ?_⟩
    · simp only [UserExecs, hrun, hrun2]
    · rw [hcell2, hcell, acceptedData_congr E B t t1 tr tr1 ht ht1 c1 c2 c3 rest]
      simp only [acceptedData, ha, hd, hce]
      cases r
      · simp
      · simp only [sumOfData, List.map_cons, List.sum_cons, if_true]
        ring

/-- C22 against the code: on a task without sum histogram (as `UserCreateOutputObjects`
leaves it), a run of `UserExec` over inputs that all carry an event and a data histogram
with the bin counts of the first returns, and every cell of the sum histogram holds the
content of the first data histogram plus the sum of the data histograms of the events that
`CheckEvent` accepted; the first data histogram is in the sum whether or not its event was
accepted. -/
theorem C22_first_data_in_sum (E : Ext) (B : ETriggerBits) (t : Task) (inp : ExecInput)
    (rest : List ExecInput) (d1 : TH2D) (l : TList) (tr : TH1D) (hsum : t.fSum = none)
    (hl : t.fSums = some l) (ht : t.fTriggers = some tr) (hd1 : inp.data = some d1)
    (hall : ∀ i ∈ inp :: rest, ∃ aod d, i.aod = some aod ∧ i.data = some d ∧
      d.fNbinsX = d1.fNbinsX ∧ d.fNbinsY = d1.fNbinsY) :
    ∃ t1 s1, UserExecs E B t (inp :: rest) = Except.ok t1 ∧ t1.fSum = some s1 ∧
      ∀ binx biny, s1.fArray binx biny =
        d1.fArray binx biny + sumOfData (acceptedData E B t (inp :: rest)) binx biny := by
  obtain ⟨aod, d, ha, hd, -, -⟩ := hall inp (List.mem_cons_self _ _)
  have hdd : d = d1 := Option.some.inj (hd.symm.trans hd1)
  subst hdd
  have hcs : createSum t d = Except.ok
      { t with fSums := some (l.Add (some (TObject.th2 ((d.Clone t.fName).Sumw2))))
               fSum := some ((d.Clone t.fName).Sumw2) } := by
    simp only [createSum, hsum, CloneHist, hl]
  have hcs0 : createSum
      { t with fSums := some (l.Add (some (TObject.th2 ((d.Clone t.fName).Sumw2))))
               fSum := some ((d.Clone t.fName).Sumw2) } d = Except.ok
      { t with fSums := some (l.Add (some (TObject.th2 ((d.Clone t.fName).Sumw2))))
               fSum := some ((d.Clone t.fName).Sumw2) } := by
    simp only [createSum]
  have hsame : UserExecs E B t (inp :: rest) = UserExecs E B
      { t with fSums := some (l.Add (some (TObject.th2 ((d.Clone t.fName).Sumw2))))
               fSum := some ((d.Clone t.fName).Sumw2) } (inp :: rest) := by
    simp only [UserExecs, UserExec, ha, hd, hcs, hcs0]
  have hclone : ((d.Clone t.fName).Sumw2).fNbinsX = d.fNbinsX ∧
      ((d.Clone t.fName).Sumw2).fNbinsY = d.fNbinsY ∧
      ∀ x y, ((d.Clone t.fName).Sumw2).fArray x y = d.fArray x y := by
    unfold TH2D.Sumw2 TH2D.Clone
    cases d.fSumw2 <;> exact ⟨rfl, rfl, fun _ _ => rfl⟩
  obtain ⟨t1, s1, hrun, hs1, hcell⟩ := UserExecs_sum E B (inp :: rest)
    { t with fSums := some (l.Add (some (TObject.th2 ((d.Clone t.fName).Sumw2))))
             fSum := some ((d.Clone t.fName).Sumw2) }
    ((d.Clone t.fName).Sumw2) (l.Add (some (TObject.th2 ((d.Clone t.fName).Sumw2)))) tr
    rfl rfl ht
    (fun i hi => by
      obtain ⟨a, e, p1, p2, p3, p4⟩ := hall i hi
      exact ⟨a, e, p1, p2, p3.trans hclone.1.symm, p4.trans hclone.2.1.symm⟩)
  refine ⟨t1, s1, hsame.trans hrun, hs1, fun x y => ?_⟩
  have hacc := acceptedData_congr E B t
    { t with fSums := some (l.Add (some (TObject.th2 ((d.Clone t.fName).Sumw2))))
             fSum := some ((d.Clone t.fName).Sumw2) } tr tr ht ht rfl rfl rfl (inp :: rest)
  rw [hcell, hclone.2.2, hacc]

/-- C22 on the failing input: the run of `UserExec` over the single input `rejectedInput`,
whose event has no vertex, returns; no event is accepted, and the sum histogram holds the
data histogram of the rejected event (cell `(1, 2)` holds `4`) instead of zero. -/
theorem C22_first_data_in_sum_witness :
    ∃ t1 s1, UserExecs sampleExt sampleBits createdTask [rejectedInput] = Except.ok t1 ∧
      t1.fSum = some s1 ∧ acceptedData sampleExt sampleBits createdTask [rejectedInput] = [] ∧
      s1.fArray 1 2 = 4 := by
  obtain ⟨t1, s1, hrun, hs1, hcell⟩ := C22_first_data_in_sum sampleExt sampleBits createdTask
    rejectedInput [] exampleSum _ (newTriggers sampleExt) rfl rfl rfl rfl
    (fun i hi => by
      rw [List.mem_singleton] at hi
      subst hi
      exact ⟨noVertexEvent, exampleSum, rfl, rfl, rfl, rfl⟩)
  have hacc : acceptedData sampleExt sampleBits createdTask [rejectedInput] = [] := by
    simp [acceptedData, rejectedInput, CheckEvent, noVertexEvent, createdTask,
      UserCreateOutputObjects, sampleTask]
  refine ⟨t1, s1, hrun, hs1, hacc, ?_⟩
  rw [hcell, hacc]
  simp [sumOfData, exampleSum]

end BasedNdeta

namespace BasedNdeta

/-- The conversion to upper case neither makes nor removes a delimiter of
`SetTriggerMask`. -/
theorem toUpper_delimiter (c : Char) : c.toUpper ∈ maskDelimiters ↔ c ∈ maskDelimiters := by
  unfold Char.toUpper
  by_cases h : c.toNat ≥ 97 ∧ c.toNat ≤ 122
  · simp only [h, and_self, if_true]
    have hc : c = Char.ofNat c.toNat := (Char.ofNat_toNat c).symm
    obtain ⟨h1, h2⟩ := h
    generalize c.toNat = n at hc h1 h2
    subst hc
    interval_cases n <;> decide
  · simp only [h, if_false]

end BasedNdeta
namespace BasedNdeta

/-- Cutting a list at the elements with a property commutes with a map that keeps the
property. -/
theorem splitOnP_map {α : Type} (f : α → α) (p : α → Bool) (hp : ∀ c, p (f c) = p c) :
    ∀ l : List α, (l.map f).splitOnP p = (l.splitOnP p).map (List.map f)
  | [] => by simp
  | x :: xs => by
    have ih := splitOnP_map f p hp xs
    rw [List.map_cons, List.splitOnP_cons, List.splitOnP_cons, hp x, ih]
    by_cases hx : p x = true
    · simp [hx]
    · simp only [hx, Bool.false_eq_true, if_false]
      rcases hs : List.splitOnP p xs with _ | ⟨y, ys⟩
      · exact absurd hs (List.splitOnP_ne_nil p xs)
      · simp [List.modifyHead]

/-- The tokens of the argument in upper case are the tokens of the argument, in upper
case. -/
theorem Tokenize_ToUpper (s : List Char) :
    Tokenize maskDelimiters (ToUpper s) = (Tokenize maskDelimiters s).map ToUpper := by
  unfold Tokenize ToUpper
  rw [splitOnP_map Char.toUpper _ (fun c => by simp only [toUpper_delimiter]) s,
    List.filter_map]
  congr 1
  apply List.filter_congr
  intro tok _
  simp

/-- The loop over the tokens ends with the mask of the last recognised token, or with the
value it began with when no token is recognised. -/
theorem foldl_maskStep (M : ETriggerMasks) :
    ∀ (toks : List (List Char)) (m0 : Nat),
      toks.foldl (maskStep M) m0 =
        match (toks.filter recognised).getLast? with
        | none => m0
        | some s => maskOf M s % 65536
  | [], m0 => by simp
  | s :: rest, m0 => by
    rw [List.foldl_cons, foldl_maskStep M rest]
    by_cases hr : recognised s = true
    · rw [List.filter_cons_of_pos hr]
      have hstep : maskStep M m0 s = maskOf M s % 65536 := by
        unfold recognised at hr
        rcases of_decide_eq_true hr with h | h | h <;> subst h <;> simp [maskStep, maskOf]
      rw [hstep]
      rcases hl : (rest.filter recognised).getLast? with _ | x
      · have : rest.filter recognised = [] := List.getLast?_eq_none_iff.mp hl
        simp [this]
      · rw [List.getLast?_cons, hl]
        simp
    · have hr' : recognised s = false := by simpa using hr
      rw [List.filter_cons_of_neg hr]
      have hstep : maskStep M m0 s = m0 := by
        unfold recognised at hr'
        have hn := of_decide_eq_false hr'
        push_neg at hn
        simp [maskStep, hn.1, hn.2.1, hn.2.2]
      rw [hstep]

end BasedNdeta
namespace BasedNdeta

/-- No piece of a list cut at the elements with a property holds such an element. -/
theorem splitOnP_free {α : Type} (p : α → Bool) :
    ∀ l : List α, ∀ tok ∈ l.splitOnP p, ∀ c ∈ tok, p c = false
  | [], tok, htok, c, hc => by
    simp only [List.splitOnP_nil, List.mem_singleton] at htok
    subst htok
    exact absurd hc (List.not_mem_nil _)
  | x :: xs, tok, htok, c, hc => by
    have ih := splitOnP_free p xs
    rw [List.splitOnP_cons] at htok
    by_cases hx : p x = true
    · simp only [hx, if_true, List.mem_cons] at htok
      rcases htok with h | h
      · subst h
        exact absurd hc (List.not_mem_nil _)
      · exact ih tok h c hc
    · simp only [hx, Bool.false_eq_true, if_false] at htok
      rcases hs : List.splitOnP p xs with _ | ⟨y, ys⟩
      · exact absurd hs (List.splitOnP_ne_nil p xs)
      · rw [hs] at htok ih
        simp only [List.modifyHead, List.mem_cons] at htok
        rcases htok with h | h
        · subst h
          rcases List.mem_cons.mp hc with h1 | h1
          · subst h1
            simpa using hx
          · exact ih y (List.mem_cons_self _ _) c h1
        · exact ih tok (List.mem_cons_of_mem _ h) c hc

/-- C28: with masks that are positive `UShort_t` values, `SetTriggerMask (const char*)`
compares the tokens of its argument, cut at space, comma and `|` (no token is empty or
holds a delimiter), in upper case with `INEL`, `INEL>0` and `NSD`, and sets the trigger mask
to the mask of the last recognised token, or to `1` when no token is recognised; no other
member changes. -/
theorem C28_trigger_mask_last_token (M : ETriggerMasks) (t : Task) (mask : String)
    (h1 : 0 < M.kInel ∧ M.kInel < 65536) (h2 : 0 < M.kInelGt0 ∧ M.kInelGt0 < 65536)
    (h3 : 0 < M.kNSD ∧ M.kNSD < 65536) :
    Tokenize maskDelimiters (ToUpper mask.data) =
      (Tokenize maskDelimiters mask.data).map ToUpper ∧
    (∀ tok ∈ Tokenize maskDelimiters mask.data,
      tok ≠ [] ∧ ∀ c ∈ tok, c ≠ ' ' ∧ c ≠ ',' ∧ c ≠ '|') ∧
    (SetTriggerMask M t mask).fTriggerMask =
      (match (((Tokenize maskDelimiters mask.data).map ToUpper).filter recognised).getLast? with
        | none => 1
        | some s => maskOf M s) ∧
    SetTriggerMask M t mask =
      { t with fTriggerMask := (SetTriggerMask M t mask).fTriggerMask } := by
  refine ⟨Tokenize_ToUpper _, ?_, ?_, rfl⟩
  · intro tok htok
    unfold Tokenize at htok
    obtain ⟨hmem, hne⟩ := List.mem_filter.mp htok
    refine ⟨of_decide_eq_true hne, fun c hc => ?_⟩
    have := splitOnP_free _ _ tok hmem c hc
    simpa [maskDelimiters] using this
  · have hpos : ∀ s, 0 < maskOf M s ∧ maskOf M s < 65536 := by
      intro s
      unfold maskOf
      split_ifs
      · exact h1
      · exact h2
      · exact h3
    show (if (Tokenize maskDelimiters (ToUpper mask.data)).foldl (maskStep M) 0 = 0 then 1
      else (Tokenize maskDelimiters (ToUpper mask.data)).foldl (maskStep M) 0) = _
    rw [foldl_maskStep, Tokenize_ToUpper]
    rcases (((Tokenize maskDelimiters mask.data).map ToUpper).filter recognised).getLast? with
      _ | s
    · simp
    · obtain ⟨p1, p2⟩ := hpos s
      simp only [Nat.mod_eq_of_lt p2]
      rw [if_neg (by omega)]

/-- C28 at the masks `kInel = 1`, `kInelGt0 = 2`, `kNSD = 4`: the argument
`"inel, foo|NSD"` sets the mask `4` of its last recognised token, `"nsd inel>0 x"` sets `2`
and `"minbias"` sets `1`. -/
theorem C28_trigger_mask_last_token_witness :
    (SetTriggerMask sampleMasks sampleTask "inel, foo|NSD").fTriggerMask = 4 ∧
    (SetTriggerMask sampleMasks sampleTask "nsd inel>0 x").fTriggerMask = 2 ∧
    (SetTriggerMask sampleMasks sampleTask "minbias").fTriggerMask = 1 := by
  refine ⟨?_, ?_, ?_⟩
  · rw [(C28_trigger_mask_last_token sampleMasks sampleTask "inel, foo|NSD" (by decide)
      (by decide) (by decide)).2.2.1]
    decide
  · rw [(C28_trigger_mask_last_token sampleMasks sampleTask "nsd inel>0 x" (by decide)
      (by decide) (by decide)).2.2.1]
    decide
  · rw [(C28_trigger_mask_last_token sampleMasks sampleTask "minbias" (by decide)
      (by decide) (by decide)).2.2.1]
    decide

end BasedNdeta
/-- C26: for a Lambda or AntiLambda configuration, whether a V0 candidate passes, and the
histogram after the turn of the configuration loop, do not depend on the Armenteros flag
and parameter of the configuration nor on the candidate's alpha and Armenteros pT; for a
XiMinus or XiPlus configuration, whether a cascade candidate passes does not depend on the
Xi-rejection window; a K0Short configuration with the Armenteros cut on rejects every
candidate with Armenteros pT at most parameter times `|alpha|`; an OmegaMinus or OmegaPlus
configuration rejects every candidate with `|massAsXi - 1.32171|` at most the window. -/
theorem C26_hypothesis_specific_subcuts (E : Ext) :
    (∀ (c : V0.Candidate) (r : V0.AliV0Result) (flag : Bool) (param alpha ptArm : ℚ),
      r.GetMassHypothesis = V0.EMassHypo.kLambda ∨
        r.GetMassHypothesis = V0.EMassHypo.kAntiLambda →
      V0.passes E { c with fTreeVariableAlphaV0 := alpha, fTreeVariablePtArmV0 := ptArm }
          { r with GetCutArmenteros := flag, GetCutArmenterosParameter := param } =
        V0.passes E c r ∧
      (V0.loopBody E { c with fTreeVariableAlphaV0 := alpha, fTreeVariablePtArmV0 := ptArm }
          { r with GetCutArmenteros := flag, GetCutArmenterosParameter := param }).GetHistogram =
        (V0.loopBody E c r).GetHistogram) ∧
    (∀ (c : Cascade.Candidate) (r : Cascade.AliCascadeResult) (window : ℚ),
      r.GetMassHypothesis = Cascade.EMassHypo.kXiMinus ∨
        r.GetMassHypothesis = Cascade.EMassHypo.kXiPlus →
      Cascade.passes E c { r with GetCutXiRejection := window } = Cascade.passes E c r ∧
      (Cascade.loopBody E c { r with GetCutXiRejection := window }).GetHistogram =
        (Cascade.loopBody E c r).GetHistogram) ∧
    (∀ (c : V0.Candidate) (r : V0.AliV0Result),
      r.GetMassHypothesis = V0.EMassHypo.kK0Short → r.GetCutArmenteros = true →
      c.fTreeVariablePtArmV0 ≤ r.GetCutArmenterosParameter * |c.fTreeVariableAlphaV0| →
      V0.passes E c r = false ∧ V0.loopBody E c r = r) ∧
    (∀ (c : Cascade.Candidate) (r : Cascade.AliCascadeResult),
      r.GetMassHypothesis = Cascade.EMassHypo.kOmegaMinus ∨
        r.GetMassHypothesis = Cascade.EMassHypo.kOmegaPlus →
      |c.fTreeCascVarMassAsXi - 132171/100000| ≤ r.GetCutXiRejection →
      Cascade.passes E c r = false ∧ Cascade.loopBody E c r = r) := by
  refine ⟨?_, ?_, ?_, ?_⟩
  · intro c r flag param alpha ptArm hyp
    have h6 : V0.check6 { c with fTreeVariableAlphaV0 := alpha, fTreeVariablePtArmV0 := ptArm }
        { r with GetCutArmenteros := flag, GetCutArmenterosParameter := param } =
        V0.check6 c r := by
      rcases hyp with h | h <;> simp [V0.check6, h]
    have hp : V0.passes E
        { c with fTreeVariableAlphaV0 := alpha, fTreeVariablePtArmV0 := ptArm }
        { r with GetCutArmenteros := flag, GetCutArmenterosParameter := param } =
        V0.passes E c r := by
      unfold V0.passes
      rw [h6]
      rfl
    refine ⟨hp, ?_⟩
    unfold V0.loopBody
    rw [hp]
    split_ifs <;> rfl
  · intro c r window hyp
    have h5 : Cascade.check5 c { r with GetCutXiRejection := window } =
        Cascade.check5 c r := by
      rcases hyp with h | h <;> simp [Cascade.check5, h]
    have hp : Cascade.passes E c { r with GetCutXiRejection := window } =
        Cascade.passes E c r := by
      unfold Cascade.passes
      rw [h5]
      rfl
    refine ⟨hp, ?_⟩
    unfold Cascade.loopBody
    rw [hp]
    split_ifs <;> rfl
  · intro c r hyp hflag hle
    have h6 : V0.check6 c r = false := by
      simp [V0.check6, hyp, hflag, hle]
    have hp : V0.passes E c r = false := by
      unfold V0.passes
      rw [h6]
      simp
    refine ⟨hp, ?_⟩
    unfold V0.loopBody
    rw [hp]
    rfl
  · intro c r hyp hle
    have h5 : Cascade.check5 c r = false := by
      rcases hyp with h | h <;> simp [Cascade.check5, h, hle]
    have hp : Cascade.passes E c r = false := by
      unfold Cascade.passes
      rw [h5]
      simp
    refine ⟨hp, ?_⟩
    unfold Cascade.loopBody
    rw [hp]
    rfl

/-- C26 at the sample data: under the Lambda hypothesis the configuration `sampleResult`
decides the same for `sampleCandidate` whatever the Armenteros values, and as a K0Short
configuration with the Armenteros parameter `1/5` it rejects the candidate with alpha `1/2`
and Armenteros pT `0`. -/
theorem C26_hypothesis_specific_subcuts_witness :
    V0.passes sampleExt
        { V0.sampleCandidate with fTreeVariableAlphaV0 := 9, fTreeVariablePtArmV0 := 0 }
        { { V0.sampleResult with GetMassHypothesis := V0.EMassHypo.kLambda } with
          GetCutArmenteros := false, GetCutArmenterosParameter := 1 } =
      V0.passes sampleExt V0.sampleCandidate
        { V0.sampleResult with GetMassHypothesis := V0.EMassHypo.kLambda } ∧
    V0.passes sampleExt { V0.sampleCandidate with fTreeVariablePtArmV0 := 0 }
      V0.sampleResult = false :=
  ⟨((C26_hypothesis_specific_subcuts sampleExt).1 V0.sampleCandidate
      { V0.sampleResult with GetMassHypothesis := V0.EMassHypo.kLambda } false 1 9 0
      (Or.inl rfl)).1,
    ((C26_hypothesis_specific_subcuts sampleExt).2.2.1
      { V0.sampleCandidate with fTreeVariablePtArmV0 := 0 } V0.sampleResult rfl rfl
      (by norm_num [V0.sampleCandidate, V0.sampleResult])).1⟩
namespace V0

/-- The candidate of `forwardReco` passes the configuration `wideEtaResult`. -/
theorem forwardReco_passes :
    passes sampleExt (candidateOf (entryOf true forwardReco)) wideEtaResult = true := by
  simp [passes, check1, check2, check3, check4, check5, check6, check7, check8, check9,
    check10, setLocals, initLocals, lV0CosPACut, hasITSrefit, candidateOf, entryOf,
    leastNbrCrossedRows, lSmallestTrackLength, toInt_t, forwardReco, goodReco, goodEntry,
    wideEtaResult, sampleCandidate, sampleResult, sampleExt]
  norm_num [abs_lt]

end V0
/-- A chain `if c then false else b` holds exactly when `c` fails and `b` holds. -/
theorem ite_false_eq_true_iff (c : Prop) [Decidable c] (b : Bool) :
    ((if c then false else b) = true) ↔ (¬ c ∧ b = true) := by
  by_cases h : c <;> simp [h]

/-- C24 against the code: with extra cleanup on, a V0 that comes to the configuration loop
has a negative daughter with `|eta| ≤ 0.8` and one of `|y(K0Short)|`, `|y(Lambda)|` at most
`0.5`, but whether it comes there does not depend on the pseudorapidity of the positive
daughter, which is never read before the configuration loop: the V0 `forwardReco`, whose
positive daughter has pseudorapidity `1.5`, comes to the configuration loop and fills the
accumulator of the configuration `wideEtaResult`. -/
theorem C24_positive_eta_not_tested :
    (∀ r : V0.V0Reco, V0.reachesConfigurationLoop true r = true →
      |r.negEta| ≤ 8/10 ∧ (|r.lRapK0Short| ≤ 1/2 ∨ |r.lRapLambda| ≤ 1/2)) ∧
    (∀ (r : V0.V0Reco) (eta : ℚ),
      V0.reachesConfigurationLoop true { r with posEta := eta } =
        V0.reachesConfigurationLoop true r) ∧
    |V0.forwardReco.posEta| > 8/10 ∧
    V0.reachesConfigurationLoop true V0.forwardReco = true ∧
    V0.recoLoopBody sampleExt true [V0.wideEtaResult] V0.forwardReco =
      [{ V0.wideEtaResult with GetHistogram := { fills := [(35, 2, 498/1000)] } }] := by
  have hreach : V0.reachesConfigurationLoop true V0.forwardReco = true := by
    norm_num [V0.reachesConfigurationLoop, V0.reachesTrackQuality, V0.trackQualityGate,
      V0.lSmallestTrackLength, V0.entryOf, V0.forwardReco, V0.goodReco, V0.goodEntry,
      abs_le]
  refine ⟨?_, ?_, ?_, hreach, ?_⟩
  · intro r hr
    simp only [V0.reachesConfigurationLoop, Bool.and_eq_true] at hr
    have h1 := hr.1
    simp only [V0.reachesTrackQuality, ite_false_eq_true_iff, true_and, or_self] at h1
    obtain ⟨-, -, -, -, -, a6, a7, -⟩ := h1
    refine ⟨not_lt.mp a6, ?_⟩
    by_contra hcon
    push_neg at hcon
    exact a7 hcon
  · intro r eta
    rfl
  · norm_num [V0.forwardReco, V0.goodReco, abs_of_pos]
  · have hq : (V0.entryOf true V0.forwardReco).reachesTrackQuality = true := by
      simp only [V0.reachesConfigurationLoop, Bool.and_eq_true] at hreach
      exact hreach.1
    have hg : V0.trackQualityGate (V0.entryOf true V0.forwardReco) = false := by
      simp only [V0.reachesConfigurationLoop, Bool.and_eq_true, Bool.not_eq_true'] at hreach
      exact hreach.2
    have hl : V0.loopBody sampleExt (V0.candidateOf (V0.entryOf true V0.forwardReco))
        V0.wideEtaResult =
        { V0.wideEtaResult with GetHistogram := { fills := [(35, 2, 498/1000)] } } := by
      unfold V0.loopBody
      rw [V0.forwardReco_passes, if_pos rfl]
      simp [TH3F.Fill, V0.setLocals, V0.initLocals, V0.wideEtaResult, V0.sampleResult,
        V0.candidateOf, V0.entryOf, V0.forwardReco, V0.goodReco, V0.goodEntry,
        V0.sampleCandidate]
    unfold V0.recoLoopBody V0.v0LoopBody
    rw [hq, hg, V0.v0_configurationLoop_eq_map]
    simp only [Bool.not_true, Bool.false_eq_true, if_false, List.map_cons, List.map_nil, hl]
/-- Every quotient by a cluster count or a momentum that a turn of the loop over the V0s
evaluates is finite: the findable-cluster counts are positive after the test of source line
1391, the cluster counts are tested in the statement that divides, and `1e-10` is added to
the momentum, which is a square root. -/
theorem v0_quotients_finite (fkExtraCleanup : Bool) (r : V0.V0Reco)
    (hmom : 0 ≤ r.lV0TotalMomentum) :
    ∀ q ∈ V0.quotients fkExtraCleanup r, ∃ x : ℚ, q = FVal.fin x := by
  intro q hq
  unfold V0.quotients at hq
  by_cases hr : V0.reachesTrackQuality fkExtraCleanup r = true
  · have hF : ¬ (r.posTPCNclsF ≤ 0 ∨ r.negTPCNclsF ≤ 0) := by
      have h1 := hr
      simp only [V0.reachesTrackQuality, ite_false_eq_true_iff] at h1
      exact h1.2.2.2.2.2.2.2.2.2.2.2.1
    push_neg at hF
    have hp : ((r.posTPCNclsF : Int) : ℚ) ≠ 0 := by
      have : (0 : ℚ) < (r.posTPCNclsF : ℚ) := by exact_mod_cast hF.1
      exact ne_of_gt this
    have hn : ((r.negTPCNclsF : Int) : ℚ) ≠ 0 := by
      have : (0 : ℚ) < (r.negTPCNclsF : ℚ) := by exact_mod_cast hF.2
      exact ne_of_gt this
    have hm : r.lV0TotalMomentum + 1 / 10000000000 ≠ 0 := by
      have : (0 : ℚ) < r.lV0TotalMomentum + 1 / 10000000000 := by positivity
      exact ne_of_gt this
    simp only [hr, Bool.not_true, Bool.false_eq_true, if_false, List.mem_append, List.mem_cons,
      List.mem_singleton, List.not_mem_nil, or_false] at hq
    rcases hq with ((h | h) | h) | h
    · rcases h with h | h
      · exact ⟨_, by rw [h, V0.lPosTrackCrossedRowsOverFindable, FVal.fdiv, if_neg hp]⟩
      · exact ⟨_, by rw [h, V0.lNegTrackCrossedRowsOverFindable, FVal.fdiv, if_neg hn]⟩
    · by_cases hc : r.posTPCNcls > 0
      · rw [if_pos hc, List.mem_singleton] at h
        have hc' : ((r.posTPCNcls : Int) : ℚ) ≠ 0 := by
          have : (0 : ℚ) < (r.posTPCNcls : ℚ) := by exact_mod_cast hc
          exact ne_of_gt this
        exact ⟨_, by rw [h, V0.lPosChi2PerCluster, if_pos hc, FVal.fdiv, if_neg hc']⟩
      · rw [if_neg hc] at h
        exact absurd h (List.not_mem_nil _)
    · by_cases hc : r.negTPCNcls > 0
      · rw [if_pos hc, List.mem_singleton] at h
        have hc' : ((r.negTPCNcls : Int) : ℚ) ≠ 0 := by
          have : (0 : ℚ) < (r.negTPCNcls : ℚ) := by exact_mod_cast hc
          exact ne_of_gt this
        exact ⟨_, by rw [h, V0.lNegChi2PerCluster, if_pos hc, FVal.fdiv, if_neg hc']⟩
      · rw [if_neg hc] at h
        exact absurd h (List.not_mem_nil _)
    · split_ifs at h
      · exact absurd h (List.not_mem_nil _)
      · rw [List.mem_singleton] at h
        exact ⟨_, by rw [h, V0.distOverTotMom, FVal.fdiv, if_neg hm]⟩
  · have hr' : V0.reachesTrackQuality fkExtraCleanup r = false := by simpa using hr
    simp only [hr', Bool.not_false, if_true] at hq
    exact absurd hq (List.not_mem_nil _)

/-- The V0 lifetime and the distance over momentum of a cascade are finite: the momentum
is compared with `1e-5` before it divides, and `1e-13` is added to the total momentum,
which is a square root. -/
theorem cascade_momentum_quotients_finite (lV0DistanceTrav lV0TotMomentum distance
    lXiTotMom : ℚ) (hmom : 0 ≤ lXiTotMom) :
    (∃ x : ℚ, Cascade.v0Lifetime lV0DistanceTrav lV0TotMomentum = FVal.fin x) ∧
    (∃ x : ℚ, Cascade.distOverTotMom distance lXiTotMom = FVal.fin x) := by
  constructor
  · unfold Cascade.v0Lifetime
    split_ifs with h
    · have hne : lV0TotMomentum ≠ 0 := by
        intro h0
        rw [h0, abs_zero] at h
        norm_num at h
      exact ⟨_, by rw [FVal.fdiv, if_neg hne]⟩
    · exact ⟨_, rfl⟩
  · have hm : lXiTotMom + 1 / 10000000000000 ≠ 0 := by
      have : (0 : ℚ) < lXiTotMom + 1 / 10000000000000 := by positivity
      exact ne_of_gt this
    exact ⟨_, by rw [Cascade.distOverTotMom, FVal.fdiv, if_neg hm]⟩

/-- C21 against the code: in the loop over the cascades the three quotients of the TPC chi2
by the number of TPC clusters (source lines 2029-2031) are evaluated with no test of the
divisor before them, so a cascade that reaches them with a daughter without TPC clusters
divides by zero; for `zeroClusterReco` the first quotient is `+inf`, and the candidate is
not removed by the cluster test that follows. -/
theorem C21_cascade_chi2_unguarded :
    (∀ r : Cascade.CascadeReco, r.entry.reachesTrackQuality = true →
      r.entry.lPosTPCClusters = 0 →
      Cascade.lPosChi2PerCluster r ∈ Cascade.chi2Quotients r ∧
      ∀ x : ℚ, Cascade.lPosChi2PerCluster r ≠ FVal.fin x) ∧
    Cascade.zeroClusterReco.entry.reachesTrackQuality = true ∧
    Cascade.zeroClusterReco.entry.lPosTPCClusters = 0 ∧
    Cascade.chi2Quotients Cascade.zeroClusterReco =
      [FVal.posInf, FVal.fin 2, FVal.fin 2] ∧
    Cascade.trackQualityGate Cascade.zeroClusterReco.entry = false := by
  refine ⟨?_, rfl, rfl, ?_, ?_⟩
  · intro r hr h0
    constructor
    · simp [Cascade.chi2Quotients, hr]
    · intro x
      unfold Cascade.lPosChi2PerCluster FVal.fdiv
      rw [h0]
      simp only [Int.cast_zero, if_true]
      split_ifs <;> simp
  · simp [Cascade.chi2Quotients, Cascade.lPosChi2PerCluster, Cascade.lNegChi2PerCluster,
      Cascade.lBachChi2PerCluster, Cascade.zeroClusterReco, Cascade.negativeReco,
      Cascade.goodEntry, FVal.fdiv]
    norm_num
  · norm_num [Cascade.trackQualityGate, Cascade.lSmallestTrackLength, Cascade.zeroClusterReco,
      Cascade.negativeReco, Cascade.goodEntry]
namespace Cascade

/-- The members after the turn of `negativeReco` that follows a negative cascade. -/
theorem buildMembers_after_negative :
    buildMembers (buildMembers initialMembers removedNegativeReco) negativeReco =
      { fTreeCascVarCharge := -1, fTreeCascVarMassAsXi := 1322/1000,
        fTreeCascVarMassAsOmega := 1700/1000, fTreeCascVarCascDCAtoPVxy := 1/10,
        fTreeCascVarCascDCAtoPVz := 0 } := by
  simp [buildMembers, initialMembers, removedNegativeReco, negativeReco]

/-- The members after the turn of `negativeReco` that follows a positive cascade. -/
theorem buildMembers_after_positive :
    buildMembers (buildMembers initialMembers positiveReco) negativeReco =
      { fTreeCascVarCharge := -1, fTreeCascVarMassAsXi := 1322/1000,
        fTreeCascVarMassAsOmega := 1700/1000, fTreeCascVarCascDCAtoPVxy := 5,
        fTreeCascVarCascDCAtoPVz := 0 } := by
  simp [buildMembers, initialMembers, positiveReco, negativeReco]

/-- The candidate of `negativeReco` with the distance `1/10` passes `dcaCutResult`. -/
theorem negativeReco_passes :
    passes sampleExt (candidateWith
      { fTreeCascVarCharge := -1, fTreeCascVarMassAsXi := 1322/1000,
        fTreeCascVarMassAsOmega := 1700/1000, fTreeCascVarCascDCAtoPVxy := 1/10,
        fTreeCascVarCascDCAtoPVz := 0 } negativeReco) dcaCutResult = true := by
  simp [passes, check1, check2, check3V0, check3Casc, check3V0MassSigma, check3Misc,
    check4, check4bis, check5, check6, check7, check8, check8Min, check8Max, check9, check10,
    check11, check12, check13, check14a, check14b, check14c, setLocals, initLocals, chargeOf,
    lV0CosPACut, lCascCosPACut, lBBCosPACut, lDCACascDauCut, candidateWith, candidateOf,
    leastnumberofclusters, lSmallestTrackLength, negativeReco, goodEntry, dcaCutResult,
    sampleCandidate, sampleResult, sampleExt]
  norm_num [abs_lt]

/-- The candidate of `negativeReco` with the distance `5` does not pass `dcaCutResult`. -/
theorem negativeReco_fails :
    passes sampleExt (candidateWith
      { fTreeCascVarCharge := -1, fTreeCascVarMassAsXi := 1322/1000,
        fTreeCascVarMassAsOmega := 1700/1000, fTreeCascVarCascDCAtoPVxy := 5,
        fTreeCascVarCascDCAtoPVz := 0 } negativeReco) dcaCutResult = false := by
  have h13 : check13 sampleExt (candidateWith
      { fTreeCascVarCharge := -1, fTreeCascVarMassAsXi := 1322/1000,
        fTreeCascVarMassAsOmega := 1700/1000, fTreeCascVarCascDCAtoPVxy := 5,
        fTreeCascVarCascDCAtoPVz := 0 } negativeReco) dcaCutResult = false := by
    simp [check13, candidateWith, dcaCutResult, sampleResult, sampleExt]
    norm_num
  unfold passes
  rw [h13]
  simp

end Cascade
/-- C23 against the code: the trajectory of the cascade is built with the value that the
member `fTreeCascVarCharge` holds before the turn, not with the charge of the candidate,
and a candidate of charge zero keeps the two masses of the turn before.  The candidate
`negativeReco` gets the distance `1/10` and fills the accumulator of `dcaCutResult` when it
follows a negative cascade, and gets the distance `5` and fills nothing when it follows a
positive one; neither predecessor comes to the configuration loop. -/
theorem C23_stale_cascade_charge :
    (∀ (m : Cascade.CascadeMembers) (r : Cascade.CascadeReco),
      (Cascade.buildMembers m r).fTreeCascVarCascDCAtoPVxy =
        r.cascadeGetD m.fTreeCascVarCharge ∧
      (Cascade.buildMembers m r).fTreeCascVarCascDCAtoPVz =
        r.cascadeGetDZ m.fTreeCascVarCharge ∧
      (Cascade.buildMembers m r).fTreeCascVarCharge = r.xiCharge ∧
      (r.xiCharge = 0 →
        (Cascade.buildMembers m r).fTreeCascVarMassAsXi = m.fTreeCascVarMassAsXi ∧
        (Cascade.buildMembers m r).fTreeCascVarMassAsOmega = m.fTreeCascVarMassAsOmega)) ∧
    Cascade.recoLoop sampleExt (Cascade.initialMembers, [Cascade.dcaCutResult])
        [Cascade.removedNegativeReco] =
      (Cascade.buildMembers Cascade.initialMembers Cascade.removedNegativeReco,
        [Cascade.dcaCutResult]) ∧
    Cascade.recoLoop sampleExt (Cascade.initialMembers, [Cascade.dcaCutResult])
        [Cascade.positiveReco] =
      (Cascade.buildMembers Cascade.initialMembers Cascade.positiveReco,
        [Cascade.dcaCutResult]) ∧
    Cascade.recoLoop sampleExt (Cascade.initialMembers, [Cascade.dcaCutResult])
        [Cascade.removedNegativeReco, Cascade.negativeReco] =
      ({ fTreeCascVarCharge := -1, fTreeCascVarMassAsXi := 1322/1000,
         fTreeCascVarMassAsOmega := 1700/1000, fTreeCascVarCascDCAtoPVxy := 1/10,
         fTreeCascVarCascDCAtoPVz := 0 },
        [{ Cascade.dcaCutResult with GetHistogram := { fills := [(20, 3, 1322/1000)] } }]) ∧
    Cascade.recoLoop sampleExt (Cascade.initialMembers, [Cascade.dcaCutResult])
        [Cascade.positiveReco, Cascade.negativeReco] =
      ({ fTreeCascVarCharge := -1, fTreeCascVarMassAsXi := 1322/1000,
         fTreeCascVarMassAsOmega := 1700/1000, fTreeCascVarCascDCAtoPVxy := 5,
         fTreeCascVarCascDCAtoPVz := 0 },
        [Cascade.dcaCutResult]) := by
  have hgate : Cascade.trackQualityGate Cascade.goodEntry = false := by
    norm_num [Cascade.trackQualityGate, Cascade.lSmallestTrackLength, Cascade.goodEntry]
  have hgate' : Cascade.trackQualityGate
      { Cascade.goodEntry with passesExtraCleanup := false } = false := hgate
  have h1 : Cascade.recoLoopBody sampleExt (Cascade.initialMembers, [Cascade.dcaCutResult])
      Cascade.removedNegativeReco =
      (Cascade.buildMembers Cascade.initialMembers Cascade.removedNegativeReco,
        [Cascade.dcaCutResult]) := by
    unfold Cascade.recoLoopBody
    simp only [Cascade.removedNegativeReco, hgate']
    rfl
  have h2 : Cascade.recoLoopBody sampleExt (Cascade.initialMembers, [Cascade.dcaCutResult])
      Cascade.positiveReco =
      (Cascade.buildMembers Cascade.initialMembers Cascade.positiveReco,
        [Cascade.dcaCutResult]) := by
    unfold Cascade.recoLoopBody
    simp only [Cascade.positiveReco, hgate']
    rfl
  have hg3 : Cascade.trackQualityGate Cascade.negativeReco.entry = false := hgate
  have h3 : Cascade.recoLoopBody sampleExt
      (Cascade.buildMembers Cascade.initialMembers Cascade.removedNegativeReco,
        [Cascade.dcaCutResult]) Cascade.negativeReco =
      ({ fTreeCascVarCharge := -1, fTreeCascVarMassAsXi := 1322/1000,
         fTreeCascVarMassAsOmega := 1700/1000, fTreeCascVarCascDCAtoPVxy := 1/10,
         fTreeCascVarCascDCAtoPVz := 0 },
        [{ Cascade.dcaCutResult with GetHistogram := { fills := [(20, 3, 1322/1000)] } }]) := by
    unfold Cascade.recoLoopBody
    rw [hg3]
    simp only [Cascade.buildMembers_after_negative, Cascade.cascade_configurationLoop_eq_map,
      List.map_cons, List.map_nil]
    have hl : Cascade.loopBody sampleExt (Cascade.candidateWith
        { fTreeCascVarCharge := -1, fTreeCascVarMassAsXi := 1322/1000,
          fTreeCascVarMassAsOmega := 1700/1000, fTreeCascVarCascDCAtoPVxy := 1/10,
          fTreeCascVarCascDCAtoPVz := 0 } Cascade.negativeReco) Cascade.dcaCutResult =
        { Cascade.dcaCutResult with GetHistogram := { fills := [(20, 3, 1322/1000)] } } := by
      unfold Cascade.loopBody
      rw [Cascade.negativeReco_passes, if_pos rfl]
      simp [TH3F.Fill, Cascade.setLocals, Cascade.initLocals, Cascade.chargeOf,
        Cascade.dcaCutResult, Cascade.sampleResult, Cascade.candidateWith, Cascade.candidateOf,
        Cascade.negativeReco, Cascade.goodEntry, Cascade.sampleCandidate]
    rw [hl]
    rfl
  have h4 : Cascade.recoLoopBody sampleExt
      (Cascade.buildMembers Cascade.initialMembers Cascade.positiveReco,
        [Cascade.dcaCutResult]) Cascade.negativeReco =
      ({ fTreeCascVarCharge := -1, fTreeCascVarMassAsXi := 1322/1000,
         fTreeCascVarMassAsOmega := 1700/1000, fTreeCascVarCascDCAtoPVxy := 5,
         fTreeCascVarCascDCAtoPVz := 0 },
        [Cascade.dcaCutResult]) := by
    unfold Cascade.recoLoopBody
    rw [hg3]
    simp only [Cascade.buildMembers_after_positive, Cascade.cascade_configurationLoop_eq_map,
      List.map_cons, List.map_nil]
    have hl : Cascade.loopBody sampleExt (Cascade.candidateWith
        { fTreeCascVarCharge := -1, fTreeCascVarMassAsXi := 1322/1000,
          fTreeCascVarMassAsOmega := 1700/1000, fTreeCascVarCascDCAtoPVxy := 5,
          fTreeCascVarCascDCAtoPVz := 0 } Cascade.negativeReco) Cascade.dcaCutResult =
        Cascade.dcaCutResult := by
      unfold Cascade.loopBody
      rw [Cascade.negativeReco_fails]
      rfl
    rw [hl]
    rfl
  refine ⟨?_, ?_, ?_, ?_, ?_⟩
  · intro m r
    refine ⟨?_, ?_, ?_, ?_⟩
    · unfold Cascade.buildMembers
      by_cases a : r.xiCharge < 0 <;> by_cases b : r.xiCharge > 0 <;> simp [a, b]
    · unfold Cascade.buildMembers
      by_cases a : r.xiCharge < 0 <;> by_cases b : r.xiCharge > 0 <;> simp [a, b]
    · unfold Cascade.buildMembers
      by_cases a : r.xiCharge < 0 <;> by_cases b : r.xiCharge > 0 <;> simp [a, b]
    · intro h0
      unfold Cascade.buildMembers
      simp [h0]
  · simp only [Cascade.recoLoop, List.foldl_cons, List.foldl_nil, h1]
  · simp only [Cascade.recoLoop, List.foldl_cons, List.foldl_nil, h2]
  · simp only [Cascade.recoLoop, List.foldl_cons, List.foldl_nil, h1, h3]
  · simp only [Cascade.recoLoop, List.foldl_cons, List.foldl_nil, h2, h4]

namespace StandardV0

/-- Every configuration of a tightening step is for the selection of the step. -/
theorem tighteningStep_iCut (i iCut : Nat) : ∀ e ∈ tighteningStep i iCut, e.iCut = iCut := by
  intro e he
  unfold tighteningStep at he
  split_ifs at he
  · exact absurd he (List.not_mem_nil _)
  · obtain ⟨k, -, rfl⟩ := List.mem_map.mp he
    rfl

/-- Every configuration of a loosening step is for the selection of the step. -/
theorem looseningStep_iCut (i iCut : Nat) : ∀ e ∈ looseningStep i iCut, e.iCut = iCut := by
  intro e he
  unfold looseningStep at he
  split_ifs at he
  · exact absurd he (List.not_mem_nil _)
  · obtain ⟨k, -, rfl⟩ := List.mem_map.mp he
    rfl

/-- The test of the sweeps skips every selection other than the V0 cosine of pointing angle
whose loose value is negative. -/
theorem skipsSweep_of_neg (tight loose : ℚ) (iCut : Nat) (h3 : iCut ≠ 3) (hneg : loose < 0) :
    skipsSweep tight loose iCut = true := by
  have hne : loose ≠ 0 := ne_of_lt hneg
  have hq : |tight - loose| / loose < 1 / 100 := by
    have h1 : |tight - loose| / loose ≤ 0 :=
      div_nonpos_of_nonneg_of_nonpos (abs_nonneg _) (le_of_lt hneg)
    linarith
  have hq' : |tight - loose| / loose < 100⁻¹ := by
    rw [inv_eq_one_div]
    exact hq
  simp [skipsSweep, FVal.fdiv, hne, FVal.lt, hq', h3]

/-- For a positive loose value the test of the sweeps skips a selection other than the V0
cosine of pointing angle exactly when the values differ by less than one percent of the
loose value. -/
theorem skipsSweep_of_pos (tight loose : ℚ) (iCut : Nat) (h3 : iCut ≠ 3) (hpos : 0 < loose) :
    skipsSweep tight loose iCut = false ↔ |tight - loose| ≥ 1 / 100 * |loose| := by
  have hne : loose ≠ 0 := ne_of_gt hpos
  simp only [skipsSweep, FVal.fdiv, hne, if_false, FVal.lt, h3, ne_eq, not_false_eq_true,
    decide_True, Bool.and_true, decide_eq_false_iff_not, not_lt, abs_of_pos hpos, ge_iff_le]
  rw [le_div_iff₀ hpos]

end StandardV0
/-- C29 against the code: the test of the two sweeps divides by the loose value itself, not
by its absolute value, so a selection other than the V0 cosine of pointing angle with a
negative loose value is always skipped, whereas for a positive loose value its twelve
configurations are made exactly when `|tight - loose| ≥ 0.01 * |loose|`.  The least number
of crossed rows (selection 11) has the tight value `70` and the loose value `-1` for every
species: the values differ, and neither sweep makes a configuration for it. -/
theorem C29_negative_loose_skipped :
    (∀ (tight loose : ℚ) (iCut : Nat), iCut ≠ 3 → loose < 0 →
      StandardV0.skipsSweep tight loose iCut = true) ∧
    (∀ (tight loose : ℚ) (iCut : Nat), iCut ≠ 3 → 0 < loose →
      (StandardV0.skipsSweep tight loose iCut = false ↔
        |tight - loose| ≥ 1 / 100 * |loose|)) ∧
    (∀ i iCut : Nat, (StandardV0.tighteningStep i iCut).length =
      if StandardV0.skipsSweep (StandardV0.lCutsTight i iCut) (StandardV0.lCutsLoose i iCut)
        iCut then 0 else 12) ∧
    (∀ i iCut : Nat, (StandardV0.looseningStep i iCut).length =
      if StandardV0.skipsSweep (StandardV0.lCutsTight i iCut) (StandardV0.lCutsLoose i iCut)
        iCut then 0 else 12) ∧
    (∀ i : Nat, StandardV0.lCutsTight i 11 = 70 ∧ StandardV0.lCutsLoose i 11 = -1) ∧
    |(70 : ℚ) - (-1)| ≥ 1 / 100 * |(-1 : ℚ)| ∧
    StandardV0.skipsSweep 70 (-1) 11 = true ∧
    (∀ e ∈ StandardV0.tighteningSweep, e.iCut ≠ 11) ∧
    (∀ e ∈ StandardV0.looseningSweep, e.iCut ≠ 11) := by
  have hval : ∀ i : Nat, StandardV0.lCutsTight i 11 = 70 ∧ StandardV0.lCutsLoose i 11 = -1 := by
    intro i
    constructor
    · simp [StandardV0.lCutsTight]
    · simp [StandardV0.lCutsLoose]
  have hskip : ∀ i : Nat, StandardV0.skipsSweep (StandardV0.lCutsTight i 11)
      (StandardV0.lCutsLoose i 11) 11 = true := by
    intro i
    rw [(hval i).2]
    exact StandardV0.skipsSweep_of_neg _ _ 11 (by decide) (by norm_num)
  refine ⟨StandardV0.skipsSweep_of_neg, StandardV0.skipsSweep_of_pos, ?_, ?_, hval, ?_,
    StandardV0.skipsSweep_of_neg _ _ 11 (by decide) (by norm_num), ?_, ?_⟩
  · intro i iCut
    unfold StandardV0.tighteningStep
    split_ifs <;> simp
  · intro i iCut
    unfold StandardV0.looseningStep
    split_ifs <;> simp
  · norm_num [abs_of_pos, abs_of_neg]
  · intro e he h11
    unfold StandardV0.tighteningSweep at he
    obtain ⟨i, -, he⟩ := List.mem_flatMap.mp he
    obtain ⟨iCut, -, he⟩ := List.mem_flatMap.mp he
    have hc := StandardV0.tighteningStep_iCut i iCut e he
    rw [h11] at hc
    subst hc
    unfold StandardV0.tighteningStep at he
    rw [hskip i, if_pos rfl] at he
    exact absurd he (List.not_mem_nil _)
  · intro e he h11
    unfold StandardV0.looseningSweep at he
    obtain ⟨i, -, he⟩ := List.mem_flatMap.mp he
    obtain ⟨iCut, -, he⟩ := List.mem_flatMap.mp he
    have hc := StandardV0.looseningStep_iCut i iCut e he
    rw [h11] at hc
    subst hc
    unfold StandardV0.looseningStep at he
    rw [hskip i, if_pos rfl] at he
    exact absurd he (List.not_mem_nil _)
namespace TopologicalQA

/-- A sweep creates `4 * steps` configurations. -/
theorem sweepNames_length (label : String) (steps : Nat) :
    (sweepNames label steps).length = 4 * steps := by
  have h4 : List.range 4 = [0, 1, 2, 3] := rfl
  simp only [sweepNames, h4, List.flatMap_cons, List.flatMap_nil, List.length_append,
    List.length_map, List.length_range, List.length_nil]
  omega

/-- The number of configurations created. -/
theorem created_length (n : Nat) : (created n).length = 192 + 44 * n := by
  simp only [created, sweepLabels, centralNames, List.flatMap_cons, List.flatMap_nil,
    List.length_append, List.length_map, List.length_range, List.length_nil,
    sweepNames_length]
  omega

/-- After an out-of-bounds write the staging stays undefined. -/
theorem foldl_stage_none (names : List String) : names.foldl stage none = none := by
  induction names with
  | nil => rfl
  | cons x xs ih => simpa [stage] using ih

/-- The writes to the array succeed exactly when the names fit in the free slots. -/
theorem foldl_stage (names : List String) :
    ∀ written : List String, written.length ≤ 5000 →
      names.foldl stage (some written) =
        if written.length + names.length ≤ 5000 then some (written ++ names) else none := by
  induction names with
  | nil =>
    intro written h
    simp [h]
  | cons x xs ih =>
    intro written h
    rw [List.foldl_cons]
    by_cases hlt : written.length < 5000
    · have hs : stage (some written) x = some (written ++ [x]) := by
        simp [stage, hlt]
      rw [hs, ih (written ++ [x]) (by simp; omega)]
      simp only [List.length_append, List.length_cons, List.length_nil, List.append_assoc,
        List.singleton_append]
      have e : written.length + (0 + 1) + xs.length = written.length + (xs.length + 1) := by
        omega
      rw [e]
    · have hs : stage (some written) x = none := by
        simp [stage, hlt]
      rw [hs, foldl_stage_none, if_neg]
      simp only [List.length_cons]
      omega

/-- The loop over `AddConfiguration` appends the staged names to the list. -/
theorem foldl_AddConfiguration (names : List String) :
    ∀ fListCascade : Option (List String), names ≠ [] →
      names.foldl AddConfiguration fListCascade = some (fListCascade.getD [] ++ names) := by
  induction names with
  | nil =>
    intro l h
    exact absurd rfl h
  | cons x xs ih =>
    intro l _
    rw [List.foldl_cons]
    by_cases hxs : xs = []
    · subst hxs
      rfl
    · rw [ih _ hxs]
      simp [AddConfiguration]

end TopologicalQA

/-- C30: for every `N ≥ 1`, `AddTopologicalQACascade (N)` creates `192 + 44 * N`
configurations, the four central ones first, then the eleven sweeps of `N` steps, the
sweep of `15` steps of the cascade lifetime and the sweep of `32` steps of the V0 lifetime,
each for the four species; every write to the array of `5000` slots is in bounds exactly
when `N ≤ 109`, and the method then appends the configurations to the list in creation
order. -/
theorem C30_topological_qa_count (fListCascade : Option (List String)) (N : Nat)
    (hN : 1 ≤ N) :
    (TopologicalQA.created N).length = 192 + 44 * N ∧
    TopologicalQA.created N =
      TopologicalQA.centralNames ++
        TopologicalQA.sweepLabels.flatMap (fun label => TopologicalQA.sweepNames label N) ++
        TopologicalQA.sweepNames "CascLifetimeSweep" 15 ++
        TopologicalQA.sweepNames "MaxV0LifetimeSweep" 32 ∧
    TopologicalQA.centralNames.length = 4 ∧ TopologicalQA.sweepLabels.length = 11 ∧
    (∀ label steps, (TopologicalQA.sweepNames label steps).length = 4 * steps) ∧
    ((TopologicalQA.created N).foldl TopologicalQA.stage (some []) ≠ none ↔ N ≤ 109) ∧
    (TopologicalQA.AddTopologicalQACascade fListCascade N ≠ none ↔ N ≤ 109) ∧
    (N ≤ 109 → TopologicalQA.AddTopologicalQACascade fListCascade N =
      some (some (fListCascade.getD [] ++ TopologicalQA.created N))) := by
  have hlen := TopologicalQA.created_length N
  have hfold := TopologicalQA.foldl_stage (TopologicalQA.created N) [] (by simp)
  simp only [List.length_nil, zero_add, List.nil_append, hlen] at hfold
  have hiff : 192 + 44 * N ≤ 5000 ↔ N ≤ 109 := by omega
  have hne : TopologicalQA.created N ≠ [] := by
    intro h
    rw [h] at hlen
    simp only [List.length_nil] at hlen
    omega
  refine ⟨hlen, rfl, rfl, rfl, TopologicalQA.sweepNames_length, ?_, ?_, ?_⟩
  · rw [hfold, ← hiff]
    by_cases h : 192 + 44 * N ≤ 5000 <;> simp [h]
  · unfold TopologicalQA.AddTopologicalQACascade
    rw [hfold, ← hiff]
    by_cases h : 192 + 44 * N ≤ 5000 <;> simp [h]
  · intro h109
    unfold TopologicalQA.AddTopologicalQACascade
    rw [hfold, if_pos (hiff.mpr h109)]
    simp only [TopologicalQA.foldl_AddConfiguration _ _ hne]

/-- C30 at `N = 20`: `1072` configurations are created and registered on an absent list;
at `N = 110` a write is out of bounds. -/
theorem C30_topological_qa_count_witness :
    (TopologicalQA.created 20).length = 1072 ∧
    TopologicalQA.AddTopologicalQACascade none 20 = some (some (TopologicalQA.created 20)) ∧
    TopologicalQA.AddTopologicalQACascade none 110 = none := by
  obtain ⟨h1, -, -, -, -, -, h7, h8⟩ := C30_topological_qa_count none 20 (by decide)
  obtain ⟨-, -, -, -, -, -, g7, -⟩ := C30_topological_qa_count none 110 (by decide)
  refine ⟨h1, ?_, ?_⟩
  · rw [h8 (by decide)]
    rfl
  · by_contra hcon
    exact absurd (g7.mp hcon) (by decide)

end AliPhysics
